import Mathlib

/-!
# krypton-scheduler: schedule grammar, request handling, dispatch and response routing

A shallow embedding of the Go sources under `service/` together with the
properties established about them.  Go strings are lists of characters, Go
`int`/`int64`/`time.Duration` values are integers (range checks are explicit
where the code or a library performs them), pointers that are mutated in place
become explicit state passing, and operations on the database, the queues and
the broker act on an explicit `World`.
-/

namespace Krypton

/-! ## Library behaviour left abstract -/

/-- Result of parsing a cron expression (`cron.Schedule`); its content is never
inspected by the scheduler. -/
structure CronSchedule where
  id : Nat
  deriving DecidableEq, Repr

/-- The parts of imported libraries that are not modelled concretely.
* `lowerTable` is `unicode.ToLower` on code points above ASCII;
* `fracNanos f unit k` is `uint64(float64(f) * (float64(unit) / scale))` in
  `time.ParseDuration`, where `scale` is `10^k`;
* `cronParse withSeconds spec` is what `cron.Parser.Parse` of `robfig/cron` v3
  returns for `spec` (`none` for an error) on the specs for which it returns;
  the specs on which it panics are modelled in `cron.Parser.Parse`. -/
structure Lib where
  lowerTable : Char → Char
  fracNanos : Nat → Nat → Nat → Nat
  cronParse : Bool → List Char → Option CronSchedule

/-- A concrete library instance used to evaluate the model on examples.
`lowerTable` is exact on the two code points above ASCII whose lower case is an
ASCII letter (U+212A and U+0130) and leaves every other code point as it is,
which cannot change a comparison with an ASCII keyword; `fracNanos` is exact
when the fraction is zero; `cronParse` accepts every spec.  The examples use
ASCII text and durations without a fraction only. -/
def Lib.plain : Lib where
  lowerTable := fun c =>
    if c = Char.ofNat 0x212A then 'k' else if c = Char.ofNat 0x0130 then 'i' else c
  fracNanos := fun f u k => f * u / 10 ^ k
  cronParse := fun _ _ => some ⟨0⟩

/-! ## package strings / unicode -/

/-- Model of `strings.Split(s, sep)` for a separator of one character: the
pieces between consecutive occurrences of `sep`; always at least one piece. -/
def strings.Split : List Char → Char → List (List Char)
  | [], _ => [[]]
  | c :: cs, sep =>
    if c = sep then [] :: strings.Split cs sep
    else
      match strings.Split cs sep with
      | [] => [[c]]
      | w :: ws => (c :: w) :: ws

/-- Model of `unicode.ToLower`: ASCII capitals are shifted by `'a' - 'A'`, other
ASCII runes are unchanged, the rest goes through the case table. -/
def unicode.ToLower (lib : Lib) (c : Char) : Char :=
  if c.toNat ≤ 127 then
    if 65 ≤ c.toNat ∧ c.toNat ≤ 90 then Char.ofNat (c.toNat + 32) else c
  else lib.lowerTable c

/-- Model of `strings.ToLower`: rune-wise `unicode.ToLower`. -/
def strings.ToLower (lib : Lib) (s : List Char) : List Char :=
  s.map (unicode.ToLower lib)

/-- Model of `strings.HasPrefix`. -/
def strings.HasPrefix (s pre : List Char) : Bool :=
  pre.isPrefixOf s

/-! ## package strconv -/

/-- ASCII decimal digit test (`'0' <= c && c <= '9'`). -/
def isDigit (c : Char) : Bool :=
  decide (48 ≤ c.toNat ∧ c.toNat ≤ 57)

/-- Numeric value of a digit character (`c - '0'`). -/
def digitVal (c : Char) : Nat :=
  c.toNat - 48

/-- Value of a digit string read in base ten, most significant digit first. -/
def decimalValue (acc : Nat) : List Char → Nat
  | [] => acc
  | c :: cs => decimalValue (acc * 10 + digitVal c) cs

/-- Model of `strconv.Atoi` on a 64-bit platform: an optional sign followed by
one or more ASCII digits whose value fits `int`; `none` stands for the syntax
or range error. -/
def strconv.Atoi (s : List Char) : Option Int :=
  let neg : Bool := s.head? = some '-'
  let body : List Char := if s.head? = some '-' ∨ s.head? = some '+' then s.tail else s
  if body = [] then none
  else if body.all isDigit then
    let n := decimalValue 0 body
    if neg then
      if n ≤ 2 ^ 63 then some (-(n : Int)) else none
    else
      if n < 2 ^ 63 then some (n : Int) else none
  else none

/-! ## package time -/

/-- A `time.Duration`: nanoseconds as a signed 64-bit count. -/
abbrev Duration := Int

def time.Nanosecond : Duration := 1
def time.Second : Duration := 1000000000
def time.Minute : Duration := 60 * time.Second
def time.Hour : Duration := 60 * time.Minute

/-- A `time.Time`: seconds since the Unix epoch, nanoseconds within the second
and the offset east of UTC (seconds) of the location the value carries. -/
structure Time where
  sec : Int
  nsec : Nat
  offset : Int
  deriving DecidableEq, Repr

/-- The zero `time.Time` of an unset field. -/
def Time.zero : Time := ⟨-62135596800, 0, 0⟩

/-- Seconds elapsed since local midnight. -/
def Time.secondOfDay (t : Time) : Int := (t.sec + t.offset) % 86400

def Time.Hour (t : Time) : Int := t.secondOfDay / 3600
def Time.Minute (t : Time) : Int := t.secondOfDay % 3600 / 60
def Time.Second (t : Time) : Int := t.secondOfDay % 60
def Time.Nanosecond (t : Time) : Int := t.nsec

/-- A `time.Weekday` (`Sunday = 0` … `Saturday = 6`). -/
abbrev Weekday := Nat

def time.Sunday : Weekday := 0
def time.Monday : Weekday := 1
def time.Tuesday : Weekday := 2
def time.Wednesday : Weekday := 3
def time.Thursday : Weekday := 4
def time.Friday : Weekday := 5
def time.Saturday : Weekday := 6

/-- Model of `getnum` in package time: one or two leading digits (`fixed`
demands two); returns the number and the rest. -/
def time.getnum (s : List Char) (fixed : Bool) : Option (Nat × List Char) :=
  match s with
  | [] => none
  | a :: rest =>
    if !isDigit a then none
    else
      match rest with
      | [] => if fixed then none else some (digitVal a, rest)
      | b :: rest2 =>
        if !isDigit b then
          if fixed then none else some (digitVal a, rest)
        else some (digitVal a * 10 + digitVal b, rest2)

/-- Skips the literal `:` that the layout has between two fields. -/
def time.skipColon : List Char → Option (List Char)
  | c :: rest => if c = ':' then some rest else none
  | [] => none

/-- After the seconds field `time.Parse` accepts a fractional second that the
layout does not mention: a period or comma followed by digits is consumed. -/
def time.skipFraction (value : List Char) : List Char :=
  match value with
  | c :: d :: rest =>
    if (c = '.' ∨ c = ',') ∧ isDigit d = true then rest.dropWhile isDigit else value
  | _ => value

/-- Model of `time.Parse` for the two layouts used by `parseTime`: `"15:04:05"`
(`withSeconds = true`) and `"15:04"`.  Returns hour, minute and second of the
parsed time; `none` stands for any error (syntax, range, extra text). -/
def time.Parse (withSeconds : Bool) (value : List Char) : Option (Nat × Nat × Nat) := do
  let (hour, v1) ← time.getnum value false
  let v2 ← time.skipColon v1
  let (min, v3) ← time.getnum v2 true
  if withSeconds then
    let v4 ← time.skipColon v3
    let (sec, v5) ← time.getnum v4 true
    let v6 := time.skipFraction v5
    if v6 ≠ [] then none
    else if 24 ≤ hour ∨ 60 ≤ min ∨ 60 ≤ sec then none
    else some (hour, min, sec)
  else
    if v3 ≠ [] then none
    else if 24 ≤ hour ∨ 60 ≤ min then none
    else some (hour, min, 0)

/-- Model of `leadingInt`: consumes `[0-9]*`; `none` is the overflow error. -/
def time.leadingInt : Nat → List Char → Option (Nat × List Char)
  | x, [] => some (x, [])
  | x, c :: cs =>
    if !isDigit c then some (x, c :: cs)
    else if x > 2 ^ 63 / 10 then none
    else
      let x1 := x * 10 + digitVal c
      if x1 > 2 ^ 63 then none else time.leadingInt x1 cs

/-- Model of `leadingFraction`: consumes `[0-9]*`, accumulating the digits that
fit and counting them in `k` (`scale = 10^k`); later digits are dropped. -/
def time.leadingFraction : Nat → Nat → Bool → List Char → Nat × Nat × List Char
  | x, k, _, [] => (x, k, [])
  | x, k, overflow, c :: cs =>
    if !isDigit c then (x, k, c :: cs)
    else if overflow then time.leadingFraction x k true cs
    else if x > (2 ^ 63 - 1) / 10 then time.leadingFraction x k true cs
    else
      let y := x * 10 + digitVal c
      if y > 2 ^ 63 then time.leadingFraction x k true cs
      else time.leadingFraction y (k + 1) false cs

/-- The table `unitMap` of package time. -/
def time.unitMap (u : List Char) : Option Nat :=
  if u = ['n', 's'] then some 1
  else if u = ['u', 's'] then some 1000
  else if u = [Char.ofNat 0xB5, 's'] then some 1000
  else if u = [Char.ofNat 0x3BC, 's'] then some 1000
  else if u = ['m', 's'] then some 1000000
  else if u = ['s'] then some 1000000000
  else if u = ['m'] then some 60000000000
  else if u = ['h'] then some 3600000000000
  else none

/-- The character does not belong to a unit name (`c == '.' || '0' <= c <= '9'`). -/
def time.endsUnit (c : Char) : Bool :=
  c = '.' || isDigit c

/-- The step `d += v; if d > 1<<63 { error }` of `time.ParseDuration` on the
unsigned 64-bit accumulator. -/
def time.accumulate (d v : Nat) : Option Nat :=
  let d1 := (d + v) % 2 ^ 64
  if d1 > 2 ^ 63 then none else some d1

/-- The loop `for s != ""` of `time.ParseDuration`; `d` is the unsigned 64-bit
accumulator.  Every round consumes a character, so `fuel = len(s)` suffices. -/
def time.parseDurationLoop (lib : Lib) : Nat → Nat → List Char → Option Nat
  | _, d, [] => some d
  | 0, _, _ :: _ => none
  | fuel + 1, d, c :: cs =>
    if !(c = '.' || isDigit c) then none
    else
      match time.leadingInt 0 (c :: cs) with
      | none => none
      | some (v, s1) =>
        let pre : Bool := decide ((c :: cs).length ≠ s1.length)
        let (f, k, post, s2) : Nat × Nat × Bool × List Char :=
          match s1 with
          | '.' :: r =>
            let (f, k, s2) := time.leadingFraction 0 0 false r
            (f, k, decide (r.length ≠ s2.length), s2)
          | _ => (0, 0, false, s1)
        if !pre && !post then none
        else
          let u := s2.takeWhile (fun c => !time.endsUnit c)
          let s3 := s2.dropWhile (fun c => !time.endsUnit c)
          if u = [] then none
          else
            match time.unitMap u with
            | none => none
            | some unit =>
              if v > 2 ^ 63 / unit then none
              else if f > 0 then
                let v2 := v * unit + lib.fracNanos f unit k
                if v2 > 2 ^ 63 then none
                else
                  match time.accumulate d v2 with
                  | none => none
                  | some d1 => time.parseDurationLoop lib fuel d1 s3
              else
                match time.accumulate d (v * unit) with
                | none => none
                | some d1 => time.parseDurationLoop lib fuel d1 s3

/-- Model of `time.ParseDuration`; `none` stands for the returned error. -/
def time.ParseDuration (lib : Lib) (s : List Char) : Option Duration :=
  let neg : Bool := s.head? = some '-'
  let s1 : List Char := if s.head? = some '-' ∨ s.head? = some '+' then s.tail else s
  if s1 = ['0'] then some 0
  else if s1 = [] then none
  else
    match time.parseDurationLoop lib s1.length 0 s1 with
    | none => none
    | some d =>
      if neg then some (-(d : Int))
      else if d > 2 ^ 63 - 1 then none
      else some (d : Int)

/-! ## package sort -/

/-- The loop of `sort.Search(n, f)`: `i, j` delimit the open interval, `h` is
`int(uint(i+j) >> 1)`.  The predicate may update captured state `σ` (the Go
closure in `addRunAtTime` assigns to `exist`).  The interval shrinks in every
round, so `fuel = n` rounds are enough. -/
def sort.searchLoop {σ : Type} (f : Nat → σ → Bool × σ) : Nat → Nat → Nat → σ → Nat × σ
  | 0, i, _, st => (i, st)
  | fuel + 1, i, j, st =>
    if i < j then
      let h := (i + j) / 2
      let (b, st1) := f h st
      if !b then sort.searchLoop f fuel (h + 1) j st1
      else sort.searchLoop f fuel i h st1
    else (i, st)

/-- Model of `sort.Search`. -/
def sort.Search {σ : Type} (n : Nat) (f : Nat → σ → Bool × σ) (st : σ) : Nat × σ :=
  sort.searchLoop f n 0 n st

/-! ## Errors -/

/-- The error variables of package scheduler (`scheduler/errors.go`). -/
inductive SchedulerErr
  | NotScheduledWeekday
  | UnsupportedTimeFormat
  | InvalidScheduleType
  | InvalidSchedulingUnit
  | InvalidInterval
  | InvalidIntervalType
  | InvalidIntervalUnitsSelection
  | AtTimeNotSupported
  | WeekdayNotSupported
  | InvalidDayOfMonthEntry
  | CronParseFailure
  | InvalidDaysOfMonthDuplicateValue
  | InvalidTenantID
  | InvalidServiceID
  | InvalidMessageType
  | InvalidRequest
  deriving DecidableEq, Repr

/-- The error variables of package db (`db/errors.go`). -/
inductive DbErr
  | TokenFileNotFound
  | InvalidDatabaseType
  | DuplicateEntry
  | NotFound
  | NotAllowed
  | InvalidRequest
  | InternalError
  deriving DecidableEq, Repr

/-- A non-nil Go `error` value.  `lib` is an error created by a library
(strconv, time, cron, the database driver, the queue or broker client), `wrap`
is the value built by `fmt.Errorf("%s: %w", err, toWrap)`. -/
inductive GoError
  | scheduler (e : SchedulerErr)
  | db (e : DbErr)
  | lib (origin : List Char)
  | wrap (err toWrap : GoError)
  deriving DecidableEq, Repr

def scheduler.ErrUnsupportedTimeFormat : GoError := .scheduler .UnsupportedTimeFormat
def scheduler.ErrInvalidScheduleType : GoError := .scheduler .InvalidScheduleType
def scheduler.ErrInvalidSchedulingUnit : GoError := .scheduler .InvalidSchedulingUnit
def scheduler.ErrInvalidInterval : GoError := .scheduler .InvalidInterval
def scheduler.ErrInvalidIntervalType : GoError := .scheduler .InvalidIntervalType
def scheduler.ErrInvalidIntervalUnitsSelection : GoError := .scheduler .InvalidIntervalUnitsSelection
def scheduler.ErrWeekdayNotSupported : GoError := .scheduler .WeekdayNotSupported
def scheduler.ErrInvalidDayOfMonthEntry : GoError := .scheduler .InvalidDayOfMonthEntry
def scheduler.ErrCronParseFailure : GoError := .scheduler .CronParseFailure
def scheduler.ErrInvalidDaysOfMonthDuplicateValue : GoError :=
  .scheduler .InvalidDaysOfMonthDuplicateValue
def scheduler.ErrInvalidTenantID : GoError := .scheduler .InvalidTenantID
def scheduler.ErrInvalidServiceID : GoError := .scheduler .InvalidServiceID
def scheduler.ErrInvalidMessageType : GoError := .scheduler .InvalidMessageType
def scheduler.ErrInvalidRequest : GoError := .scheduler .InvalidRequest
def db.ErrNotFound : GoError := .db .NotFound
def db.ErrInvalidRequest : GoError := .db .InvalidRequest
def db.ErrInternalError : GoError := .db .InternalError

/-- Model of `errors.Is(err, target)` for a non-nil target: the error variables
compare by identity, a library error is a fresh value that equals no older
error, and a wrapped error is searched through its chain. -/
def errors.Is : GoError → GoError → Bool
  | .scheduler e, target => decide (target = .scheduler e)
  | .db e, target => decide (target = .db e)
  | .lib _, _ => false
  | .wrap _ inner, target => errors.Is inner target

/-- Wrap the existing error or set to the specified error
(`scheduler/errors.go`).  Every call site passes a non-nil `err`. -/
def scheduler.wrapOrError (toWrap : Option GoError) (err : GoError) : GoError :=
  match toWrap with
  | some w => if !errors.Is err w then .wrap err w else err
  | none => err

deriving instance DecidableEq for Except

/-! ## package common -/

/-- The Go type `SchedulingUnit` is an `int`; `0` is the unset zero value. -/
abbrev SchedulingUnit := Nat

def common.Once : SchedulingUnit := 1
def common.Milliseconds : SchedulingUnit := 2
def common.Seconds : SchedulingUnit := 3
def common.Minutes : SchedulingUnit := 4
def common.Hours : SchedulingUnit := 5
def common.Days : SchedulingUnit := 6
def common.Weeks : SchedulingUnit := 7
def common.Months : SchedulingUnit := 8
def common.Duration : SchedulingUnit := 9
def common.Crontab : SchedulingUnit := 10

def common.SchedulingFrequencyEvery : List Char := "every".toList
def common.SchedulingFrequencyAt : List Char := "at".toList
def common.SchedulingFrequencyCron : List Char := "cron".toList
def common.SchedulingFrequencyNow : List Char := "now".toList
def common.BroadcastDeviceID : List Char := "@all".toList
def common.BroadcastDeviceUuid : List Char := "0a110a11-bca5-bca5-0a11-87dcb71a7f4d".toList
def common.SchedulerRequestSourceEvent : List Char := "event".toList
def common.SchedulerRequestSourceRest : List Char := "rest".toList

/-! ## UUIDs -/

/-- A `gocql.UUID` (16 bytes), kept as its 32 hexadecimal digits. -/
structure UUID where
  nibbles : List Nat
  deriving DecidableEq, Repr

/-- The zero value `UUID{}`. -/
def UUID.zero : UUID := ⟨List.replicate 32 0⟩

/-- Value of a hexadecimal digit, if the character is one. -/
def hexVal (c : Char) : Option Nat :=
  if 48 ≤ c.toNat ∧ c.toNat ≤ 57 then some (c.toNat - 48)
  else if 97 ≤ c.toNat ∧ c.toNat ≤ 102 then some (c.toNat - 97 + 10)
  else if 65 ≤ c.toNat ∧ c.toNat ≤ 70 then some (c.toNat - 65 + 10)
  else none

/-- The loop of `gocql.ParseUUID`: a hyphen is skipped when an even number of
digits has been read, a hexadecimal digit is stored while fewer than 32 have
been read, anything else is an error. -/
def gocql.parseLoop : List Char → List Nat → Option (List Nat)
  | [], acc => some acc
  | r :: rest, acc =>
    if r = '-' ∧ acc.length % 2 = 0 then gocql.parseLoop rest acc
    else
      match hexVal r with
      | some v => if acc.length < 32 then gocql.parseLoop rest (acc ++ [v]) else none
      | none => none

/-- Model of `gocql.ParseUUID`; `none` stands for the error. -/
def gocql.ParseUUID (input : List Char) : Option UUID :=
  match gocql.parseLoop input [] with
  | some ns => if ns.length = 32 then some ⟨ns⟩ else none
  | none => none

/-- Lower-case hexadecimal digit of a value below 16. -/
def hexDigit (n : Nat) : Char :=
  if n < 10 then Char.ofNat (48 + n) else Char.ofNat (87 + n)

/-- Model of `UUID.String`: the form `xxxxxxxx-xxxx-xxxx-xxxx-xxxxxxxxxxxx`. -/
def UUID.String (u : UUID) : List Char :=
  let h := u.nibbles.map hexDigit
  h.take 8 ++ '-' :: (h.drop 8).take 4 ++ '-' :: (h.drop 12).take 4 ++
    '-' :: (h.drop 16).take 4 ++ '-' :: h.drop 20

/-- UTF-8 encoding of one rune. -/
def utf8EncodeRune (c : Char) : List Nat :=
  let n := c.toNat
  if n < 0x80 then [n]
  else if n < 0x800 then [0xC0 + n / 64, 0x80 + n % 64]
  else if n < 0x10000 then [0xE0 + n / 4096, 0x80 + n / 64 % 64, 0x80 + n % 64]
  else [0xF0 + n / 262144, 0x80 + n / 4096 % 64, 0x80 + n / 64 % 64, 0x80 + n % 64]

/-- The bytes of a Go string. -/
def utf8Bytes (s : List Char) : List Nat :=
  s.flatMap utf8EncodeRune

/-- The byte is the code of a hexadecimal digit. -/
def hexByte (b : Nat) : Bool :=
  (48 ≤ b ∧ b ≤ 57) ∨ (97 ≤ b ∧ b ≤ 102) ∨ (65 ≤ b ∧ b ≤ 70)

/-- The 36-byte form `xxxxxxxx-xxxx-xxxx-xxxx-xxxxxxxxxxxx` checked by
`uuid.Parse`: hyphens at 8, 13, 18, 23 and hexadecimal digits elsewhere. -/
def uuid.standardForm (b : List Nat) : Bool :=
  b.length ≥ 36 &&
  (List.range 36).all (fun i =>
    if i = 8 ∨ i = 13 ∨ i = 18 ∨ i = 23 then b.getD i 0 = 45 else hexByte (b.getD i 0))

/-- ASCII case folding of a byte, enough for `strings.EqualFold` against the
ASCII text `urn:uuid:`. -/
def foldByte (b : Nat) : Nat :=
  if 65 ≤ b ∧ b ≤ 90 then b + 32 else b

/-- Model of `uuid.Parse` of `github.com/google/uuid`, reduced to whether it
succeeds.  The length of the string in bytes selects the form: 36 (standard),
45 (`urn:uuid:` prefix), 38 (one byte around the standard form, only the
middle 36 bytes are examined) or 32 (bare hexadecimal digits). -/
def uuid.Parse (s : List Char) : Bool :=
  let b := utf8Bytes s
  if b.length = 36 then uuid.standardForm b
  else if b.length = 36 + 9 then
    (b.take 9).map foldByte = utf8Bytes "urn:uuid:".toList && uuid.standardForm (b.drop 9)
  else if b.length = 36 + 2 then uuid.standardForm (b.drop 1)
  else if b.length = 32 then b.all hexByte
  else false

/-! ## Data model (package db, protos) -/

/-- The protobuf message `CreateScheduledTaskRequest`.  `DeviceIds` and
`Payload` are slices that the code compares with `nil`, so `none` is the nil
slice and `some []` the empty non-nil slice. -/
structure CreateScheduledTaskRequest where
  Version : Nat
  ServiceId : List Char
  DeviceIds : Option (List (List Char))
  ConsignmentId : List Char
  TenantId : List Char
  Schedule : List Char
  MessageType : List Char
  MessageId : List Char
  Payload : Option (List Nat)
  deriving DecidableEq, Repr

/-- The struct `db.Task` (`db/task_model.go`). -/
structure Task where
  TaskID : UUID
  DeviceID : UUID
  TenantID : List Char
  ServiceID : List Char
  ConsignmentID : List Char
  Status : List Char
  RetryCount : Int
  CreateTime : Time
  StartTime : Time
  EndTime : Time
  Unit : SchedulingUnit
  Interval : Int
  Duration : Krypton.Duration
  RunAt : List Krypton.Duration
  ScheduledWeekdays : List Weekday
  ScheduledDaysOfTheMonth : List Int
  StartAt : Time
  StartImmediately : Bool
  MessageId : List Char
  MessageType : List Char
  TaskDetails : Option (List Nat)
  deriving DecidableEq, Repr

/-- The zero value `Task{}`. -/
def Task.zero : Task where
  TaskID := UUID.zero
  DeviceID := UUID.zero
  TenantID := []
  ServiceID := []
  ConsignmentID := []
  Status := []
  RetryCount := 0
  CreateTime := Time.zero
  StartTime := Time.zero
  EndTime := Time.zero
  Unit := 0
  Interval := 0
  Duration := 0
  RunAt := []
  ScheduledWeekdays := []
  ScheduledDaysOfTheMonth := []
  StartAt := Time.zero
  StartImmediately := false
  MessageId := []
  MessageType := []
  TaskDetails := none

/-- The struct `db.ScheduledRun` (`db/scheduled_run_model.go`). -/
structure ScheduledRun where
  RunPartition : List Char
  TaskID : UUID
  DeviceID : UUID
  NextRun : Time
  LastRun : Time
  deriving DecidableEq, Repr

/-- The struct `db.Consignment` (`db/consignment_model.go`). -/
structure Consignment where
  ConsignmentID : List Char
  TaskID : UUID
  DeviceID : UUID
  TenantID : List Char
  Status : List Char
  CreateTime : Time
  deriving DecidableEq, Repr

/-- Parse a UUID from the specified string and store it (`setUuidFromString`):
the broadcast device ID `@all` is replaced by the reserved UUID first.  On a
parse error the destination holds the zero UUID. -/
def db.setUuidFromString (uuidString : List Char) : UUID × Option GoError :=
  let uuidString := if uuidString = common.BroadcastDeviceID then common.BroadcastDeviceUuid
    else uuidString
  match gocql.ParseUUID uuidString with
  | some u => (u, none)
  | none => (UUID.zero, some (.lib "gocql.ParseUUID".toList))

/-- Model of `db.NewTask`. -/
def db.NewTask (tenantID deviceID consignmentID : List Char)
    (taskDetails : Option (List Nat)) : Task × Option GoError :=
  let r := db.setUuidFromString deviceID
  ({ Task.zero with
      TenantID := tenantID, ConsignmentID := consignmentID, RetryCount := 0,
      TaskDetails := taskDetails, DeviceID := r.1 }, r.2)

/-- Model of `db.NewScheduledRun`. -/
def db.NewScheduledRun (task : Task) : ScheduledRun where
  RunPartition := []
  TaskID := task.TaskID
  DeviceID := task.DeviceID
  NextRun := Time.zero
  LastRun := Time.zero

/-- Model of `db.NewConsignmentFromTask`. -/
def db.NewConsignmentFromTask (task : Task) : Consignment where
  ConsignmentID := task.ConsignmentID
  TaskID := task.TaskID
  DeviceID := task.DeviceID
  TenantID := task.TenantID
  Status := task.Status
  CreateTime := task.CreateTime

/-! ## package scheduler: building a scheduled task -/

/-- The struct `ScheduledTask` (`scheduler/api.go`).  `location` is the name of
the `*time.Location`; `ScheduleInfo` is `none` for the nil pointer left when
`db.NewTask` failed; `error` is `none` for nil. -/
structure ScheduledTask where
  location : List Char
  TaskInfo : Task
  ScheduleInfo : Option ScheduledRun
  error : Option GoError
  cronSchedule : Option CronSchedule
  deriving DecidableEq, Repr

/-- Model of `NewScheduledTask`. -/
def scheduler.NewScheduledTask (loc : List Char) (deviceID : List Char)
    (request : CreateScheduledTaskRequest) : ScheduledTask :=
  let r := db.NewTask request.TenantId deviceID request.ConsignmentId request.Payload
  match r.2 with
  | some err =>
    { location := loc, TaskInfo := r.1, ScheduleInfo := none,
      error := some (scheduler.wrapOrError none err), cronSchedule := none }
  | none =>
    let info : Task := { r.1 with
      ServiceID := request.ServiceId, MessageType := request.MessageType,
      MessageId := request.MessageId }
    { location := loc, TaskInfo := info, ScheduleInfo := some (db.NewScheduledRun info),
      error := none, cronSchedule := none }

/-- One line of the subject is exactly `\d{1,2}:\d\d:\d\d`. -/
def lineTimeWithSeconds (l : List Char) : Bool :=
  match l with
  | [a, c1, m1, m2, c2, s1, s2] =>
    isDigit a && c1 = ':' && isDigit m1 && isDigit m2 && c2 = ':' && isDigit s1 && isDigit s2
  | [a, b, c1, m1, m2, c2, s1, s2] =>
    isDigit a && isDigit b && c1 = ':' && isDigit m1 && isDigit m2 && c2 = ':' &&
      isDigit s1 && isDigit s2
  | _ => false

/-- One line of the subject is exactly `\d{1,2}:\d\d`. -/
def lineTimeWithoutSeconds (l : List Char) : Bool :=
  match l with
  | [a, c1, m1, m2] => isDigit a && c1 = ':' && isDigit m1 && isDigit m2
  | [a, b, c1, m1, m2] => isDigit a && isDigit b && c1 = ':' && isDigit m1 && isDigit m2
  | _ => false

/-- The pattern `(?m)^\d{1,2}:\d\d:\d\d$` matches somewhere in `t`: with the
multi-line flag `^` and `$` match at line boundaries and the pattern cannot
cross a newline, so some line of `t` has the shape. -/
def timeWithSeconds.Match (t : List Char) : Bool :=
  (strings.Split t '\n').any lineTimeWithSeconds

/-- The pattern `(?m)^\d{1,2}:\d\d$` matches somewhere in `t`. -/
def timeWithoutSeconds.Match (t : List Char) : Bool :=
  (strings.Split t '\n').any lineTimeWithoutSeconds

/-- Parse the provided timestring and determine the hour/min/second
(`scheduler/time_utils.go`). -/
def scheduler.parseTime (t : List Char) : Except GoError (Nat × Nat × Nat) :=
  if timeWithSeconds.Match t then
    match time.Parse true t with
    | some r => .ok r
    | none => .error scheduler.ErrUnsupportedTimeFormat
  else if timeWithoutSeconds.Match t then
    match time.Parse false t with
    | some r => .ok r
    | none => .error scheduler.ErrUnsupportedTimeFormat
  else .error scheduler.ErrUnsupportedTimeFormat

/-- Check if the specified weekday is one of the scheduled week days
(`in` in `scheduler/time_utils.go`). -/
def scheduler.in (scheduleWeekdays : List Weekday) (weekday : Weekday) : Bool :=
  scheduleWeekdays.any (fun weekdayInSchedule => weekdayInSchedule = weekday)

/-- The list operation of `addRunAtTime`: an empty list receives `t`; otherwise
`sort.Search` looks for the first element `>= t` while the closure records in
`exist` whether the element it last accepted equals `t`; a present value is
ignored, an absent one is inserted at the index found (append a zero, shift the
tail by `copy`, store `t`). -/
def scheduler.insertRunAt (runAt : List Duration) (t : Duration) : List Duration :=
  if runAt.length = 0 then runAt ++ [t]
  else
    let r := sort.Search runAt.length
      (fun i (exist : Bool) =>
        let atTime := runAt.getD i 0
        let b : Bool := decide (atTime ≥ t)
        (b, if b then decide (atTime = t) else exist))
      false
    if r.2 then runAt
    else runAt.take r.1 ++ t :: runAt.drop r.1

/-- Model of `(*ScheduledTask).addRunAtTime`. -/
def ScheduledTask.addRunAtTime (s : ScheduledTask) (t : Duration) : ScheduledTask :=
  { s with TaskInfo := { s.TaskInfo with RunAt := scheduler.insertRunAt s.TaskInfo.RunAt t } }

/-- Records `err` in the task (`s.error = wrapOrError(s.error, err)`). -/
def ScheduledTask.fail (s : ScheduledTask) (err : GoError) : ScheduledTask :=
  { s with error := some (scheduler.wrapOrError s.error err) }

/-- The loop of `At` over the pieces of the time string: the first piece that
does not parse records the error and ends the call. -/
def ScheduledTask.atLoop (s : ScheduledTask) : List (List Char) → ScheduledTask
  | [] => s
  | tt :: rest =>
    match scheduler.parseTime tt with
    | .error err => s.fail err
    | .ok (hour, min, sec) =>
      ScheduledTask.atLoop
        (s.addRunAtTime ((hour : Int) * time.Hour + (min : Int) * time.Minute +
          (sec : Int) * time.Second)) rest

/-- Model of `At` applied to a string. -/
def ScheduledTask.AtString (s : ScheduledTask) (t : List Char) : ScheduledTask :=
  s.atLoop (strings.Split t ';')

/-- Model of `At` applied to a `time.Time`. -/
def ScheduledTask.AtTime (s : ScheduledTask) (t : Time) : ScheduledTask :=
  s.addRunAtTime (t.Hour * time.Hour + t.Minute * time.Minute + t.Second * time.Second +
    t.Nanosecond * time.Nanosecond)

/-- Sets the type of scheduling unit for the task (`setSchedulingUnit`). -/
def ScheduledTask.setSchedulingUnit (s : ScheduledTask) (unit : SchedulingUnit) :
    ScheduledTask :=
  let currentUnit := s.TaskInfo.Unit
  if currentUnit = common.Duration ∨ currentUnit = common.Crontab then
    s.fail scheduler.ErrInvalidIntervalUnitsSelection
  else { s with TaskInfo := { s.TaskInfo with Unit := unit } }

/-- Model of `Now`; `now` is the reading of `time.Now()`. -/
def ScheduledTask.Now (s : ScheduledTask) (now : Time) : ScheduledTask :=
  (s.setSchedulingUnit common.Once).AtTime now

/-- Model of `Every` applied to an `int`. -/
def ScheduledTask.EveryInt (s : ScheduledTask) (interval : Int) : ScheduledTask :=
  let s : ScheduledTask := { s with TaskInfo := { s.TaskInfo with Interval := interval } }
  if interval ≤ 0 then s.fail scheduler.ErrInvalidInterval else s

/-- Model of `Every` applied to a string: a failed `time.ParseDuration` records
its error and leaves the zero duration in `d`. -/
def ScheduledTask.EveryString (lib : Lib) (s : ScheduledTask) (interval : List Char) :
    ScheduledTask :=
  let r := time.ParseDuration lib interval
  let s : ScheduledTask :=
    match r with
    | none => s.fail (.lib "time.ParseDuration".toList)
    | some _ => s
  let s : ScheduledTask := { s with TaskInfo := { s.TaskInfo with Duration := r.getD 0 } }
  s.setSchedulingUnit common.Duration

/-- What a Go call without an error result produces: the value it returns, or
a run-time panic. -/
inductive Outcome (α : Type) where
  | value (a : α)
  | panic (what : List Char)
  deriving DecidableEq, Repr

/-- The call returns, and the value it returns satisfies `P`. -/
def Outcome.Returns {α : Type} (o : Outcome α) (P : α → Prop) : Prop :=
  match o with
  | .value a => P a
  | .panic _ => False

instance {α : Type} (o : Outcome α) (P : α → Prop) [∀ a, Decidable (P a)] :
    Decidable (o.Returns P) :=
  match o with
  | .value a => inferInstanceAs (Decidable (P a))
  | .panic _ => inferInstanceAs (Decidable False)

/-- Model of `cron.Parser.Parse` (`robfig/cron` v3, `parser.go`).  For a spec
that starts with `TZ=` or `CRON_TZ=` the parser takes `i := strings.Index(spec,
" ")` and evaluates `spec[eq+1 : i]`; without a blank `i` is `-1` and the
slice expression panics.  Everywhere else the parser returns, and what it
returns is left to `lib.cronParse` (`none` is an error). -/
def cron.Parser.Parse (lib : Lib) (withSeconds : Bool) (spec : List Char) :
    Outcome (Option CronSchedule) :=
  if (strings.HasPrefix spec "TZ=".toList ∨ strings.HasPrefix spec "CRON_TZ=".toList) ∧
      ' ' ∉ spec then
    .panic "slice bounds out of range [:-1]".toList
  else .value (lib.cronParse withSeconds spec)

/-- Model of `Cron`: the expression is handed to the parser as it is when it
starts with `TZ=` or `CRON_TZ=`, otherwise behind `CRON_TZ=<location> `.  A
panic of the parser leaves the call before anything is assigned. -/
def ScheduledTask.Cron (lib : Lib) (s : ScheduledTask) (cronExpression : List Char)
    (withSeconds : Bool) : Outcome ScheduledTask :=
  let withLocation : List Char :=
    if strings.HasPrefix cronExpression "TZ=".toList ∨
        strings.HasPrefix cronExpression "CRON_TZ=".toList then cronExpression
    else "CRON_TZ=".toList ++ s.location ++ ' ' :: cronExpression
  match cron.Parser.Parse lib withSeconds withLocation with
  | .panic what => .panic what
  | .value parsed =>
    let s : ScheduledTask :=
      match parsed with
      | none =>
        { s with error := some (scheduler.wrapOrError (some (.lib "cron.Parse".toList))
            scheduler.ErrCronParseFailure) }
      | some _ => s
    .value { s with
      cronSchedule := parsed
      TaskInfo := { s.TaskInfo with Unit := common.Crontab, StartImmediately := false } }

/-- Milliseconds sets the scheduling unit to milliseconds. -/
def ScheduledTask.Milliseconds (s : ScheduledTask) : ScheduledTask :=
  s.setSchedulingUnit common.Milliseconds

def ScheduledTask.Millisecond (s : ScheduledTask) : ScheduledTask := s.Milliseconds

/-- Seconds sets the scheduling unit to seconds. -/
def ScheduledTask.Seconds (s : ScheduledTask) : ScheduledTask :=
  s.setSchedulingUnit common.Seconds

def ScheduledTask.Second (s : ScheduledTask) : ScheduledTask := s.Seconds

/-- Minutes sets the scheduling unit to minutes. -/
def ScheduledTask.Minutes (s : ScheduledTask) : ScheduledTask :=
  s.setSchedulingUnit common.Minutes

def ScheduledTask.Minute (s : ScheduledTask) : ScheduledTask := s.Minutes

/-- Hours sets the scheduling unit to hours. -/
def ScheduledTask.Hours (s : ScheduledTask) : ScheduledTask :=
  s.setSchedulingUnit common.Hours

def ScheduledTask.Hour (s : ScheduledTask) : ScheduledTask := s.Hours

/-- Day sets the scheduling unit to days. -/
def ScheduledTask.Day (s : ScheduledTask) : ScheduledTask :=
  s.setSchedulingUnit common.Days

/-- Days sets the scheduling unit to days. -/
def ScheduledTask.Days (s : ScheduledTask) : ScheduledTask :=
  s.setSchedulingUnit common.Days

/-- Week sets the scheduling unit to weeks. -/
def ScheduledTask.Week (s : ScheduledTask) : ScheduledTask :=
  s.setSchedulingUnit common.Weeks

/-- Weeks sets the scheduling unit to weeks. -/
def ScheduledTask.Weeks (s : ScheduledTask) : ScheduledTask :=
  s.setSchedulingUnit common.Weeks

/-- Parse the days of the month from the specified comma separated string
(`ParseDaysOfMonth`): the first piece that `strconv.Atoi` rejects records the
error and yields the nil slice. -/
def ScheduledTask.ParseDaysOfMonth (s : ScheduledTask) (days : List Char) :
    ScheduledTask × List Int :=
  let strs := strings.Split days ','
  if strs.all (fun x => (strconv.Atoi x).isSome) then
    (s, strs.map (fun x => (strconv.Atoi x).getD 0))
  else (s.fail (.lib "strconv.Atoi".toList), [])

/-- The loop of `Months` over two or more days; `seen` holds the keys of
`repeatMap`.  A day outside 1..28 or a repeated day records an error and leaves
the loop; a day already stored in the task records an error and goes on. -/
def ScheduledTask.monthsLoop (s : ScheduledTask) (seen : List Int) :
    List Int → ScheduledTask
  | [] => s
  | dayOfMonth :: rest =>
    if dayOfMonth < 1 ∨ dayOfMonth > 28 then s.fail scheduler.ErrInvalidDayOfMonthEntry
    else
      let s1 : ScheduledTask :=
        if dayOfMonth ∈ s.TaskInfo.ScheduledDaysOfTheMonth then
          s.fail scheduler.ErrInvalidDaysOfMonthDuplicateValue
        else s
      if dayOfMonth ∈ seen then s1.fail scheduler.ErrInvalidDaysOfMonthDuplicateValue
      else ScheduledTask.monthsLoop s1 (dayOfMonth :: seen) rest

/-- Months sets the scheduling unit to months (`Months`). -/
def ScheduledTask.Months (s : ScheduledTask) (daysOfTheMonth : List Int) : ScheduledTask :=
  let s1 : ScheduledTask :=
    match daysOfTheMonth with
    | [] => s.fail scheduler.ErrInvalidDayOfMonthEntry
    | [dayOfMonth] =>
      if dayOfMonth ≠ -1 ∧ (dayOfMonth < 1 ∨ dayOfMonth > 28) then
        s.fail scheduler.ErrInvalidDayOfMonthEntry
      else s
    | _ => s.monthsLoop [] daysOfTheMonth
  let s2 : ScheduledTask := { s1 with TaskInfo := { s1.TaskInfo with
    ScheduledDaysOfTheMonth := s1.TaskInfo.ScheduledDaysOfTheMonth ++ daysOfTheMonth
    StartImmediately := false } }
  s2.setSchedulingUnit common.Months

/-- Month sets the scheduling unit to months. -/
def ScheduledTask.Month (s : ScheduledTask) (daysOfMonth : List Int) : ScheduledTask :=
  s.Months daysOfMonth

/-- Adds a specified weekday to the list of scheduled weekdays (`Weekday`). -/
def ScheduledTask.Weekday (s : ScheduledTask) (weekDay : Weekday) : ScheduledTask :=
  let isScheduledDay := scheduler.in s.TaskInfo.ScheduledWeekdays weekDay
  let s1 : ScheduledTask :=
    if !isScheduledDay then
      { s with TaskInfo := { s.TaskInfo with
          ScheduledWeekdays := s.TaskInfo.ScheduledWeekdays ++ [weekDay] } }
    else s
  let s2 : ScheduledTask := { s1 with TaskInfo := { s1.TaskInfo with StartImmediately := false } }
  s2.setSchedulingUnit common.Weeks

def ScheduledTask.Midday (s : ScheduledTask) : ScheduledTask := s.AtString "12:00".toList
def ScheduledTask.Monday (s : ScheduledTask) : ScheduledTask := s.Weekday time.Monday
def ScheduledTask.Tuesday (s : ScheduledTask) : ScheduledTask := s.Weekday time.Tuesday
def ScheduledTask.Wednesday (s : ScheduledTask) : ScheduledTask := s.Weekday time.Wednesday
def ScheduledTask.Thursday (s : ScheduledTask) : ScheduledTask := s.Weekday time.Thursday
def ScheduledTask.Friday (s : ScheduledTask) : ScheduledTask := s.Weekday time.Friday
def ScheduledTask.Saturday (s : ScheduledTask) : ScheduledTask := s.Weekday time.Saturday
def ScheduledTask.Sunday (s : ScheduledTask) : ScheduledTask := s.Weekday time.Sunday

/-- The entries of the map `schedulingUnitLookupTable`. -/
def scheduler.schedulingUnitEntries : List (List Char × (ScheduledTask → ScheduledTask)) :=
  [("millisecond".toList, ScheduledTask.Millisecond),
   ("milliseconds".toList, ScheduledTask.Milliseconds),
   ("second".toList, ScheduledTask.Second),
   ("seconds".toList, ScheduledTask.Seconds),
   ("minute".toList, ScheduledTask.Minute),
   ("minutes".toList, ScheduledTask.Minutes),
   ("hour".toList, ScheduledTask.Hour),
   ("hours".toList, ScheduledTask.Hours),
   ("day".toList, ScheduledTask.Day),
   ("days".toList, ScheduledTask.Days),
   ("week".toList, ScheduledTask.Week),
   ("weeks".toList, ScheduledTask.Weeks),
   ("monday".toList, ScheduledTask.Monday),
   ("tuesday".toList, ScheduledTask.Tuesday),
   ("wednesday".toList, ScheduledTask.Wednesday),
   ("thursday".toList, ScheduledTask.Thursday),
   ("friday".toList, ScheduledTask.Friday),
   ("saturday".toList, ScheduledTask.Saturday),
   ("sunday".toList, ScheduledTask.Sunday),
   ("midday".toList, ScheduledTask.Midday)]

/-- The lookup table used to find the scheduling function for the requested
scheduling unit string (`schedulingUnitLookupTable[unit]`). -/
def scheduler.schedulingUnitLookupTable (unit : List Char) :
    Option (ScheduledTask → ScheduledTask) :=
  (scheduler.schedulingUnitEntries.find? (fun e => e.1 = unit)).map (fun e => e.2)

/-- The part of `ParseSchedule` that handles the scheduling unit after
`every <interval>`; `parsedSchedule` has more than two elements. -/
def ScheduledTask.parseUnit (lib : Lib) (s : ScheduledTask)
    (parsedSchedule : List (List Char)) : ScheduledTask :=
  let unit := strings.ToLower lib (parsedSchedule.getD 2 [])
  if unit = "monthdays".toList then
    if parsedSchedule.length < 4 then s.fail scheduler.ErrInvalidScheduleType
    else
      let r := s.ParseDaysOfMonth (parsedSchedule.getD 3 [])
      r.1.Month r.2
  else
    match scheduler.schedulingUnitLookupTable unit with
    | none => s.fail scheduler.ErrInvalidSchedulingUnit
    | some schedulingUnitFn => schedulingUnitFn s

/-- Model of `(*ScheduledTask).ParseSchedule` (`scheduler/scheduling_units.go`).
`now1` and `now2` are the readings of `time.Now()` taken for `StartAt` and
inside `Now()`.  The call returns the task on every path but the one through
`Cron`, which panics when the cron parser does. -/
def ScheduledTask.ParseSchedule (lib : Lib) (now1 now2 : Time) (s : ScheduledTask)
    (scheduleStr : List Char) : Outcome ScheduledTask :=
  if scheduleStr = [] ∨ strings.ToLower lib scheduleStr = common.SchedulingFrequencyNow then
    let s1 : ScheduledTask := { s with TaskInfo := { s.TaskInfo with
      Unit := common.Once, StartAt := now1, StartImmediately := true } }
    .value (s1.Now now2)
  else
    let parsedSchedule := strings.Split scheduleStr ' '
    if parsedSchedule.length < 2 then .value (s.fail scheduler.ErrInvalidScheduleType)
    else
      let kind := strings.ToLower lib (parsedSchedule.getD 0 [])
      if kind = common.SchedulingFrequencyEvery then
        let s1 : ScheduledTask :=
          match strconv.Atoi (parsedSchedule.getD 1 []) with
          | some duration => s.EveryInt duration
          | none => s.EveryString lib (parsedSchedule.getD 1 [])
        .value (if parsedSchedule.length > 2 then s1.parseUnit lib parsedSchedule else s1)
      else if kind = common.SchedulingFrequencyAt then
        .value (s.AtString (parsedSchedule.getD 1 []))
      else if kind = common.SchedulingFrequencyCron then
        s.Cron lib (parsedSchedule.getD 1 []) true
      else .value (s.fail scheduler.ErrInvalidScheduleType)

/-! ## Calendar dates (`time.Time.Format` with the layout `2006-Jan-02`) -/

/-- Civil date (year, month 1..12, day 1..31) of a day number counted from
1970-01-01 in the proleptic Gregorian calendar. -/
def civilFromDays (z : Int) : Int × Int × Int :=
  let z := z + 719468
  let era := z / 146097
  let doe := z - era * 146097
  let yoe := (doe - doe / 1460 + doe / 36524 - doe / 146096) / 365
  let doy := doe - (365 * yoe + yoe / 4 - yoe / 100)
  let mp := (5 * doy + 2) / 153
  let d := doy - (153 * mp + 2) / 5 + 1
  let m := if mp < 10 then mp + 3 else mp - 9
  let y := yoe + era * 400 + (if m ≤ 2 then 1 else 0)
  (y, m, d)

/-- The three-letter month names of the layout element `Jan`. -/
def monthAbbrev (m : Int) : List Char :=
  (["Jan", "Feb", "Mar", "Apr", "May", "Jun", "Jul", "Aug", "Sep", "Oct", "Nov",
    "Dec"].map String.toList).getD (m - 1).toNat []

/-- Decimal digits of a natural number, most significant first. -/
def natDigits (n : Nat) : List Char :=
  (Nat.toDigits 10 n)

/-- A number written with at least `width` digits, padded with zeros. -/
def zeroPad (width : Nat) (n : Nat) : List Char :=
  List.replicate (width - (natDigits n).length) '0' ++ natDigits n

/-- Model of `t.Format("2006-Jan-02")`: the calendar date of the instant in the
location the value carries. -/
def Time.formatDate (t : Time) : List Char :=
  let ymd := civilFromDays ((t.sec + t.offset) / 86400)
  (if ymd.1 < 0 then '-' :: zeroPad 4 (-ymd.1).toNat else zeroPad 4 ymd.1.toNat) ++
    '-' :: monthAbbrev ymd.2.1 ++ '-' :: zeroPad 2 ymd.2.2.toNat

/-! ## The store, the queues and the broker -/

/-- The struct `db.RegisteredService`; `Topics` maps an MQTT topic to a queue
topic. -/
structure RegisteredService where
  ServiceID : List Char
  Name : List Char
  OwnerAwsAccount : List Char
  Topics : List (List Char × List Char)
  deriving DecidableEq, Repr

/-- The protobuf message `ServiceMessage` sent to devices.  `Payload` is the
content of the bytes field (a nil and an empty slice encode alike). -/
structure ServiceMessage where
  Version : Nat
  ServiceId : List Char
  DeviceId : List Char
  TaskId : List Char
  TenantId : List Char
  MessageId : List Char
  MessageType : List Char
  Payload : List Nat
  deriving DecidableEq, Repr

/-- The protobuf message `DeviceMessage` received from devices. -/
structure DeviceMessage where
  AccessToken : List Char
  TaskId : List Char
  TaskStatus : List Char
  MessageId : List Char
  MessageType : List Char
  Payload : Option (List Nat)
  deriving DecidableEq, Repr

/-- The protobuf message `DeviceEvent` forwarded to a service queue. -/
structure DeviceEvent where
  Version : Nat
  ServiceId : List Char
  DeviceId : List Char
  TaskId : List Char
  ConsignmentId : List Char
  TenantId : List Char
  TaskStatus : List Char
  MessageId : List Char
  MessageType : List Char
  Payload : List Nat
  deriving DecidableEq, Repr

/-- The body of a message on the dispatch queue: the base64 text of the
protobuf encoding of a `ServiceMessage`, or a text that does not decode.
Encoding followed by decoding returns the message. -/
inductive Packet
  | message (m : ServiceMessage)
  | malformed (raw : List Char)
  deriving DecidableEq, Repr

/-- A message sent to the queue of a registered service. -/
structure ServiceQueueMessage where
  ServiceID : List Char
  QueueTopic : List Char
  Event : DeviceEvent
  deriving DecidableEq, Repr

/-- The protobuf message `TaskInfo` of a response. -/
structure TaskInfo where
  TaskId : List Char
  DeviceId : List Char
  Status : List Char
  deriving DecidableEq, Repr

/-- The protobuf message `CreateScheduledTaskResponse`. -/
structure CreateScheduledTaskResponse where
  Version : Nat
  TaskCount : Nat
  ErrorCount : Nat
  ConsignmentId : List Char
  TenantId : List Char
  TasksScheduled : List TaskInfo
  deriving DecidableEq, Repr

/-- Everything outside the process that the scheduler reads or writes: the two
in-memory service tables, the database tables, the dispatch queue (oldest
message first), the messages sent to service queues and the messages
published on the broker (topic and the decoded payload). -/
structure World where
  serviceConfigTable : List RegisteredService
  serviceDispatchTable : List (List Char × List Char)
  tasks : List Task
  consignments : List Consignment
  scheduledRuns : List ScheduledRun
  dispatchQueue : List Packet
  serviceQueue : List ServiceQueueMessage
  published : List (List Char × ServiceMessage)
  deriving DecidableEq, Repr

/-- What a Go call produces: a value, an error, or a run-time panic. -/
inductive Result (α : Type) where
  | ok (a : α)
  | err (e : GoError)
  | panic (what : List Char)
  deriving DecidableEq, Repr

/-- What the surroundings supply during one chain
`NewScheduledTask(..).ParseSchedule(..).Schedule()`: the clock readings, the
identifier `gocql.TimeUUID()` returns and the outcome of every database and
queue call (`none` is success). -/
structure Attempt where
  parseNow : Time
  atNow : Time
  taskID : UUID
  createTime : Time
  nextRun : Time
  insertTask : Option GoError
  insertConsignment : Option GoError
  insertRun : Option GoError
  sendDispatch : Option GoError
  deriving DecidableEq, Repr

/-- Outcomes of the external calls of one step of the dispatch worker. -/
structure WorkerEvents where
  receive : Option GoError
  publish : Option GoError
  update : Option GoError
  delete : Option GoError
  deriving DecidableEq, Repr

/-- A verified JSON web token as `jwt.ParseWithClaims` returns it. -/
structure DstsTokenClaims where
  Issuer : List Char
  Subject : List Char
  TokenType : List Char
  TenantID : List Char
  ManagementService : List Char
  deriving DecidableEq, Repr

/-- The token returned by `jwt.ParseWithClaims`. -/
structure JwtToken where
  Valid : Bool
  hasAlg : Bool
  claims : DstsTokenClaims
  deriving DecidableEq, Repr

/-- Outcomes of the external calls of one run of a response handler;
`parseToken` is `jwt.ParseWithClaims` with the key lookup of the client. -/
structure ResponseEvents where
  parseToken : List Char → Except GoError JwtToken
  getTask : Option GoError
  updateTask : Option GoError
  updateConsignment : Option GoError
  queueUrl : Option GoError
  send : Option GoError

/-- Rows of a table after an `INSERT`: the row replaces the row with the same
primary key, if any. -/
def db.upsert {α : Type} (sameKey : α → α → Bool) (rows : List α) (row : α) : List α :=
  rows.filter (fun r => !sameKey r row) ++ [row]

/-- Primary key of table `tasks`: `(device_id, task_id)`. -/
def Task.sameKey (a b : Task) : Bool :=
  a.DeviceID = b.DeviceID && a.TaskID = b.TaskID

/-- Primary key of table `consignments`: `((tenant_id, consignment_id), task_id)`. -/
def Consignment.sameKey (a b : Consignment) : Bool :=
  a.TenantID = b.TenantID && a.ConsignmentID = b.ConsignmentID && a.TaskID = b.TaskID

/-- Primary key of table `scheduled_runs`: `(run_partition, next_run)`; the
timestamp column keeps the instant in milliseconds. -/
def ScheduledRun.sameKey (a b : ScheduledRun) : Bool :=
  a.RunPartition = b.RunPartition && a.NextRun.sec = b.NextRun.sec &&
    a.NextRun.nsec / 1000000 = b.NextRun.nsec / 1000000

def db.taskStatusQueued : List Char := "queued".toList
def db.taskStatusDispatched : List Char := "dispatched".toList
def db.taskStatusCompleted : List Char := "completed".toList
def db.taskStatusFailed : List Char := "failed".toList
def db.taskStatusPendingRetry : List Char := "pending retry".toList
def db.taskStatusUnknown : List Char := "unknown".toList

/-- The Go type `TaskStatus` is an `int16`. -/
abbrev TaskStatus := Int

def db.TaskStatusQueued : TaskStatus := 1
def db.TaskStatusDispatched : TaskStatus := 2
def db.TaskStatusCompleted : TaskStatus := 3
def db.TaskStatusFailed : TaskStatus := 4
def db.TaskStatusPendingRetry : TaskStatus := 5
def db.TaskStatusUnknown : TaskStatus := 6

/-- Model of `TaskStatus.String`. -/
def TaskStatus.String (s : TaskStatus) : List Char :=
  if s = 1 then db.taskStatusQueued
  else if s = 2 then db.taskStatusDispatched
  else if s = 3 then db.taskStatusCompleted
  else if s = 4 then db.taskStatusFailed
  else if s = 5 then db.taskStatusPendingRetry
  else db.taskStatusUnknown

/-- Model of `db.IsValidServiceId`. -/
def db.IsValidServiceId (w : World) (serviceID : List Char) : Bool :=
  w.serviceConfigTable.any (fun s => s.ServiceID = serviceID)

/-- Model of `db.GetServiceConfig`. -/
def db.GetServiceConfig (w : World) (serviceID : List Char) : Option RegisteredService :=
  w.serviceConfigTable.find? (fun s => s.ServiceID = serviceID)

/-- The key `fmt.Sprintf("%s::%s", serviceID, mqttTopic)` of the dispatch table. -/
def db.dispatchKey (serviceID mqttTopic : List Char) : List Char :=
  serviceID ++ ':' :: ':' :: mqttTopic

/-- Model of `db.GetServiceQueueTopic`: the empty string when the key is absent. -/
def db.GetServiceQueueTopic (w : World) (serviceID mqttTopic : List Char) : List Char :=
  match w.serviceDispatchTable.find? (fun e => e.1 = db.dispatchKey serviceID mqttTopic) with
  | some e => e.2
  | none => []

/-- Model of `db.GetRunPartition`. -/
def db.GetRunPartition (instant : Time) : List Char :=
  instant.formatDate

/-- Model of `(*Consignment).CreateConsignment`. -/
def db.CreateConsignment (a : Attempt) (w : World) (c : Consignment) : Option GoError × World :=
  if !uuid.Parse c.TenantID then (some db.ErrInvalidRequest, w)
  else if c.ConsignmentID = [] then (some db.ErrInvalidRequest, w)
  else
    match a.insertConsignment with
    | some err => (some err, w)
    | none => (none, { w with consignments := db.upsert Consignment.sameKey w.consignments c })

/-- Model of `(*Task).CreateTask`; the third component is the task as the call
leaves it (the identifier, creation time and status are assigned in place). -/
def db.CreateTask (a : Attempt) (w : World) (t : Task) : Option GoError × World × Task :=
  if !uuid.Parse t.TenantID then (some db.ErrInvalidRequest, w, t)
  else if t.TaskDetails = none then (some db.ErrInvalidRequest, w, t)
  else
    let t1 : Task := { t with
      TaskID := a.taskID, CreateTime := a.createTime, Status := db.taskStatusQueued,
      RetryCount := 0 }
    match a.insertTask with
    | some err => (some err, w, t1)
    | none =>
      let w1 : World := { w with tasks := db.upsert Task.sameKey w.tasks t1 }
      let r := db.CreateConsignment a w1 (db.NewConsignmentFromTask t1)
      (r.1, r.2, t1)

/-- Model of `(*ScheduledRun).CreateScheduledRun`. -/
def db.CreateScheduledRun (a : Attempt) (w : World) (s : ScheduledRun) :
    Option GoError × World × ScheduledRun :=
  let s1 : ScheduledRun := { s with RunPartition := db.GetRunPartition s.NextRun }
  match a.insertRun with
  | some err => (some err, w, s1)
  | none => (none, { w with scheduledRuns := db.upsert ScheduledRun.sameKey w.scheduledRuns s1 }, s1)

/-- Model of `(*Task).MarshalServiceMessage` up to the encoding. -/
def Task.serviceMessage (task : Task) : ServiceMessage where
  Version := 1
  ServiceId := task.ServiceID
  DeviceId := task.DeviceID.String
  TaskId := task.TaskID.String
  TenantId := task.TenantID
  MessageId := task.MessageId
  MessageType := task.MessageType
  Payload := task.TaskDetails.getD []

/-- Model of `(*Task).MarshalServiceMessage`. -/
def db.MarshalServiceMessage (task : Task) : Packet :=
  .message task.serviceMessage

/-- Model of `db.UnmarshallServiceMessage`; `none` stands for the error. -/
def db.UnmarshallServiceMessage (packet : Packet) : Option ServiceMessage :=
  match packet with
  | .message m => some m
  | .malformed _ => none

/-- The validation checks at the start of `Schedule`. -/
def ScheduledTask.validate (s : ScheduledTask) : ScheduledTask :=
  let s1 : ScheduledTask :=
    if s.TaskInfo.ScheduledWeekdays.length ≠ 0 ∧ s.TaskInfo.Unit ≠ common.Weeks then
      s.fail scheduler.ErrWeekdayNotSupported
    else s
  if s1.TaskInfo.Unit ≠ common.Crontab ∧ s1.TaskInfo.Interval = 0 then
    if s1.TaskInfo.Unit ≠ common.Duration ∧ s1.TaskInfo.Unit ≠ common.Once then
      s1.fail scheduler.ErrInvalidInterval
    else s1
  else s1

/-- Model of `(*ScheduledTask).Schedule` (`scheduler/api.go`). -/
def ScheduledTask.Schedule (a : Attempt) (w : World) (s : ScheduledTask) :
    Result ScheduledTask × World :=
  let s1 := s.validate
  match s1.error with
  | some err => (.err err, w)
  | none =>
    let r := db.CreateTask a w s1.TaskInfo
    match r.1 with
    | some err => (.err err, r.2.1)
    | none =>
      let s2 : ScheduledTask := { s1 with TaskInfo := r.2.2 }
      if s2.TaskInfo.Unit = common.Once then
        match a.sendDispatch with
        | some err => (.err err, r.2.1)
        | none =>
          (.ok s2, { r.2.1 with
            dispatchQueue := r.2.1.dispatchQueue ++ [db.MarshalServiceMessage s2.TaskInfo] })
      else
        match s2.ScheduleInfo with
        | none => (.panic "nil pointer dereference".toList, r.2.1)
        | some info =>
          let run : ScheduledRun := { info with TaskID := s2.TaskInfo.TaskID, NextRun := a.nextRun }
          let c := db.CreateScheduledRun a r.2.1 run
          match c.1 with
          | some err => (.err err, c.2.1)
          | none => (.ok { s2 with ScheduleInfo := some c.2.2 }, c.2.1)

/-! ## package scheduler: the request handler -/

/-- The call chain `NewScheduledTask(time.UTC, deviceID, request).ParseSchedule(
request.Schedule).Schedule()` of the loop for one device.  `ParseSchedule` is
called whether or not `NewScheduledTask` recorded an error; when it panics,
`Schedule` is not reached and nothing has been written. -/
def scheduler.scheduleDevice (lib : Lib) (a : Attempt) (request : CreateScheduledTaskRequest)
    (deviceID : List Char) (w : World) : Result ScheduledTask × World :=
  match (scheduler.NewScheduledTask "UTC".toList deviceID request).ParseSchedule lib a.parseNow
      a.atNow request.Schedule with
  | .panic what => (.panic what, w)
  | .value s => s.Schedule a w

/-- The loop of `handleSchedulerInputQueueRequest` over the device IDs, from
position `index` on.  `attempts i` is what the surroundings supply while the
device at position `i` is processed. -/
def scheduler.handleDevices (lib : Lib) (attempts : Nat → Attempt)
    (request : CreateScheduledTaskRequest) (source : List Char) :
    Nat → List (List Char) → CreateScheduledTaskResponse → World →
      Result CreateScheduledTaskResponse × World
  | _, [], response, w => (.ok response, w)
  | index, deviceID :: rest, response, w =>
    if index ≠ 0 ∧ deviceID = common.BroadcastDeviceID then
      scheduler.handleDevices lib attempts request source (index + 1) rest
        { response with ErrorCount := (response.ErrorCount + 1) % 4294967296 } w
    else
      let r := scheduler.scheduleDevice lib (attempts index) request deviceID w
      match r.1 with
      | .panic what => (.panic what, r.2)
      | .err _ =>
        scheduler.handleDevices lib attempts request source (index + 1) rest
          { response with ErrorCount := (response.ErrorCount + 1) % 4294967296 } r.2
      | .ok newTask =>
        let response1 : CreateScheduledTaskResponse :=
          { response with TaskCount := (response.TaskCount + 1) % 4294967296 }
        let response2 : CreateScheduledTaskResponse :=
          if source = common.SchedulerRequestSourceRest then
            { response1 with TasksScheduled := response1.TasksScheduled ++
                [{ TaskId := newTask.TaskInfo.TaskID.String, DeviceId := deviceID,
                   Status := newTask.TaskInfo.Status }] }
          else response1
        scheduler.handleDevices lib attempts request source (index + 1) rest response2 r.2

/-- Model of `handleSchedulerInputQueueRequest` (`scheduler/request_handler.go`).
Indexing the empty non-nil `DeviceIds` slice is the run-time panic `index out of
range`. -/
def scheduler.handleSchedulerInputQueueRequest (lib : Lib) (attempts : Nat → Attempt)
    (w : World) (request : CreateScheduledTaskRequest) (source : List Char) :
    Result CreateScheduledTaskResponse × World :=
  if ¬ (source = common.SchedulerRequestSourceEvent ∨
      source = common.SchedulerRequestSourceRest) then (.err scheduler.ErrInvalidRequest, w)
  else if !db.IsValidServiceId w request.ServiceId then (.err scheduler.ErrInvalidRequest, w)
  else if request.ConsignmentId = [] then (.err scheduler.ErrInvalidRequest, w)
  else
    match request.DeviceIds with
    | none => (.err scheduler.ErrInvalidRequest, w)
    | some [] => (.panic "index out of range [0] with length 0".toList, w)
    | some (first :: others) =>
      let checked : Option CreateScheduledTaskRequest :=
        if first = common.BroadcastDeviceID then
          if (first :: others).length ≠ 1 then none
          else some { request with TenantId := common.BroadcastDeviceUuid }
        else if !uuid.Parse request.TenantId then none
        else some request
      match checked with
      | none => (.err scheduler.ErrInvalidRequest, w)
      | some request1 =>
        if request1.Payload = none then (.err scheduler.ErrInvalidRequest, w)
        else
          scheduler.handleDevices lib attempts request1 source 0 (first :: others)
            { Version := request1.Version, TaskCount := 0, ErrorCount := 0,
              ConsignmentId := request1.ConsignmentId, TenantId := request1.TenantId,
              TasksScheduled := [] } w

/-! ## Status updates (package db) -/

/-- Rows of table `tasks` after `UPDATE tasks SET status=? WHERE device_id=? AND
task_id=?`: the row with the key receives the status; without such a row the
statement creates one that holds the key and the status only. -/
def db.updateTaskRows (tasks : List Task) (deviceID taskID : UUID) (status : List Char) :
    List Task :=
  if tasks.any (fun t => t.DeviceID = deviceID ∧ t.TaskID = taskID) then
    tasks.map (fun t =>
      if t.DeviceID = deviceID ∧ t.TaskID = taskID then { t with Status := status } else t)
  else tasks ++ [{ Task.zero with DeviceID := deviceID, TaskID := taskID, Status := status }]

/-- Rows of table `consignments` after `UPDATE consignments SET status=? WHERE
tenant_id=? AND consignment_id=? AND task_id=?`. -/
def db.updateConsignmentRows (rows : List Consignment) (tenantID consignmentID : List Char)
    (taskID : UUID) (status : List Char) : List Consignment :=
  if rows.any (fun c => c.TenantID = tenantID ∧ c.ConsignmentID = consignmentID ∧
      c.TaskID = taskID) then
    rows.map (fun c =>
      if c.TenantID = tenantID ∧ c.ConsignmentID = consignmentID ∧ c.TaskID = taskID then
        { c with Status := status }
      else c)
  else rows ++ [{ ConsignmentID := consignmentID, TaskID := taskID, DeviceID := UUID.zero,
                  TenantID := tenantID, Status := status, CreateTime := Time.zero }]

/-- Model of `db.setTaskStatus`: the driver converts the two identifier strings
with `gocql.ParseUUID` and fails when one does not parse; `outcome` is the
outcome of the statement itself. -/
def db.setTaskStatus (outcome : Option GoError) (w : World) (taskID deviceID : List Char)
    (status : TaskStatus) : Option GoError × World :=
  match gocql.ParseUUID deviceID, gocql.ParseUUID taskID with
  | some d, some t =>
    match outcome with
    | some err => (some err, w)
    | none => (none, { w with tasks := db.updateTaskRows w.tasks d t status.String })
  | _, _ => (some (.lib "gocql.marshalUUID".toList), w)

/-- Model of `db.UpdateConsignmentTaskStatus`. -/
def db.UpdateConsignmentTaskStatus (outcome : Option GoError) (w : World)
    (tenantID consignmentID taskID : List Char) (status : TaskStatus) : Option GoError × World :=
  match gocql.ParseUUID taskID with
  | some t =>
    match outcome with
    | some err => (some err, w)
    | none =>
      (none, { w with consignments :=
        db.updateConsignmentRows w.consignments tenantID consignmentID t status.String })
  | none => (some (.lib "gocql.marshalUUID".toList), w)

/-- Model of `db.UpdateTaskStatus`: the task row first, then the consignment
row; the first failure is returned. -/
def db.UpdateTaskStatus (taskOutcome consignmentOutcome : Option GoError) (w : World)
    (taskID deviceID tenantID consignmentID : List Char) (status : TaskStatus) :
    Option GoError × World :=
  let r := db.setTaskStatus taskOutcome w taskID deviceID status
  match r.1 with
  | some err => (some err, r.2)
  | none => db.UpdateConsignmentTaskStatus consignmentOutcome r.2 tenantID consignmentID taskID
      status

/-- Model of `db.MarkTaskDispatched`. -/
def db.MarkTaskDispatched (outcome : Option GoError) (w : World) (taskinfo : ServiceMessage) :
    Option GoError × World :=
  if taskinfo.DeviceId = [] ∨ taskinfo.TaskId = [] then (some db.ErrInvalidRequest, w)
  else db.setTaskStatus outcome w taskinfo.TaskId taskinfo.DeviceId db.TaskStatusDispatched

/-- Model of `db.MarkTaskComplete`. -/
def db.MarkTaskComplete (taskOutcome consignmentOutcome : Option GoError) (w : World)
    (task : Task) : Option GoError × World :=
  db.UpdateTaskStatus taskOutcome consignmentOutcome w task.TaskID.String task.DeviceID.String
    task.TenantID task.ConsignmentID db.TaskStatusCompleted

/-- Model of `db.MarkTaskFailed`. -/
def db.MarkTaskFailed (taskOutcome consignmentOutcome : Option GoError) (w : World)
    (task : Task) : Option GoError × World :=
  db.UpdateTaskStatus taskOutcome consignmentOutcome w task.TaskID.String task.DeviceID.String
    task.TenantID task.ConsignmentID db.TaskStatusFailed

/-- The UUID a CQL literal denotes: the text must have the form
`xxxxxxxx-xxxx-xxxx-xxxx-xxxxxxxxxxxx`. -/
def db.cqlUuidLiteral (s : List Char) : Option UUID :=
  if (utf8Bytes s).length = 36 ∧ uuid.standardForm (utf8Bytes s) = true then gocql.ParseUUID s
  else none

/-- Model of `db.GetTaskByID`: the two identifiers are written into the query
as literals (`qb.EqLit`); the result is the first row whose key is the pair,
`ErrNotFound` without one. -/
def db.GetTaskByID (outcome : Option GoError) (w : World) (taskID deviceID : List Char) :
    Except GoError Task :=
  if !uuid.Parse deviceID then .error db.ErrInvalidRequest
  else if taskID = [] then .error db.ErrInvalidRequest
  else
    match db.cqlUuidLiteral deviceID, db.cqlUuidLiteral taskID with
    | some d, some t =>
      match outcome with
      | some err => .error err
      | none =>
        match w.tasks.find? (fun row => row.DeviceID = d ∧ row.TaskID = t) with
        | some row => .ok row
        | none => .error db.ErrNotFound
    | _, _ => .error (.lib "cql syntax".toList)

/-! ## package mqtt and the dispatch worker -/

/-- Model of `mqtt.GetMqttTopicForDeviceTask` (`mqtt/topics.go`). -/
def mqtt.GetMqttTopicForDeviceTask (deviceID serviceID : List Char) : List Char :=
  if deviceID = common.BroadcastDeviceUuid then "v1/@devices/".toList ++ serviceID
  else "v1/".toList ++ deviceID ++ "/tasks".toList

/-- Model of `processSchedulerDispatchRequest`
(`queuemgr/sqs_provider/dispatch_queue.go`): one message is received (the
oldest on the queue; it stays there until it is deleted), decoded, published,
the task is marked dispatched and the message is deleted. -/
def sqs_provider.processSchedulerDispatchRequest (ev : WorkerEvents) (w : World) : World :=
  match ev.receive with
  | some _ => w
  | none =>
    match w.dispatchQueue with
    | [] => w
    | msg :: rest =>
      match db.UnmarshallServiceMessage msg with
      | none =>
        match ev.delete with
        | some _ => w
        | none => { w with dispatchQueue := rest }
      | some taskInfo =>
        match ev.publish with
        | some _ => w
        | none =>
          let w1 : World := { w with published := w.published ++
            [(mqtt.GetMqttTopicForDeviceTask taskInfo.DeviceId taskInfo.ServiceId, taskInfo)] }
          let r := db.MarkTaskDispatched ev.update w1 taskInfo
          match r.1 with
          | some _ => r.2
          | none =>
            match ev.delete with
            | some _ => r.2
            | none => { r.2 with dispatchQueue := rest }

/-! ## Device tokens and the task-response handler -/

def dstsclient.ErrInvalidToken : GoError := .lib "dstsclient.ErrInvalidToken".toList
def dstsclient.ErrInvalidTokenHeaderSigningAlg : GoError :=
  .lib "dstsclient.ErrInvalidTokenHeaderSigningAlg".toList
def dstsclient.ErrInvalidIssuerClaim : GoError :=
  .lib "dstsclient.ErrInvalidIssuerClaim".toList
def dstsclient.ErrNotDeviceToken : GoError := .lib "dstsclient.ErrNotDeviceToken".toList
def dstsclient.dstsIssuerName : List Char := "HP Device Token Service".toList
def dstsclient.tokenTypeDevice : List Char := "device".toList

/-- Model of `parseAndValidateCommonClaims` (`dstsclient/validate_token.go`). -/
def dstsclient.parseAndValidateCommonClaims (ev : ResponseEvents) (accessToken : List Char) :
    Except GoError DstsTokenClaims :=
  match ev.parseToken accessToken with
  | .error err => .error err
  | .ok token =>
    if !token.Valid then .error dstsclient.ErrInvalidToken
    else if !token.hasAlg then .error dstsclient.ErrInvalidTokenHeaderSigningAlg
    else if !strings.HasPrefix token.claims.Issuer dstsclient.dstsIssuerName then
      .error dstsclient.ErrInvalidIssuerClaim
    else .ok token.claims

/-- Model of `ValidateDeviceAccessToken`. -/
def dstsclient.ValidateDeviceAccessToken (ev : ResponseEvents) (accessToken : List Char) :
    Except GoError DstsTokenClaims :=
  match dstsclient.parseAndValidateCommonClaims ev accessToken with
  | .error err => .error err
  | .ok claims =>
    if claims.TokenType ≠ dstsclient.tokenTypeDevice then .error dstsclient.ErrNotDeviceToken
    else .ok claims

/-- Model of `(*SqsQueueProvider).SendMessage`
(`queuemgr/sqs_provider/msg_utils.go`). -/
def sqs_provider.SendMessage (ev : ResponseEvents) (w : World) (serviceID queueTopic : List Char)
    (event : DeviceEvent) : Option GoError × World :=
  match db.GetServiceConfig w serviceID with
  | none => (some db.ErrInternalError, w)
  | some _ =>
    match ev.queueUrl with
    | some err => (some err, w)
    | none =>
      match ev.send with
      | some err => (some err, w)
      | none =>
        (none, { w with serviceQueue := w.serviceQueue ++
          [{ ServiceID := serviceID, QueueTopic := queueTopic, Event := event }] })

/-- Model of `handleTaskResponseMessage` (`scheduler/task_response.go`). -/
def scheduler.handleTaskResponseMessage (lib : Lib) (ev : ResponseEvents) (w : World)
    (mqttTopic : List Char) (message : DeviceMessage) : Option GoError × World :=
  match dstsclient.ValidateDeviceAccessToken ev message.AccessToken with
  | .error err => (some err, w)
  | .ok claims =>
    match db.GetTaskByID ev.getTask w message.TaskId claims.Subject with
    | .error err => (some err, w)
    | .ok foundTask =>
      if foundTask.ServiceID ≠ claims.ManagementService then
        (some scheduler.ErrInvalidServiceID, w)
      else if foundTask.TenantID ≠ claims.TenantID then (some scheduler.ErrInvalidTenantID, w)
      else
        let status := strings.ToLower lib message.TaskStatus
        let updated : Option (Option GoError × World) :=
          if status = "complete".toList ∨ status = "success".toList then
            some (db.MarkTaskComplete ev.updateTask ev.updateConsignment w foundTask)
          else if status = "failed".toList ∨ status = "error".toList then
            some (db.MarkTaskFailed ev.updateTask ev.updateConsignment w foundTask)
          else none
        match updated with
        | none => (some scheduler.ErrInvalidRequest, w)
        | some r =>
          let queueTopic := db.GetServiceQueueTopic r.2 foundTask.ServiceID mqttTopic
          if queueTopic = [] then (some scheduler.ErrInvalidMessageType, r.2)
          else
            sqs_provider.SendMessage ev r.2 claims.ManagementService queueTopic
              { Version := 1, ServiceId := claims.ManagementService, DeviceId := claims.Subject,
                TaskId := message.TaskId, ConsignmentId := foundTask.ConsignmentID,
                TenantId := claims.TenantID, TaskStatus := message.TaskStatus,
                MessageId := message.MessageId, MessageType := message.MessageType,
                Payload := message.Payload.getD [] }

/-! ## Specification-side definitions -/

/-- The closure handed to `sort.Search` by `addRunAtTime`. -/
def runAtProbe (runAt : List Int) (t : Int) (i : Nat) (exist : Bool) : Bool × Bool :=
  let atTime := runAt.getD i 0
  let b : Bool := decide (atTime ≥ t)
  (b, if b then decide (atTime = t) else exist)

/-- What the binary search of `addRunAtTime` establishes on a strictly
ascending list. -/
def SearchPost (l : List Int) (t : Int) (r : Nat × Bool) : Prop :=
  r.1 ≤ l.length ∧ (∀ k, k < r.1 → l.getD k 0 < t) ∧
    (∀ k, r.1 ≤ k → k < l.length → t ≤ l.getD k 0) ∧
    (r.2 = true ↔ (r.1 < l.length ∧ l.getD r.1 0 = t))

/-- A time of day as written in an `at` schedule: `HH:MM` or `HH:MM:SS`. -/
structure TimeOfDay where
  hour : Nat
  minute : Nat
  second : Option Nat
  deriving DecidableEq, Repr

/-- The time of day is valid: hour below 24, minute and second below 60. -/
def TimeOfDay.valid (t : TimeOfDay) : Prop :=
  t.hour < 24 ∧ t.minute < 60 ∧ t.second.getD 0 < 60

instance (t : TimeOfDay) : Decidable t.valid :=
  inferInstanceAs (Decidable (t.hour < 24 ∧ t.minute < 60 ∧ t.second.getD 0 < 60))

/-- The decimal digit `d` as a character. -/
def digitChar (d : Nat) : Char := Char.ofNat (48 + d)

/-- A number below 100 written with two decimal digits. -/
def twoDigits (n : Nat) : List Char := [digitChar (n / 10), digitChar (n % 10)]

/-- The text `HH:MM` or `HH:MM:SS` of a time of day. -/
def TimeOfDay.text (t : TimeOfDay) : List Char :=
  twoDigits t.hour ++ ':' :: twoDigits t.minute ++
    (match t.second with
     | none => []
     | some s => ':' :: twoDigits s)

/-- Offset from midnight: hours·1h + minutes·1m + seconds·1s. -/
def TimeOfDay.offset (t : TimeOfDay) : Duration :=
  (t.hour : Int) * time.Hour + (t.minute : Int) * time.Minute +
    ((t.second.getD 0 : Nat) : Int) * time.Second

/-- The schedule string `at T1;T2;…;Tk`. -/
def atSchedule (ts : List TimeOfDay) : List Char :=
  'a' :: 't' :: ' ' :: [';'].intercalate (ts.map TimeOfDay.text)

/-- A well-formed request used to evaluate the model on examples. -/
def sampleRequest : CreateScheduledTaskRequest where
  Version := 1
  ServiceId := "hpcem".toList
  DeviceIds := some ["7c9e6679-7425-40de-944b-e07fc1f90ae7".toList]
  ConsignmentId := "consignment-1".toList
  TenantId := "16fd2706-8baf-433b-82eb-8c7fada847da".toList
  Schedule := []
  MessageType := "CCS.GetConfig".toList
  MessageId := "m-1".toList
  Payload := some [68, 111]

/-- The device of `sampleRequest`. -/
def sampleDevice : List Char := "7c9e6679-7425-40de-944b-e07fc1f90ae7".toList

/-- A clock reading used in examples (2026-11-01T00:00:00Z). -/
def sampleTime : Time := ⟨1793491200, 0, 0⟩

/-- A freshly constructed task for `sampleRequest`. -/
def sampleTask : ScheduledTask :=
  scheduler.NewScheduledTask "UTC".toList sampleDevice sampleRequest

/-- The sample task as `ParseSchedule` returns it for the empty schedule at the
sample time: to be run once, now. -/
def sampleTaskNow : ScheduledTask :=
  ({ sampleTask with TaskInfo := { sampleTask.TaskInfo with
      Unit := common.Once, StartAt := sampleTime, StartImmediately := true } } :
    ScheduledTask).Now sampleTime

/-- The builder steps change the schedule fields and the error only: the
identity of the task and the schedule information are kept, and a recorded
error is never cleared. -/
def SameIdentity (s r : ScheduledTask) : Prop :=
  (r.error = none → s.error = none) ∧
  r.ScheduleInfo = s.ScheduleInfo ∧ r.location = s.location ∧
    r.TaskInfo.TaskID = s.TaskInfo.TaskID ∧ r.TaskInfo.DeviceID = s.TaskInfo.DeviceID ∧
    r.TaskInfo.TenantID = s.TaskInfo.TenantID ∧ r.TaskInfo.ServiceID = s.TaskInfo.ServiceID ∧
    r.TaskInfo.ConsignmentID = s.TaskInfo.ConsignmentID ∧
    r.TaskInfo.MessageId = s.TaskInfo.MessageId ∧
    r.TaskInfo.MessageType = s.TaskInfo.MessageType ∧
    r.TaskInfo.TaskDetails = s.TaskInfo.TaskDetails ∧ r.TaskInfo.Status = s.TaskInfo.Status


/-- The schedule string takes `ParseSchedule` to `Cron` with a second word that
starts with `TZ=` or `CRON_TZ=`: the word holds no blank, so the cron parser
panics on it. -/
def scheduler.schedulePanics (lib : Lib) (scheduleStr : List Char) : Prop :=
  ¬ (scheduleStr = [] ∨ strings.ToLower lib scheduleStr = common.SchedulingFrequencyNow) ∧
  2 ≤ (strings.Split scheduleStr ' ').length ∧
  strings.ToLower lib ((strings.Split scheduleStr ' ').getD 0 []) =
    common.SchedulingFrequencyCron ∧
  (strings.HasPrefix ((strings.Split scheduleStr ' ').getD 1 []) "TZ=".toList ∨
    strings.HasPrefix ((strings.Split scheduleStr ' ').getD 1 []) "CRON_TZ=".toList)

instance (lib : Lib) (scheduleStr : List Char) :
    Decidable (scheduler.schedulePanics lib scheduleStr) :=
  inferInstanceAs (Decidable (
    ¬ (scheduleStr = [] ∨ strings.ToLower lib scheduleStr = common.SchedulingFrequencyNow) ∧
    2 ≤ (strings.Split scheduleStr ' ').length ∧
    strings.ToLower lib ((strings.Split scheduleStr ' ').getD 0 []) =
      common.SchedulingFrequencyCron ∧
    (strings.HasPrefix ((strings.Split scheduleStr ' ').getD 1 []) "TZ=".toList ∨
      strings.HasPrefix ((strings.Split scheduleStr ' ').getD 1 []) "CRON_TZ=".toList)))

/-- A store with the service `hpcem` registered and nothing else. -/
def sampleWorld : World where
  serviceConfigTable :=
    [{ ServiceID := "hpcem".toList, Name := "HP CEM".toList, OwnerAwsAccount := [],
       Topics := [("v1/@cloud/task_responses".toList, "cem-responses".toList)] }]
  serviceDispatchTable :=
    [("hpcem::v1/@cloud/task_responses".toList, "cem-responses".toList)]
  tasks := []
  consignments := []
  scheduledRuns := []
  dispatchQueue := []
  serviceQueue := []
  published := []

/-- Surroundings in which every call succeeds. -/
def sampleAttempt : Attempt where
  parseNow := sampleTime
  atNow := sampleTime
  taskID := ⟨[1, 14, 12, 0, 0, 0, 0, 1, 11, 7, 10, 15, 1, 1, 14, 15, 8, 0, 0, 0, 0, 0, 0, 0, 0, 0, 0,
    0, 0, 0, 0, 1]⟩
  createTime := sampleTime
  nextRun := sampleTime
  insertTask := none
  insertConsignment := none
  insertRun := none
  sendDispatch := none

/-- A step of the dispatch worker in which every call succeeds. -/
def workerSucceeds : WorkerEvents := ⟨none, none, none, none⟩

/-- A step of the dispatch worker in which deleting the queue message fails. -/
def workerDeleteFails : WorkerEvents := ⟨none, none, none, some (.lib "sqs.DeleteMessage".toList)⟩

/-- A run of a response handler in which the token of the sample device
verifies and every call succeeds. -/
def responseSucceeds : ResponseEvents where
  parseToken := fun _ => .ok
    { Valid := true, hasAlg := true,
      claims := { Issuer := "HP Device Token Service".toList, Subject := sampleDevice,
                  TokenType := "device".toList,
                  TenantID := "16fd2706-8baf-433b-82eb-8c7fada847da".toList,
                  ManagementService := "hpcem".toList } }
  getTask := none
  updateTask := none
  updateConsignment := none
  queueUrl := none
  send := none

/-- The claims of a verified token of the sample device that names another
management service. -/
def otherServiceClaims : DstsTokenClaims where
  Issuer := "HP Device Token Service".toList
  Subject := sampleDevice
  TokenType := "device".toList
  TenantID := "16fd2706-8baf-433b-82eb-8c7fada847da".toList
  ManagementService := "other".toList

/-- A run of a response handler in which the token names another management
service. -/
def responseOtherService : ResponseEvents where
  parseToken := fun _ => .ok { Valid := true, hasAlg := true, claims := otherServiceClaims }
  getTask := none
  updateTask := none
  updateConsignment := none
  queueUrl := none
  send := none

/-- The store after the sample request (schedule `now`) has been handled. -/
def sampleWorldQueued : World :=
  (scheduler.handleSchedulerInputQueueRequest Lib.plain (fun _ => sampleAttempt) sampleWorld
    sampleRequest common.SchedulerRequestSourceRest).2

/-- A task response of the sample device for the sample task. -/
def sampleResponse (status : List Char) : DeviceMessage where
  AccessToken := "token".toList
  TaskId := sampleAttempt.taskID.String
  TaskStatus := status
  MessageId := []
  MessageType := "T".toList
  Payload := some [1]

/-- The status stored in the task row with the given key, if there is one. -/
def World.statusOf (w : World) (deviceID taskID : UUID) : Option (List Char) :=
  (w.tasks.find? (fun t => t.DeviceID = deviceID ∧ t.TaskID = taskID)).map (fun t => t.Status)

/-- The word `kw` is `target` written in some letter case: every character is
the corresponding character of `target` or its ASCII capital. -/
def caseVariant : List Char → List Char → Bool
  | [], [] => true
  | c :: cs, t :: ts => (c = t ∨ c = Char.ofNat (t.toNat - 32)) && caseVariant cs ts
  | _, _ => false

/-- The token is a decimal integer: an optional sign followed by one or more
decimal digits. -/
def isDecimalInteger (s : List Char) : Bool :=
  let body : List Char := if s.head? = some '-' ∨ s.head? = some '+' then s.tail else s
  body ≠ [] && body.all isDigit

/-- The integer a decimal-integer token denotes. -/
def decimalIntegerValue (s : List Char) : Int :=
  let body : List Char := if s.head? = some '-' ∨ s.head? = some '+' then s.tail else s
  if s.head? = some '-' then -(decimalValue 0 body : Int) else (decimalValue 0 body : Int)

/-- The unit keywords of `every N <unit>` with the unit and the weekdays each
one selects. -/
def unitKeywords : List (List Char × SchedulingUnit × List Weekday) :=
  [("millisecond".toList, common.Milliseconds, []),
   ("milliseconds".toList, common.Milliseconds, []),
   ("second".toList, common.Seconds, []),
   ("seconds".toList, common.Seconds, []),
   ("minute".toList, common.Minutes, []),
   ("minutes".toList, common.Minutes, []),
   ("hour".toList, common.Hours, []),
   ("hours".toList, common.Hours, []),
   ("day".toList, common.Days, []),
   ("days".toList, common.Days, []),
   ("week".toList, common.Weeks, []),
   ("weeks".toList, common.Weeks, []),
   ("monday".toList, common.Weeks, [time.Monday]),
   ("tuesday".toList, common.Weeks, [time.Tuesday]),
   ("wednesday".toList, common.Weeks, [time.Wednesday]),
   ("thursday".toList, common.Weeks, [time.Thursday]),
   ("friday".toList, common.Weeks, [time.Friday]),
   ("saturday".toList, common.Weeks, [time.Saturday]),
   ("sunday".toList, common.Weeks, [time.Sunday])]

/-- The days listed by `L`, a comma-separated list of decimal integers; `none`
when some piece is not a decimal integer. -/
def listedDays (L : List Char) : Option (List Int) :=
  if (strings.Split L ',').all isDecimalInteger then
    some ((strings.Split L ',').map decimalIntegerValue)
  else none

/-- The listed days are acceptable for `monthdays`: the single value -1, or
pairwise distinct values each in 1..28. -/
def validMonthDays (days : List Int) : Prop :=
  days = [-1] ∨ (days.Nodup ∧ ∀ d ∈ days, 1 ≤ d ∧ d ≤ 28)

instance (days : List Int) : Decidable (validMonthDays days) :=
  inferInstanceAs (Decidable (days = [-1] ∨ (days.Nodup ∧ ∀ d ∈ days, 1 ≤ d ∧ d ≤ 28)))

/-! ## Reading the store -/

/-- The status stored in the consignment row with the given key, if there is
one. -/
def World.consignmentStatusOf (w : World) (tenantID consignmentID : List Char) (taskID : UUID) :
    Option (List Char) :=
  (w.consignments.find? (fun c => c.TenantID = tenantID ∧ c.ConsignmentID = consignmentID ∧
    c.TaskID = taskID)).map (fun c => c.Status)

/-! ## Sample libraries -/

/-- A library whose cron parser accepts the one text `spec` and rejects every
other text. -/
def Lib.cronOnly (spec : List Char) : Lib where
  lowerTable := fun c => c
  fracNanos := fun f u k => f * u / 10 ^ k
  cronParse := fun _ s => if s = spec then some ⟨1⟩ else none

/-! ## package db: reading the scheduled runs -/

/-- Default number of items to return per page of paginated results. -/
def db.itemsPerPage : Nat := 100

/-- Clustering order of table `scheduled_runs`: ascending `next_run`, which the
timestamp column keeps in milliseconds. -/
def ScheduledRun.before (a b : ScheduledRun) : Prop :=
  a.NextRun.sec < b.NextRun.sec ∨
    (a.NextRun.sec = b.NextRun.sec ∧ a.NextRun.nsec / 1000000 ≤ b.NextRun.nsec / 1000000)

instance : DecidableRel ScheduledRun.before :=
  fun a b => inferInstanceAs (Decidable (a.NextRun.sec < b.NextRun.sec ∨
    (a.NextRun.sec = b.NextRun.sec ∧ a.NextRun.nsec / 1000000 ≤ b.NextRun.nsec / 1000000)))

/-- The rows that `SELECT * FROM scheduled_runs WHERE run_partition=?` goes
through, in clustering order.  The statement compares no column with the
clock. -/
def db.partitionRows (w : World) (runPartition : List Char) : List ScheduledRun :=
  (w.scheduledRuns.filter (fun r => r.RunPartition = runPartition)).insertionSort
    ScheduledRun.before

/-- Model of `db.GetScheduledRuns` (`db/get_scheduled_run.go`).  The page state
is the number of rows already delivered, `0` for the empty state; the result
is one page of rows and the state of the next page, empty after the last
row. -/
def db.GetScheduledRuns (outcome : Option GoError) (w : World) (runPartition : List Char)
    (startPage : Nat) : Except GoError (List ScheduledRun × Nat) :=
  if runPartition = [] then .error db.ErrInvalidRequest
  else
    match outcome with
    | some err => .error err
    | none =>
      let rows := db.partitionRows w runPartition
      .ok ((rows.drop startPage).take db.itemsPerPage,
        if startPage + db.itemsPerPage < rows.length then startPage + db.itemsPerPage else 0)

/-! ## package scheduler: the daemon -/

/-- What the surroundings supply during one pass of the loop of
`runSchedulerDaemon`: the clock reading, whether the context is found
cancelled at the start and before the item with a given number, the outcome
of the query for each page and of the task lookup and the queue send for each
item (`none` is success). -/
structure TickEvents where
  now : Time
  cancelledAtStart : Bool
  cancelled : Nat → Bool
  query : Nat → Option GoError
  getTask : Nat → Option GoError
  send : Nat → Option GoError

/-- The loop of the daemon over the rows of one page; `index` numbers the items
of the pass.  The result tells whether the daemon returned, the number of the
next item and the world. -/
def scheduler.daemonItems (ev : TickEvents) : List ScheduledRun → Nat → World → Bool × Nat × World
  | [], index, w => (false, index, w)
  | item :: rest, index, w =>
    if ev.cancelled index then (true, index, w)
    else
      match db.GetTaskByID (ev.getTask index) w item.TaskID.String item.DeviceID.String with
      | .error _ => scheduler.daemonItems ev rest (index + 1) w
      | .ok task =>
        match ev.send index with
        | some _ => scheduler.daemonItems ev rest (index + 1) w
        | none =>
          scheduler.daemonItems ev rest (index + 1)
            { w with dispatchQueue := w.dispatchQueue ++ [db.MarshalServiceMessage task] }

/-- The loop of the daemon over the pages of the partition.  `fuel` bounds the
number of pages; the number of rows of the partition plus one is enough,
since every page but the last delivers `itemsPerPage` new rows. -/
def scheduler.daemonPages (ev : TickEvents) (runPartition : List Char) :
    Nat → Nat → Nat → Nat → World → Bool × World
  | 0, _, _, _, w => (false, w)
  | fuel + 1, page, nextPage, index, w =>
    match db.GetScheduledRuns (ev.query page) w runPartition nextPage with
    | .error _ => (false, w)
    | .ok found =>
      let r := scheduler.daemonItems ev found.1 index w
      if r.1 then (true, r.2.2)
      else if found.2 = 0 then (false, r.2.2)
      else scheduler.daemonPages ev runPartition fuel (page + 1) found.2 r.2.1 r.2.2

/-- One pass of the outer loop of `runSchedulerDaemon` (`scheduler/daemon.go`)
up to the wait for the next quantum: the partition of the clock reading is
paged through and every row found is looked up and sent to the dispatch
queue.  The result tells whether the daemon returned. -/
def scheduler.daemonTick (ev : TickEvents) (w : World) : Bool × World :=
  if ev.cancelledAtStart then (true, w)
  else
    scheduler.daemonPages ev (db.GetRunPartition ev.now)
      ((db.partitionRows w (db.GetRunPartition ev.now)).length + 1) 0 0 0 w

/-- A pass of the daemon at the sample time in which every call succeeds. -/
def tickSucceeds : TickEvents where
  now := sampleTime
  cancelledAtStart := false
  cancelled := fun _ => false
  query := fun _ => none
  getTask := fun _ => none
  send := fun _ => none

/-- The store after the sample request with schedule `every 1h` has been
handled at the sample time: the task is stored and its scheduled run has the
reading of the clock at that time as `next_run`. -/
def sampleWorldRecurring : World :=
  (scheduler.handleSchedulerInputQueueRequest Lib.plain (fun _ => sampleAttempt) sampleWorld
    { sampleRequest with Schedule := "every 1h".toList } common.SchedulerRequestSourceRest).2

/-- A step of the dispatch worker in which the publish on the broker fails. -/
def workerPublishFails : WorkerEvents := ⟨none, some (.lib "mqtt.Publish".toList), none, none⟩

/-! ## package scheduler: messages from devices to services -/

/-- The struct `DcmEvent` (`scheduler/device_message.go`); the payload is kept
as bytes. -/
structure DcmEvent where
  TenantID : List Char
  DeviceID : List Char
  MgmtService : List Char
  Payload : List Nat
  deriving DecidableEq, Repr

/-- Event containing configuration information sent from the device to the
cloud. -/
def scheduler.configMessageType : List Char := "CFG.E".toList

/-- Model of `sendConfigEventMessageToDcm`: the error returned and the messages
sent to the DCM input queue; `outcome` is the outcome of the queue send. -/
def scheduler.sendConfigEventMessageToDcm (outcome : Option GoError)
    (tenantID deviceID ms : List Char) (payload : List Nat) : Option GoError × List DcmEvent :=
  match outcome with
  | some err => (some err, [])
  | none =>
    (none, [{ TenantID := tenantID, DeviceID := deviceID, MgmtService := ms, Payload := payload }])

/-- Model of `handleDeviceToServiceMessage` (`scheduler/device_message.go`).
The third component lists the messages sent to the DCM input queue; `dcm` is
the outcome of that send. -/
def scheduler.handleDeviceToServiceMessage (ev : ResponseEvents) (dcm : Option GoError)
    (w : World) (mqttTopic : List Char) (message : DeviceMessage) :
    Option GoError × World × List DcmEvent :=
  match dstsclient.ValidateDeviceAccessToken ev message.AccessToken with
  | .error err => (some err, w, [])
  | .ok claims =>
    let queueTopic := db.GetServiceQueueTopic w claims.ManagementService mqttTopic
    if queueTopic = [] then (some scheduler.ErrInvalidMessageType, w, [])
    else
      let r := sqs_provider.SendMessage ev w claims.ManagementService queueTopic
        { Version := 1, ServiceId := claims.ManagementService, DeviceId := claims.Subject,
          TaskId := message.TaskId, ConsignmentId := [], TenantId := claims.TenantID,
          TaskStatus := [], MessageId := message.MessageId, MessageType := message.MessageType,
          Payload := message.Payload.getD [] }
      match r.1 with
      | some err => (some err, r.2, [])
      | none =>
        if message.MessageType = scheduler.configMessageType then
          let c := scheduler.sendConfigEventMessageToDcm dcm claims.TenantID claims.Subject
            claims.ManagementService (message.Payload.getD [])
          (c.1, r.2, c.2)
        else (none, r.2, [])

/-- The messages that a step from `before` to `after` has sent to service
queues. -/
def World.forwarded (before after : World) : List ServiceQueueMessage :=
  after.serviceQueue.drop before.serviceQueue.length

/-- The message is addressed to the queue that the dispatch table of `w`
registers for the service of the claims and the MQTT topic, and its event
carries the service, the device and the tenant of the claims. -/
def CarriesClaims (claims : DstsTokenClaims) (w : World) (mqttTopic : List Char)
    (q : ServiceQueueMessage) : Prop :=
  q.ServiceID = claims.ManagementService ∧
  q.QueueTopic = db.GetServiceQueueTopic w claims.ManagementService mqttTopic ∧
  q.Event.ServiceId = claims.ManagementService ∧ q.Event.DeviceId = claims.Subject ∧
  q.Event.TenantId = claims.TenantID

/-- The claims of the token of the sample device. -/
def sampleClaims : DstsTokenClaims where
  Issuer := "HP Device Token Service".toList
  Subject := sampleDevice
  TokenType := "device".toList
  TenantID := "16fd2706-8baf-433b-82eb-8c7fada847da".toList
  ManagementService := "hpcem".toList

/-- The message that the response `complete` of the sample device is forwarded
as. -/
def sampleForwarded : ServiceQueueMessage where
  ServiceID := "hpcem".toList
  QueueTopic := "cem-responses".toList
  Event :=
    { Version := 1, ServiceId := "hpcem".toList, DeviceId := sampleDevice,
      TaskId := sampleAttempt.taskID.String, ConsignmentId := "consignment-1".toList,
      TenantId := "16fd2706-8baf-433b-82eb-8c7fada847da".toList,
      TaskStatus := "complete".toList, MessageId := [], MessageType := "T".toList,
      Payload := [1] }

/-! ## Sample requests -/

/-- The sample request addressed to all devices, with a tenant ID that is not a
UUID. -/
def sampleBroadcastRequest : CreateScheduledTaskRequest :=
  { sampleRequest with DeviceIds := some [common.BroadcastDeviceID], TenantId := "n/a".toList }

/-! ## The device loop of the request handler, device by device -/

/-- The outcome for each device ID of the request in turn, each call starting
from the world the call before has left: the scheduled task for a device that
is scheduled, `none` for a device that is skipped (a later `@all`) or whose
call returns an error.  The list ends before a device whose call panics, as
the loop does. -/
def scheduler.deviceOutcomes (lib : Lib) (attempts : Nat → Attempt)
    (request : CreateScheduledTaskRequest) :
    Nat → List (List Char) → World → List (Option ScheduledTask)
  | _, [], _ => []
  | index, d :: rest, w =>
    if index ≠ 0 ∧ d = common.BroadcastDeviceID then
      none :: scheduler.deviceOutcomes lib attempts request (index + 1) rest w
    else
      match (scheduler.scheduleDevice lib (attempts index) request d w).1 with
      | .ok t =>
        some t :: scheduler.deviceOutcomes lib attempts request (index + 1) rest
          (scheduler.scheduleDevice lib (attempts index) request d w).2
      | .err _ =>
        none :: scheduler.deviceOutcomes lib attempts request (index + 1) rest
          (scheduler.scheduleDevice lib (attempts index) request d w).2
      | .panic _ => []

/-- One entry `{task_id, device_id, status}` for each scheduled device, in the
order of the device IDs. -/
def scheduler.scheduledEntries : List (List Char) → List (Option ScheduledTask) → List TaskInfo
  | d :: ds, some t :: os =>
    { TaskId := t.TaskInfo.TaskID.String, DeviceId := d, Status := t.TaskInfo.Status } ::
      scheduler.scheduledEntries ds os
  | _ :: ds, none :: os => scheduler.scheduledEntries ds os
  | _, _ => []

/-- Number of devices that were scheduled. -/
def scheduler.successCount (outs : List (Option ScheduledTask)) : Nat :=
  outs.countP (fun o => o.isSome)

/-- Number of devices that were skipped or failed. -/
def scheduler.failureCount (outs : List (Option ScheduledTask)) : Nat :=
  outs.countP (fun o => o.isNone)

/-- The request as the device loop sees it: a request whose first device ID is
`@all` has had its tenant ID replaced by the reserved broadcast value. -/
def scheduler.checkedRequest (request : CreateScheduledTaskRequest) :
    CreateScheduledTaskRequest :=
  match request.DeviceIds with
  | some (first :: _) =>
    if first = common.BroadcastDeviceID then
      { request with TenantId := common.BroadcastDeviceUuid }
    else request
  | _ => request

/-- The device ID is one that the loop counts as an error whatever the rest of
the request: `@all` at a position other than the first, or a text that is
neither `@all` nor accepted by `gocql.ParseUUID`. -/
def scheduler.badDevice (index : Nat) (deviceID : List Char) : Prop :=
  (index ≠ 0 ∧ deviceID = common.BroadcastDeviceID) ∨
    (deviceID ≠ common.BroadcastDeviceID ∧ gocql.ParseUUID deviceID = none)

instance (index : Nat) (deviceID : List Char) : Decidable (scheduler.badDevice index deviceID) :=
  inferInstanceAs (Decidable ((index ≠ 0 ∧ deviceID = common.BroadcastDeviceID) ∨
    (deviceID ≠ common.BroadcastDeviceID ∧ gocql.ParseUUID deviceID = none)))

/-! ## package db: building the service tables -/

/-- Assignment `table[key] = value` on a Go map kept as an association list
with distinct keys. -/
def db.mapSet (table : List (List Char × List Char)) (key value : List Char) :
    List (List Char × List Char) :=
  if table.any (fun e => e.1 = key) then
    table.map (fun e => if e.1 = key then (key, value) else e)
  else table ++ [(key, value)]

/-- The dispatch table that `initServiceDispatchLookupTable`
(`db/service_dispatch.go`) builds from the services that
`ListRegisteredServices` returns: every topic of every service is stored under
the key `fmt.Sprintf("%s::%s", service.ServiceID, topic)`. -/
def db.buildServiceDispatchTable (services : List RegisteredService) :
    List (List Char × List Char) :=
  services.foldl (fun table service =>
    service.Topics.foldl (fun table kv =>
      db.mapSet table (db.dispatchKey service.ServiceID kv.1) kv.2) table) []

/-- The configuration table that `initServiceDispatchLookupTable` builds: the
service stored last under a service ID stays. -/
def db.buildServiceConfigTable (services : List RegisteredService) : List RegisteredService :=
  services.foldl (fun table service =>
    if table.any (fun s => s.ServiceID = service.ServiceID) then
      table.map (fun s => if s.ServiceID = service.ServiceID then service else s)
    else table ++ [service]) []

/-- Model of `initServiceDispatchLookupTable` from the call of
`ListRegisteredServices` on; `listed` is what that call returns. -/
def db.initServiceDispatchLookupTable (listed : Except GoError (List RegisteredService))
    (w : World) : Option GoError × World :=
  match listed with
  | .error err => (some err, w)
  | .ok services =>
    (none, { w with
      serviceConfigTable := db.buildServiceConfigTable services,
      serviceDispatchTable := db.buildServiceDispatchTable services })

/-- The world with no tables. -/
def World.empty : World where
  serviceConfigTable := []
  serviceDispatchTable := []
  tasks := []
  consignments := []
  scheduledRuns := []
  dispatchQueue := []
  serviceQueue := []
  published := []

/-! ## package rest: the handler of `POST /api/v1/tasks` -/

/-- What the handler finds when it reads and decodes the body of the request:
the read fails, the bytes are not a protobuf message, or they decode to a
request. -/
inductive RestBody
  | unreadable
  | malformed
  | message (request : CreateScheduledTaskRequest)
  deriving DecidableEq, Repr

/-- The parts of the HTTP request that `CreateTaskHandler` looks at:
the `Content-Type` header, the outcome of `isValidAppAccessToken` and the
body. -/
structure HttpRequest where
  contentType : List Char
  appToken : Option GoError
  body : RestBody
  deriving DecidableEq, Repr

/-- The payload written to the response. -/
inductive HttpPayload
  | text (t : List Char)
  | failed (code : Nat) (reason : List Char)
  | created (response : CreateScheduledTaskResponse)
  deriving DecidableEq, Repr

/-- The status code and the payload of the response. -/
structure HttpResponse where
  status : Nat
  payload : HttpPayload
  deriving DecidableEq, Repr

def rest.contentTypeProtobuf : List Char := "application/x-protobuf".toList
def rest.reasonInvalidAppToken : List Char := "invalid app access token specified".toList
def rest.reasonRequestParsingFailed : List Char := "error parsing request parameters".toList
def rest.reasonProtobufUnmarshalFailed : List Char :=
  "failed to protobuf unmarshal scheduled task request".toList
def rest.reasonMissingTaskPayload : List Char := "task payload was not specified".toList
def rest.reasonInvalidSchedulingUnit : List Char :=
  "invalid schedule task request or invalid scheduling unit specified".toList

/-- Model of `sendBadRequestErrorResponse`. -/
def rest.sendBadRequestErrorResponse (reason : List Char) : HttpResponse :=
  { status := 400, payload := .failed 400 reason }

/-- Model of `proto.Unmarshal` on a body that decodes: `sent` holds the fields
as the sender set them.  A repeated field is appended to element by element,
so `DeviceIds` is nil when the body lists no device and never an empty
non-nil slice. -/
def proto.Unmarshal (sent : CreateScheduledTaskRequest) : CreateScheduledTaskRequest :=
  { sent with
    DeviceIds :=
      match sent.DeviceIds with
      | some (first :: others) => some (first :: others)
      | _ => none }

/-- Model of `CreateTaskHandler` (`rest/create_task.go`).  A panic below the
handler leaves the request without the response of the handler. -/
def rest.CreateTaskHandler (lib : Lib) (attempts : Nat → Attempt) (w : World)
    (r : HttpRequest) : Result HttpResponse × World :=
  if r.contentType ≠ rest.contentTypeProtobuf then
    (.ok { status := 415, payload := .text "Unsupported Media Type".toList }, w)
  else if r.appToken ≠ none then
    (.ok { status := 401, payload := .failed 401 rest.reasonInvalidAppToken }, w)
  else
    match r.body with
    | .unreadable => (.ok (rest.sendBadRequestErrorResponse rest.reasonRequestParsingFailed), w)
    | .malformed => (.ok (rest.sendBadRequestErrorResponse rest.reasonProtobufUnmarshalFailed), w)
    | .message sent =>
      let request := proto.Unmarshal sent
      if request.Payload = none then
        (.ok (rest.sendBadRequestErrorResponse rest.reasonMissingTaskPayload), w)
      else
        let res := scheduler.handleSchedulerInputQueueRequest lib attempts w request
          common.SchedulerRequestSourceRest
        match res.1 with
        | .panic what => (.panic what, res.2)
        | .err err =>
          if err = db.ErrInvalidRequest ∨ err = scheduler.ErrInvalidSchedulingUnit ∨
              err = scheduler.ErrInvalidRequest then
            (.ok (rest.sendBadRequestErrorResponse rest.reasonInvalidSchedulingUnit), res.2)
          else (.ok { status := 500, payload := .text "Internal Server Error".toList }, res.2)
        | .ok response => (.ok { status := 201, payload := .created response }, res.2)

/-- The REST request that carries `request` as a protobuf body, with a valid
app token. -/
def restPost (request : CreateScheduledTaskRequest) : HttpRequest where
  contentType := rest.contentTypeProtobuf
  appToken := none
  body := .message request

/-! ## package dstsclient: the app token -/

/-- The stored app token and its expiry (`gAppToken`, `gAppTokenExpiresAt`). -/
structure AppTokenState where
  appToken : List Char
  expiresAt : Time
  deriving DecidableEq, Repr

/-- The response of the challenge RPC: the header status and the challenge. -/
structure ChallengeResponse where
  status : Nat
  challenge : List Char
  deriving DecidableEq, Repr

/-- The response of the authenticate RPC: the header status, the access token
and its expiry. -/
structure AuthenticationResponse where
  status : Nat
  accessToken : List Char
  expiresAt : Time
  deriving DecidableEq, Repr

/-- What the identity service and the signer answer during one call of
`getAppToken`. -/
structure TokenExchange where
  challenge : Except GoError ChallengeResponse
  sign : Option GoError
  authenticate : Except GoError AuthenticationResponse
  deriving DecidableEq, Repr

/-- The gRPC status code `codes.OK`. -/
def codes.OK : Nat := 0

/-- Model of `getAppToken` (`dstsclient/get_app_token.go`).  After an RPC that
returned no error the variable `err` is nil, and `return err` in the branch
for a non-OK header status returns that nil. -/
def dstsclient.getAppToken (x : TokenExchange) (st : AppTokenState) :
    Option GoError × AppTokenState :=
  match x.challenge with
  | .error err => (some err, st)
  | .ok response =>
    if response.status ≠ codes.OK then (none, st)
    else
      match x.sign with
      | some err => (some err, st)
      | none =>
        match x.authenticate with
        | .error err => (some err, st)
        | .ok authResponse =>
          if authResponse.status ≠ codes.OK then (none, st)
          else (none, { appToken := authResponse.accessToken,
                        expiresAt := authResponse.expiresAt })

def dstsclient.dstsOperationRetryCount : Nat := 5

/-- The loop of `retryWithBackoff` (`dstsclient/client.go`) with `remaining`
iterations to go, `i` done and `err` the error of the last one: the context is
checked, the operation is invoked, a nil error ends the loop. -/
def dstsclient.retryLoop {σ : Type} (ctxErr : Nat → Option GoError)
    (operation : Nat → σ → Option GoError × σ) :
    Nat → Nat → Option GoError → σ → Option GoError × σ
  | 0, _, err, st => (err, st)
  | remaining + 1, i, _, st =>
    match ctxErr i with
    | some err => (some err, st)
    | none =>
      let r := operation i st
      match r.1 with
      | none => (none, r.2)
      | some err => dstsclient.retryLoop ctxErr operation remaining (i + 1) (some err) r.2

/-- Model of `retryWithBackoff`. -/
def dstsclient.retryWithBackoff {σ : Type} (ctxErr : Nat → Option GoError)
    (operation : Nat → σ → Option GoError × σ) (st : σ) : Option GoError × σ :=
  dstsclient.retryLoop ctxErr operation dstsclient.dstsOperationRetryCount 0 none st

/-- Model of `t.After(u)`. -/
def Time.After (t u : Time) : Bool :=
  decide (t.sec > u.sec ∨ (t.sec = u.sec ∧ t.nsec > u.nsec))

/-- Model of `GetAccessToken` (`dstsclient/client.go`); `exchanges i` is what
the surroundings answer during attempt `i`. -/
def dstsclient.GetAccessToken (now : Time) (ctxErr : Nat → Option GoError)
    (exchanges : Nat → TokenExchange) (st : AppTokenState) :
    (List Char × Option GoError) × AppTokenState :=
  if now.After st.expiresAt then
    let r := dstsclient.retryWithBackoff ctxErr
      (fun i s => dstsclient.getAppToken (exchanges i) s) st
    match r.1 with
    | some err => (([], some err), r.2)
    | none => ((r.2.appToken, none), r.2)
  else ((st.appToken, none), st)

/-- The state of the client when the process starts: no token, zero expiry. -/
def AppTokenState.initial : AppTokenState := { appToken := [], expiresAt := Time.zero }

/-- An exchange in which the challenge RPC answers with the header status
`codes.Internal` and no transport error. -/
def challengeRefused : TokenExchange where
  challenge := .ok { status := 13, challenge := [] }
  sign := none
  authenticate := .ok { status := 0, accessToken := "token".toList, expiresAt := sampleTime }

/-- An exchange in which the authenticate RPC answers with the header status
`codes.PermissionDenied` and no transport error. -/
def authenticationRefused : TokenExchange where
  challenge := .ok { status := 0, challenge := "nonce".toList }
  sign := none
  authenticate := .ok { status := 7, accessToken := [], expiresAt := Time.zero }

/-! ## package dstsclient: signing keys and the token parser -/

/-- An RSA public key (`rsa.PublicKey`). -/
structure RsaPublicKey where
  E : Nat
  N : Nat
  deriving DecidableEq, Repr

/-- A key of the JWKS answer (`pb.JSONWebKey`), as far as the client reads it. -/
structure JSONWebKey where
  Kid : List Char
  Kty : List Char
  E : List Char
  N : List Char
  deriving DecidableEq, Repr

/-- What `ParseUnverified` extracts from a token string: the header value `kid`
when it is a string, the header value `alg`, which names a registered signing
method, and the claims. -/
structure JwtParts where
  kid : Option (List Char)
  alg : List Char
  claims : DstsTokenClaims
  deriving DecidableEq, Repr

/-- The parts of the libraries `encoding/base64` and `golang-jwt` that are not
modelled concretely.
* `decodeBase64Url` is `base64.RawURLEncoding.DecodeString`;
* `parseUnverified` is the decoding of the three segments of a token, which
  fails also when `alg` is missing or names no signing method;
* `verify alg key token` tells whether `token.Method.Verify` accepts the
  signature of the token under the key;
* `claimsValid token` tells whether `claims.Valid()` accepts the time claims. -/
structure JwtLib where
  decodeBase64Url : List Char → Except GoError (List Nat)
  parseUnverified : List Char → Except GoError JwtParts
  verify : List Char → RsaPublicKey → List Char → Bool
  claimsValid : List Char → Bool

/-- The table `signingKeyTable`, a Go map from `kid` to public key. -/
abbrev KeyTable := List (List Char × RsaPublicKey)

/-- Lookup `signingKeyTable[kid]`. -/
def KeyTable.lookup (table : KeyTable) (kid : List Char) : Option RsaPublicKey :=
  (table.find? (fun e => e.1 = kid)).map (fun e => e.2)

/-- Assignment `signingKeyTable[kid] = key`. -/
def KeyTable.set (table : KeyTable) (kid : List Char) (key : RsaPublicKey) : KeyTable :=
  if table.any (fun e => e.1 = kid) then
    table.map (fun e => if e.1 = kid then (kid, key) else e)
  else table ++ [(kid, key)]

def dstsclient.ErrMissingAssets : GoError := .lib "dstsclient.ErrMissingAssets".toList
def dstsclient.ErrOverflow : GoError := .lib "dstsclient.ErrOverflow".toList
def dstsclient.ErrInvalidTokenHeaderKid : GoError :=
  .lib "dstsclient.ErrInvalidTokenHeaderKid".toList
def dstsclient.ktyRSA : List Char := "RSA".toList

/-- Model of `strings.TrimRight(s, "=")`. -/
def strings.TrimRightEquals (s : List Char) : List Char :=
  (s.reverse.dropWhile (fun c => c = '=')).reverse

/-- Model of `base64urlTrailingPadding` (`dstsclient/jwks.go`). -/
def dstsclient.base64urlTrailingPadding (J : JwtLib) (s : List Char) :
    Except GoError (List Nat) :=
  J.decodeBase64Url (strings.TrimRightEquals s)

/-- The number that `big.NewInt(0).SetBytes` reads from big-endian bytes. -/
def bigEndian (bytes : List Nat) : Nat :=
  bytes.foldl (fun acc b => acc * 256 + b) 0

/-- Model of `parseRSASigningKey` (`dstsclient/jwks.go`). -/
def dstsclient.parseRSASigningKey (J : JwtLib) (j : JSONWebKey) : Except GoError RsaPublicKey :=
  if j.E = [] ∨ j.N = [] then .error dstsclient.ErrMissingAssets
  else
    match dstsclient.base64urlTrailingPadding J j.E with
    | .error err => .error err
    | .ok exponent =>
      match dstsclient.base64urlTrailingPadding J j.N with
      | .error err => .error err
      | .ok modulus =>
        if bigEndian exponent % 2 ^ 64 > 2 ^ 63 - 1 then .error dstsclient.ErrOverflow
        else .ok { E := bigEndian exponent % 2 ^ 64, N := bigEndian modulus }

/-- The loop of `getJWKSSigningKey` over the keys of the answer. -/
def dstsclient.storeSigningKeys (J : JwtLib) : List JSONWebKey → KeyTable → Option GoError × KeyTable
  | [], table => (none, table)
  | key :: rest, table =>
    if key.Kty = dstsclient.ktyRSA then
      match dstsclient.parseRSASigningKey J key with
      | .error err => (some err, table)
      | .ok publicKey => dstsclient.storeSigningKeys J rest (table.set key.Kid publicKey)
    else dstsclient.storeSigningKeys J rest table

/-- Model of `getJWKSSigningKey` (`dstsclient/get_jwk.go`); `answer` is what the
RPC `GetSigningKey` returns: an error, or the header status and the keys. -/
def dstsclient.getJWKSSigningKey (J : JwtLib) (answer : Except GoError (Nat × List JSONWebKey))
    (table : KeyTable) : Option GoError × KeyTable :=
  match answer with
  | .error err => (some err, table)
  | .ok response =>
    if response.1 ≠ codes.OK then (none, table)
    else dstsclient.storeSigningKeys J response.2 []

/-- Model of `getSigningKey` (`dstsclient/jwks.go`) on the `kid` of the token
header. -/
def dstsclient.getSigningKey (J : JwtLib) (answer : Except GoError (Nat × List JSONWebKey))
    (table : KeyTable) (kid : Option (List Char)) : Except GoError RsaPublicKey × KeyTable :=
  match kid with
  | none => (.error dstsclient.ErrInvalidTokenHeaderKid, table)
  | some kid =>
    match table.lookup kid with
    | some pubKey => (.ok pubKey, table)
    | none =>
      let r := dstsclient.getJWKSSigningKey J answer table
      match r.1 with
      | some err => (.error err, r.2)
      | none =>
        match r.2.lookup kid with
        | some pubKey => (.ok pubKey, r.2)
        | none => (.error (.lib "no public key to validate kid".toList), r.2)

/-- Model of `jwt.ParseWithClaims(accessToken, &claims, getSigningKey)`: the
token is decoded, the key function is asked for the key, and the token is
returned as valid when the time claims are valid and the signature verifies
under that key; every other outcome is an error. -/
def jwt.ParseWithClaims (J : JwtLib) (answer : Except GoError (Nat × List JSONWebKey))
    (table : KeyTable) (tokenString : List Char) : Except GoError JwtToken × KeyTable :=
  match J.parseUnverified tokenString with
  | .error err => (.error err, table)
  | .ok parts =>
    let k := dstsclient.getSigningKey J answer table parts.kid
    match k.1 with
    | .error err => (.error (.wrap (.lib "jwt.ValidationErrorUnverifiable".toList) err), k.2)
    | .ok key =>
      if J.claimsValid tokenString = true ∧ J.verify parts.alg key tokenString = true then
        (.ok { Valid := true, hasAlg := true, claims := parts.claims }, k.2)
      else (.error (.lib "jwt.ValidationError".toList), k.2)

/-- A run of a response handler whose token parser is `parse` and in which every
other call succeeds. -/
def responseWithParser (parse : List Char → Except GoError JwtToken) : ResponseEvents where
  parseToken := parse
  getTask := none
  updateTask := none
  updateConsignment := none
  queueUrl := none
  send := none

/-- The token is one that the client accepts as a device token with the claims
`claims`: it decodes, its header names a `kid`, the key function returns the
key stored for that `kid` (after a refresh of the table when the `kid` was
unknown), the signature verifies under that key, the time claims are valid,
the issuer begins with `HP Device Token Service` and `typ` is `device`. -/
def TokenAcceptable (J : JwtLib) (answer : Except GoError (Nat × List JSONWebKey))
    (table : KeyTable) (tokenString : List Char) (claims : DstsTokenClaims) : Prop :=
  ∃ (parts : JwtParts) (kid : List Char) (key : RsaPublicKey),
    J.parseUnverified tokenString = .ok parts ∧ parts.claims = claims ∧ parts.kid = some kid ∧
    (dstsclient.getSigningKey J answer table (some kid)).1 = .ok key ∧
    (dstsclient.getSigningKey J answer table (some kid)).2.lookup kid = some key ∧
    J.verify parts.alg key tokenString = true ∧ J.claimsValid tokenString = true ∧
    strings.HasPrefix claims.Issuer dstsclient.dstsIssuerName = true ∧
    claims.TokenType = dstsclient.tokenTypeDevice

/-- A sample of the library parts: the token text `signed` decodes to the claims
of the sample device under the key `k1`, the text `forged` decodes to the same
claims but its signature does not verify, and nothing else decodes. -/
def JwtLib.sample : JwtLib where
  decodeBase64Url := fun _ => .ok [1, 0, 1]
  parseUnverified := fun t =>
    if t = "signed".toList ∨ t = "forged".toList then
      .ok { kid := some "k1".toList, alg := "RS512".toList, claims := sampleClaims }
    else .error (.lib "jwt.ValidationErrorMalformed".toList)
  verify := fun alg key t => decide (alg = "RS512".toList ∧ key.N = 3233 ∧ t = "signed".toList)
  claimsValid := fun _ => true

/-- A key table with the key `k1`. -/
def sampleKeyTable : KeyTable := [("k1".toList, { E := 65537, N := 3233 })]

/-! ## The calendar, stated independently of `civilFromDays` -/

/-- Leap years of the proleptic Gregorian calendar. -/
def isLeapYear (y : Int) : Bool := y % 4 = 0 ∧ (y % 100 ≠ 0 ∨ y % 400 = 0)

/-- Number of days of month `m` (1..12) of year `y`. -/
def daysInMonth (y m : Int) : Int :=
  if m = 2 then (if isLeapYear y then 29 else 28)
  else if m = 4 ∨ m = 6 ∨ m = 9 ∨ m = 11 then 30 else 31

/-- Number of leap years among the years 1 .. y - 1. -/
def leapYearsBefore (y : Int) : Int := (y - 1) / 4 - (y - 1) / 100 + (y - 1) / 400

/-- Days from 1970-01-01 to the first of January of year `y`. -/
def daysBeforeYear (y : Int) : Int :=
  365 * (y - 1970) + (leapYearsBefore y - leapYearsBefore 1970)

/-- Days from the first of January of year `y` to the first of month `m`. -/
def daysBeforeMonth (y m : Int) : Int :=
  ([0, 31, 59, 90, 120, 151, 181, 212, 243, 273, 304, 334].getD (m - 1).toNat 0) +
    (if 2 < m ∧ isLeapYear y then 1 else 0)

/-- Day number of the civil date `y`-`m`-`d`, counted from 1970-01-01. -/
def dayNumber (y m d : Int) : Int := daysBeforeYear y + daysBeforeMonth y m + (d - 1)

/-- The triple is a date of the calendar: month 1..12 and a day of that month. -/
def isCalendarDate (y m d : Int) : Prop :=
  1 ≤ m ∧ m ≤ 12 ∧ 1 ≤ d ∧ d ≤ daysInMonth y m

instance (y m d : Int) : Decidable (isCalendarDate y m d) :=
  inferInstanceAs (Decidable (1 ≤ m ∧ m ≤ 12 ∧ 1 ≤ d ∧ d ≤ daysInMonth y m))

/-- Three-letter English abbreviation of month `m`. -/
def monthName (m : Int) : List Char :=
  match m.toNat with
  | 1 => "Jan".toList
  | 2 => "Feb".toList
  | 3 => "Mar".toList
  | 4 => "Apr".toList
  | 5 => "May".toList
  | 6 => "Jun".toList
  | 7 => "Jul".toList
  | 8 => "Aug".toList
  | 9 => "Sep".toList
  | 10 => "Oct".toList
  | 11 => "Nov".toList
  | 12 => "Dec".toList
  | _ => []

/-- The text `YYYY-MMM-DD` of a date: the year with at least four digits (after
a minus sign when it is negative), the month abbreviation, the day with two
digits. -/
def dateText (y m d : Int) : List Char :=
  (if y < 0 then '-' :: zeroPad 4 (-y).toNat else zeroPad 4 y.toNat) ++
    '-' :: monthName m ++ '-' :: zeroPad 2 d.toNat

/-- Model of `time.Time.UTC`: the same instant carried with the location UTC. -/
def Time.UTC (t : Time) : Time := { t with offset := 0 }

/-- First day of year `q` of a 400-year era that starts on the first of March,
counted from the start of the era. -/
def yearStart (q : Nat) : Nat := 365 * q + q / 4 - q / 100

/-- The `yoe` of `civilFromDays` at day `a` of the era. -/
def yearOfEra (a : Nat) : Nat := (a - a / 1460 + a / 36524 - a / 146096) / 365

/-- Last day of year `q` of the era. -/
def yearEnd (q : Nat) : Nat := if q = 399 then 146096 else yearStart (q + 1) - 1

/-- The month arithmetic of `civilFromDays` at one day of the March-based year,
checked against the month lengths and the days before each month of a common
year. -/
def monthTableCheck (doy : Int) : Bool :=
  let mp := (5 * doy + 2) / 153
  let d := doy - (153 * mp + 2) / 5 + 1
  let m := if mp < 10 then mp + 3 else mp - 9
  decide (1 ≤ m ∧ m ≤ 12 ∧ 1 ≤ d ∧ d ≤ daysInMonth 1 m + (if doy = 365 then 1 else 0) ∧
    (doy = 365 → m = 2) ∧
    daysBeforeMonth 1 m + (d - 1) = doy + (if m ≤ 2 then -306 else 59))

/-- An instant half an hour before midnight UTC on 2026-11-01, carried with a
location two hours east of UTC. -/
def sampleEastTime : Time := ⟨1793575800, 0, 7200⟩

/-! ## Histories of the service -/

/-- The instant of `t` is not after the instant of `u`. -/
def Time.notAfter (t u : Time) : Prop :=
  t.sec < u.sec ∨ (t.sec = u.sec ∧ t.nsec ≤ u.nsec)

instance (t u : Time) : Decidable (t.notAfter u) :=
  inferInstanceAs (Decidable (t.sec < u.sec ∨ (t.sec = u.sec ∧ t.nsec ≤ u.nsec)))

/-- One operation of the service on the store, the queues and the broker,
with what the surroundings supply while it runs: a request to schedule tasks
(from the REST endpoint or from the input queue), a step of the dispatch
worker, a task response or another message of a device, a pass of the
daemon. -/
inductive Operation where
  | request (attempts : Nat → Attempt) (request : CreateScheduledTaskRequest)
      (source : List Char)
  | dispatch (ev : WorkerEvents)
  | taskResponse (ev : ResponseEvents) (mqttTopic : List Char) (message : DeviceMessage)
  | deviceMessage (ev : ResponseEvents) (dcm : Option GoError) (mqttTopic : List Char)
      (message : DeviceMessage)
  | tick (ev : TickEvents)

/-- The store, the queues and the broker after the operation. -/
def Operation.run (lib : Lib) : Operation → World → World
  | .request attempts req source, w =>
    (scheduler.handleSchedulerInputQueueRequest lib attempts w req source).2
  | .dispatch ev, w => sqs_provider.processSchedulerDispatchRequest ev w
  | .taskResponse ev mqttTopic message, w =>
    (scheduler.handleTaskResponseMessage lib ev w mqttTopic message).2
  | .deviceMessage ev dcm mqttTopic message, w =>
    (scheduler.handleDeviceToServiceMessage ev dcm w mqttTopic message).2.1
  | .tick ev, w => (scheduler.daemonTick ev w).2

/-- Every reading of `time.Now()` that the operation stores as a `next_run` was
taken not after `now`. -/
def Operation.clockNotAfter (now : Time) : Operation → Prop
  | .request attempts _ _ => ∀ i : Nat, (attempts i).nextRun.notAfter now
  | _ => True

/-- The store, the queues and the broker after the operations of a history, in
order. -/
def World.after (lib : Lib) (ops : List Operation) (w : World) : World :=
  ops.foldl (fun w op => op.run lib w) w

/-- In the pass of the daemon every call succeeds and the context is never
found cancelled. -/
def TickEvents.allSucceed (ev : TickEvents) : Prop :=
  ev.cancelledAtStart = false ∧ (∀ i, ev.cancelled i = false) ∧ (∀ i, ev.query i = none) ∧
    (∀ i, ev.getTask i = none) ∧ (∀ i, ev.send i = none)

/-- The dispatch message of the task of a scheduled run, when the task is
found in the store. -/
def scheduler.runMessage (w : World) (item : ScheduledRun) : Option Packet :=
  match db.GetTaskByID none w item.TaskID.String item.DeviceID.String with
  | .ok task => some (db.MarshalServiceMessage task)
  | .error _ => none

/-! ## Calls that return -/

theorem sampleTask_parse_now :
    sampleTask.ParseSchedule Lib.plain sampleTime sampleTime [] = .value sampleTaskNow := by
  decide

theorem Outcome.Returns.mono {α : Type} {o : Outcome α} {P Q : α → Prop} (h : o.Returns P)
    (hpq : ∀ a, P a → Q a) : o.Returns Q := by
  cases o with
  | value a => exact hpq a h
  | panic what => exact h

theorem Outcome.returns_iff {α : Type} (o : Outcome α) (P : α → Prop) :
    o.Returns P ↔ ∃ a, o = .value a ∧ P a := by
  cases o with
  | value a => exact ⟨fun h => ⟨a, rfl, h⟩, fun ⟨b, hb, hp⟩ => by cases hb; exact hp⟩
  | panic what => exact ⟨fun h => h.elim, fun ⟨b, hb, _⟩ => by cases hb⟩

/-! ## Facts about the library models -/

theorem split_of_not_mem (sep : Char) : ∀ (s : List Char), sep ∉ s → strings.Split s sep = [s]
  | [], _ => rfl
  | c :: cs, h => by
    have hc : c ≠ sep := fun e => h (by simp [e])
    have hcs : sep ∉ cs := fun e => h (by simp [e])
    simp [strings.Split, hc, split_of_not_mem sep cs hcs]

theorem split_append_sep (sep : Char) (b : List Char) :
    ∀ (a : List Char), sep ∉ a → strings.Split (a ++ sep :: b) sep = a :: strings.Split b sep
  | [], _ => by simp [strings.Split]
  | c :: cs, h => by
    have hc : c ≠ sep := fun e => h (by simp [e])
    have hcs : sep ∉ cs := fun e => h (by simp [e])
    simp [strings.Split, hc, split_append_sep sep b cs hcs]

theorem split_intercalate (sep : Char) :
    ∀ (ls : List (List Char)), ls ≠ [] → (∀ l ∈ ls, sep ∉ l) →
      strings.Split ([sep].intercalate ls) sep = ls
  | [], h, _ => absurd rfl h
  | [l], _, hl => by
    simpa [List.intercalate] using split_of_not_mem sep l (hl l (by simp))
  | l :: l2 :: rest, _, hl => by
    have h1 : sep ∉ l := hl l (by simp)
    have ih := split_intercalate sep (l2 :: rest) (by simp)
      (fun x hx => hl x (List.mem_cons_of_mem _ hx))
    have e : [sep].intercalate (l :: l2 :: rest) = l ++ sep :: [sep].intercalate (l2 :: rest) := by
      simp [List.intercalate, List.intersperse]
    rw [e, split_append_sep sep _ l h1, ih]

theorem sorted_getD_lt {l : List Int} (hs : l.Sorted (· < ·)) {a b : Nat} (hab : a < b)
    (hb : b < l.length) : l.getD a 0 < l.getD b 0 := by
  have ha : a < l.length := lt_trans hab hb
  rw [List.getD_eq_getElem l 0 ha, List.getD_eq_getElem l 0 hb]
  exact (List.pairwise_iff_getElem.mp hs) a b ha hb hab

theorem searchLoop_step_true {σ : Type} (f : Nat → σ → Bool × σ) (n i j : Nat) (st : σ)
    (hlt : i < j) (h : (f ((i + j) / 2) st).1 = true) :
    sort.searchLoop f (n + 1) i j st = sort.searchLoop f n i ((i + j) / 2) (f ((i + j) / 2) st).2 := by
  simp [sort.searchLoop, hlt, h]

theorem searchLoop_step_false {σ : Type} (f : Nat → σ → Bool × σ) (n i j : Nat) (st : σ)
    (hlt : i < j) (h : (f ((i + j) / 2) st).1 = false) :
    sort.searchLoop f (n + 1) i j st =
      sort.searchLoop f n ((i + j) / 2 + 1) j (f ((i + j) / 2) st).2 := by
  simp [sort.searchLoop, hlt, h]

theorem searchLoop_done {σ : Type} (f : Nat → σ → Bool × σ) (n i : Nat) (st : σ) :
    sort.searchLoop f n i i st = (i, st) := by
  cases n <;> simp [sort.searchLoop]

theorem searchLoop_spec (l : List Int) (t : Int) (hs : l.Sorted (· < ·)) :
    ∀ (fuel i j : Nat) (exist : Bool), i ≤ j → j ≤ l.length → j - i ≤ fuel →
      (∀ k, k < i → l.getD k 0 < t) →
      (∀ k, j ≤ k → k < l.length → t ≤ l.getD k 0) →
      (exist = true ↔ (j < l.length ∧ l.getD j 0 = t)) →
      SearchPost l t (sort.searchLoop (runAtProbe l t) fuel i j exist) := by
  intro fuel
  induction fuel with
  | zero =>
    intro i j exist hij hj hf hlo hhi hex
    have e : i = j := by omega
    subst e
    rw [searchLoop_done]
    exact ⟨hj, hlo, hhi, hex⟩
  | succ n ih =>
    intro i j exist hij hj hf hlo hhi hex
    by_cases hlt : i < j
    · have hh1 : i ≤ (i + j) / 2 := by omega
      have hh2 : (i + j) / 2 < j := by omega
      have hhl : (i + j) / 2 < l.length := by omega
      by_cases hb : l.getD ((i + j) / 2) 0 ≥ t
      · have hp : runAtProbe l t ((i + j) / 2) exist =
            (true, decide (l.getD ((i + j) / 2) 0 = t)) := by
          unfold runAtProbe
          have hd : decide (l.getD ((i + j) / 2) 0 ≥ t) = true := decide_eq_true hb
          simp only [hd, if_true]
        rw [searchLoop_step_true _ _ _ _ _ hlt (by rw [hp]), hp]
        exact ih i ((i + j) / 2) (decide (l.getD ((i + j) / 2) 0 = t)) hh1 (by omega) (by omega)
          hlo
          (fun k hk hkl => by
            rcases Nat.eq_or_lt_of_le hk with e | e
            · rw [← e]; exact hb
            · exact le_trans hb (le_of_lt (sorted_getD_lt hs e hkl)))
          (by simp [hhl])
      · have hb2 : l.getD ((i + j) / 2) 0 < t := by omega
        have hp : runAtProbe l t ((i + j) / 2) exist = (false, exist) := by
          unfold runAtProbe
          have hd : decide (l.getD ((i + j) / 2) 0 ≥ t) = false := decide_eq_false hb
          simp only [hd, Bool.false_eq_true, if_false]
        rw [searchLoop_step_false _ _ _ _ _ hlt (by rw [hp]), hp]
        exact ih ((i + j) / 2 + 1) j exist (by omega) hj (by omega)
          (fun k hk => by
            rcases Nat.eq_or_lt_of_le (Nat.lt_succ_iff.mp hk) with e | e
            · rw [e]; exact hb2
            · exact lt_trans (sorted_getD_lt hs e hhl) hb2)
          hhi hex
    · have e : i = j := by omega
      subst e
      rw [searchLoop_done]
      exact ⟨hj, hlo, hhi, hex⟩

theorem search_spec (l : List Int) (t : Int) (hs : l.Sorted (· < ·)) :
    SearchPost l t (sort.Search l.length (runAtProbe l t) false) :=
  searchLoop_spec l t hs l.length 0 l.length false (Nat.zero_le _)
    (le_refl _) (by omega) (fun k hk => absurd hk (Nat.not_lt_zero k))
    (fun k hk hkl => absurd hkl (by omega)) (by simp)

theorem insertRunAt_eq (runAt : List Int) (t : Int) :
    scheduler.insertRunAt runAt t =
      if runAt.length = 0 then runAt ++ [t]
      else if (sort.Search runAt.length (runAtProbe runAt t) false).2 then runAt
      else runAt.take (sort.Search runAt.length (runAtProbe runAt t) false).1 ++
        t :: runAt.drop (sort.Search runAt.length (runAtProbe runAt t) false).1 := rfl

theorem mem_take_getD {l : List Int} {k : Nat} {x : Int} (h : x ∈ l.take k) :
    ∃ a, a < k ∧ a < l.length ∧ l.getD a 0 = x := by
  obtain ⟨a, ha, e⟩ := List.mem_iff_getElem.mp h
  rw [List.length_take] at ha
  refine ⟨a, by omega, by omega, ?_⟩
  rw [List.getD_eq_getElem l 0 (by omega)]
  rw [List.getElem_take] at e
  exact e

theorem mem_drop_getD {l : List Int} {k : Nat} {x : Int} (h : x ∈ l.drop k) :
    ∃ a, k ≤ a ∧ a < l.length ∧ l.getD a 0 = x := by
  obtain ⟨a, ha, e⟩ := List.mem_iff_getElem.mp h
  rw [List.length_drop] at ha
  refine ⟨k + a, by omega, by omega, ?_⟩
  rw [List.getD_eq_getElem l 0 (by omega)]
  rw [List.getElem_drop] at e
  exact e

theorem insertRunAt_sorted (runAt : List Int) (t : Int)
    (hs : runAt.Sorted (· < ·)) :
    (scheduler.insertRunAt runAt t).Sorted (· < ·) ∧
      ∀ x, x ∈ scheduler.insertRunAt runAt t ↔ x = t ∨ x ∈ runAt := by
  rw [insertRunAt_eq]
  by_cases h0 : runAt.length = 0
  · have : runAt = [] := List.length_eq_zero.mp h0
    subst this
    simp
  · rw [if_neg h0]
    have spec := search_spec runAt t hs
    generalize sort.Search runAt.length (runAtProbe runAt t) false = r at spec ⊢
    obtain ⟨hle, hlo, hhi, hex⟩ := spec
    by_cases hr : r.2 = true
    · rw [if_pos hr]
      refine ⟨hs, fun x => ⟨fun h => Or.inr h, fun h => ?_⟩⟩
      rcases h with h | h
      · obtain ⟨hl, e⟩ := hex.mp hr
        rw [h, ← e, List.getD_eq_getElem runAt 0 hl]
        exact List.getElem_mem hl
      · exact h
    · rw [if_neg hr]
      have hnot : ∀ a, a < runAt.length → runAt.getD a 0 ≠ t := by
        intro a ha e
        rcases Nat.lt_or_ge a r.1 with h | h
        · have := hlo a h; omega
        · rcases Nat.eq_or_lt_of_le h with e2 | e2
          · exact hr (hex.mpr ⟨by omega, by rw [e2]; exact e⟩)
          · have h1 := hhi r.1 (le_refl _) (by omega)
            have h2 := sorted_getD_lt hs e2 ha
            omega
      constructor
      · have hsplit : runAt.take r.1 ++ runAt.drop r.1 = runAt := List.take_append_drop _ _
        have hs' : (runAt.take r.1 ++ runAt.drop r.1).Sorted (· < ·) := by rw [hsplit]; exact hs
        obtain ⟨p1, p2, p3⟩ := List.pairwise_append.mp hs'
        refine List.pairwise_append.mpr ⟨p1, List.pairwise_cons.mpr ⟨?_, p2⟩, ?_⟩
        · intro b hb
          obtain ⟨a, ha, hal, e⟩ := mem_drop_getD hb
          have h1 := hhi a ha hal
          have h2 := hnot a hal
          rw [← e]
          exact lt_of_le_of_ne h1 (Ne.symm h2)
        · intro a ha b hb
          rcases List.mem_cons.mp hb with e | hb
          · obtain ⟨k, hk, _, e2⟩ := mem_take_getD ha
            have := hlo k hk
            rw [e, ← e2]
            exact this
          · exact p3 a ha b hb
      · intro x
        constructor
        · intro h
          rcases List.mem_append.mp h with h | h
          · exact Or.inr (List.mem_of_mem_take h)
          · rcases List.mem_cons.mp h with h | h
            · exact Or.inl h
            · exact Or.inr (List.mem_of_mem_drop h)
        · intro h
          rcases h with h | h
          · simp [h]
          · have : x ∈ runAt.take r.1 ++ runAt.drop r.1 := by
              rw [List.take_append_drop]; exact h
            rcases List.mem_append.mp this with h | h
            · exact List.mem_append.mpr (Or.inl h)
            · exact List.mem_append.mpr (Or.inr (List.mem_cons_of_mem _ h))

theorem digitChar_facts (d : Nat) (h : d < 10) :
    isDigit (digitChar d) = true ∧ digitVal (digitChar d) = d ∧ digitChar d ≠ ':' ∧
      digitChar d ≠ ' ' ∧ digitChar d ≠ ';' ∧ digitChar d ≠ '\n' := by
  interval_cases d <;> decide

theorem getnum_twoDigits (n : Nat) (h : n < 100) (rest : List Char) (fixed : Bool) :
    time.getnum (twoDigits n ++ rest) fixed = some (n, rest) := by
  obtain ⟨a1, a2, _⟩ := digitChar_facts (n / 10) (by omega)
  obtain ⟨b1, b2, _⟩ := digitChar_facts (n % 10) (by omega)
  simp only [twoDigits, time.getnum, List.cons_append, List.nil_append, a1, b1, a2, b2,
    Bool.not_true, Bool.false_eq_true, if_false]
  congr 2
  omega

theorem getnum_twoDigits_nil (n : Nat) (h : n < 100) (fixed : Bool) :
    time.getnum (twoDigits n) fixed = some (n, []) := by
  simpa using getnum_twoDigits n h [] fixed

theorem mem_text (t : TimeOfDay) (hv : t.valid) (x : Char) (hx : x ∈ t.text) :
    x = ':' ∨ ∃ d, d < 10 ∧ x = digitChar d := by
  obtain ⟨h1, h2, h3⟩ := hv
  rcases ht : t.second with _ | s
  · simp only [TimeOfDay.text, ht, twoDigits, List.cons_append, List.nil_append,
      List.append_nil, List.mem_cons, List.not_mem_nil, or_false] at hx
    rcases hx with e | e | e | e | e
    · exact Or.inr ⟨_, by omega, e⟩
    · exact Or.inr ⟨_, by omega, e⟩
    · exact Or.inl e
    · exact Or.inr ⟨_, by omega, e⟩
    · exact Or.inr ⟨_, by omega, e⟩
  · have : s < 60 := by simpa [ht] using h3
    simp only [TimeOfDay.text, ht, twoDigits, List.cons_append, List.nil_append,
      List.mem_cons, List.not_mem_nil, or_false] at hx
    rcases hx with e | e | e | e | e | e | e | e
    · exact Or.inr ⟨_, by omega, e⟩
    · exact Or.inr ⟨_, by omega, e⟩
    · exact Or.inl e
    · exact Or.inr ⟨_, by omega, e⟩
    · exact Or.inr ⟨_, by omega, e⟩
    · exact Or.inl e
    · exact Or.inr ⟨_, by omega, e⟩
    · exact Or.inr ⟨_, by omega, e⟩

theorem text_no_sep (t : TimeOfDay) (hv : t.valid) (c : Char)
    (hc : c = ' ' ∨ c = ';' ∨ c = '\n') : c ∉ t.text := by
  intro hmem
  rcases mem_text t hv c hmem with e | ⟨d, hd, e⟩
  · rcases hc with h | h | h <;> rw [h] at e <;> exact absurd e (by decide)
  · obtain ⟨_, _, _, a4, a5, a6⟩ := digitChar_facts d hd
    rcases hc with h | h | h
    · exact a4 (e.symm.trans h)
    · exact a5 (e.symm.trans h)
    · exact a6 (e.symm.trans h)

theorem parseTime_text (t : TimeOfDay) (hv : t.valid) :
    scheduler.parseTime t.text = .ok (t.hour, t.minute, t.second.getD 0) := by
  have hnl : strings.Split t.text '\n' = [t.text] :=
    split_of_not_mem _ _ (text_no_sep t hv _ (Or.inr (Or.inr rfl)))
  obtain ⟨h1, h2, h3⟩ := hv
  obtain ⟨a1, _, _⟩ := digitChar_facts (t.hour / 10) (by omega)
  obtain ⟨b1, _, _⟩ := digitChar_facts (t.hour % 10) (by omega)
  obtain ⟨c1, _, _⟩ := digitChar_facts (t.minute / 10) (by omega)
  obtain ⟨d1, _, _⟩ := digitChar_facts (t.minute % 10) (by omega)
  unfold scheduler.parseTime timeWithSeconds.Match timeWithoutSeconds.Match
  rw [hnl]
  rcases ht : t.second with _ | s
  · have e : t.text = twoDigits t.hour ++ ':' :: twoDigits t.minute := by
      simp [TimeOfDay.text, ht]
    have m1 : lineTimeWithSeconds t.text = false := by
      rw [e]; simp [twoDigits, lineTimeWithSeconds]
    have m2 : lineTimeWithoutSeconds t.text = true := by
      rw [e]; simp [twoDigits, lineTimeWithoutSeconds, a1, b1, c1, d1]
    have p : time.Parse false t.text = some (t.hour, t.minute, 0) := by
      rw [e]
      simp [time.Parse, getnum_twoDigits _ (show t.hour < 100 by omega),
        getnum_twoDigits_nil _ (show t.minute < 100 by omega), time.skipColon]
      omega
    simp [m1, m2, p]
  · have hs : s < 60 := by simpa [ht] using h3
    obtain ⟨e1, _, _⟩ := digitChar_facts (s / 10) (by omega)
    obtain ⟨f1, _, _⟩ := digitChar_facts (s % 10) (by omega)
    have e : t.text = twoDigits t.hour ++ ':' :: (twoDigits t.minute ++ ':' :: twoDigits s) := by
      simp [TimeOfDay.text, ht]
    have m1 : lineTimeWithSeconds t.text = true := by
      rw [e]; simp [twoDigits, lineTimeWithSeconds, a1, b1, c1, d1, e1, f1]
    have p : time.Parse true t.text = some (t.hour, t.minute, s) := by
      rw [e]
      simp [time.Parse, getnum_twoDigits _ (show t.hour < 100 by omega),
        getnum_twoDigits _ (show t.minute < 100 by omega),
        getnum_twoDigits_nil _ (show s < 100 by omega), time.skipColon, time.skipFraction]
      omega
    simp [m1, p]

theorem mem_intercalate (sep : Char) (c : Char) :
    ∀ (ls : List (List Char)), c ∈ [sep].intercalate ls → c = sep ∨ ∃ l ∈ ls, c ∈ l
  | [], h => by simp [List.intercalate] at h
  | [l], h => by
    have : c ∈ l := by simpa [List.intercalate] using h
    exact Or.inr ⟨l, by simp, this⟩
  | l :: l2 :: rest, h => by
    have e : [sep].intercalate (l :: l2 :: rest) = l ++ sep :: [sep].intercalate (l2 :: rest) := by
      simp [List.intercalate, List.intersperse]
    rw [e] at h
    rcases List.mem_append.mp h with h | h
    · exact Or.inr ⟨l, by simp, h⟩
    · rcases List.mem_cons.mp h with h | h
      · exact Or.inl h
      · rcases mem_intercalate sep c (l2 :: rest) h with h | ⟨x, hx, hc⟩
        · exact Or.inl h
        · exact Or.inr ⟨x, List.mem_cons_of_mem _ hx, hc⟩

theorem fresh_task (loc deviceID : List Char) (request : CreateScheduledTaskRequest) :
    (scheduler.NewScheduledTask loc deviceID request).TaskInfo.RunAt = [] ∧
    (scheduler.NewScheduledTask loc deviceID request).TaskInfo.Unit = 0 ∧
    (scheduler.NewScheduledTask loc deviceID request).TaskInfo.Interval = 0 ∧
    (scheduler.NewScheduledTask loc deviceID request).TaskInfo.Duration = 0 ∧
    (scheduler.NewScheduledTask loc deviceID request).TaskInfo.ScheduledWeekdays = [] ∧
    (scheduler.NewScheduledTask loc deviceID request).TaskInfo.ScheduledDaysOfTheMonth = [] := by
  simp only [scheduler.NewScheduledTask]
  split <;> exact ⟨rfl, rfl, rfl, rfl, rfl, rfl⟩

theorem atLoop_texts (ts : List TimeOfDay) (hv : ∀ t ∈ ts, t.valid) :
    ∀ (s : ScheduledTask), s.atLoop (ts.map TimeOfDay.text) =
      (ts.map TimeOfDay.offset).foldl ScheduledTask.addRunAtTime s := by
  induction ts with
  | nil => intro s; rfl
  | cons t rest ih =>
    intro s
    have hp := parseTime_text t (hv t (by simp))
    simp only [List.map_cons, ScheduledTask.atLoop, hp, List.foldl_cons]
    rw [ih (fun x hx => hv x (List.mem_cons_of_mem _ hx))]
    rfl

theorem foldl_addRunAtTime (ds : List Duration) :
    ∀ (s : ScheduledTask), (ds.foldl ScheduledTask.addRunAtTime s).error = s.error ∧
      (ds.foldl ScheduledTask.addRunAtTime s).TaskInfo.RunAt =
        ds.foldl scheduler.insertRunAt s.TaskInfo.RunAt := by
  induction ds with
  | nil => intro s; exact ⟨rfl, rfl⟩
  | cons d rest ih =>
    intro s
    simp only [List.foldl_cons]
    obtain ⟨h1, h2⟩ := ih (s.addRunAtTime d)
    exact ⟨h1, h2⟩

theorem foldl_insertRunAt_sorted (ds : List Int) :
    ∀ (l : List Int), l.Sorted (· < ·) →
      (ds.foldl scheduler.insertRunAt l).Sorted (· < ·) ∧
        ∀ x, x ∈ ds.foldl scheduler.insertRunAt l ↔ x ∈ ds ∨ x ∈ l := by
  induction ds with
  | nil => intro l hl; simp [hl]
  | cons d rest ih =>
    intro l hl
    obtain ⟨h1, h2⟩ := insertRunAt_sorted l d hl
    obtain ⟨h3, h4⟩ := ih _ h1
    refine ⟨h3, fun x => ?_⟩
    rw [List.foldl_cons, h4 x, h2 x, List.mem_cons]
    tauto

theorem parseSchedule_at (lib : Lib) (now1 now2 : Time) (s : ScheduledTask)
    (ts : List TimeOfDay) (hne : ts ≠ []) (hv : ∀ t ∈ ts, t.valid) :
    s.ParseSchedule lib now1 now2 (atSchedule ts) =
      .value ((ts.map TimeOfDay.offset).foldl ScheduledTask.addRunAtTime s) := by
  have hsp : ' ' ∉ [';'].intercalate (ts.map TimeOfDay.text) := by
    intro h
    rcases mem_intercalate _ _ _ h with h | ⟨l, hl, hc⟩
    · exact absurd h (by decide)
    · obtain ⟨t, ht, rfl⟩ := List.mem_map.mp hl
      exact text_no_sep t (hv t ht) ' ' (Or.inl rfl) hc
  have hsplit : strings.Split (atSchedule ts) ' ' =
      [['a', 't'], [';'].intercalate (ts.map TimeOfDay.text)] := by
    have := split_append_sep ' ' ([';'].intercalate (ts.map TimeOfDay.text)) ['a', 't']
      (by decide)
    rw [split_of_not_mem _ _ hsp] at this
    exact this
  have hsemi : strings.Split ([';'].intercalate (ts.map TimeOfDay.text)) ';' =
      ts.map TimeOfDay.text :=
    split_intercalate ';' _ (by simpa using hne) (fun l hl => by
      obtain ⟨t, ht, rfl⟩ := List.mem_map.mp hl
      exact text_no_sep t (hv t ht) ';' (Or.inr (Or.inl rfl)))
  have hnow : ¬ (atSchedule ts = [] ∨
      strings.ToLower lib (atSchedule ts) = common.SchedulingFrequencyNow) := by
    intro h
    rcases h with h | h
    · simp [atSchedule] at h
    · have := congrArg List.head? h
      simp [atSchedule, strings.ToLower, unicode.ToLower, common.SchedulingFrequencyNow] at this
  have hkind : strings.ToLower lib ['a', 't'] = ['a', 't'] := by
    simp [strings.ToLower, unicode.ToLower]
  unfold ScheduledTask.ParseSchedule
  rw [if_neg hnow, hsplit]
  simp only [List.length_cons, List.length_nil, List.getD_cons_zero, List.getD_cons_succ, hkind]
  have e1 : ¬ (['a', 't'] = common.SchedulingFrequencyEvery) := by decide
  have e2 : ['a', 't'] = common.SchedulingFrequencyAt := by decide
  rw [if_neg (show ¬ (0 + 1 + 1 < 2) by omega), if_neg e1, if_pos e2]
  unfold ScheduledTask.AtString
  rw [hsemi, atLoop_texts ts hv]

/-! ## The schedule grammar -/

/-- C1: for every schedule string `at T1;…;Tk` (k ≥ 1) whose times are valid
`HH:MM` or `HH:MM:SS` times of day, `ParseSchedule` on a freshly constructed
task records no error and leaves `run_at` strictly ascending with exactly the
offsets from midnight of `T1 … Tk` as its elements, whatever their order and
multiplicity; `at 09:30;12:00` and `at 12:00;09:30;12:00` both give
`[9h30m, 12h00m]`. -/
theorem parseSchedule_at_run_at_sorted_unique (lib : Lib) (now1 now2 : Time)
    (loc deviceID : List Char) (request : CreateScheduledTaskRequest)
    (hfresh : (scheduler.NewScheduledTask loc deviceID request).error = none) :
    (∀ ts : List TimeOfDay, ts ≠ [] → (∀ t ∈ ts, t.valid) →
      ((scheduler.NewScheduledTask loc deviceID request).ParseSchedule lib now1 now2
          (atSchedule ts)).Returns (fun parsed =>
        parsed.error = none ∧
        parsed.TaskInfo.RunAt.Sorted (· < ·) ∧
        ∀ d, d ∈ parsed.TaskInfo.RunAt ↔ d ∈ ts.map TimeOfDay.offset)) ∧
    ((scheduler.NewScheduledTask loc deviceID request).ParseSchedule lib now1 now2
        "at 09:30;12:00".toList).Returns (fun parsed =>
      parsed.TaskInfo.RunAt = [9 * time.Hour + 30 * time.Minute, 12 * time.Hour]) ∧
    ((scheduler.NewScheduledTask loc deviceID request).ParseSchedule lib now1 now2
        "at 12:00;09:30;12:00".toList).Returns (fun parsed =>
      parsed.TaskInfo.RunAt = [9 * time.Hour + 30 * time.Minute, 12 * time.Hour]) := by
  have hrun := (fresh_task loc deviceID request).1
  refine ⟨fun ts hne hv => ?_, ?_, ?_⟩
  · rw [parseSchedule_at lib now1 now2 _ ts hne hv]
    show _ ∧ _ ∧ _
    obtain ⟨h1, h2⟩ := foldl_addRunAtTime (ts.map TimeOfDay.offset)
      (scheduler.NewScheduledTask loc deviceID request)
    rw [h1, h2, hrun]
    obtain ⟨h3, h4⟩ := foldl_insertRunAt_sorted (ts.map TimeOfDay.offset) [] List.sorted_nil
    exact ⟨hfresh, h3, fun d => by rw [h4 d]; simp⟩
  · have e : "at 09:30;12:00".toList = atSchedule [⟨9, 30, none⟩, ⟨12, 0, none⟩] := by decide
    rw [e, parseSchedule_at lib now1 now2 _ _ (by simp) (by decide)]
    show _ = _
    rw [(foldl_addRunAtTime _ _).2, hrun]
    decide
  · have e : "at 12:00;09:30;12:00".toList =
        atSchedule [⟨12, 0, none⟩, ⟨9, 30, none⟩, ⟨12, 0, none⟩] := by decide
    rw [e, parseSchedule_at lib now1 now2 _ _ (by simp) (by decide)]
    show _ = _
    rw [(foldl_addRunAtTime _ _).2, hrun]
    decide

/-- Witness for C1 on the sample request: the task is fresh and the schedule
`at 12:00;09:30:15;12:00` yields the two offsets in ascending order. -/
theorem parseSchedule_at_run_at_sorted_unique_witness :
    sampleTask.error = none ∧
    (sampleTask.ParseSchedule Lib.plain sampleTime sampleTime
      (atSchedule [⟨12, 0, none⟩, ⟨9, 30, some 15⟩, ⟨12, 0, none⟩])).Returns (fun parsed =>
        parsed.error = none ∧
        parsed.TaskInfo.RunAt.Sorted (· < ·) ∧
        ∀ d, d ∈ parsed.TaskInfo.RunAt ↔
          d ∈ [(⟨12, 0, none⟩ : TimeOfDay), ⟨9, 30, some 15⟩, ⟨12, 0, none⟩].map
            TimeOfDay.offset) ∧
    (sampleTask.ParseSchedule Lib.plain sampleTime sampleTime
      "at 09:30;12:00".toList).Returns (fun parsed =>
        parsed.TaskInfo.RunAt = [9 * time.Hour + 30 * time.Minute, 12 * time.Hour]) :=
  ⟨by decide,
   (parseSchedule_at_run_at_sorted_unique Lib.plain sampleTime sampleTime "UTC".toList
      sampleDevice sampleRequest (by decide)).1 _ (by simp) (by decide),
   (parseSchedule_at_run_at_sorted_unique Lib.plain sampleTime sampleTime "UTC".toList
      sampleDevice sampleRequest (by decide)).2.1⟩

theorem lower_letter (lib : Lib) (t : Char) (h : 97 ≤ t.toNat ∧ t.toNat ≤ 122) :
    unicode.ToLower lib t = t ∧ unicode.ToLower lib (Char.ofNat (t.toNat - 32)) = t ∧
      t ≠ ' ' ∧ Char.ofNat (t.toNat - 32) ≠ ' ' := by
  have e : t = Char.ofNat t.toNat := (Char.ofNat_toNat t).symm
  obtain ⟨h1, h2⟩ := h
  generalize t.toNat = n at e h1 h2
  subst e
  interval_cases n <;> simp [unicode.ToLower]

theorem caseVariant_lower (lib : Lib) :
    ∀ (kw target : List Char), caseVariant kw target = true →
      (∀ t ∈ target, 97 ≤ t.toNat ∧ t.toNat ≤ 122) →
      strings.ToLower lib kw = target ∧ ' ' ∉ kw
  | [], [], _, _ => by simp [strings.ToLower]
  | [], _ :: _, h, _ => by simp [caseVariant] at h
  | _ :: _, [], h, _ => by simp [caseVariant] at h
  | c :: cs, t :: ts, h, hl => by
    simp only [caseVariant, Bool.and_eq_true, decide_eq_true_eq] at h
    obtain ⟨hc, hrest⟩ := h
    obtain ⟨ih1, ih2⟩ := caseVariant_lower lib cs ts hrest
      (fun x hx => hl x (List.mem_cons_of_mem _ hx))
    obtain ⟨l1, l2, l3, l4⟩ := lower_letter lib t (hl t (by simp))
    have ih1' : List.map (unicode.ToLower lib) cs = ts := ih1
    rcases hc with e | e
    · subst e
      refine ⟨by simp [strings.ToLower, l1, ih1'], ?_⟩
      intro hm
      rcases List.mem_cons.mp hm with h | h
      · exact l3 h.symm
      · exact ih2 h
    · subst e
      refine ⟨by simp [strings.ToLower, l2, ih1'], ?_⟩
      intro hm
      rcases List.mem_cons.mp hm with h | h
      · exact l4 h.symm
      · exact ih2 h

theorem atoi_of_not_decimal (d : List Char) (h : isDecimalInteger d = false) :
    strconv.Atoi d = none := by
  unfold isDecimalInteger at h
  unfold strconv.Atoi
  simp only [Bool.and_eq_false_iff, decide_eq_false_iff_not, ne_eq, not_not] at h
  rcases h with h | h
  · simp [h]
  · simp [h]

theorem setSchedulingUnit_unset (s : ScheduledTask) (unit : SchedulingUnit)
    (h : s.TaskInfo.Unit ≠ common.Duration ∧ s.TaskInfo.Unit ≠ common.Crontab) :
    s.setSchedulingUnit unit = { s with TaskInfo := { s.TaskInfo with Unit := unit } } := by
  unfold ScheduledTask.setSchedulingUnit
  simp [h.1, h.2]

theorem split_three (a b : List Char) (ha : ' ' ∉ a) (hb : ' ' ∉ b) :
    strings.Split (a ++ ' ' :: b) ' ' = [a, b] := by
  rw [split_append_sep ' ' b a ha, split_of_not_mem ' ' b hb]

theorem not_now (lib : Lib) (kw rest : List Char) (target : List Char)
    (hk : strings.ToLower lib kw = target) (hne : target ≠ []) (hnow : target.head? ≠ some 'n') :
    ¬ (kw ++ rest = [] ∨ strings.ToLower lib (kw ++ rest) = common.SchedulingFrequencyNow) := by
  intro h
  cases kw with
  | nil => simp [strings.ToLower] at hk; exact hne hk
  | cons c cs =>
    rcases h with h | h
    · simp at h
    · have h1 := congrArg List.head? h
      have h2 := congrArg List.head? hk
      simp [strings.ToLower, common.SchedulingFrequencyNow] at h1 h2
      rw [h1] at h2
      exact hnow h2.symm

/-- C2: for every token `d` that is not a decimal integer and that
`time.ParseDuration` accepts with value `v`, `ParseSchedule("every d")` — the
keyword in any letter case — on a freshly constructed task records no error,
sets `unit = duration` and `duration = v` and leaves `interval` at 0; in
particular `every 2h` gives `unit = duration`, `duration = 2h`. -/
theorem parseSchedule_every_duration (lib : Lib) (now1 now2 : Time)
    (loc deviceID : List Char) (request : CreateScheduledTaskRequest)
    (hfresh : (scheduler.NewScheduledTask loc deviceID request).error = none) :
    (∀ (kw d : List Char) (v : Duration), caseVariant kw "every".toList = true →
      ' ' ∉ d → isDecimalInteger d = false → time.ParseDuration lib d = some v →
      ((scheduler.NewScheduledTask loc deviceID request).ParseSchedule lib now1 now2
          (kw ++ ' ' :: d)).Returns (fun parsed =>
        parsed.error = none ∧
        parsed.TaskInfo.Unit = common.Duration ∧
        parsed.TaskInfo.Duration = v ∧
        parsed.TaskInfo.Interval = 0)) ∧
    ((scheduler.NewScheduledTask loc deviceID request).ParseSchedule lib now1 now2
        "every 2h".toList).Returns (fun parsed =>
      parsed.TaskInfo.Unit = common.Duration ∧
      parsed.TaskInfo.Duration = 2 * time.Hour) := by
  obtain ⟨_, hunit, hint, _, _, _⟩ := fresh_task loc deviceID request
  have general : ∀ (kw d : List Char) (v : Duration), caseVariant kw "every".toList = true →
      ' ' ∉ d → isDecimalInteger d = false → time.ParseDuration lib d = some v →
      (scheduler.NewScheduledTask loc deviceID request).ParseSchedule lib now1 now2
          (kw ++ ' ' :: d) =
        .value { scheduler.NewScheduledTask loc deviceID request with
          TaskInfo := { (scheduler.NewScheduledTask loc deviceID request).TaskInfo with
            Duration := v, Unit := common.Duration } } := by
    intro kw d v hkw hsp hdec hdur
    obtain ⟨hlow, hkwsp⟩ := caseVariant_lower lib kw _ hkw (by decide)
    have hnow := not_now lib kw (' ' :: d) _ hlow (by decide) (by decide)
    unfold ScheduledTask.ParseSchedule
    rw [if_neg hnow, split_three kw d hkwsp hsp]
    simp only [List.length_cons, List.length_nil, List.getD_cons_zero, List.getD_cons_succ, hlow,
      atoi_of_not_decimal d hdec]
    rw [if_neg (show ¬ (0 + 1 + 1 < 2) by omega), if_pos (by decide),
      if_neg (show ¬ (0 + 1 + 1 > 2) by omega)]
    unfold ScheduledTask.EveryString
    simp only [hdur, Option.getD_some]
    rw [setSchedulingUnit_unset _ _ (by rw [hunit]; decide)]
  refine ⟨fun kw d v hkw hsp hdec hdur => ?_, ?_⟩
  · rw [general kw d v hkw hsp hdec hdur]
    exact ⟨hfresh, rfl, rfl, hint⟩
  · have := general "every".toList "2h".toList (2 * time.Hour) (by decide) (by decide) (by decide)
      (by rfl)
    have e : "every 2h".toList = "every".toList ++ ' ' :: "2h".toList := by decide
    rw [e, this]
    exact ⟨rfl, rfl⟩

/-- Witness for C2 on the sample request with the schedule of the REST test,
`Every 1h`. -/
theorem parseSchedule_every_duration_witness :
    sampleTask.error = none ∧ caseVariant "Every".toList "every".toList = true ∧
    ' ' ∉ "1h".toList ∧ isDecimalInteger "1h".toList = false ∧
    time.ParseDuration Lib.plain "1h".toList = some time.Hour ∧
    (sampleTask.ParseSchedule Lib.plain sampleTime sampleTime "Every 1h".toList).Returns
      (fun parsed =>
        parsed.error = none ∧
        parsed.TaskInfo.Unit = common.Duration ∧
        parsed.TaskInfo.Duration = time.Hour ∧
        parsed.TaskInfo.Interval = 0) :=
  ⟨by decide, by decide, by decide, by decide, by decide,
   (parseSchedule_every_duration Lib.plain sampleTime sampleTime "UTC".toList sampleDevice
      sampleRequest (by decide)).1 "Every".toList "1h".toList time.Hour (by decide) (by decide)
      (by decide) (by decide)⟩

theorem atoi_body (n : List Char) (N : Int) (h : strconv.Atoi n = some N) :
    (if n.head? = some '-' ∨ n.head? = some '+' then n.tail else n) ≠ [] ∧
      (if n.head? = some '-' ∨ n.head? = some '+' then n.tail else n).all isDigit = true := by
  unfold strconv.Atoi at h
  dsimp only at h
  generalize (if n.head? = some '-' ∨ n.head? = some '+' then n.tail else n) = body at h ⊢
  by_cases hb : body = []
  · rw [if_pos hb] at h; exact absurd h (by simp)
  · rw [if_neg hb] at h
    by_cases hd : body.all isDigit = true
    · exact ⟨hb, hd⟩
    · rw [if_neg hd] at h; exact absurd h (by simp)

theorem atoi_no_space (n : List Char) (N : Int) (h : strconv.Atoi n = some N) : ' ' ∉ n := by
  obtain ⟨_, hall⟩ := atoi_body n N h
  have hd : ∀ c ∈ (if n.head? = some '-' ∨ n.head? = some '+' then n.tail else n),
      c ≠ ' ' := by
    intro c hc e
    have := List.all_eq_true.mp hall c hc
    rw [e] at this
    exact absurd this (by decide)
  intro hmem
  cases n with
  | nil => simp at hmem
  | cons c cs =>
    by_cases hs : (c :: cs).head? = some '-' ∨ (c :: cs).head? = some '+'
    · rw [if_pos hs] at hd
      rcases List.mem_cons.mp hmem with e | e
      · simp only [List.head?_cons, Option.some.injEq] at hs
        rcases hs with h1 | h1 <;> rw [h1] at e <;> exact absurd e (by decide)
      · exact hd ' ' e rfl
    · rw [if_neg hs] at hd
      exact hd ' ' hmem rfl

theorem unitKeywords_letters :
    ∀ e ∈ unitKeywords, (∀ t ∈ e.1, 97 ≤ t.toNat ∧ t.toNat ≤ 122) ∧ e.1 ≠ "monthdays".toList := by
  decide

/-- The effect of a unit keyword on a task whose unit is unset and that has no
weekdays yet. -/
theorem unit_keyword_effect (s : ScheduledTask) (hu : s.TaskInfo.Unit = 0)
    (hw : s.TaskInfo.ScheduledWeekdays = []) (kw : List Char) (unit : SchedulingUnit)
    (wd : List Weekday) (hmem : (kw, unit, wd) ∈ unitKeywords) :
    ∃ fn, scheduler.schedulingUnitLookupTable kw = some fn ∧ (fn s).error = s.error ∧
      (fn s).TaskInfo.Unit = unit ∧ (fn s).TaskInfo.ScheduledWeekdays = wd ∧
      (fn s).TaskInfo.Interval = s.TaskInfo.Interval := by
  have hset : ∀ (t : ScheduledTask) (u : SchedulingUnit), t.TaskInfo.Unit = 0 →
      t.setSchedulingUnit u = { t with TaskInfo := { t.TaskInfo with Unit := u } } :=
    fun t u ht => setSchedulingUnit_unset t u (by rw [ht]; decide)
  have hday : ∀ d : Weekday, (s.Weekday d).error = s.error ∧
      (s.Weekday d).TaskInfo.Unit = common.Weeks ∧
      (s.Weekday d).TaskInfo.ScheduledWeekdays = [d] ∧
      (s.Weekday d).TaskInfo.Interval = s.TaskInfo.Interval := by
    intro d
    unfold ScheduledTask.Weekday
    simp only [hw, scheduler.in, List.any_nil, Bool.not_false, if_true, List.nil_append]
    rw [hset _ _ (by exact hu)]
    exact ⟨rfl, rfl, rfl, rfl⟩
  have hunit : ∀ u : SchedulingUnit, (s.setSchedulingUnit u).error = s.error ∧
      (s.setSchedulingUnit u).TaskInfo.Unit = u ∧
      (s.setSchedulingUnit u).TaskInfo.ScheduledWeekdays = [] ∧
      (s.setSchedulingUnit u).TaskInfo.Interval = s.TaskInfo.Interval := by
    intro u
    rw [hset _ _ hu]
    exact ⟨rfl, rfl, hw, rfl⟩
  simp only [unitKeywords, List.mem_cons, Prod.mk.injEq, List.mem_singleton, List.not_mem_nil,
    or_false] at hmem
  rcases hmem with h | h | h | h | h | h | h | h | h | h | h | h | h | h | h | h | h | h | h <;>
    obtain ⟨rfl, rfl, rfl⟩ := h
  · exact ⟨ScheduledTask.Millisecond, rfl, hunit _⟩
  · exact ⟨ScheduledTask.Milliseconds, rfl, hunit _⟩
  · exact ⟨ScheduledTask.Second, rfl, hunit _⟩
  · exact ⟨ScheduledTask.Seconds, rfl, hunit _⟩
  · exact ⟨ScheduledTask.Minute, rfl, hunit _⟩
  · exact ⟨ScheduledTask.Minutes, rfl, hunit _⟩
  · exact ⟨ScheduledTask.Hour, rfl, hunit _⟩
  · exact ⟨ScheduledTask.Hours, rfl, hunit _⟩
  · exact ⟨ScheduledTask.Day, rfl, hunit _⟩
  · exact ⟨ScheduledTask.Days, rfl, hunit _⟩
  · exact ⟨ScheduledTask.Week, rfl, hunit _⟩
  · exact ⟨ScheduledTask.Weeks, rfl, hunit _⟩
  · exact ⟨ScheduledTask.Monday, rfl, hday _⟩
  · exact ⟨ScheduledTask.Tuesday, rfl, hday _⟩
  · exact ⟨ScheduledTask.Wednesday, rfl, hday _⟩
  · exact ⟨ScheduledTask.Thursday, rfl, hday _⟩
  · exact ⟨ScheduledTask.Friday, rfl, hday _⟩
  · exact ⟨ScheduledTask.Saturday, rfl, hday _⟩
  · exact ⟨ScheduledTask.Sunday, rfl, hday _⟩

theorem split_every (a b c : List Char) (ha : ' ' ∉ a) (hb : ' ' ∉ b) (hc : ' ' ∉ c) :
    strings.Split (a ++ ' ' :: (b ++ ' ' :: c)) ' ' = [a, b, c] := by
  rw [split_append_sep ' ' _ a ha, split_append_sep ' ' _ b hb, split_of_not_mem ' ' c hc]

/-- C3: for every integer `N` of Go's `int`, written as any text that
`strconv.Atoi` reads as `N`, and every unit keyword in any letter case,
`ParseSchedule("every N <keyword>")` on a freshly constructed task sets
`interval = N`, sets the unit the keyword names (singular and plural agree;
a weekday name gives `unit = weeks` and `weekdays = [that weekday]`), records no
error when `N ≥ 1` and records the invalid-interval error when `N ≤ 0`. -/
theorem parseSchedule_every_interval_unit (lib : Lib) (now1 now2 : Time)
    (loc deviceID : List Char) (request : CreateScheduledTaskRequest)
    (hfresh : (scheduler.NewScheduledTask loc deviceID request).error = none)
    (every n k kw : List Char) (N : Int) (unit : SchedulingUnit) (wd : List Weekday)
    (hevery : caseVariant every "every".toList = true)
    (hn : strconv.Atoi n = some N) (hmem : (kw, unit, wd) ∈ unitKeywords)
    (hk : caseVariant k kw = true) :
    ((scheduler.NewScheduledTask loc deviceID request).ParseSchedule lib now1 now2
        (every ++ ' ' :: (n ++ ' ' :: k))).Returns (fun parsed =>
      parsed.TaskInfo.Interval = N ∧
      parsed.TaskInfo.Unit = unit ∧
      parsed.TaskInfo.ScheduledWeekdays = wd ∧
      (1 ≤ N → parsed.error = none) ∧
      (N ≤ 0 → parsed.error = some scheduler.ErrInvalidInterval)) := by
  obtain ⟨_, hunit, _, _, hwd, _⟩ := fresh_task loc deviceID request
  obtain ⟨hlow, hesp⟩ := caseVariant_lower lib every _ hevery (by decide)
  obtain ⟨hletters, hnotmonth⟩ := unitKeywords_letters _ hmem
  obtain ⟨hklow, hksp⟩ := caseVariant_lower lib k kw hk hletters
  have hnow := not_now lib every (' ' :: (n ++ ' ' :: k)) _ hlow (by decide) (by decide)
  generalize hs : scheduler.NewScheduledTask loc deviceID request = s at hfresh hunit hwd ⊢
  have hs1u : (s.EveryInt N).TaskInfo.Unit = 0 := by
    unfold ScheduledTask.EveryInt; dsimp only; split <;> exact hunit
  have hs1w : (s.EveryInt N).TaskInfo.ScheduledWeekdays = [] := by
    unfold ScheduledTask.EveryInt; dsimp only; split <;> exact hwd
  have hs1i : (s.EveryInt N).TaskInfo.Interval = N := by
    unfold ScheduledTask.EveryInt; dsimp only; split <;> rfl
  have hs1e1 : 1 ≤ N → (s.EveryInt N).error = none := by
    intro h1
    unfold ScheduledTask.EveryInt; dsimp only
    rw [if_neg (by omega)]; exact hfresh
  have hs1e2 : N ≤ 0 → (s.EveryInt N).error = some scheduler.ErrInvalidInterval := by
    intro h1
    unfold ScheduledTask.EveryInt; dsimp only
    rw [if_pos h1]
    simp [ScheduledTask.fail, hfresh, scheduler.wrapOrError]
  obtain ⟨fn, hfn, he, hu, hw, hi⟩ := unit_keyword_effect (s.EveryInt N) hs1u hs1w kw unit wd hmem
  have hres : s.ParseSchedule lib now1 now2 (every ++ ' ' :: (n ++ ' ' :: k)) =
      .value (fn (s.EveryInt N)) := by
    unfold ScheduledTask.ParseSchedule
    rw [if_neg hnow, split_every every n k hesp (atoi_no_space n N hn) hksp]
    simp only [List.length_cons, List.length_nil, List.getD_cons_zero, List.getD_cons_succ, hlow,
      hn]
    rw [if_neg (show ¬ (0 + 1 + 1 + 1 < 2) by omega), if_pos (by decide),
      if_pos (show 0 + 1 + 1 + 1 > 2 by omega)]
    unfold ScheduledTask.parseUnit
    simp only [List.getD_cons_zero, List.getD_cons_succ, hklow]
    rw [if_neg hnotmonth, hfn]
  rw [hres]
  exact ⟨hi.trans hs1i, hu, hw, fun h => he.trans (hs1e1 h), fun h => he.trans (hs1e2 h)⟩

/-- Witness for C3: `every 5 Monday` and `every 0 seconds` on the sample task. -/
theorem parseSchedule_every_interval_unit_witness :
    (sampleTask.ParseSchedule Lib.plain sampleTime sampleTime
      "every 5 Monday".toList).Returns (fun parsed =>
        parsed.TaskInfo.Interval = 5 ∧
        parsed.TaskInfo.Unit = common.Weeks ∧
        parsed.TaskInfo.ScheduledWeekdays = [time.Monday] ∧
        ((1 : Int) ≤ 5 → parsed.error = none) ∧
        ((5 : Int) ≤ 0 → parsed.error = some scheduler.ErrInvalidInterval)) ∧
    (sampleTask.ParseSchedule Lib.plain sampleTime sampleTime
      "every 0 seconds".toList).Returns (fun parsed =>
        parsed.TaskInfo.Interval = 0 ∧
        parsed.TaskInfo.Unit = common.Seconds ∧
        parsed.TaskInfo.ScheduledWeekdays = [] ∧
        ((1 : Int) ≤ 0 → parsed.error = none) ∧
        ((0 : Int) ≤ 0 → parsed.error = some scheduler.ErrInvalidInterval)) :=
  ⟨parseSchedule_every_interval_unit Lib.plain sampleTime sampleTime "UTC".toList sampleDevice
      sampleRequest (by decide) "every".toList "5".toList "Monday".toList "monday".toList 5
      common.Weeks [time.Monday] (by decide) (by decide) (by decide) (by decide),
   parseSchedule_every_interval_unit Lib.plain sampleTime sampleTime "UTC".toList sampleDevice
      sampleRequest (by decide) "every".toList "0".toList "seconds".toList "seconds".toList 0
      common.Seconds [] (by decide) (by decide) (by decide) (by decide)⟩

theorem atoi_spec (x : List Char) :
    strconv.Atoi x =
      if isDecimalInteger x = true ∧ -(2 ^ 63 : Int) ≤ decimalIntegerValue x ∧
          decimalIntegerValue x < (2 ^ 63 : Int) then
        some (decimalIntegerValue x)
      else none := by
  unfold strconv.Atoi isDecimalInteger decimalIntegerValue
  dsimp only
  generalize (if x.head? = some '-' ∨ x.head? = some '+' then x.tail else x) = body
  generalize decimalValue 0 body = n
  by_cases hb : body = []
  · simp [hb]
  · by_cases hd : body.all isDigit = true
    · by_cases hneg : x.head? = some '-'
      · simp only [hb, hd, hneg, if_false, if_true, decide_True, ne_eq, not_false_eq_true,
          Bool.and_self, true_and]
        norm_num
        split_ifs <;> first | rfl | (exfalso; omega)
      · simp only [hb, hd, hneg, if_false, if_true, decide_True, decide_False, ne_eq,
          not_false_eq_true, Bool.and_self, true_and, Bool.false_eq_true]
        norm_num
        split_ifs <;> first | rfl | (exfalso; omega)
    · simp [hb, hd]

theorem atoi_some_iff (x : List Char) (v : Int) :
    strconv.Atoi x = some v ↔
      isDecimalInteger x = true ∧ decimalIntegerValue x = v ∧
        -(2 ^ 63 : Int) ≤ v ∧ v < (2 ^ 63 : Int) := by
  rw [atoi_spec]
  constructor
  · intro h
    split_ifs at h with hc
    · have e : decimalIntegerValue x = v := Option.some.inj h
      rw [← e]
      exact ⟨hc.1, rfl, hc.2.1, hc.2.2⟩
  · rintro ⟨h1, h2, h3, h4⟩
    rw [if_pos ⟨h1, by rw [h2]; exact h3, by rw [h2]; exact h4⟩, h2]

theorem fail_error (s : ScheduledTask) (err : GoError) : (s.fail err).error ≠ none := by
  simp [ScheduledTask.fail]

theorem monthsLoop_spec :
    ∀ (days : List Int) (s : ScheduledTask) (seen : List Int),
      s.TaskInfo.ScheduledDaysOfTheMonth = [] →
      (s.monthsLoop seen days).TaskInfo = s.TaskInfo ∧
      ((s.monthsLoop seen days).error = none ↔
        s.error = none ∧ (∀ d ∈ days, 1 ≤ d ∧ d ≤ 28) ∧ days.Nodup ∧ ∀ d ∈ days, d ∉ seen) := by
  intro days
  induction days with
  | nil => intro s seen _; simp [ScheduledTask.monthsLoop]
  | cons d rest ih =>
    intro s seen hs
    unfold ScheduledTask.monthsLoop
    by_cases hr : d < 1 ∨ d > 28
    · rw [if_pos hr]
      refine ⟨rfl, ⟨fun h => absurd h (fail_error _ _), fun h => ?_⟩⟩
      have := h.2.1 d (by simp)
      omega
    · rw [if_neg hr]
      simp only [hs, List.not_mem_nil, if_false]
      by_cases hseen : d ∈ seen
      · rw [if_pos hseen]
        refine ⟨rfl, ⟨fun h => absurd h (fail_error _ _), fun h => ?_⟩⟩
        exact absurd hseen (h.2.2.2 d (by simp))
      · rw [if_neg hseen]
        obtain ⟨h1, h2⟩ := ih s (d :: seen) hs
        refine ⟨h1, ?_⟩
        rw [h2]
        constructor
        · rintro ⟨a, b, c, e⟩
          refine ⟨a, ?_, ?_, ?_⟩
          · intro x hx
            rcases List.mem_cons.mp hx with rfl | hx
            · omega
            · exact b x hx
          · exact List.nodup_cons.mpr ⟨fun hm => e d hm (by simp), c⟩
          · intro x hx
            rcases List.mem_cons.mp hx with rfl | hx
            · exact hseen
            · exact fun hm => e x hx (List.mem_cons_of_mem _ hm)
        · rintro ⟨a, b, c, e⟩
          refine ⟨a, fun x hx => b x (List.mem_cons_of_mem _ hx), (List.nodup_cons.mp c).2, ?_⟩
          intro x hx hm
          rcases List.mem_cons.mp hm with rfl | hm
          · exact (List.nodup_cons.mp c).1 hx
          · exact e x (List.mem_cons_of_mem _ hx) hm

theorem months_spec (s : ScheduledTask) (days : List Int)
    (hd : s.TaskInfo.ScheduledDaysOfTheMonth = []) (hu : s.TaskInfo.Unit = 0) :
    (s.Months days).TaskInfo.Unit = common.Months ∧
    (s.Months days).TaskInfo.ScheduledDaysOfTheMonth = days ∧
    ((s.Months days).error = none ↔ s.error = none ∧ days ≠ [] ∧ validMonthDays days) := by
  have hset : ∀ (t : ScheduledTask) (u : SchedulingUnit), t.TaskInfo.Unit = 0 →
      t.setSchedulingUnit u = { t with TaskInfo := { t.TaskInfo with Unit := u } } :=
    fun t u ht => setSchedulingUnit_unset t u (by rw [ht]; decide)
  unfold ScheduledTask.Months
  match days with
  | [] =>
    dsimp only
    rw [hset _ _ (by exact hu)]
    refine ⟨rfl, by simpa using hd, ?_⟩
    simp [ScheduledTask.fail]
  | [d] =>
    dsimp only
    by_cases hr : d ≠ -1 ∧ (d < 1 ∨ d > 28)
    · rw [if_pos hr, hset _ _ (by exact hu)]
      refine ⟨rfl, by simp [ScheduledTask.fail, hd], ?_⟩
      simp only [ScheduledTask.fail, validMonthDays]
      constructor
      · intro h; simp at h
      · rintro ⟨_, _, h | h⟩
        · simp at h; exact absurd h hr.1
        · have := h.2 d (by simp); omega
    · rw [if_neg hr, hset _ _ (by exact hu)]
      refine ⟨rfl, by simp [hd], ?_⟩
      simp only [validMonthDays]
      constructor
      · intro h
        refine ⟨h, by simp, ?_⟩
        by_cases h1 : d = -1
        · exact Or.inl (by rw [h1])
        · refine Or.inr ⟨List.nodup_singleton d, fun x hx => ?_⟩
          rw [List.mem_singleton.mp hx]; omega
      · rintro ⟨h, _⟩; exact h
  | d1 :: d2 :: rest =>
    dsimp only
    obtain ⟨h1, h2⟩ := monthsLoop_spec (d1 :: d2 :: rest) s [] hd
    rw [hset _ _ (by rw [h1]; exact hu)]
    refine ⟨rfl, by simp [h1, hd], ?_⟩
    show (s.monthsLoop [] (d1 :: d2 :: rest)).error = none ↔ _
    rw [h2]
    simp only [validMonthDays]
    constructor
    · rintro ⟨a, b, c, _⟩
      exact ⟨a, by simp, Or.inr ⟨c, b⟩⟩
    · rintro ⟨a, _, h | ⟨c, b⟩⟩
      · simp at h
      · exact ⟨a, b, c, fun _ _ => by simp⟩

theorem listedDays_of_atoi (L : List Char)
    (h : (strings.Split L ',').all (fun x => (strconv.Atoi x).isSome) = true) :
    listedDays L = some ((strings.Split L ',').map (fun x => (strconv.Atoi x).getD 0)) := by
  have hall : ∀ x ∈ strings.Split L ',', isDecimalInteger x = true ∧
      (strconv.Atoi x).getD 0 = decimalIntegerValue x := by
    intro x hx
    have := List.all_eq_true.mp h x hx
    obtain ⟨v, hv⟩ := Option.isSome_iff_exists.mp this
    obtain ⟨h1, h2, _⟩ := (atoi_some_iff x v).mp hv
    exact ⟨h1, by rw [hv, h2]; rfl⟩
  unfold listedDays
  rw [if_pos (List.all_eq_true.mpr fun x hx => (hall x hx).1)]
  congr 1
  exact List.map_congr_left fun x hx => ((hall x hx).2).symm

theorem atoi_of_listedDays (L : List Char) (days : List Int) (h : listedDays L = some days)
    (hv : validMonthDays days) :
    (strings.Split L ',').all (fun x => (strconv.Atoi x).isSome) = true ∧
      (strings.Split L ',').map (fun x => (strconv.Atoi x).getD 0) = days := by
  unfold listedDays at h
  split_ifs at h with hdec
  have hdays : (strings.Split L ',').map decimalIntegerValue = days := Option.some.inj h
  have hrange : ∀ d ∈ days, -(2 ^ 63 : Int) ≤ d ∧ d < (2 ^ 63 : Int) := by
    intro d hd
    rcases hv with e | ⟨_, hr⟩
    · rw [e] at hd
      rw [List.mem_singleton.mp hd]
      norm_num
    · have := hr d hd
      norm_num
      omega
  have hall : ∀ x ∈ strings.Split L ',', strconv.Atoi x = some (decimalIntegerValue x) := by
    intro x hx
    have hm : decimalIntegerValue x ∈ days := by
      rw [← hdays]; exact List.mem_map_of_mem _ hx
    exact (atoi_some_iff x _).mpr
      ⟨List.all_eq_true.mp hdec x hx, rfl, (hrange _ hm).1, (hrange _ hm).2⟩
  refine ⟨List.all_eq_true.mpr fun x hx => by rw [hall x hx]; rfl, ?_⟩
  rw [← hdays]
  exact List.map_congr_left fun x hx => by rw [hall x hx]; rfl

theorem split_nonempty (s : List Char) (sep : Char) : strings.Split s sep ≠ [] := by
  cases s with
  | nil => simp [strings.Split]
  | cons c cs =>
    unfold strings.Split
    split_ifs
    · simp
    · split <;> simp

theorem split_four (a b c d : List Char) (ha : ' ' ∉ a) (hb : ' ' ∉ b) (hc : ' ' ∉ c)
    (hd : ' ' ∉ d) :
    strings.Split (a ++ ' ' :: (b ++ ' ' :: (c ++ ' ' :: d))) ' ' = [a, b, c, d] := by
  rw [split_append_sep ' ' _ a ha, split_append_sep ' ' _ b hb, split_append_sep ' ' _ c hc,
    split_of_not_mem ' ' d hd]

/-- C4: for every integer `N ≥ 1` of Go's `int` (written as any text that
`strconv.Atoi` reads as `N`) and every token `L`,
`ParseSchedule("every N monthdays L")` on a freshly constructed task records no
error if and only if `L` is a comma-separated list of decimal integers that is
the single value -1 or a list of pairwise distinct values each in 1..28; when
no error is recorded, `unit = months` and `month_days` is the listed days in
the order written. -/
theorem parseSchedule_monthdays (lib : Lib) (now1 now2 : Time)
    (loc deviceID : List Char) (request : CreateScheduledTaskRequest)
    (hfresh : (scheduler.NewScheduledTask loc deviceID request).error = none)
    (n L : List Char) (N : Int) (hn : strconv.Atoi n = some N) (hN : 1 ≤ N) (hL : ' ' ∉ L) :
    ((scheduler.NewScheduledTask loc deviceID request).ParseSchedule lib now1 now2
        ("every".toList ++ ' ' :: (n ++ ' ' :: ("monthdays".toList ++ ' ' :: L)))).Returns
      (fun parsed =>
        (parsed.error = none ↔ ∃ days, listedDays L = some days ∧ validMonthDays days) ∧
        (parsed.error = none →
          parsed.TaskInfo.Unit = common.Months ∧
          listedDays L = some parsed.TaskInfo.ScheduledDaysOfTheMonth)) := by
  obtain ⟨_, hunit, _, _, _, hmd⟩ := fresh_task loc deviceID request
  have hlow : strings.ToLower lib "every".toList = "every".toList :=
    (caseVariant_lower lib _ _ (by decide) (by decide)).1
  have hlow2 : strings.ToLower lib "monthdays".toList = "monthdays".toList :=
    (caseVariant_lower lib _ _ (by decide) (by decide)).1
  have hnow := not_now lib "every".toList (' ' :: (n ++ ' ' :: ("monthdays".toList ++ ' ' :: L)))
    _ hlow (by decide) (by decide)
  generalize hs : scheduler.NewScheduledTask loc deviceID request = s at hfresh hunit hmd ⊢
  have hs1 : s.EveryInt N = { s with TaskInfo := { s.TaskInfo with Interval := N } } := by
    unfold ScheduledTask.EveryInt; dsimp only
    rw [if_neg (by omega)]
  have hres : s.ParseSchedule lib now1 now2
      ("every".toList ++ ' ' :: (n ++ ' ' :: ("monthdays".toList ++ ' ' :: L))) =
      .value (((s.EveryInt N).ParseDaysOfMonth L).1.Months
        ((s.EveryInt N).ParseDaysOfMonth L).2) := by
    unfold ScheduledTask.ParseSchedule
    rw [if_neg hnow, split_four _ n _ L (by decide) (atoi_no_space n N hn) (by decide) hL]
    simp only [List.length_cons, List.length_nil, List.getD_cons_zero, List.getD_cons_succ, hlow,
      hn]
    rw [if_neg (show ¬ (0 + 1 + 1 + 1 + 1 < 2) by omega), if_pos (by decide),
      if_pos (show 0 + 1 + 1 + 1 + 1 > 2 by omega)]
    unfold ScheduledTask.parseUnit
    simp only [List.getD_cons_zero, List.getD_cons_succ, hlow2, List.length_cons,
      List.length_nil]
    rw [if_pos trivial, if_neg (show ¬ (0 + 1 + 1 + 1 + 1 < 4) by omega)]
    rfl
  rw [hres]
  show (_ ↔ _) ∧ (_ → _)
  rw [hs1]
  unfold ScheduledTask.ParseDaysOfMonth
  dsimp only
  by_cases hall : (strings.Split L ',').all (fun x => (strconv.Atoi x).isSome) = true
  · rw [if_pos hall]
    dsimp only
    obtain ⟨m1, m2, m3⟩ := months_spec
      { s with TaskInfo := { s.TaskInfo with Interval := N } }
      ((strings.Split L ',').map (fun x => (strconv.Atoi x).getD 0)) hmd hunit
    have hlist := listedDays_of_atoi L hall
    have hne : (strings.Split L ',').map (fun x => (strconv.Atoi x).getD 0) ≠ [] := by
      simpa using split_nonempty L ','
    refine ⟨?_, fun _ => ⟨m1, by rw [m2]; exact hlist⟩⟩
    rw [m3]
    constructor
    · rintro ⟨_, _, hv⟩
      exact ⟨_, hlist, hv⟩
    · rintro ⟨days, hd, hv⟩
      rw [hlist] at hd
      rw [Option.some.inj hd]
      rw [Option.some.inj hd] at hne
      exact ⟨hfresh, hne, hv⟩
  · rw [if_neg hall]
    dsimp only
    have herr : ((ScheduledTask.fail { s with TaskInfo := { s.TaskInfo with Interval := N } }
        (.lib "strconv.Atoi".toList)).Months []).error ≠ none := by
      obtain ⟨_, _, m3⟩ := months_spec
        (ScheduledTask.fail { s with TaskInfo := { s.TaskInfo with Interval := N } }
          (.lib "strconv.Atoi".toList)) [] hmd hunit
      intro h
      exact (m3.mp h).2.1 rfl
    refine ⟨⟨fun h => absurd h herr, ?_⟩, fun h => absurd h herr⟩
    rintro ⟨days, hd, hv⟩
    exact absurd (atoi_of_listedDays L days hd hv).1 hall

/-- Witness for C4: `every 2 monthdays 1,15,28` is accepted on the sample task
and stores the days in the order written. -/
theorem parseSchedule_monthdays_witness :
    strconv.Atoi "2".toList = some 2 ∧ ' ' ∉ "1,15,28".toList ∧
    listedDays "1,15,28".toList = some [1, 15, 28] ∧ validMonthDays [1, 15, 28] ∧
    (sampleTask.ParseSchedule Lib.plain sampleTime sampleTime
      "every 2 monthdays 1,15,28".toList).Returns (fun parsed =>
        parsed.error = none ∧ parsed.TaskInfo.Unit = common.Months ∧
        listedDays "1,15,28".toList = some parsed.TaskInfo.ScheduledDaysOfTheMonth) :=
  ⟨by decide, by decide, by decide, by decide,
   (parseSchedule_monthdays Lib.plain sampleTime sampleTime "UTC".toList sampleDevice
      sampleRequest (by decide) "2".toList "1,15,28".toList 2 (by decide) (by decide)
      (by decide)).mono (fun _ h =>
        ⟨h.1.mpr ⟨[1, 15, 28], by decide, by decide⟩,
         h.2 (h.1.mpr ⟨[1, 15, 28], by decide, by decide⟩)⟩)⟩

/-! ## What building a schedule leaves untouched -/

theorem SameIdentity.refl (s : ScheduledTask) : SameIdentity s s :=
  ⟨id, rfl, rfl, rfl, rfl, rfl, rfl, rfl, rfl, rfl, rfl, rfl⟩

theorem SameIdentity.trans {a b c : ScheduledTask} (h1 : SameIdentity a b)
    (h2 : SameIdentity b c) : SameIdentity a c := by
  obtain ⟨a0, a1, a2, a3, a4, a5, a6, a7, a8, a9, a10, a11⟩ := h1
  obtain ⟨b0, b1, b2, b3, b4, b5, b6, b7, b8, b9, b10, b11⟩ := h2
  exact ⟨fun h => a0 (b0 h), b1.trans a1, b2.trans a2, b3.trans a3, b4.trans a4, b5.trans a5, b6.trans a6,
    b7.trans a7, b8.trans a8, b9.trans a9, b10.trans a10, b11.trans a11⟩

theorem sameIdentity_fail (s : ScheduledTask) (err : GoError) : SameIdentity s (s.fail err) :=
  ⟨fun h => absurd h (by simp [ScheduledTask.fail]), rfl, rfl, rfl, rfl, rfl, rfl, rfl, rfl, rfl,
    rfl, rfl⟩

theorem sameIdentity_addRunAtTime (s : ScheduledTask) (t : Duration) :
    SameIdentity s (s.addRunAtTime t) :=
  ⟨id, rfl, rfl, rfl, rfl, rfl, rfl, rfl, rfl, rfl, rfl, rfl⟩

theorem sameIdentity_setSchedulingUnit (s : ScheduledTask) (u : SchedulingUnit) :
    SameIdentity s (s.setSchedulingUnit u) := by
  unfold ScheduledTask.setSchedulingUnit
  dsimp only
  split
  · exact sameIdentity_fail _ _
  · exact ⟨id, rfl, rfl, rfl, rfl, rfl, rfl, rfl, rfl, rfl, rfl, rfl⟩

theorem sameIdentity_atLoop : ∀ (ts : List (List Char)) (s : ScheduledTask),
    SameIdentity s (s.atLoop ts)
  | [], s => SameIdentity.refl s
  | tt :: rest, s => by
    unfold ScheduledTask.atLoop
    split
    · exact sameIdentity_fail _ _
    · exact (sameIdentity_addRunAtTime _ _).trans (sameIdentity_atLoop rest _)

theorem sameIdentity_AtString (s : ScheduledTask) (t : List Char) :
    SameIdentity s (s.AtString t) :=
  sameIdentity_atLoop _ _

theorem sameIdentity_Weekday (s : ScheduledTask) (d : Weekday) :
    SameIdentity s (s.Weekday d) := by
  unfold ScheduledTask.Weekday
  dsimp only
  refine SameIdentity.trans ?_ (sameIdentity_setSchedulingUnit _ _)
  split <;> exact ⟨id, rfl, rfl, rfl, rfl, rfl, rfl, rfl, rfl, rfl, rfl, rfl⟩

theorem sameIdentity_monthsLoop : ∀ (days : List Int) (s : ScheduledTask) (seen : List Int),
    SameIdentity s (s.monthsLoop seen days)
  | [], s, _ => SameIdentity.refl s
  | d :: rest, s, seen => by
    unfold ScheduledTask.monthsLoop
    split
    · exact sameIdentity_fail _ _
    · dsimp only
      have h1 : SameIdentity s (if d ∈ s.TaskInfo.ScheduledDaysOfTheMonth then
          s.fail scheduler.ErrInvalidDaysOfMonthDuplicateValue else s) := by
        split
        · exact sameIdentity_fail _ _
        · exact SameIdentity.refl s
      split
      · exact h1.trans (sameIdentity_fail _ _)
      · exact h1.trans (sameIdentity_monthsLoop rest _ _)

theorem sameIdentity_Months (s : ScheduledTask) (days : List Int) :
    SameIdentity s (s.Months days) := by
  unfold ScheduledTask.Months
  dsimp only
  refine SameIdentity.trans ?_ (sameIdentity_setSchedulingUnit _ _)
  have h1 : SameIdentity s (match days with
      | [] => s.fail scheduler.ErrInvalidDayOfMonthEntry
      | [dayOfMonth] =>
        if dayOfMonth ≠ -1 ∧ (dayOfMonth < 1 ∨ dayOfMonth > 28) then
          s.fail scheduler.ErrInvalidDayOfMonthEntry
        else s
      | _ => s.monthsLoop [] days) := by
    split
    · exact sameIdentity_fail _ _
    · split
      · exact sameIdentity_fail _ _
      · exact SameIdentity.refl s
    · exact sameIdentity_monthsLoop _ _ _
  obtain ⟨a0, a1, a2, a3, a4, a5, a6, a7, a8, a9, a10, a11⟩ := h1
  exact ⟨a0, a1, a2, a3, a4, a5, a6, a7, a8, a9, a10, a11⟩

theorem sameIdentity_entries :
    ∀ e ∈ scheduler.schedulingUnitEntries, ∀ s : ScheduledTask, SameIdentity s (e.2 s) := by
  intro e he
  simp only [scheduler.schedulingUnitEntries, List.mem_cons, List.mem_singleton,
    List.not_mem_nil, or_false] at he
  rcases he with h | h | h | h | h | h | h | h | h | h | h | h | h | h | h | h | h | h | h | h <;>
    subst h <;> intro s <;>
    first
      | exact sameIdentity_setSchedulingUnit _ _
      | exact sameIdentity_Weekday _ _
      | exact sameIdentity_AtString _ _

theorem sameIdentity_lookup (unit : List Char) (fn : ScheduledTask → ScheduledTask)
    (h : scheduler.schedulingUnitLookupTable unit = some fn) (s : ScheduledTask) :
    SameIdentity s (fn s) := by
  unfold scheduler.schedulingUnitLookupTable at h
  obtain ⟨e, he, rfl⟩ := Option.map_eq_some'.mp h
  exact sameIdentity_entries e (List.mem_of_find?_eq_some he) s

theorem sameIdentity_parseUnit (lib : Lib) (s : ScheduledTask) (parsed : List (List Char)) :
    SameIdentity s (s.parseUnit lib parsed) := by
  unfold ScheduledTask.parseUnit
  dsimp only
  split
  · split
    · exact sameIdentity_fail _ _
    · unfold ScheduledTask.ParseDaysOfMonth ScheduledTask.Month
      dsimp only
      split
      · exact sameIdentity_Months _ _
      · exact (sameIdentity_fail _ _).trans (sameIdentity_Months _ _)
  · split
    · exact sameIdentity_fail _ _
    · rename_i fn h
      exact sameIdentity_lookup _ fn h s

theorem sameIdentity_EveryInt (s : ScheduledTask) (n : Int) : SameIdentity s (s.EveryInt n) := by
  unfold ScheduledTask.EveryInt
  dsimp only
  have h1 : SameIdentity s { s with TaskInfo := { s.TaskInfo with Interval := n } } :=
    ⟨id, rfl, rfl, rfl, rfl, rfl, rfl, rfl, rfl, rfl, rfl, rfl⟩
  split
  · exact h1.trans (sameIdentity_fail _ _)
  · exact h1

theorem sameIdentity_EveryString (lib : Lib) (s : ScheduledTask) (d : List Char) :
    SameIdentity s (ScheduledTask.EveryString lib s d) := by
  unfold ScheduledTask.EveryString
  dsimp only
  refine SameIdentity.trans ?_ (sameIdentity_setSchedulingUnit _ _)
  have h1 : SameIdentity s (match time.ParseDuration lib d with
      | none => s.fail (.lib "time.ParseDuration".toList)
      | some _ => s) := by
    split
    · exact sameIdentity_fail _ _
    · exact SameIdentity.refl s
  exact h1.trans ⟨id, rfl, rfl, rfl, rfl, rfl, rfl, rfl, rfl, rfl, rfl, rfl⟩

theorem sameIdentity_Cron (lib : Lib) (s r : ScheduledTask) (e : List Char) (b : Bool)
    (h : ScheduledTask.Cron lib s e b = .value r) : SameIdentity s r := by
  unfold ScheduledTask.Cron at h
  dsimp only at h
  split at h
  · simp at h
  · simp only [Outcome.value.injEq] at h
    subst h
    split
    · exact ⟨fun h => absurd h (by simp), rfl, rfl, rfl, rfl, rfl, rfl, rfl, rfl, rfl, rfl, rfl⟩
    · exact ⟨id, rfl, rfl, rfl, rfl, rfl, rfl, rfl, rfl, rfl, rfl, rfl⟩

theorem sameIdentity_ParseSchedule (lib : Lib) (now1 now2 : Time) (s r : ScheduledTask)
    (str : List Char) (h : s.ParseSchedule lib now1 now2 str = .value r) :
    SameIdentity s r := by
  unfold ScheduledTask.ParseSchedule at h
  dsimp only at h
  split at h
  · simp only [Outcome.value.injEq] at h
    subst h
    unfold ScheduledTask.Now ScheduledTask.AtTime
    refine SameIdentity.trans ?_ (sameIdentity_addRunAtTime _ _)
    refine SameIdentity.trans ?_ (sameIdentity_setSchedulingUnit _ _)
    exact ⟨id, rfl, rfl, rfl, rfl, rfl, rfl, rfl, rfl, rfl, rfl, rfl⟩
  · split at h
    · simp only [Outcome.value.injEq] at h
      subst h
      exact sameIdentity_fail _ _
    · split at h
      · simp only [Outcome.value.injEq] at h
        subst h
        have h1 : SameIdentity s (match strconv.Atoi ((strings.Split str ' ').getD 1 []) with
            | some duration => s.EveryInt duration
            | none => ScheduledTask.EveryString lib s ((strings.Split str ' ').getD 1 [])) := by
          split
          · exact sameIdentity_EveryInt _ _
          · exact sameIdentity_EveryString _ _ _
        split
        · exact h1.trans (sameIdentity_parseUnit _ _ _)
        · exact h1
      · split at h
        · simp only [Outcome.value.injEq] at h
          subst h
          exact sameIdentity_AtString _ _
        · split at h
          · exact sameIdentity_Cron _ _ _ _ _ h
          · simp only [Outcome.value.injEq] at h
            subst h
            exact sameIdentity_fail _ _

/-! ## When `ParseSchedule` panics -/

theorem split_piece_no_sep (sep : Char) :
    ∀ (s : List Char) (piece : List Char), piece ∈ strings.Split s sep → sep ∉ piece
  | [], piece, h => by
    simp [strings.Split] at h
    subst h
    simp
  | c :: cs, piece, h => by
    have ih := split_piece_no_sep sep cs
    unfold strings.Split at h
    by_cases hc : c = sep
    · rw [if_pos hc] at h
      rcases List.mem_cons.mp h with h | h
      · subst h; simp
      · exact ih piece h
    · rw [if_neg hc] at h
      cases hs : strings.Split cs sep with
      | nil =>
        rw [hs] at h
        simp only [List.mem_singleton] at h
        subst h
        simp [Ne.symm hc]
      | cons w ws =>
        rw [hs] at h ih
        rcases List.mem_cons.mp h with h | h
        · subst h
          have := ih w (List.mem_cons_self _ _)
          simp [Ne.symm hc, this]
        · exact ih piece (List.mem_cons_of_mem _ h)

theorem cron_panics_iff (lib : Lib) (s : ScheduledTask) (e : List Char) (b : Bool)
    (he : ' ' ∉ e) :
    (∃ what, ScheduledTask.Cron lib s e b = .panic what) ↔
      (strings.HasPrefix e "TZ=".toList ∨ strings.HasPrefix e "CRON_TZ=".toList) := by
  unfold ScheduledTask.Cron cron.Parser.Parse
  dsimp only
  by_cases hp : strings.HasPrefix e "TZ=".toList = true ∨
      strings.HasPrefix e "CRON_TZ=".toList = true
  · simp only [if_pos hp, hp, he, not_false_eq_true, and_self, if_true]
    exact ⟨fun _ => trivial, fun _ => ⟨_, rfl⟩⟩
  · have hin : ' ' ∈ "CRON_TZ=".toList ++ s.location ++ ' ' :: e := by simp
    simp only [if_neg hp, hin, not_true_eq_false, and_false, if_false]
    exact ⟨fun ⟨_, h⟩ => by simp at h, fun h => absurd h hp⟩

theorem parseSchedule_panics_iff (lib : Lib) (now1 now2 : Time) (s : ScheduledTask)
    (str : List Char) :
    (∃ what, s.ParseSchedule lib now1 now2 str = .panic what) ↔
      scheduler.schedulePanics lib str := by
  have hpiece : ' ' ∉ (strings.Split str ' ').getD 1 [] := by
    by_cases hl : 1 < (strings.Split str ' ').length
    · apply split_piece_no_sep ' ' str
      rw [List.getD_eq_getElem _ _ hl]
      exact List.getElem_mem _
    · rw [List.getD_eq_default _ _ (by omega)]
      simp
  have hc := cron_panics_iff lib s ((strings.Split str ' ').getD 1 []) true hpiece
  unfold ScheduledTask.ParseSchedule scheduler.schedulePanics
  dsimp only
  by_cases h1 : str = [] ∨ strings.ToLower lib str = common.SchedulingFrequencyNow
  · rw [if_pos h1]
    exact ⟨fun ⟨_, h⟩ => by simp at h, fun h => absurd h1 h.1⟩
  · rw [if_neg h1]
    by_cases h2 : (strings.Split str ' ').length < 2
    · rw [if_pos h2]
      exact ⟨fun ⟨_, h⟩ => by simp at h, fun h => absurd h.2.1 (by omega)⟩
    · rw [if_neg h2]
      by_cases h3 : strings.ToLower lib ((strings.Split str ' ').getD 0 []) =
          common.SchedulingFrequencyEvery
      · rw [if_pos h3]
        refine ⟨fun ⟨_, h⟩ => by simp at h, fun h => ?_⟩
        rw [h3] at h
        exact absurd h.2.2.1 (by decide)
      · rw [if_neg h3]
        by_cases h4 : strings.ToLower lib ((strings.Split str ' ').getD 0 []) =
            common.SchedulingFrequencyAt
        · rw [if_pos h4]
          refine ⟨fun ⟨_, h⟩ => by simp at h, fun h => ?_⟩
          rw [h4] at h
          exact absurd h.2.2.1 (by decide)
        · rw [if_neg h4]
          by_cases h5 : strings.ToLower lib ((strings.Split str ' ').getD 0 []) =
              common.SchedulingFrequencyCron
          · rw [if_pos h5, hc]
            exact ⟨fun h => ⟨h1, by omega, h5, h⟩, fun h => h.2.2.2⟩
          · rw [if_neg h5]
            exact ⟨fun ⟨_, h⟩ => by simp at h, fun h => absurd h.2.2.1 h5⟩

theorem parseSchedule_returns (lib : Lib) (now1 now2 : Time) (s : ScheduledTask)
    (str : List Char) (h : ¬ scheduler.schedulePanics lib str) :
    ∃ r, s.ParseSchedule lib now1 now2 str = .value r := by
  cases hr : s.ParseSchedule lib now1 now2 str with
  | value r => exact ⟨r, rfl⟩
  | panic what => exact absurd ((parseSchedule_panics_iff lib now1 now2 s str).mp ⟨what, hr⟩) h

theorem cronParse_panic_what (lib : Lib) (b : Bool) (spec what : List Char)
    (h : cron.Parser.Parse lib b spec = .panic what) :
    what = "slice bounds out of range [:-1]".toList := by
  unfold cron.Parser.Parse at h
  split at h
  · simp only [Outcome.panic.injEq] at h
    exact h.symm
  · simp at h

theorem cron_panic_what (lib : Lib) (s : ScheduledTask) (e what : List Char) (b : Bool)
    (h : ScheduledTask.Cron lib s e b = .panic what) :
    what = "slice bounds out of range [:-1]".toList := by
  unfold ScheduledTask.Cron at h
  dsimp only at h
  split at h
  · rename_i w hw
    simp only [Outcome.panic.injEq] at h
    subst h
    exact cronParse_panic_what lib b _ _ hw
  · simp at h

theorem parseSchedule_panic_what (lib : Lib) (now1 now2 : Time) (s : ScheduledTask)
    (str what : List Char) (h : s.ParseSchedule lib now1 now2 str = .panic what) :
    what = "slice bounds out of range [:-1]".toList := by
  unfold ScheduledTask.ParseSchedule at h
  dsimp only at h
  split at h
  · simp at h
  · split at h
    · simp at h
    · split at h
      · simp at h
      · split at h
        · simp at h
        · split at h
          · exact cron_panic_what lib s _ what true h
          · simp at h

/-! ## The request handler -/

/-- C5 (failing input): with a registered service, a consignment ID and a
non-nil `device_ids` list of length zero the handler does not return
`ErrInvalidRequest`: evaluating `request.DeviceIds[0]` panics. -/
theorem handler_panics_on_empty_device_list :
    (scheduler.handleSchedulerInputQueueRequest Lib.plain (fun _ => sampleAttempt) sampleWorld
      { sampleRequest with DeviceIds := some [] } common.SchedulerRequestSourceRest).1 =
      .panic "index out of range [0] with length 0".toList ∧
    (scheduler.handleSchedulerInputQueueRequest Lib.plain (fun _ => sampleAttempt) sampleWorld
      { sampleRequest with DeviceIds := none } common.SchedulerRequestSourceRest).1 =
      .err scheduler.ErrInvalidRequest := by
  decide

theorem handleDevices_no_error (lib : Lib) (attempts : Nat → Attempt)
    (request : CreateScheduledTaskRequest) (source : List Char) :
    ∀ (devices : List (List Char)) (index : Nat) (response : CreateScheduledTaskResponse)
      (w : World) (e : GoError),
      (scheduler.handleDevices lib attempts request source index devices response w).1 ≠ .err e := by
  intro devices
  induction devices with
  | nil => intro index response w e; simp [scheduler.handleDevices]
  | cons d rest ih =>
    intro index response w e
    unfold scheduler.handleDevices
    split
    · exact ih _ _ _ _
    · dsimp only
      split
      · simp
      · exact ih _ _ _ _
      · exact ih _ _ _ _

theorem handler_cases (lib : Lib) (attempts : Nat → Attempt) (w : World)
    (request : CreateScheduledTaskRequest) (source : List Char) :
    (scheduler.handleSchedulerInputQueueRequest lib attempts w request source).2 = w ∨
      ∃ request1 devices response,
        scheduler.handleSchedulerInputQueueRequest lib attempts w request source =
          scheduler.handleDevices lib attempts request1 source 0 devices response w := by
  unfold scheduler.handleSchedulerInputQueueRequest
  split
  · exact Or.inl rfl
  · split
    · exact Or.inl rfl
    · split
      · exact Or.inl rfl
      · split
        · exact Or.inl rfl
        · exact Or.inl rfl
        · dsimp only
          split
          · exact Or.inl rfl
          · split
            · exact Or.inl rfl
            · exact Or.inr ⟨_, _, _, rfl⟩

/-- C6: whenever `handleSchedulerInputQueueRequest` rejects a request with the
invalid-request error, the store and the queues are exactly as before the
call: no task, consignment or scheduled-run row has been written and nothing
has been sent to the dispatch queue. -/
theorem handler_rejection_writes_nothing (lib : Lib) (attempts : Nat → Attempt) (w : World)
    (request : CreateScheduledTaskRequest) (source : List Char)
    (h : (scheduler.handleSchedulerInputQueueRequest lib attempts w request source).1 =
      .err scheduler.ErrInvalidRequest) :
    (scheduler.handleSchedulerInputQueueRequest lib attempts w request source).2 = w := by
  rcases handler_cases lib attempts w request source with h1 | ⟨request1, devices, response, h1⟩
  · exact h1
  · rw [h1] at h
    exact absurd h (handleDevices_no_error _ _ _ _ _ _ _ _ _)

/-- Witness for C6: the request with `service_id = "unknown"` and the request
with `device_ids = ["@all", D2]` are rejected and leave the store as it was. -/
theorem handler_rejection_writes_nothing_witness :
    (scheduler.handleSchedulerInputQueueRequest Lib.plain (fun _ => sampleAttempt) sampleWorld
      { sampleRequest with ServiceId := "unknown".toList } common.SchedulerRequestSourceRest).1 =
      .err scheduler.ErrInvalidRequest ∧
    (scheduler.handleSchedulerInputQueueRequest Lib.plain (fun _ => sampleAttempt) sampleWorld
      { sampleRequest with ServiceId := "unknown".toList } common.SchedulerRequestSourceRest).2 =
      sampleWorld ∧
    (scheduler.handleSchedulerInputQueueRequest Lib.plain (fun _ => sampleAttempt) sampleWorld
      { sampleRequest with DeviceIds := some ["@all".toList, sampleDevice] }
      common.SchedulerRequestSourceRest).2 = sampleWorld :=
  ⟨by decide,
   handler_rejection_writes_nothing Lib.plain (fun _ => sampleAttempt) sampleWorld
     { sampleRequest with ServiceId := "unknown".toList } common.SchedulerRequestSourceRest
     (by decide),
   handler_rejection_writes_nothing Lib.plain (fun _ => sampleAttempt) sampleWorld
     { sampleRequest with DeviceIds := some ["@all".toList, sampleDevice] }
     common.SchedulerRequestSourceRest (by decide)⟩

/-! ## Scheduling a task -/

theorem newScheduledTask_info (loc deviceID : List Char) (request : CreateScheduledTaskRequest)
    (h : (scheduler.NewScheduledTask loc deviceID request).error = none) :
    ∃ info, (scheduler.NewScheduledTask loc deviceID request).ScheduleInfo = some info ∧
      info.DeviceID = (scheduler.NewScheduledTask loc deviceID request).TaskInfo.DeviceID ∧
      (scheduler.NewScheduledTask loc deviceID request).TaskInfo.ServiceID = request.ServiceId ∧
      (scheduler.NewScheduledTask loc deviceID request).TaskInfo.TenantID = request.TenantId ∧
      (scheduler.NewScheduledTask loc deviceID request).TaskInfo.MessageId = request.MessageId ∧
      (scheduler.NewScheduledTask loc deviceID request).TaskInfo.MessageType =
        request.MessageType ∧
      (scheduler.NewScheduledTask loc deviceID request).TaskInfo.TaskDetails = request.Payload := by
  simp only [scheduler.NewScheduledTask] at h ⊢
  split
  · rename_i heq
    rw [heq] at h
    simp at h
  · exact ⟨_, rfl, rfl, rfl, rfl, rfl, rfl, rfl⟩

theorem sameIdentity_validate (s : ScheduledTask) :
    SameIdentity s s.validate ∧ s.validate.TaskInfo = s.TaskInfo := by
  unfold ScheduledTask.validate
  dsimp only
  have h1 : SameIdentity s (if s.TaskInfo.ScheduledWeekdays.length ≠ 0 ∧
      s.TaskInfo.Unit ≠ common.Weeks then s.fail scheduler.ErrWeekdayNotSupported else s) ∧
      (if s.TaskInfo.ScheduledWeekdays.length ≠ 0 ∧
      s.TaskInfo.Unit ≠ common.Weeks then s.fail scheduler.ErrWeekdayNotSupported else s).TaskInfo =
        s.TaskInfo := by
    split
    · exact ⟨sameIdentity_fail _ _, rfl⟩
    · exact ⟨SameIdentity.refl s, rfl⟩
  generalize (if s.TaskInfo.ScheduledWeekdays.length ≠ 0 ∧
      s.TaskInfo.Unit ≠ common.Weeks then s.fail scheduler.ErrWeekdayNotSupported else s) = s1
    at h1 ⊢
  by_cases c1 : s1.TaskInfo.Unit ≠ common.Crontab ∧ s1.TaskInfo.Interval = 0
  · rw [if_pos c1]
    by_cases c2 : s1.TaskInfo.Unit ≠ common.Duration ∧ s1.TaskInfo.Unit ≠ common.Once
    · rw [if_pos c2]
      exact ⟨h1.1.trans (sameIdentity_fail _ _), h1.2⟩
    · rw [if_neg c2]
      exact h1
  · rw [if_neg c1]
    exact h1

theorem createTask_success (a : Attempt) (w : World) (t : Task)
    (h : (db.CreateTask a w t).1 = none) :
    (db.CreateTask a w t).2.2 =
      { t with
        TaskID := a.taskID, CreateTime := a.createTime, Status := db.taskStatusQueued,
        RetryCount := 0 } ∧
    (db.CreateTask a w t).2.1.tasks = db.upsert Task.sameKey w.tasks (db.CreateTask a w t).2.2 ∧
    (db.CreateTask a w t).2.1.consignments = db.upsert Consignment.sameKey w.consignments
      (db.NewConsignmentFromTask (db.CreateTask a w t).2.2) ∧
    (db.CreateTask a w t).2.1.scheduledRuns = w.scheduledRuns ∧
    (db.CreateTask a w t).2.1.dispatchQueue = w.dispatchQueue := by
  unfold db.CreateTask at h ⊢
  split
  · rename_i hc; rw [if_pos hc] at h; simp at h
  · rename_i hc
    rw [if_neg hc] at h
    split
    · rename_i hd; rw [if_pos hd] at h; simp at h
    · rename_i hd
      rw [if_neg hd] at h
      dsimp only at h ⊢
      split
      · rename_i err he; rw [he] at h; simp at h
      · rename_i he
        rw [he] at h
        dsimp only at h ⊢
        unfold db.CreateConsignment at h ⊢
        split
        · rename_i h1; rw [if_pos h1] at h; simp at h
        · rename_i h1
          rw [if_neg h1] at h
          split
          · rename_i h2; rw [if_pos h2] at h; simp at h
          · rename_i h2
            rw [if_neg h2] at h
            split
            · rename_i err h3; rw [h3] at h; simp at h
            · exact ⟨rfl, rfl, rfl, rfl, rfl⟩

theorem mem_upsert {α : Type} (sameKey : α → α → Bool) (rows : List α) (row : α) :
    row ∈ db.upsert sameKey rows row := by
  simp [db.upsert]

theorem upsert_count (rows : List ScheduledRun) (run : ScheduledRun)
    (h : ∀ x ∈ rows, x.TaskID ≠ run.TaskID) :
    ((db.upsert ScheduledRun.sameKey rows run).filter
      (fun x => decide (x.TaskID = run.TaskID))).length = 1 := by
  unfold db.upsert
  rw [List.filter_append]
  have e : (rows.filter (fun r => !ScheduledRun.sameKey r run)).filter
      (fun x => decide (x.TaskID = run.TaskID)) = [] := by
    rw [List.filter_eq_nil_iff]
    intro x hx
    have := h x (List.mem_of_mem_filter hx)
    simp [this]
  rw [e]
  simp

/-- C7: for every task built from a request and a schedule string (the task
`ParseSchedule` returns) that passes `Schedule`'s validation and whose store
and queue operations all succeed,
`Schedule` persists the task; when `unit = once` it creates no ScheduledRun and
appends exactly one message to the dispatch queue, which decodes to a
ServiceMessage carrying the task's service_id, device_id, task_id, tenant_id,
message_id, message_type and payload; when `unit ≠ once` it sends nothing to the
dispatch queue and inserts one ScheduledRun whose task_id and device_id are the
task's and whose run_partition is the partition of its next_run (the only run
of that task when the new task_id is fresh). -/
theorem schedule_once_dispatches_else_creates_run (lib : Lib) (a : Attempt) (w : World)
    (loc deviceID sched : List Char) (request : CreateScheduledTaskRequest)
    (parsed : ScheduledTask)
    (hparse : (scheduler.NewScheduledTask loc deviceID request).ParseSchedule lib a.parseNow
      a.atNow sched = .value parsed)
    (hvalid : parsed.validate.error = none)
    (hcreate : (db.CreateTask a w parsed.validate.TaskInfo).1 = none)
    (hrun : a.insertRun = none) (hsend : a.sendDispatch = none) :
    ∃ t : Task,
      t = (db.CreateTask a w parsed.validate.TaskInfo).2.2 ∧
      t ∈ (parsed.Schedule a w).2.tasks ∧
      t.TaskID = a.taskID ∧ t.Status = db.taskStatusQueued ∧
      t.ServiceID = request.ServiceId ∧ t.TenantID = request.TenantId ∧
      t.MessageId = request.MessageId ∧ t.MessageType = request.MessageType ∧
      t.TaskDetails = request.Payload ∧
      t.Unit = parsed.TaskInfo.Unit ∧
      (t.Unit = common.Once →
        (∃ s', (parsed.Schedule a w).1 = .ok s' ∧ s'.TaskInfo = t) ∧
        (parsed.Schedule a w).2.scheduledRuns = w.scheduledRuns ∧
        ∃ p m, (parsed.Schedule a w).2.dispatchQueue = w.dispatchQueue ++ [p] ∧
          db.UnmarshallServiceMessage p = some m ∧
          m.ServiceId = t.ServiceID ∧ m.DeviceId = t.DeviceID.String ∧
          m.TaskId = t.TaskID.String ∧ m.TenantId = t.TenantID ∧ m.MessageId = t.MessageId ∧
          m.MessageType = t.MessageType ∧ m.Payload = t.TaskDetails.getD []) ∧
      (t.Unit ≠ common.Once →
        (parsed.Schedule a w).2.dispatchQueue = w.dispatchQueue ∧
        ∃ run : ScheduledRun,
          (∃ s', (parsed.Schedule a w).1 = .ok s' ∧ s'.TaskInfo = t ∧
            s'.ScheduleInfo = some run) ∧
          (parsed.Schedule a w).2.scheduledRuns =
              db.upsert ScheduledRun.sameKey w.scheduledRuns run ∧
          run.TaskID = t.TaskID ∧ run.DeviceID = t.DeviceID ∧ run.NextRun = a.nextRun ∧
          run.RunPartition = db.GetRunPartition run.NextRun ∧
          ((∀ x ∈ w.scheduledRuns, x.TaskID ≠ a.taskID) →
            ((parsed.Schedule a w).2.scheduledRuns.filter
                (fun x => decide (x.TaskID = t.TaskID))).length = 1)) := by
  have hid : SameIdentity (scheduler.NewScheduledTask loc deviceID request) parsed :=
    sameIdentity_ParseSchedule _ _ _ _ _ _ hparse
  generalize parsed = S at hvalid hcreate hid ⊢
  obtain ⟨hv, hvt⟩ := sameIdentity_validate S
  obtain ⟨e0, e1, _, _, e4, e5, e6, _, e8, e9, e10, _⟩ := hid.trans hv
  obtain ⟨info, i1, i2, i3, i4, i5, i6, i7⟩ := newScheduledTask_info loc deviceID request
    (e0 hvalid)
  obtain ⟨c1, c2, _, c4, c5⟩ := createTask_success a w S.validate.TaskInfo hcreate
  have hinfo : S.validate.ScheduleInfo = some info := e1.trans i1
  refine ⟨_, rfl, ?_, ?_, ?_, ?_, ?_, ?_, ?_, ?_, ?_, ?_, ?_⟩
  · -- the task row is in the store
    have hmem : (db.CreateTask a w S.validate.TaskInfo).2.2 ∈
        (db.CreateTask a w S.validate.TaskInfo).2.1.tasks := by
      rw [c2]; exact mem_upsert _ _ _
    unfold ScheduledTask.Schedule
    simp only [hvalid, hcreate, hsend, hinfo]
    split
    · exact hmem
    · unfold db.CreateScheduledRun
      simp only [hrun]
      exact hmem
  · rw [c1]
  · rw [c1]
  · rw [c1]; exact e6.trans i3
  · rw [c1]; exact e5.trans i4
  · rw [c1]; exact e8.trans i5
  · rw [c1]; exact e9.trans i6
  · rw [c1]; exact e10.trans i7
  · rw [c1, hvt]
  · intro hu
    unfold ScheduledTask.Schedule
    simp only [hvalid, hcreate, hsend, hinfo]
    rw [if_pos hu]
    refine ⟨⟨_, rfl, rfl⟩, c4,
      db.MarshalServiceMessage (db.CreateTask a w S.validate.TaskInfo).2.2,
      (db.CreateTask a w S.validate.TaskInfo).2.2.serviceMessage, ?_, rfl, rfl, rfl, rfl, rfl,
      rfl, rfl, rfl⟩
    show (db.CreateTask a w S.validate.TaskInfo).2.1.dispatchQueue ++ _ = _
    rw [c5]
  · intro hu
    unfold ScheduledTask.Schedule
    simp only [hvalid, hcreate, hsend, hinfo]
    rw [if_neg hu]
    unfold db.CreateScheduledRun
    simp only [hrun]
    refine ⟨c5, _, ⟨_, rfl, rfl, rfl⟩, by rw [c4], rfl, ?_, rfl, rfl, ?_⟩
    · show info.DeviceID = _
      rw [i2, c1]
      exact e4.symm
    · intro hfresh
      rw [c4]
      exact upsert_count w.scheduledRuns
        { RunPartition := db.GetRunPartition a.nextRun,
          TaskID := (db.CreateTask a w S.validate.TaskInfo).2.2.TaskID,
          DeviceID := info.DeviceID, NextRun := a.nextRun, LastRun := info.LastRun }
        (fun x hx => by
          show x.TaskID ≠ (db.CreateTask a w S.validate.TaskInfo).2.2.TaskID
          rw [c1]
          exact hfresh x hx)

/-- Witness for C7: the sample request with schedule `every 1h` passes the
validation, every operation succeeds, and the task is persisted as queued. -/
theorem schedule_once_dispatches_else_creates_run_witness :
    sampleTask.ParseSchedule Lib.plain sampleTime sampleTime "every 1h".toList =
      .value (sampleTask.EveryString Lib.plain "1h".toList) ∧
    (sampleTask.EveryString Lib.plain "1h".toList).validate.error = none ∧
    ∃ t : Task,
      t ∈ ((sampleTask.EveryString Lib.plain "1h".toList).Schedule sampleAttempt
        sampleWorld).2.tasks ∧
      t.TaskID = sampleAttempt.taskID ∧ t.Status = db.taskStatusQueued :=
  ⟨by decide, by decide,
   (schedule_once_dispatches_else_creates_run Lib.plain sampleAttempt sampleWorld "UTC".toList
      sampleDevice "every 1h".toList sampleRequest (sampleTask.EveryString Lib.plain "1h".toList)
      (by decide) (by decide) (by decide) (by decide) (by decide)).imp
      (fun _ h => ⟨h.2.1, h.2.2.1, h.2.2.2.1⟩)⟩

/-! ## The dispatch worker -/

theorem uuid_string_head (u : UUID) (hu : ∀ n ∈ u.nibbles, n < 16) :
    ∃ c rest, u.String = c :: rest ∧ c ≠ '@' := by
  have hd : ∀ n : Nat, n < 16 → hexDigit n ≠ '@' := by
    intro n hn
    interval_cases n <;> decide
  unfold UUID.String
  dsimp only
  rcases hn : u.nibbles with _ | ⟨n, ns⟩
  · exact ⟨'-', _, rfl, by decide⟩
  · exact ⟨hexDigit n, _, rfl, hd n (hu n (by rw [hn]; simp))⟩

theorem markTaskDispatched_published (o : Option GoError) (w : World) (m : ServiceMessage) :
    (db.MarkTaskDispatched o w m).2.published = w.published ∧
    (db.MarkTaskDispatched o w m).2.dispatchQueue = w.dispatchQueue ∧
    (db.MarkTaskDispatched o w m).2.consignments = w.consignments ∧
    (db.MarkTaskDispatched o w m).2.scheduledRuns = w.scheduledRuns ∧
    (db.MarkTaskDispatched o w m).2.serviceQueue = w.serviceQueue := by
  unfold db.MarkTaskDispatched db.setTaskStatus
  split
  · exact ⟨rfl, rfl, rfl, rfl, rfl⟩
  · split
    · split <;> exact ⟨rfl, rfl, rfl, rfl, rfl⟩
    · exact ⟨rfl, rfl, rfl, rfl, rfl⟩

/-- C8: a dispatch message that the worker receives and publishes goes out on
topic `v1/@devices/<service_id>` when its device_id is the reserved broadcast
UUID and on `v1/<device_id>/tasks` otherwise; a broadcast message is not
published on its per-device topic, and a unicast message, whose device_id is
the text of a UUID, is not published on the broadcast topic of its service. -/
theorem dispatch_worker_topic (ev : WorkerEvents) (w : World) (m : ServiceMessage)
    (rest : List Packet) (hq : w.dispatchQueue = .message m :: rest)
    (hreceive : ev.receive = none) (hpublish : ev.publish = none) :
    (sqs_provider.processSchedulerDispatchRequest ev w).published =
      w.published ++ [(mqtt.GetMqttTopicForDeviceTask m.DeviceId m.ServiceId, m)] ∧
    (m.DeviceId = common.BroadcastDeviceUuid →
      mqtt.GetMqttTopicForDeviceTask m.DeviceId m.ServiceId =
        "v1/@devices/".toList ++ m.ServiceId ∧
      mqtt.GetMqttTopicForDeviceTask m.DeviceId m.ServiceId ≠
        "v1/".toList ++ m.DeviceId ++ "/tasks".toList) ∧
    (m.DeviceId ≠ common.BroadcastDeviceUuid →
      mqtt.GetMqttTopicForDeviceTask m.DeviceId m.ServiceId =
        "v1/".toList ++ m.DeviceId ++ "/tasks".toList ∧
      ((∃ u : UUID, (∀ n ∈ u.nibbles, n < 16) ∧ m.DeviceId = u.String) →
        mqtt.GetMqttTopicForDeviceTask m.DeviceId m.ServiceId ≠
          "v1/@devices/".toList ++ m.ServiceId)) := by
  refine ⟨?_, ?_, ?_⟩
  · unfold sqs_provider.processSchedulerDispatchRequest
    simp only [hreceive, hq, db.UnmarshallServiceMessage, hpublish]
    split
    · exact (markTaskDispatched_published _ _ _).1
    · split
      · exact (markTaskDispatched_published _ _ _).1
      · exact (markTaskDispatched_published _ _ _).1
  · intro hb
    unfold mqtt.GetMqttTopicForDeviceTask
    rw [if_pos hb]
    refine ⟨rfl, ?_⟩
    rw [hb]
    intro h
    have := congrArg (fun l => l.getD 3 'x') h
    simp [common.BroadcastDeviceUuid] at this
  · intro hb
    unfold mqtt.GetMqttTopicForDeviceTask
    rw [if_neg hb]
    refine ⟨rfl, ?_⟩
    rintro ⟨u, hnib, hu⟩ h
    obtain ⟨c, tail, hc, hne⟩ := uuid_string_head u hnib
    rw [hu, hc] at h
    have := congrArg (fun l => l.getD 3 'x') h
    simp at this
    exact hne this

/-- Witness for C8: the message of a unicast task on the queue is published on
the per-device topic. -/
theorem dispatch_worker_topic_witness :
    (sqs_provider.processSchedulerDispatchRequest workerSucceeds
      { sampleWorld with dispatchQueue :=
          [.message { Task.zero.serviceMessage with
            DeviceId := sampleDevice, ServiceId := "hpcem".toList }] }).published =
      [("v1/7c9e6679-7425-40de-944b-e07fc1f90ae7/tasks".toList,
        { Task.zero.serviceMessage with DeviceId := sampleDevice, ServiceId := "hpcem".toList })] :=
  (dispatch_worker_topic workerSucceeds
    { sampleWorld with dispatchQueue :=
        [.message { Task.zero.serviceMessage with
          DeviceId := sampleDevice, ServiceId := "hpcem".toList }] }
    { Task.zero.serviceMessage with DeviceId := sampleDevice, ServiceId := "hpcem".toList } []
    rfl rfl rfl).1

/-! ## The task-response handler -/

/-- C9: for every task-response message whose token verifies and whose task
is found in the store, if the token's `management_service` differs from the
task's `service_id` or its `tid` differs from the task's `tenant_id`, then
`handleTaskResponseMessage` returns an error and leaves the store and the
queues as they were: the task row and the consignment row are unchanged and
no message is sent to a service queue. -/
theorem task_response_mismatch_rejected (lib : Lib) (ev : ResponseEvents) (w : World)
    (mqttTopic : List Char) (message : DeviceMessage) (claims : DstsTokenClaims)
    (foundTask : Task)
    (htoken : dstsclient.ValidateDeviceAccessToken ev message.AccessToken = .ok claims)
    (hfound : db.GetTaskByID ev.getTask w message.TaskId claims.Subject = .ok foundTask)
    (hmismatch : foundTask.ServiceID ≠ claims.ManagementService ∨
      foundTask.TenantID ≠ claims.TenantID) :
    (scheduler.handleTaskResponseMessage lib ev w mqttTopic message).1 ≠ none ∧
    (scheduler.handleTaskResponseMessage lib ev w mqttTopic message).2 = w ∧
    (scheduler.handleTaskResponseMessage lib ev w mqttTopic message).2.tasks = w.tasks ∧
    (scheduler.handleTaskResponseMessage lib ev w mqttTopic message).2.consignments =
      w.consignments ∧
    (scheduler.handleTaskResponseMessage lib ev w mqttTopic message).2.serviceQueue =
      w.serviceQueue := by
  have key : (scheduler.handleTaskResponseMessage lib ev w mqttTopic message).1 ≠ none ∧
      (scheduler.handleTaskResponseMessage lib ev w mqttTopic message).2 = w := by
    unfold scheduler.handleTaskResponseMessage
    simp only [htoken, hfound]
    by_cases hs : foundTask.ServiceID ≠ claims.ManagementService
    · rw [if_pos hs]
      exact ⟨by simp, rfl⟩
    · rw [if_neg hs]
      have ht : foundTask.TenantID ≠ claims.TenantID := by
        rcases hmismatch with h | h
        · exact absurd h hs
        · exact h
      rw [if_pos ht]
      exact ⟨by simp, rfl⟩
  refine ⟨key.1, key.2, ?_, ?_, ?_⟩ <;> rw [key.2]

/-- Witness for C9: the stored sample task belongs to service `hpcem`; a
response whose token names the service `other` is rejected and nothing
changes. -/
theorem task_response_mismatch_rejected_witness :
    (scheduler.handleTaskResponseMessage Lib.plain responseOtherService sampleWorldQueued
      "v1/@cloud/task_responses".toList (sampleResponse "complete".toList)).2 =
      sampleWorldQueued ∧
    (scheduler.handleTaskResponseMessage Lib.plain responseOtherService sampleWorldQueued
      "v1/@cloud/task_responses".toList (sampleResponse "complete".toList)).1 ≠ none :=
  ⟨(task_response_mismatch_rejected Lib.plain responseOtherService sampleWorldQueued
      "v1/@cloud/task_responses".toList (sampleResponse "complete".toList) otherServiceClaims
      ((db.CreateTask sampleAttempt sampleWorld
        sampleTaskNow.TaskInfo).2.2)
      (by decide) (by decide) (Or.inl (by decide))).2.1,
   (task_response_mismatch_rejected Lib.plain responseOtherService sampleWorldQueued
      "v1/@cloud/task_responses".toList (sampleResponse "complete".toList) otherServiceClaims
      ((db.CreateTask sampleAttempt sampleWorld
        sampleTaskNow.TaskInfo).2.2)
      (by decide) (by decide) (Or.inl (by decide))).1⟩

/-! ## Task status along the pipeline -/

/-- C10 (counterexample): in the store reached by scheduling the sample
request, dispatching it (the queue message is not deleted), and receiving the
device's `complete` response, the task is completed; the next step of the
dispatch worker, on the message that is delivered again, sets it back to
dispatched. -/
theorem completed_task_returns_to_dispatched :
    sampleWorldQueued.statusOf (db.setUuidFromString sampleDevice).1 sampleAttempt.taskID =
      some db.taskStatusQueued ∧
    (sqs_provider.processSchedulerDispatchRequest workerDeleteFails sampleWorldQueued).statusOf
      (db.setUuidFromString sampleDevice).1 sampleAttempt.taskID = some db.taskStatusDispatched ∧
    (scheduler.handleTaskResponseMessage Lib.plain responseSucceeds
      (sqs_provider.processSchedulerDispatchRequest workerDeleteFails sampleWorldQueued)
      "v1/@cloud/task_responses".toList (sampleResponse "complete".toList)).2.statusOf
      (db.setUuidFromString sampleDevice).1 sampleAttempt.taskID = some db.taskStatusCompleted ∧
    (sqs_provider.processSchedulerDispatchRequest workerSucceeds
      (scheduler.handleTaskResponseMessage Lib.plain responseSucceeds
        (sqs_provider.processSchedulerDispatchRequest workerDeleteFails sampleWorldQueued)
        "v1/@cloud/task_responses".toList (sampleResponse "complete".toList)).2).statusOf
      (db.setUuidFromString sampleDevice).1 sampleAttempt.taskID = some db.taskStatusDispatched := by
  decide

theorem find_status_map (d t : UUID) (s st : List Char) (f : Task → Task)
    (hkey : ∀ x : Task, (f x).DeviceID = x.DeviceID ∧ (f x).TaskID = x.TaskID)
    (hst : ∀ x : Task, (f x).Status = x.Status ∨ (f x).Status = st) :
    ∀ (tasks : List Task),
      (tasks.find? (fun x => x.DeviceID = d ∧ x.TaskID = t)).map (fun x => x.Status) = some s →
      ((tasks.map f).find? (fun x => x.DeviceID = d ∧ x.TaskID = t)).map (fun x => x.Status) =
          some s ∨
        ((tasks.map f).find? (fun x => x.DeviceID = d ∧ x.TaskID = t)).map (fun x => x.Status) =
          some st
  | [], h => by simp at h
  | x :: xs, h => by
    by_cases hx : x.DeviceID = d ∧ x.TaskID = t
    · have hfx : (f x).DeviceID = d ∧ (f x).TaskID = t := by
        rw [(hkey x).1, (hkey x).2]; exact hx
      have e1 : (x :: xs).find? (fun x => x.DeviceID = d ∧ x.TaskID = t) = some x := by
        simp [List.find?, hx]
      have e2 : ((x :: xs).map f).find? (fun x => x.DeviceID = d ∧ x.TaskID = t) =
          some (f x) := by
        simp [List.find?, hfx]
      rw [e1] at h
      rw [e2]
      simp only [Option.map_some', Option.some.injEq] at h ⊢
      rcases hst x with e | e
      · exact Or.inl (e.trans h)
      · exact Or.inr e
    · have hfx : ¬ ((f x).DeviceID = d ∧ (f x).TaskID = t) := by
        rw [(hkey x).1, (hkey x).2]; exact hx
      have e1 : (x :: xs).find? (fun x => x.DeviceID = d ∧ x.TaskID = t) =
          xs.find? (fun x => x.DeviceID = d ∧ x.TaskID = t) := by
        simp [List.find?, hx]
      have e2 : ((x :: xs).map f).find? (fun x => x.DeviceID = d ∧ x.TaskID = t) =
          (xs.map f).find? (fun x => x.DeviceID = d ∧ x.TaskID = t) := by
        simp only [List.map_cons, List.find?]
        simp [hfx]
      rw [e1] at h
      rw [e2]
      exact find_status_map d t s st f hkey hst xs h

theorem statusOf_updateTaskRows (tasks : List Task) (d t d' t' : UUID) (s st : List Char)
    (h : (tasks.find? (fun x => x.DeviceID = d ∧ x.TaskID = t)).map (fun x => x.Status) =
      some s) :
    ((db.updateTaskRows tasks d' t' st).find? (fun x => x.DeviceID = d ∧ x.TaskID = t)).map
        (fun x => x.Status) = some s ∨
      ((db.updateTaskRows tasks d' t' st).find? (fun x => x.DeviceID = d ∧ x.TaskID = t)).map
        (fun x => x.Status) = some st := by
  unfold db.updateTaskRows
  split
  · apply find_status_map d t s st _ _ _ tasks h
    · intro x
      split <;> exact ⟨rfl, rfl⟩
    · intro x
      split
      · exact Or.inr rfl
      · exact Or.inl rfl
  · left
    obtain ⟨x, hx, _⟩ := Option.map_eq_some'.mp h
    rw [List.find?_append, hx]
    rw [hx] at h
    exact h

theorem statusOf_setTaskStatus (o : Option GoError) (w : World) (taskID deviceID : List Char)
    (status : TaskStatus) (d t : UUID) (s : List Char) (h : w.statusOf d t = some s) :
    (db.setTaskStatus o w taskID deviceID status).2.statusOf d t = some s ∨
      (db.setTaskStatus o w taskID deviceID status).2.statusOf d t = some status.String := by
  unfold db.setTaskStatus
  split
  · split
    · exact Or.inl h
    · exact statusOf_updateTaskRows w.tasks d t _ _ s _ h
  · exact Or.inl h

theorem statusOf_MarkTaskDispatched (o : Option GoError) (w : World) (m : ServiceMessage)
    (d t : UUID) (s : List Char) (h : w.statusOf d t = some s) :
    (db.MarkTaskDispatched o w m).2.statusOf d t = some s ∨
      (db.MarkTaskDispatched o w m).2.statusOf d t = some db.taskStatusDispatched := by
  unfold db.MarkTaskDispatched
  split
  · exact Or.inl h
  · exact statusOf_setTaskStatus o w _ _ db.TaskStatusDispatched d t s h

theorem statusOf_workerStep (ev : WorkerEvents) (w : World) (d t : UUID) (s : List Char)
    (h : w.statusOf d t = some s) :
    (sqs_provider.processSchedulerDispatchRequest ev w).statusOf d t = some s ∨
      (sqs_provider.processSchedulerDispatchRequest ev w).statusOf d t =
        some db.taskStatusDispatched := by
  unfold sqs_provider.processSchedulerDispatchRequest
  split
  · exact Or.inl h
  · split
    · exact Or.inl h
    · split
      · split
        · exact Or.inl h
        · exact Or.inl h
      · split
        · exact Or.inl h
        · rename_i taskInfo _ _ _
          have key := statusOf_MarkTaskDispatched ev.update
            { w with published := w.published ++
              [(mqtt.GetMqttTopicForDeviceTask taskInfo.DeviceId taskInfo.ServiceId, taskInfo)] }
            taskInfo d t s h
          dsimp only
          split
          · exact key
          · split
            · exact key
            · exact key

theorem statusOf_UpdateTaskStatus (o1 o2 : Option GoError) (w : World)
    (taskID deviceID tenantID consignmentID : List Char) (status : TaskStatus) (d t : UUID)
    (s : List Char) (h : w.statusOf d t = some s) :
    (db.UpdateTaskStatus o1 o2 w taskID deviceID tenantID consignmentID status).2.statusOf d t =
        some s ∨
      (db.UpdateTaskStatus o1 o2 w taskID deviceID tenantID consignmentID status).2.statusOf d t =
        some status.String := by
  have key := statusOf_setTaskStatus o1 w taskID deviceID status d t s h
  unfold db.UpdateTaskStatus
  dsimp only
  split
  · exact key
  · unfold db.UpdateConsignmentTaskStatus
    split
    · split
      · exact key
      · exact key
    · exact key

theorem statusOf_SendMessage (ev : ResponseEvents) (w : World) (serviceID queueTopic : List Char)
    (event : DeviceEvent) (d t : UUID) :
    (sqs_provider.SendMessage ev w serviceID queueTopic event).2.statusOf d t =
      w.statusOf d t := by
  unfold sqs_provider.SendMessage
  split
  · rfl
  · split
    · rfl
    · split <;> rfl

theorem statusOf_responseStep (lib : Lib) (ev : ResponseEvents) (w : World)
    (mqttTopic : List Char) (message : DeviceMessage) (d t : UUID) (s : List Char)
    (h : w.statusOf d t = some s) :
    (scheduler.handleTaskResponseMessage lib ev w mqttTopic message).2.statusOf d t = some s ∨
      (scheduler.handleTaskResponseMessage lib ev w mqttTopic message).2.statusOf d t =
        some db.taskStatusCompleted ∨
      (scheduler.handleTaskResponseMessage lib ev w mqttTopic message).2.statusOf d t =
        some db.taskStatusFailed := by
  unfold scheduler.handleTaskResponseMessage
  split
  · exact Or.inl h
  · split
    · exact Or.inl h
    · split
      · exact Or.inl h
      · split
        · exact Or.inl h
        · rename_i foundTask _ _ _
          dsimp only
          have hc := statusOf_UpdateTaskStatus ev.updateTask ev.updateConsignment w
            foundTask.TaskID.String foundTask.DeviceID.String foundTask.TenantID
            foundTask.ConsignmentID db.TaskStatusCompleted d t s h
          have hf := statusOf_UpdateTaskStatus ev.updateTask ev.updateConsignment w
            foundTask.TaskID.String foundTask.DeviceID.String foundTask.TenantID
            foundTask.ConsignmentID db.TaskStatusFailed d t s h
          split
          · exact Or.inl h
          · rename_i r hr
            have hr2 : r.2.statusOf d t = some s ∨ r.2.statusOf d t = some db.taskStatusCompleted ∨
                r.2.statusOf d t = some db.taskStatusFailed := by
              split_ifs at hr with h1 h2
              · cases hr
                rcases hc with e | e
                · exact Or.inl e
                · exact Or.inr (Or.inl e)
              · cases hr
                rcases hf with e | e
                · exact Or.inl e
                · exact Or.inr (Or.inr e)
            split
            · exact hr2
            · rw [statusOf_SendMessage]
              exact hr2

/-- C10 (amended): for every store state and every step of the dispatch worker
or of the task-response handler, the status of a stored task afterwards is
its status before, or `dispatched` (worker step), or `completed` or `failed`
(response step); in particular no such step returns a task to `queued`. -/
theorem status_never_returns_to_queued (lib : Lib) (wev : WorkerEvents) (rev : ResponseEvents)
    (w : World) (mqttTopic : List Char) (message : DeviceMessage) (d t : UUID) (s : List Char)
    (h : w.statusOf d t = some s) :
    ((sqs_provider.processSchedulerDispatchRequest wev w).statusOf d t = some s ∨
      (sqs_provider.processSchedulerDispatchRequest wev w).statusOf d t =
        some db.taskStatusDispatched) ∧
    ((scheduler.handleTaskResponseMessage lib rev w mqttTopic message).2.statusOf d t = some s ∨
      (scheduler.handleTaskResponseMessage lib rev w mqttTopic message).2.statusOf d t =
        some db.taskStatusCompleted ∨
      (scheduler.handleTaskResponseMessage lib rev w mqttTopic message).2.statusOf d t =
        some db.taskStatusFailed) ∧
    (s ≠ db.taskStatusQueued →
      (sqs_provider.processSchedulerDispatchRequest wev w).statusOf d t ≠
        some db.taskStatusQueued ∧
      (scheduler.handleTaskResponseMessage lib rev w mqttTopic message).2.statusOf d t ≠
        some db.taskStatusQueued) := by
  have hw := statusOf_workerStep wev w d t s h
  have hr := statusOf_responseStep lib rev w mqttTopic message d t s h
  refine ⟨hw, hr, fun hs => ⟨?_, ?_⟩⟩
  · rcases hw with e | e <;> rw [e]
    · exact fun h2 => hs (Option.some.inj h2)
    · decide
  · rcases hr with e | e | e <;> rw [e]
    · exact fun h2 => hs (Option.some.inj h2)
    · decide
    · decide

/-- Witness for C10 (amended): the dispatched sample task stays dispatched or
becomes completed or failed. -/
theorem status_never_returns_to_queued_witness :
    (sqs_provider.processSchedulerDispatchRequest workerDeleteFails sampleWorldQueued).statusOf
      (db.setUuidFromString sampleDevice).1 sampleAttempt.taskID = some db.taskStatusDispatched ∧
    (scheduler.handleTaskResponseMessage Lib.plain responseSucceeds
      (sqs_provider.processSchedulerDispatchRequest workerDeleteFails sampleWorldQueued)
      "v1/@cloud/task_responses".toList (sampleResponse "failed".toList)).2.statusOf
      (db.setUuidFromString sampleDevice).1 sampleAttempt.taskID ≠ some db.taskStatusQueued :=
  ⟨by decide,
   ((status_never_returns_to_queued Lib.plain workerSucceeds responseSucceeds
      (sqs_provider.processSchedulerDispatchRequest workerDeleteFails sampleWorldQueued)
      "v1/@cloud/task_responses".toList (sampleResponse "failed".toList)
      (db.setUuidFromString sampleDevice).1 sampleAttempt.taskID db.taskStatusDispatched
      (by decide)).2.2 (by decide)).2⟩

/-! ## Status updates write the task row and the consignment row -/

theorem updateTaskRows_key (d t : UUID) (st : List Char) (tasks : List Task) :
    ((db.updateTaskRows tasks d t st).find? (fun x => x.DeviceID = d ∧ x.TaskID = t)).map
      (fun x => x.Status) = some st := by
  unfold db.updateTaskRows
  split
  · rename_i h
    induction tasks with
    | nil => simp at h
    | cons x xs ih =>
      by_cases hx : x.DeviceID = d ∧ x.TaskID = t
      · simp [List.find?, hx]
      · have h2 : xs.any (fun t1 => decide (t1.DeviceID = d ∧ t1.TaskID = t)) = true := by
          simpa [hx] using h
        simpa [List.find?, hx] using ih h2
  · rename_i h
    have hnone : tasks.find? (fun x => decide (x.DeviceID = d ∧ x.TaskID = t)) = none := by
      rw [List.find?_eq_none]
      intro x hx hk
      exact h (List.any_eq_true.mpr ⟨x, hx, hk⟩)
    rw [List.find?_append, hnone]
    simp [List.find?]

theorem updateConsignmentRows_key (tenantID consignmentID : List Char) (t : UUID)
    (st : List Char) (rows : List Consignment) :
    ((db.updateConsignmentRows rows tenantID consignmentID t st).find?
      (fun c => c.TenantID = tenantID ∧ c.ConsignmentID = consignmentID ∧ c.TaskID = t)).map
      (fun c => c.Status) = some st := by
  unfold db.updateConsignmentRows
  split
  · rename_i h
    induction rows with
    | nil => simp at h
    | cons x xs ih =>
      by_cases hx : x.TenantID = tenantID ∧ x.ConsignmentID = consignmentID ∧ x.TaskID = t
      · simp [List.find?, hx]
      · have h2 : xs.any (fun c => decide (c.TenantID = tenantID ∧
            c.ConsignmentID = consignmentID ∧ c.TaskID = t)) = true := by
          simpa [hx] using h
        simpa [List.find?, hx] using ih h2
  · rename_i h
    have hnone : rows.find? (fun c => decide (c.TenantID = tenantID ∧
        c.ConsignmentID = consignmentID ∧ c.TaskID = t)) = none := by
      rw [List.find?_eq_none]
      intro x hx hk
      exact h (List.any_eq_true.mpr ⟨x, hx, hk⟩)
    rw [List.find?_append, hnone]
    simp [List.find?]

/-- C11: whenever `UpdateTaskStatus` returns nil, the two identifiers are the
text of UUIDs, and the task row keyed (device_id, task_id) and the consignment
row keyed (tenant_id, consignment_id, task_id) both hold the string form of
the requested status. -/
theorem updateTaskStatus_rows_agree (taskOutcome consignmentOutcome : Option GoError)
    (w : World) (taskID deviceID tenantID consignmentID : List Char) (status : TaskStatus)
    (h : (db.UpdateTaskStatus taskOutcome consignmentOutcome w taskID deviceID tenantID
      consignmentID status).1 = none) :
    ∃ d t : UUID, gocql.ParseUUID deviceID = some d ∧ gocql.ParseUUID taskID = some t ∧
      (db.UpdateTaskStatus taskOutcome consignmentOutcome w taskID deviceID tenantID
        consignmentID status).2.statusOf d t = some status.String ∧
      (db.UpdateTaskStatus taskOutcome consignmentOutcome w taskID deviceID tenantID
        consignmentID status).2.consignmentStatusOf tenantID consignmentID t =
          some status.String := by
  unfold db.UpdateTaskStatus db.setTaskStatus db.UpdateConsignmentTaskStatus at h ⊢
  cases hd : gocql.ParseUUID deviceID with
  | none => simp [hd] at h
  | some d =>
    cases ht : gocql.ParseUUID taskID with
    | none => simp [hd, ht] at h
    | some t =>
      refine ⟨d, t, rfl, rfl, ?_⟩
      cases taskOutcome with
      | some e => simp [hd, ht] at h
      | none =>
        cases consignmentOutcome with
        | some e => simp [hd, ht] at h
        | none =>
          simp only [hd, ht, World.statusOf, World.consignmentStatusOf]
          exact ⟨updateTaskRows_key d t _ _, updateConsignmentRows_key _ _ t _ _⟩

/-- Witness for C11: marking the stored sample task completed succeeds and both
rows then read `completed`. -/
theorem updateTaskStatus_rows_agree_witness :
    (db.UpdateTaskStatus none none sampleWorldQueued sampleAttempt.taskID.String sampleDevice
      sampleRequest.TenantId sampleRequest.ConsignmentId db.TaskStatusCompleted).1 = none ∧
    ∃ d t : UUID, gocql.ParseUUID sampleDevice = some d ∧
      gocql.ParseUUID sampleAttempt.taskID.String = some t ∧
      (db.UpdateTaskStatus none none sampleWorldQueued sampleAttempt.taskID.String sampleDevice
        sampleRequest.TenantId sampleRequest.ConsignmentId db.TaskStatusCompleted).2.statusOf d t =
          some db.TaskStatusCompleted.String ∧
      (db.UpdateTaskStatus none none sampleWorldQueued sampleAttempt.taskID.String sampleDevice
        sampleRequest.TenantId sampleRequest.ConsignmentId
        db.TaskStatusCompleted).2.consignmentStatusOf sampleRequest.TenantId
          sampleRequest.ConsignmentId t = some db.TaskStatusCompleted.String :=
  ⟨by decide,
   updateTaskStatus_rows_agree none none sampleWorldQueued sampleAttempt.taskID.String
     sampleDevice sampleRequest.TenantId sampleRequest.ConsignmentId db.TaskStatusCompleted
     (by decide)⟩

/-- C12 (failing input): the sample task is queued with its consignment row;
one step of the dispatch worker in which every call succeeds publishes the
task and marks the task row dispatched, and the consignment row of the task
still reads `queued`. -/
theorem dispatched_task_leaves_consignment_queued :
    sampleWorldQueued.dispatchQueue =
      [db.MarshalServiceMessage
        (db.CreateTask sampleAttempt sampleWorld
          sampleTaskNow.TaskInfo).2.2] ∧
    (db.MarkTaskDispatched none sampleWorldQueued
      (db.CreateTask sampleAttempt sampleWorld
        sampleTaskNow.TaskInfo).2.2.serviceMessage).1 = none ∧
    (sqs_provider.processSchedulerDispatchRequest workerSucceeds sampleWorldQueued).statusOf
      (db.setUuidFromString sampleDevice).1 sampleAttempt.taskID =
        some db.taskStatusDispatched ∧
    (sqs_provider.processSchedulerDispatchRequest workerSucceeds
      sampleWorldQueued).consignmentStatusOf sampleRequest.TenantId sampleRequest.ConsignmentId
        sampleAttempt.taskID = some db.taskStatusQueued ∧
    (sqs_provider.processSchedulerDispatchRequest workerSucceeds sampleWorldQueued).dispatchQueue =
      [] := by
  decide

/-! ## `CreateTask` writes two rows, one after the other -/

/-- C13 (counterexample): for the sample task with an empty consignment_id, and
for the sample task when the consignment insert fails, `CreateTask` returns an
error although the task row has been inserted; no consignment row is. -/
theorem createTask_error_leaves_task_row :
    (db.CreateTask sampleAttempt sampleWorld
      { sampleTask.TaskInfo with ConsignmentID := [] }).1 = some db.ErrInvalidRequest ∧
    (db.CreateTask sampleAttempt sampleWorld
      { sampleTask.TaskInfo with ConsignmentID := [] }).2.1.tasks =
        [{ sampleTask.TaskInfo with
            ConsignmentID := [], TaskID := sampleAttempt.taskID,
            CreateTime := sampleAttempt.createTime, Status := db.taskStatusQueued }] ∧
    (db.CreateTask sampleAttempt sampleWorld
      { sampleTask.TaskInfo with ConsignmentID := [] }).2.1.consignments = [] ∧
    (db.CreateTask { sampleAttempt with insertConsignment := some db.ErrInternalError }
      sampleWorld sampleTask.TaskInfo).1 = some db.ErrInternalError ∧
    (db.CreateTask { sampleAttempt with insertConsignment := some db.ErrInternalError }
      sampleWorld sampleTask.TaskInfo).2.1.tasks =
        [{ sampleTask.TaskInfo with
            TaskID := sampleAttempt.taskID, CreateTime := sampleAttempt.createTime,
            Status := db.taskStatusQueued }] ∧
    (db.CreateTask { sampleAttempt with insertConsignment := some db.ErrInternalError }
      sampleWorld sampleTask.TaskInfo).2.1.consignments = [] := by
  decide

/-- C13 (amended): `CreateTask` inserts the task row and then the consignment
row.  When it returns nil both rows are present, with status queued and
retry_count 0 under the freshly assigned task_id.  When it returns an error the
consignment row has not been inserted; the task row has not been inserted
either when the tenant check, the payload check or the task insert failed, and
it has been inserted when the consignment step failed. -/
theorem createTask_rows (a : Attempt) (w : World) (t : Task) :
    ((db.CreateTask a w t).1 = none →
      (db.CreateTask a w t).2.2 ∈ (db.CreateTask a w t).2.1.tasks ∧
      db.NewConsignmentFromTask (db.CreateTask a w t).2.2 ∈
        (db.CreateTask a w t).2.1.consignments ∧
      (db.CreateTask a w t).2.2.TaskID = a.taskID ∧
      (db.CreateTask a w t).2.2.Status = db.taskStatusQueued ∧
      (db.CreateTask a w t).2.2.RetryCount = 0 ∧
      (db.NewConsignmentFromTask (db.CreateTask a w t).2.2).TaskID = a.taskID ∧
      (db.NewConsignmentFromTask (db.CreateTask a w t).2.2).Status = db.taskStatusQueued) ∧
    ((db.CreateTask a w t).1 ≠ none →
      (db.CreateTask a w t).2.1.consignments = w.consignments ∧
      (db.CreateTask a w t).2.1.tasks =
        if uuid.Parse t.TenantID = true ∧ t.TaskDetails ≠ none ∧ a.insertTask = none then
          db.upsert Task.sameKey w.tasks (db.CreateTask a w t).2.2
        else w.tasks) := by
  constructor
  · intro h
    obtain ⟨e1, e2, e3, _, _⟩ := createTask_success a w t h
    rw [e2, e3]
    refine ⟨mem_upsert _ _ _, mem_upsert _ _ _, ?_⟩
    rw [e1]
    exact ⟨rfl, rfl, rfl, rfl, rfl⟩
  · intro h
    unfold db.CreateTask at h ⊢
    by_cases hc : uuid.Parse t.TenantID = true
    · by_cases hd : t.TaskDetails = none
      · simp [hc, hd]
      · cases hi : a.insertTask with
        | some err => simp [hc, hd, hi]
        | none =>
          simp only [hc, hd, hi, Bool.not_true, Bool.false_eq_true, if_false, ne_eq,
            not_false_eq_true, and_self, if_true] at h ⊢
          unfold db.CreateConsignment at h ⊢
          simp only [db.NewConsignmentFromTask, hc, Bool.not_true, Bool.false_eq_true,
            if_false] at h ⊢
          by_cases hk : t.ConsignmentID = []
          · simp [hk]
          · cases hj : a.insertConsignment with
            | some err => simp [hk, hj]
            | none => simp [hk, hj] at h
    · simp [hc]

/-- Witness for C13 (amended): creating the sample task succeeds and both rows
are present; with a failing consignment insert the task row is present and
the consignment table is as before. -/
theorem createTask_rows_witness :
    (db.CreateTask sampleAttempt sampleWorld sampleTask.TaskInfo).2.2 ∈
      (db.CreateTask sampleAttempt sampleWorld sampleTask.TaskInfo).2.1.tasks ∧
    (db.CreateTask { sampleAttempt with insertConsignment := some db.ErrInternalError }
      sampleWorld sampleTask.TaskInfo).2.1.consignments = sampleWorld.consignments :=
  ⟨((createTask_rows sampleAttempt sampleWorld sampleTask.TaskInfo).1 (by decide)).1,
   ((createTask_rows { sampleAttempt with insertConsignment := some db.ErrInternalError }
      sampleWorld sampleTask.TaskInfo).2 (by decide)).1⟩

/-! ## `Schedule` on tasks with a recorded error, and the `at` and `cron` schedules -/

/-- C14: whenever building the task has left its error non-nil, `Schedule`
returns that task's error and no task, and the store and the queues are as
before: nothing is persisted, no ScheduledRun is created and nothing is
dispatched. -/
theorem schedule_with_recorded_error (a : Attempt) (w : World) (s : ScheduledTask)
    (h : s.error ≠ none) :
    (∃ e : GoError, s.validate.error = some e ∧ (s.Schedule a w).1 = .err e) ∧
    (s.Schedule a w).2 = w ∧
    (s.Schedule a w).2.tasks = w.tasks ∧
    (s.Schedule a w).2.consignments = w.consignments ∧
    (s.Schedule a w).2.scheduledRuns = w.scheduledRuns ∧
    (s.Schedule a w).2.dispatchQueue = w.dispatchQueue := by
  have hv : s.validate.error ≠ none := fun hn => h ((sameIdentity_validate s).1.1 hn)
  have key : (∃ e : GoError, s.validate.error = some e ∧ (s.Schedule a w).1 = .err e) ∧
      (s.Schedule a w).2 = w := by
    cases he : s.validate.error with
    | none => exact absurd he hv
    | some e =>
      unfold ScheduledTask.Schedule
      simp [he]
  refine ⟨key.1, key.2, ?_, ?_, ?_, ?_⟩ <;> rw [key.2]

/-- Witness for C14: `every 0 seconds` records the invalid-interval error on
the sample task, and `Schedule` then leaves the store untouched. -/
theorem schedule_with_recorded_error_witness :
    sampleTask.ParseSchedule Lib.plain sampleTime sampleTime "every 0 seconds".toList =
      .value (sampleTask.EveryInt 0).Seconds ∧
    (sampleTask.EveryInt 0).Seconds.error = some scheduler.ErrInvalidInterval ∧
    ((sampleTask.EveryInt 0).Seconds.Schedule sampleAttempt sampleWorld).2 = sampleWorld :=
  ⟨by decide, by decide,
   (schedule_with_recorded_error sampleAttempt sampleWorld (sampleTask.EveryInt 0).Seconds
      (by decide)).2.1⟩

theorem foldl_addRunAtTime_info (ds : List Duration) :
    ∀ (s : ScheduledTask),
      (ds.foldl ScheduledTask.addRunAtTime s).TaskInfo.Unit = s.TaskInfo.Unit ∧
      (ds.foldl ScheduledTask.addRunAtTime s).TaskInfo.Interval = s.TaskInfo.Interval ∧
      (ds.foldl ScheduledTask.addRunAtTime s).TaskInfo.ScheduledWeekdays =
        s.TaskInfo.ScheduledWeekdays := by
  induction ds with
  | nil => intro s; exact ⟨rfl, rfl, rfl⟩
  | cons d rest ih =>
    intro s
    simp only [List.foldl_cons]
    exact ih (s.addRunAtTime d)

/-- C15 (failing inputs): every schedule string `at T1;…;Tk` of valid times
parses without error on a freshly constructed task, and `Schedule` then
rejects the task: the unit is still the zero value and the interval is 0, so
the validation records `ErrInvalidInterval`, and nothing is persisted. -/
theorem at_schedule_fails_validation (lib : Lib) (a : Attempt) (w : World)
    (loc deviceID : List Char) (request : CreateScheduledTaskRequest) (ts : List TimeOfDay)
    (hfresh : (scheduler.NewScheduledTask loc deviceID request).error = none)
    (hne : ts ≠ []) (hv : ∀ t ∈ ts, t.valid) :
    ((scheduler.NewScheduledTask loc deviceID request).ParseSchedule lib a.parseNow a.atNow
      (atSchedule ts)).Returns (fun parsed =>
        parsed.error = none ∧
        parsed.validate.error = some scheduler.ErrInvalidInterval ∧
        parsed.Schedule a w = (.err scheduler.ErrInvalidInterval, w)) := by
  obtain ⟨_, hu, hi, _, hw, _⟩ := fresh_task loc deviceID request
  rw [parseSchedule_at lib a.parseNow a.atNow _ ts hne hv]
  show _ ∧ _ ∧ _
  obtain ⟨h1, _⟩ := foldl_addRunAtTime (ts.map TimeOfDay.offset)
    (scheduler.NewScheduledTask loc deviceID request)
  obtain ⟨h2, h3, h4⟩ := foldl_addRunAtTime_info (ts.map TimeOfDay.offset)
    (scheduler.NewScheduledTask loc deviceID request)
  have hval : ((ts.map TimeOfDay.offset).foldl ScheduledTask.addRunAtTime
      (scheduler.NewScheduledTask loc deviceID request)).validate.error =
        some scheduler.ErrInvalidInterval := by
    unfold ScheduledTask.validate
    simp [h2, h3, h4, hu, hi, hw, h1, hfresh, ScheduledTask.fail, scheduler.wrapOrError,
      common.Crontab, common.Duration, common.Once, common.Weeks]
  refine ⟨by rw [h1]; exact hfresh, hval, ?_⟩
  unfold ScheduledTask.Schedule
  simp only [hval]

/-- Witness for C15: `at 09:30;12:00` on the sample task. -/
theorem at_schedule_fails_validation_witness :
    (sampleTask.ParseSchedule Lib.plain sampleTime sampleTime "at 09:30;12:00".toList).Returns
      (fun parsed =>
        parsed.error = none ∧
        parsed.validate.error = some scheduler.ErrInvalidInterval ∧
        parsed.Schedule sampleAttempt sampleWorld =
          (.err scheduler.ErrInvalidInterval, sampleWorld)) :=
  at_schedule_fails_validation Lib.plain sampleAttempt sampleWorld "UTC".toList sampleDevice
    sampleRequest [⟨9, 30, none⟩, ⟨12, 0, none⟩] (by decide) (by simp) (by decide)

/-- C16 (failing inputs): for `cron */5 * * * *` the cron parser is handed
`CRON_TZ=UTC */5`, the first field only: a parser that accepts just the
complete expression rejects the schedule, a parser that accepts just the
truncated text accepts it.  For `cron CRON_TZ=Asia/Tokyo 0 6 * * *` the parser
is handed `CRON_TZ=Asia/Tokyo` without any field; this text holds no blank
behind the time zone and the parser panics on it, whatever it accepts. -/
theorem cron_schedule_drops_fields :
    (sampleTask.ParseSchedule (Lib.cronOnly "CRON_TZ=UTC */5 * * * *".toList) sampleTime
      sampleTime "cron */5 * * * *".toList).Returns (fun parsed =>
        parsed.cronSchedule = none ∧
        parsed.error = some (.wrap scheduler.ErrCronParseFailure (.lib "cron.Parse".toList))) ∧
    (sampleTask.ParseSchedule (Lib.cronOnly "CRON_TZ=UTC */5".toList) sampleTime sampleTime
      "cron */5 * * * *".toList).Returns (fun parsed =>
        parsed.cronSchedule = some ⟨1⟩ ∧ parsed.error = none ∧
        parsed.TaskInfo.Unit = common.Crontab) ∧
    (strings.Split "cron CRON_TZ=Asia/Tokyo 0 6 * * *".toList ' ').getD 1 [] =
      "CRON_TZ=Asia/Tokyo".toList ∧
    sampleTask.ParseSchedule (Lib.cronOnly "CRON_TZ=Asia/Tokyo 0 6 * * *".toList) sampleTime
      sampleTime "cron CRON_TZ=Asia/Tokyo 0 6 * * *".toList =
        .panic "slice bounds out of range [:-1]".toList ∧
    sampleTask.ParseSchedule (Lib.cronOnly "CRON_TZ=Asia/Tokyo".toList) sampleTime sampleTime
      "cron CRON_TZ=Asia/Tokyo 0 6 * * *".toList =
        .panic "slice bounds out of range [:-1]".toList := by
  decide

/-! ## The scheduler daemon -/

theorem daemonItems_runs (ev : TickEvents) :
    ∀ (items : List ScheduledRun) (index : Nat) (w : World),
      (scheduler.daemonItems ev items index w).2.2.scheduledRuns = w.scheduledRuns
  | [], _, _ => rfl
  | item :: rest, index, w => by
    unfold scheduler.daemonItems
    split
    · rfl
    · split
      · exact daemonItems_runs ev rest (index + 1) w
      · split
        · exact daemonItems_runs ev rest (index + 1) w
        · exact daemonItems_runs ev rest (index + 1) _

theorem getScheduledRuns_next (o : Option GoError) (w : World) (p : List Char) (start : Nat)
    (found : List ScheduledRun × Nat) (h : db.GetScheduledRuns o w p start = .ok found) :
    found.2 = if start + db.itemsPerPage < (db.partitionRows w p).length then
      start + db.itemsPerPage else 0 := by
  unfold db.GetScheduledRuns at h
  split at h
  · simp at h
  · split at h
    · simp at h
    · simp only [Except.ok.injEq] at h
      rw [← h]

/-- The bound on the pages in `daemonTick` is enough: a larger bound gives the
same result. -/
theorem daemonPages_fuel (ev : TickEvents) (p : List Char) :
    ∀ (a b page start index : Nat) (w : World),
      (db.partitionRows w p).length < start + a + 1 →
      (db.partitionRows w p).length < start + b + 1 →
      scheduler.daemonPages ev p (a + 1) page start index w =
        scheduler.daemonPages ev p (b + 1) page start index w := by
  intro a
  induction a with
  | zero =>
    intro b page start index w h1 h2
    rw [scheduler.daemonPages, scheduler.daemonPages]
    cases hq : db.GetScheduledRuns (ev.query page) w p start with
    | error e => rfl
    | ok found =>
      have hn := getScheduledRuns_next _ _ _ _ _ hq
      have h0 : found.2 = 0 := by
        rw [hn, if_neg (by unfold db.itemsPerPage; omega)]
      simp only [h0, if_true]
  | succ a ih =>
    intro b page start index w h1 h2
    rw [scheduler.daemonPages, scheduler.daemonPages]
    cases hq : db.GetScheduledRuns (ev.query page) w p start with
    | error e => rfl
    | ok found =>
      have hn := getScheduledRuns_next _ _ _ _ _ hq
      dsimp only
      by_cases hr : (scheduler.daemonItems ev found.1 index w).1 = true
      · rw [if_pos hr, if_pos hr]
      · rw [if_neg hr, if_neg hr]
        by_cases h0 : found.2 = 0
        · rw [if_pos h0, if_pos h0]
        · rw [if_neg h0, if_neg h0]
          have hlt : start + db.itemsPerPage < (db.partitionRows w p).length := by
            by_contra hc
            rw [if_neg hc] at hn
            exact h0 hn
          rw [if_pos hlt] at hn
          unfold db.itemsPerPage at hlt hn
          obtain ⟨b1, rfl⟩ : ∃ b1, b = b1 + 1 := ⟨b - 1, by omega⟩
          have hrows : db.partitionRows (scheduler.daemonItems ev found.1 index w).2.2 p =
              db.partitionRows w p := by
            unfold db.partitionRows
            rw [daemonItems_runs]
          exact ih b1 (page + 1) found.2 _ _ (by rw [hrows, hn]; omega)
            (by rw [hrows, hn]; omega)

/-! ## Failure ordering of the dispatch worker -/

theorem setTaskStatus_ok (o : Option GoError) (w : World) (taskID deviceID : List Char)
    (status : TaskStatus) (h : (db.setTaskStatus o w taskID deviceID status).1 = none) :
    ∃ d t : UUID, gocql.ParseUUID deviceID = some d ∧ gocql.ParseUUID taskID = some t ∧
      (db.setTaskStatus o w taskID deviceID status).2 =
        { w with tasks := db.updateTaskRows w.tasks d t status.String } := by
  unfold db.setTaskStatus at h ⊢
  cases hd : gocql.ParseUUID deviceID with
  | none => simp [hd] at h
  | some d =>
    cases ht : gocql.ParseUUID taskID with
    | none => simp [hd, ht] at h
    | some t =>
      cases o with
      | some e => simp [hd, ht] at h
      | none => exact ⟨d, t, rfl, rfl, rfl⟩

theorem markTaskDispatched_ok (o : Option GoError) (w : World) (m : ServiceMessage)
    (h : (db.MarkTaskDispatched o w m).1 = none) :
    ∃ d t : UUID, gocql.ParseUUID m.DeviceId = some d ∧ gocql.ParseUUID m.TaskId = some t ∧
      (db.MarkTaskDispatched o w m).2 =
        { w with tasks := db.updateTaskRows w.tasks d t db.taskStatusDispatched } := by
  unfold db.MarkTaskDispatched at h ⊢
  split
  · rename_i hc; rw [if_pos hc] at h; simp at h
  · rename_i hc
    rw [if_neg hc] at h
    exact setTaskStatus_ok o w _ _ _ h

theorem markTaskDispatched_err (o : Option GoError) (w : World) (m : ServiceMessage)
    (h : (db.MarkTaskDispatched o w m).1 ≠ none) : (db.MarkTaskDispatched o w m).2 = w := by
  unfold db.MarkTaskDispatched db.setTaskStatus at h ⊢
  by_cases hc : m.DeviceId = [] ∨ m.TaskId = []
  · rw [if_pos hc]
  · rw [if_neg hc] at h ⊢
    cases hd : gocql.ParseUUID m.DeviceId <;> cases ht : gocql.ParseUUID m.TaskId <;>
      cases o <;> simp_all

/-- C18: in one step of the dispatch worker on a received message: when the
body does not decode, nothing is published, no status is written and the
message is deleted (the delete call succeeding); when the publish fails, the
queue, the store and the broker are as before; otherwise the message is
published, and it leaves the queue only when the status update to dispatched
has succeeded as well, in which case the task row reads `dispatched`; a failed
status update leaves the message on the queue. -/
theorem dispatch_worker_failure_ordering (ev : WorkerEvents) (w : World) (msg : Packet)
    (rest : List Packet) (hq : w.dispatchQueue = msg :: rest) (hreceive : ev.receive = none) :
    (db.UnmarshallServiceMessage msg = none →
      (sqs_provider.processSchedulerDispatchRequest ev w).published = w.published ∧
      (sqs_provider.processSchedulerDispatchRequest ev w).tasks = w.tasks ∧
      (ev.delete = none →
        (sqs_provider.processSchedulerDispatchRequest ev w).dispatchQueue = rest)) ∧
    (∀ m : ServiceMessage, db.UnmarshallServiceMessage msg = some m →
      (ev.publish ≠ none → sqs_provider.processSchedulerDispatchRequest ev w = w) ∧
      (ev.publish = none →
        (sqs_provider.processSchedulerDispatchRequest ev w).published =
          w.published ++ [(mqtt.GetMqttTopicForDeviceTask m.DeviceId m.ServiceId, m)] ∧
        ((db.MarkTaskDispatched ev.update
            { w with published := w.published ++
              [(mqtt.GetMqttTopicForDeviceTask m.DeviceId m.ServiceId, m)] } m).1 ≠ none →
          (sqs_provider.processSchedulerDispatchRequest ev w).dispatchQueue = msg :: rest ∧
          (sqs_provider.processSchedulerDispatchRequest ev w).tasks = w.tasks) ∧
        ((sqs_provider.processSchedulerDispatchRequest ev w).dispatchQueue ≠ msg :: rest →
          (sqs_provider.processSchedulerDispatchRequest ev w).dispatchQueue = rest ∧
          ev.delete = none ∧
          (db.MarkTaskDispatched ev.update
            { w with published := w.published ++
              [(mqtt.GetMqttTopicForDeviceTask m.DeviceId m.ServiceId, m)] } m).1 = none ∧
          ∃ d t : UUID, gocql.ParseUUID m.DeviceId = some d ∧
            gocql.ParseUUID m.TaskId = some t ∧
            (sqs_provider.processSchedulerDispatchRequest ev w).statusOf d t =
              some db.taskStatusDispatched))) := by
  obtain ⟨c1, c2, c3, c4, c5, q, c7, c8⟩ := w
  simp only at hq
  subst hq
  constructor
  · intro hdec
    unfold sqs_provider.processSchedulerDispatchRequest
    simp only [hreceive, hdec]
    cases hdel : ev.delete with
    | none => exact ⟨rfl, rfl, fun _ => rfl⟩
    | some e => exact ⟨rfl, rfl, fun h => absurd h (by simp)⟩
  · intro m hdec
    constructor
    · intro hp
      unfold sqs_provider.processSchedulerDispatchRequest
      simp only [hreceive, hdec]
      cases hpub : ev.publish with
      | none => exact absurd hpub hp
      | some e => rfl
    · intro hp
      refine ⟨?_, ?_, ?_⟩
      · unfold sqs_provider.processSchedulerDispatchRequest
        simp only [hreceive, hdec, hp]
        split
        · exact (markTaskDispatched_published _ _ _).1
        · split
          · exact (markTaskDispatched_published _ _ _).1
          · exact (markTaskDispatched_published _ _ _).1
      · intro herr
        have hw := markTaskDispatched_err _ _ _ herr
        unfold sqs_provider.processSchedulerDispatchRequest
        simp only [hreceive, hdec, hp]
        split
        · rw [hw]; exact ⟨rfl, rfl⟩
        · rename_i hnone; exact absurd hnone herr
      · intro hchg
        unfold sqs_provider.processSchedulerDispatchRequest at hchg ⊢
        simp only [hreceive, hdec, hp] at hchg ⊢
        cases hm : (db.MarkTaskDispatched ev.update
            { serviceConfigTable := c1, serviceDispatchTable := c2, tasks := c3,
              consignments := c4, scheduledRuns := c5, dispatchQueue := msg :: rest,
              serviceQueue := c7,
              published := c8 ++
                [(mqtt.GetMqttTopicForDeviceTask m.DeviceId m.ServiceId, m)] } m).1 with
        | some e =>
          exfalso
          apply hchg
          simp only [hm]
          rw [(markTaskDispatched_published _ _ _).2.1]
        | none =>
          obtain ⟨d, t, hd, ht, hw⟩ := markTaskDispatched_ok _ _ _ hm
          cases hdel : ev.delete with
          | some e =>
            exfalso
            apply hchg
            simp only [hm, hdel]
            rw [(markTaskDispatched_published _ _ _).2.1]
          | none =>
            simp only [hm, hdel, true_and]
            refine ⟨d, t, hd, ht, ?_⟩
            simp only [World.statusOf, hw]
            exact updateTaskRows_key d t _ _

/-- Witness for C18: a body that does not decode is deleted from the queue, and
a failed publish of the queued sample task leaves everything as it was. -/
theorem dispatch_worker_failure_ordering_witness :
    (sqs_provider.processSchedulerDispatchRequest workerSucceeds
      { sampleWorld with dispatchQueue := [.malformed "%%".toList] }).dispatchQueue = [] ∧
    sqs_provider.processSchedulerDispatchRequest workerPublishFails sampleWorldQueued =
      sampleWorldQueued :=
  ⟨((dispatch_worker_failure_ordering workerSucceeds
      { sampleWorld with dispatchQueue := [.malformed "%%".toList] } (.malformed "%%".toList) []
      rfl rfl).1 rfl).2.2 rfl,
   ((dispatch_worker_failure_ordering workerPublishFails sampleWorldQueued
      (db.MarshalServiceMessage (db.CreateTask sampleAttempt sampleWorld
        sampleTaskNow.TaskInfo).2.2) []
      (by decide) rfl).2 _ rfl).1 (by decide)⟩

/-! ## UUIDs: the text of a UUID parses back to it -/

theorem hexVal_lt (c : Char) (v : Nat) (h : hexVal c = some v) : v < 16 := by
  unfold hexVal at h
  split_ifs at h <;> simp at h <;> omega

theorem parseLoop_lt : ∀ (s : List Char) (acc ns : List Nat),
    gocql.parseLoop s acc = some ns → (∀ n ∈ acc, n < 16) → ∀ n ∈ ns, n < 16
  | [], acc, ns, h, hacc => by
    simp only [gocql.parseLoop, Option.some.injEq] at h
    rw [← h]; exact hacc
  | r :: rest, acc, ns, h, hacc => by
    unfold gocql.parseLoop at h
    split at h
    · exact parseLoop_lt rest acc ns h hacc
    · split at h
      · rename_i v hv
        split at h
        · refine parseLoop_lt rest (acc ++ [v]) ns h ?_
          intro n hn
          rcases List.mem_append.mp hn with h1 | h1
          · exact hacc n h1
          · simp at h1; rw [h1]; exact hexVal_lt r v hv
        · simp at h
      · simp at h

theorem parseUUID_wf (s : List Char) (u : UUID) (h : gocql.ParseUUID s = some u) :
    u.nibbles.length = 32 ∧ ∀ n ∈ u.nibbles, n < 16 := by
  unfold gocql.ParseUUID at h
  split at h
  · rename_i ns hns
    split at h
    · rename_i hl
      simp only [Option.some.injEq] at h
      subst h
      exact ⟨hl, parseLoop_lt s [] ns hns (by simp)⟩
    · simp at h
  · simp at h

theorem hexVal_hexDigit (n : Nat) (h : n < 16) :
    hexVal (hexDigit n) = some n ∧ hexDigit n ≠ '-' := by
  interval_cases n <;> decide

theorem parseLoop_hex : ∀ (ns acc : List Nat) (rest : List Char), (∀ n ∈ ns, n < 16) →
    acc.length + ns.length ≤ 32 →
    gocql.parseLoop (ns.map hexDigit ++ rest) acc = gocql.parseLoop rest (acc ++ ns)
  | [], acc, rest, _, _ => by simp
  | n :: ns, acc, rest, h, hl => by
    obtain ⟨h1, h2⟩ := hexVal_hexDigit n (h n (by simp))
    have hlt : acc.length < 32 := by simp at hl; omega
    simp only [List.map_cons, List.cons_append, gocql.parseLoop, h1]
    rw [if_neg (fun hc => h2 hc.1), if_pos hlt]
    show gocql.parseLoop (List.map hexDigit ns ++ rest) (acc ++ [n]) = _
    rw [parseLoop_hex ns (acc ++ [n]) rest (fun k hk => h k (by simp [hk]))
      (by simp at hl ⊢; omega)]
    simp

theorem parseLoop_hyphen (rest : List Char) (acc : List Nat) (h : acc.length % 2 = 0) :
    gocql.parseLoop ('-' :: rest) acc = gocql.parseLoop rest acc := by
  simp [gocql.parseLoop, h]

theorem parseUUID_string (u : UUID) (hl : u.nibbles.length = 32)
    (hn : ∀ n ∈ u.nibbles, n < 16) : gocql.ParseUUID u.String = some u := by
  obtain ⟨ns⟩ := u
  simp only at hl hn
  have e : UUID.String ⟨ns⟩ = (ns.take 8).map hexDigit ++ ('-' ::
      (((ns.drop 8).take 4).map hexDigit ++ ('-' ::
      (((ns.drop 12).take 4).map hexDigit ++ ('-' ::
      (((ns.drop 16).take 4).map hexDigit ++ ('-' ::
      ((ns.drop 20).map hexDigit ++ [])))))))) := by
    simp [UUID.String, List.map_take, List.map_drop]
  have m1 : ∀ n ∈ ns.take 8, n < 16 := fun n h => hn n (List.mem_of_mem_take h)
  have m2 : ∀ n ∈ (ns.drop 8).take 4, n < 16 :=
    fun n h => hn n (List.mem_of_mem_drop (List.mem_of_mem_take h))
  have m3 : ∀ n ∈ (ns.drop 12).take 4, n < 16 :=
    fun n h => hn n (List.mem_of_mem_drop (List.mem_of_mem_take h))
  have m4 : ∀ n ∈ (ns.drop 16).take 4, n < 16 :=
    fun n h => hn n (List.mem_of_mem_drop (List.mem_of_mem_take h))
  have m5 : ∀ n ∈ ns.drop 20, n < 16 := fun n h => hn n (List.mem_of_mem_drop h)
  have fin : [] ++ ns.take 8 ++ (ns.drop 8).take 4 ++ (ns.drop 12).take 4 ++
      (ns.drop 16).take 4 ++ ns.drop 20 = ns := by
    have a1 : ns.drop 20 = (ns.drop 16).drop 4 := by rw [List.drop_drop]
    have a2 : ns.drop 16 = (ns.drop 12).drop 4 := by rw [List.drop_drop]
    have a3 : ns.drop 12 = (ns.drop 8).drop 4 := by rw [List.drop_drop]
    rw [List.nil_append, List.append_assoc, List.append_assoc, List.append_assoc, a1,
      List.take_append_drop, a2, List.take_append_drop, a3, List.take_append_drop,
      List.take_append_drop]
  unfold gocql.ParseUUID
  rw [e, parseLoop_hex _ _ _ m1 (by simp [hl]),
    parseLoop_hyphen _ _ (by simp [hl]),
    parseLoop_hex _ _ _ m2 (by simp [hl]),
    parseLoop_hyphen _ _ (by simp [hl]),
    parseLoop_hex _ _ _ m3 (by simp [hl]),
    parseLoop_hyphen _ _ (by simp [hl]),
    parseLoop_hex _ _ _ m4 (by simp [hl]),
    parseLoop_hyphen _ _ (by simp [hl]),
    parseLoop_hex _ _ _ m5 (by simp [hl]), fin]
  simp [gocql.parseLoop, hl]

/-! ## The response handlers: status written and event forwarded -/

theorem getTaskByID_wf (o : Option GoError) (w : World) (taskID deviceID : List Char)
    (row : Task) (h : db.GetTaskByID o w taskID deviceID = .ok row) :
    (row.DeviceID.nibbles.length = 32 ∧ ∀ n ∈ row.DeviceID.nibbles, n < 16) ∧
    (row.TaskID.nibbles.length = 32 ∧ ∀ n ∈ row.TaskID.nibbles, n < 16) := by
  unfold db.GetTaskByID at h
  split at h
  · simp at h
  · split at h
    · simp at h
    · split at h
      · rename_i d t hd ht
        split at h
        · simp at h
        · split at h
          · rename_i r hr
            simp only [Except.ok.injEq] at h
            subst h
            have hk := List.find?_some hr
            simp only [decide_eq_true_eq] at hk
            have pd : gocql.ParseUUID deviceID = some d := by
              unfold db.cqlUuidLiteral at hd
              split at hd
              · exact hd
              · simp at hd
            have pt : gocql.ParseUUID taskID = some t := by
              unfold db.cqlUuidLiteral at ht
              split at ht
              · exact ht
              · simp at ht
            rw [hk.1, hk.2]
            exact ⟨parseUUID_wf _ _ pd, parseUUID_wf _ _ pt⟩
          · simp at h
      · simp at h

theorem updateTaskStatus_frame (o1 o2 : Option GoError) (w : World)
    (taskID deviceID tenantID consignmentID : List Char) (status : TaskStatus) :
    (db.UpdateTaskStatus o1 o2 w taskID deviceID tenantID consignmentID status).2.serviceQueue =
      w.serviceQueue ∧
    (db.UpdateTaskStatus o1 o2 w taskID deviceID tenantID consignmentID
      status).2.serviceDispatchTable = w.serviceDispatchTable ∧
    (db.UpdateTaskStatus o1 o2 w taskID deviceID tenantID consignmentID
      status).2.serviceConfigTable = w.serviceConfigTable := by
  unfold db.UpdateTaskStatus db.setTaskStatus db.UpdateConsignmentTaskStatus
  cases gocql.ParseUUID deviceID <;> cases gocql.ParseUUID taskID <;> cases o1 <;>
    cases o2 <;> simp

theorem updateTaskStatus_task (o2 : Option GoError) (w : World) (task : Task)
    (tenantID consignmentID : List Char) (status : TaskStatus)
    (hd : task.DeviceID.nibbles.length = 32 ∧ ∀ n ∈ task.DeviceID.nibbles, n < 16)
    (ht : task.TaskID.nibbles.length = 32 ∧ ∀ n ∈ task.TaskID.nibbles, n < 16) :
    (db.UpdateTaskStatus none o2 w task.TaskID.String task.DeviceID.String tenantID
      consignmentID status).2.statusOf task.DeviceID task.TaskID = some status.String := by
  have pd := parseUUID_string task.DeviceID hd.1 hd.2
  have pt := parseUUID_string task.TaskID ht.1 ht.2
  unfold db.UpdateTaskStatus db.setTaskStatus db.UpdateConsignmentTaskStatus
  simp only [pd, pt, World.statusOf]
  cases o2 <;> exact updateTaskRows_key _ _ _ _

theorem sendMessage_frame (ev : ResponseEvents) (w : World) (serviceID queueTopic : List Char)
    (event : DeviceEvent) :
    (sqs_provider.SendMessage ev w serviceID queueTopic event).2.tasks = w.tasks ∧
    (sqs_provider.SendMessage ev w serviceID queueTopic event).2.consignments =
      w.consignments ∧
    ∀ q ∈ (sqs_provider.SendMessage ev w serviceID queueTopic event).2.serviceQueue.drop
        w.serviceQueue.length,
      q = { ServiceID := serviceID, QueueTopic := queueTopic, Event := event } := by
  unfold sqs_provider.SendMessage
  split
  · simp
  · split
    · simp
    · split
      · simp
      · simp

theorem response_tail_frame (ev : ResponseEvents) (r : Option GoError × World)
    (serviceID managementService mqttTopic : List Char) (event : DeviceEvent) :
    (if db.GetServiceQueueTopic r.2 serviceID mqttTopic = [] then
        (some scheduler.ErrInvalidMessageType, r.2)
      else sqs_provider.SendMessage ev r.2 managementService
        (db.GetServiceQueueTopic r.2 serviceID mqttTopic) event).2.tasks = r.2.tasks ∧
    (if db.GetServiceQueueTopic r.2 serviceID mqttTopic = [] then
        (some scheduler.ErrInvalidMessageType, r.2)
      else sqs_provider.SendMessage ev r.2 managementService
        (db.GetServiceQueueTopic r.2 serviceID mqttTopic) event).2.consignments =
      r.2.consignments := by
  split
  · exact ⟨rfl, rfl⟩
  · exact ⟨(sendMessage_frame _ _ _ _ _).1, (sendMessage_frame _ _ _ _ _).2.1⟩

/-- C19: for every task-response message that passes token verification and
the service and tenant match against the stored task: when the lower-cased
`task_status` is `complete` or `success` the store is the one `MarkTaskComplete`
leaves and, the update of the task row succeeding, the task row reads
`completed`; when it is `failed` or `error` the same holds with
`MarkTaskFailed` and `failed`; for every other `task_status` the handler
returns `ErrInvalidRequest` and the store and the queues are as before. -/
theorem task_response_status_mapping (lib : Lib) (ev : ResponseEvents) (w : World)
    (mqttTopic : List Char) (message : DeviceMessage) (claims : DstsTokenClaims)
    (foundTask : Task)
    (htoken : dstsclient.ValidateDeviceAccessToken ev message.AccessToken = .ok claims)
    (hfound : db.GetTaskByID ev.getTask w message.TaskId claims.Subject = .ok foundTask)
    (hservice : foundTask.ServiceID = claims.ManagementService)
    (htenant : foundTask.TenantID = claims.TenantID) :
    ((strings.ToLower lib message.TaskStatus = "complete".toList ∨
        strings.ToLower lib message.TaskStatus = "success".toList) →
      (scheduler.handleTaskResponseMessage lib ev w mqttTopic message).2.tasks =
        (db.MarkTaskComplete ev.updateTask ev.updateConsignment w foundTask).2.tasks ∧
      (scheduler.handleTaskResponseMessage lib ev w mqttTopic message).2.consignments =
        (db.MarkTaskComplete ev.updateTask ev.updateConsignment w foundTask).2.consignments ∧
      (ev.updateTask = none →
        (scheduler.handleTaskResponseMessage lib ev w mqttTopic message).2.statusOf
          foundTask.DeviceID foundTask.TaskID = some db.taskStatusCompleted)) ∧
    ((strings.ToLower lib message.TaskStatus = "failed".toList ∨
        strings.ToLower lib message.TaskStatus = "error".toList) →
      (scheduler.handleTaskResponseMessage lib ev w mqttTopic message).2.tasks =
        (db.MarkTaskFailed ev.updateTask ev.updateConsignment w foundTask).2.tasks ∧
      (scheduler.handleTaskResponseMessage lib ev w mqttTopic message).2.consignments =
        (db.MarkTaskFailed ev.updateTask ev.updateConsignment w foundTask).2.consignments ∧
      (ev.updateTask = none →
        (scheduler.handleTaskResponseMessage lib ev w mqttTopic message).2.statusOf
          foundTask.DeviceID foundTask.TaskID = some db.taskStatusFailed)) ∧
    (¬ (strings.ToLower lib message.TaskStatus = "complete".toList ∨
        strings.ToLower lib message.TaskStatus = "success".toList ∨
        strings.ToLower lib message.TaskStatus = "failed".toList ∨
        strings.ToLower lib message.TaskStatus = "error".toList) →
      scheduler.handleTaskResponseMessage lib ev w mqttTopic message =
        (some scheduler.ErrInvalidRequest, w)) := by
  obtain ⟨wd, wt⟩ := getTaskByID_wf _ _ _ _ _ hfound
  have hs : ¬ foundTask.ServiceID ≠ claims.ManagementService := fun h => h hservice
  have ht : ¬ foundTask.TenantID ≠ claims.TenantID := fun h => h htenant
  refine ⟨fun hc => ?_, fun hf => ?_, fun hn => ?_⟩
  · have e : scheduler.handleTaskResponseMessage lib ev w mqttTopic message =
        (if db.GetServiceQueueTopic
              (db.MarkTaskComplete ev.updateTask ev.updateConsignment w foundTask).2
              foundTask.ServiceID mqttTopic = [] then
            (some scheduler.ErrInvalidMessageType,
              (db.MarkTaskComplete ev.updateTask ev.updateConsignment w foundTask).2)
          else sqs_provider.SendMessage ev
            (db.MarkTaskComplete ev.updateTask ev.updateConsignment w foundTask).2
            claims.ManagementService
            (db.GetServiceQueueTopic
              (db.MarkTaskComplete ev.updateTask ev.updateConsignment w foundTask).2
              foundTask.ServiceID mqttTopic)
            { Version := 1, ServiceId := claims.ManagementService, DeviceId := claims.Subject,
              TaskId := message.TaskId, ConsignmentId := foundTask.ConsignmentID,
              TenantId := claims.TenantID, TaskStatus := message.TaskStatus,
              MessageId := message.MessageId, MessageType := message.MessageType,
              Payload := message.Payload.getD [] }) := by
      unfold scheduler.handleTaskResponseMessage
      simp only [htoken, hfound, if_neg hs, if_neg ht, if_pos hc]
    rw [e]
    obtain ⟨k1, k2⟩ := response_tail_frame ev
      (db.MarkTaskComplete ev.updateTask ev.updateConsignment w foundTask) foundTask.ServiceID
      claims.ManagementService mqttTopic
      { Version := 1, ServiceId := claims.ManagementService, DeviceId := claims.Subject,
        TaskId := message.TaskId, ConsignmentId := foundTask.ConsignmentID,
        TenantId := claims.TenantID, TaskStatus := message.TaskStatus,
        MessageId := message.MessageId, MessageType := message.MessageType,
        Payload := message.Payload.getD [] }
    refine ⟨k1, k2, fun hu => ?_⟩
    unfold World.statusOf
    rw [k1, hu]
    exact updateTaskStatus_task _ w foundTask _ _ db.TaskStatusCompleted wd wt
  · have hc : ¬ (strings.ToLower lib message.TaskStatus = "complete".toList ∨
        strings.ToLower lib message.TaskStatus = "success".toList) := by
      intro hc
      rcases hf with h | h <;> rcases hc with h2 | h2 <;> rw [h] at h2 <;>
        exact absurd h2 (by decide)
    have e : scheduler.handleTaskResponseMessage lib ev w mqttTopic message =
        (if db.GetServiceQueueTopic
              (db.MarkTaskFailed ev.updateTask ev.updateConsignment w foundTask).2
              foundTask.ServiceID mqttTopic = [] then
            (some scheduler.ErrInvalidMessageType,
              (db.MarkTaskFailed ev.updateTask ev.updateConsignment w foundTask).2)
          else sqs_provider.SendMessage ev
            (db.MarkTaskFailed ev.updateTask ev.updateConsignment w foundTask).2
            claims.ManagementService
            (db.GetServiceQueueTopic
              (db.MarkTaskFailed ev.updateTask ev.updateConsignment w foundTask).2
              foundTask.ServiceID mqttTopic)
            { Version := 1, ServiceId := claims.ManagementService, DeviceId := claims.Subject,
              TaskId := message.TaskId, ConsignmentId := foundTask.ConsignmentID,
              TenantId := claims.TenantID, TaskStatus := message.TaskStatus,
              MessageId := message.MessageId, MessageType := message.MessageType,
              Payload := message.Payload.getD [] }) := by
      unfold scheduler.handleTaskResponseMessage
      simp only [htoken, hfound, if_neg hs, if_neg ht, if_neg hc, if_pos hf]
    rw [e]
    obtain ⟨k1, k2⟩ := response_tail_frame ev
      (db.MarkTaskFailed ev.updateTask ev.updateConsignment w foundTask) foundTask.ServiceID
      claims.ManagementService mqttTopic
      { Version := 1, ServiceId := claims.ManagementService, DeviceId := claims.Subject,
        TaskId := message.TaskId, ConsignmentId := foundTask.ConsignmentID,
        TenantId := claims.TenantID, TaskStatus := message.TaskStatus,
        MessageId := message.MessageId, MessageType := message.MessageType,
        Payload := message.Payload.getD [] }
    refine ⟨k1, k2, fun hu => ?_⟩
    unfold World.statusOf
    rw [k1, hu]
    exact updateTaskStatus_task _ w foundTask _ _ db.TaskStatusFailed wd wt
  · have hc : ¬ (strings.ToLower lib message.TaskStatus = "complete".toList ∨
        strings.ToLower lib message.TaskStatus = "success".toList) :=
      fun h => hn (h.elim Or.inl (fun h2 => Or.inr (Or.inl h2)))
    have hf : ¬ (strings.ToLower lib message.TaskStatus = "failed".toList ∨
        strings.ToLower lib message.TaskStatus = "error".toList) :=
      fun h => hn (h.elim (fun h2 => Or.inr (Or.inr (Or.inl h2)))
        (fun h2 => Or.inr (Or.inr (Or.inr h2))))
    unfold scheduler.handleTaskResponseMessage
    simp only [htoken, hfound, if_neg hs, if_neg ht, if_neg hc, if_neg hf]

/-- Witness for C19: the response `SUCCESS` for the dispatched sample task marks
the task completed, and the empty status is rejected. -/
theorem task_response_status_mapping_witness :
    (scheduler.handleTaskResponseMessage Lib.plain responseSucceeds sampleWorldQueued
      "v1/@cloud/task_responses".toList (sampleResponse "SUCCESS".toList)).2.statusOf
      (db.setUuidFromString sampleDevice).1 sampleAttempt.taskID = some db.taskStatusCompleted ∧
    scheduler.handleTaskResponseMessage Lib.plain responseSucceeds sampleWorldQueued
      "v1/@cloud/task_responses".toList (sampleResponse []) =
        (some scheduler.ErrInvalidRequest, sampleWorldQueued) :=
  ⟨((task_response_status_mapping Lib.plain responseSucceeds sampleWorldQueued
      "v1/@cloud/task_responses".toList (sampleResponse "SUCCESS".toList)
      { Issuer := "HP Device Token Service".toList, Subject := sampleDevice,
        TokenType := "device".toList,
        TenantID := "16fd2706-8baf-433b-82eb-8c7fada847da".toList,
        ManagementService := "hpcem".toList }
      ((db.CreateTask sampleAttempt sampleWorld
        sampleTaskNow.TaskInfo).2.2)
      (by decide) (by decide) (by decide) (by decide)).1 (Or.inr (by decide))).2.2 rfl,
   (task_response_status_mapping Lib.plain responseSucceeds sampleWorldQueued
      "v1/@cloud/task_responses".toList (sampleResponse [])
      { Issuer := "HP Device Token Service".toList, Subject := sampleDevice,
        TokenType := "device".toList,
        TenantID := "16fd2706-8baf-433b-82eb-8c7fada847da".toList,
        ManagementService := "hpcem".toList }
      ((db.CreateTask sampleAttempt sampleWorld
        sampleTaskNow.TaskInfo).2.2)
      (by decide) (by decide) (by decide) (by decide)).2.2 (by decide)⟩

/-! ## Forwarded events carry the claims of the token -/

theorem forwarded_self (claims : DstsTokenClaims) (w : World) (mqttTopic : List Char) :
    ∀ q ∈ w.forwarded w, CarriesClaims claims w mqttTopic q := by
  intro q hq
  simp [World.forwarded] at hq

theorem getServiceQueueTopic_congr (w1 w2 : World) (serviceID mqttTopic : List Char)
    (h : w2.serviceDispatchTable = w1.serviceDispatchTable) :
    db.GetServiceQueueTopic w2 serviceID mqttTopic =
      db.GetServiceQueueTopic w1 serviceID mqttTopic := by
  unfold db.GetServiceQueueTopic
  rw [h]

theorem response_tail_forwarded (ev : ResponseEvents) (w : World) (r : Option GoError × World)
    (claims : DstsTokenClaims) (mqttTopic : List Char) (event : DeviceEvent)
    (hq : r.2.serviceQueue = w.serviceQueue)
    (ht : r.2.serviceDispatchTable = w.serviceDispatchTable)
    (he : event.ServiceId = claims.ManagementService ∧ event.DeviceId = claims.Subject ∧
      event.TenantId = claims.TenantID) :
    ∀ q ∈ w.forwarded
        (if db.GetServiceQueueTopic r.2 claims.ManagementService mqttTopic = [] then
          (some scheduler.ErrInvalidMessageType, r.2)
        else sqs_provider.SendMessage ev r.2 claims.ManagementService
          (db.GetServiceQueueTopic r.2 claims.ManagementService mqttTopic) event).2,
      CarriesClaims claims w mqttTopic q := by
  intro q hmem
  unfold World.forwarded at hmem
  split at hmem
  · rw [hq] at hmem
    simp at hmem
  · rw [← hq] at hmem
    have e := (sendMessage_frame ev r.2 claims.ManagementService
      (db.GetServiceQueueTopic r.2 claims.ManagementService mqttTopic) event).2.2 q hmem
    rw [e]
    exact ⟨rfl, getServiceQueueTopic_congr w r.2 _ _ ht, he.1, he.2.1, he.2.2⟩

theorem forwarded_taskResponse (lib : Lib) (ev : ResponseEvents) (w : World)
    (mqttTopic : List Char) (message : DeviceMessage) (claims : DstsTokenClaims)
    (htoken : dstsclient.ValidateDeviceAccessToken ev message.AccessToken = .ok claims) :
    ∀ q ∈ w.forwarded (scheduler.handleTaskResponseMessage lib ev w mqttTopic message).2,
      CarriesClaims claims w mqttTopic q := by
  unfold scheduler.handleTaskResponseMessage
  simp only [htoken]
  split
  · exact forwarded_self claims w mqttTopic
  · rename_i foundTask hfound
    by_cases hs : foundTask.ServiceID ≠ claims.ManagementService
    · rw [if_pos hs]
      exact forwarded_self claims w mqttTopic
    · rw [if_neg hs]
      have hsvc : foundTask.ServiceID = claims.ManagementService := not_not.mp hs
      by_cases hten : foundTask.TenantID ≠ claims.TenantID
      · rw [if_pos hten]
        exact forwarded_self claims w mqttTopic
      · rw [if_neg hten]
        by_cases hc : strings.ToLower lib message.TaskStatus = "complete".toList ∨
            strings.ToLower lib message.TaskStatus = "success".toList
        · simp only [if_pos hc]
          rw [hsvc]
          exact response_tail_forwarded ev w
            (db.MarkTaskComplete ev.updateTask ev.updateConsignment w foundTask) claims mqttTopic
            _ (updateTaskStatus_frame _ _ _ _ _ _ _ _).1 (updateTaskStatus_frame _ _ _ _ _ _ _ _).2.1
            ⟨rfl, rfl, rfl⟩
        · by_cases hf : strings.ToLower lib message.TaskStatus = "failed".toList ∨
              strings.ToLower lib message.TaskStatus = "error".toList
          · simp only [if_neg hc, if_pos hf]
            rw [hsvc]
            exact response_tail_forwarded ev w
              (db.MarkTaskFailed ev.updateTask ev.updateConsignment w foundTask) claims mqttTopic
              _ (updateTaskStatus_frame _ _ _ _ _ _ _ _).1
              (updateTaskStatus_frame _ _ _ _ _ _ _ _).2.1 ⟨rfl, rfl, rfl⟩
          · simp only [if_neg hc, if_neg hf]
            exact forwarded_self claims w mqttTopic

theorem forwarded_deviceMessage (ev : ResponseEvents) (dcm : Option GoError) (w : World)
    (mqttTopic : List Char) (message : DeviceMessage) (claims : DstsTokenClaims)
    (htoken : dstsclient.ValidateDeviceAccessToken ev message.AccessToken = .ok claims) :
    ∀ q ∈ w.forwarded (scheduler.handleDeviceToServiceMessage ev dcm w mqttTopic message).2.1,
      CarriesClaims claims w mqttTopic q := by
  have key := response_tail_forwarded ev w (none, w) claims mqttTopic
    { Version := 1, ServiceId := claims.ManagementService, DeviceId := claims.Subject,
      TaskId := message.TaskId, ConsignmentId := [], TenantId := claims.TenantID,
      TaskStatus := [], MessageId := message.MessageId, MessageType := message.MessageType,
      Payload := message.Payload.getD [] } rfl rfl ⟨rfl, rfl, rfl⟩
  unfold scheduler.handleDeviceToServiceMessage
  simp only [htoken]
  by_cases hq : db.GetServiceQueueTopic w claims.ManagementService mqttTopic = []
  · rw [if_pos hq]
    exact forwarded_self claims w mqttTopic
  · rw [if_neg hq]
    simp only [if_neg hq] at key
    split
    · exact key
    · split
      · exact key
      · exact key

theorem validate_same_token (ev1 ev2 : ResponseEvents) (t1 t2 : List Char)
    (hparse : ev2.parseToken = ev1.parseToken) (hsame : t2 = t1) :
    dstsclient.ValidateDeviceAccessToken ev2 t2 = dstsclient.ValidateDeviceAccessToken ev1 t1 := by
  unfold dstsclient.ValidateDeviceAccessToken dstsclient.parseAndValidateCommonClaims
  rw [hparse, hsame]

theorem forwarded_append (w : World) (q : List ServiceQueueMessage) (w2 : World)
    (h : w2.serviceQueue = w.serviceQueue ++ q) : w.forwarded w2 = q := by
  unfold World.forwarded
  rw [h]
  simp

theorem sendMessage_sent (ev : ResponseEvents) (w : World) (serviceID queueTopic : List Char)
    (event : DeviceEvent) (hcfg : db.GetServiceConfig w serviceID ≠ none)
    (hurl : ev.queueUrl = none) (hsend : ev.send = none) :
    sqs_provider.SendMessage ev w serviceID queueTopic event =
      (none, { w with serviceQueue := w.serviceQueue ++
        [{ ServiceID := serviceID, QueueTopic := queueTopic, Event := event }] }) := by
  unfold sqs_provider.SendMessage
  cases hc : db.GetServiceConfig w serviceID with
  | none => exact absurd hc hcfg
  | some c => simp only [hurl, hsend]

theorem deviceMessage_forwards (ev : ResponseEvents) (dcm : Option GoError) (w : World)
    (mqttTopic : List Char) (message : DeviceMessage) (claims : DstsTokenClaims)
    (htoken : dstsclient.ValidateDeviceAccessToken ev message.AccessToken = .ok claims)
    (hq : db.GetServiceQueueTopic w claims.ManagementService mqttTopic ≠ [])
    (hcfg : db.GetServiceConfig w claims.ManagementService ≠ none)
    (hurl : ev.queueUrl = none) (hsend : ev.send = none) :
    w.forwarded (scheduler.handleDeviceToServiceMessage ev dcm w mqttTopic message).2.1 =
      [{ ServiceID := claims.ManagementService,
         QueueTopic := db.GetServiceQueueTopic w claims.ManagementService mqttTopic,
         Event :=
          { Version := 1, ServiceId := claims.ManagementService, DeviceId := claims.Subject,
            TaskId := message.TaskId, ConsignmentId := [], TenantId := claims.TenantID,
            TaskStatus := [], MessageId := message.MessageId,
            MessageType := message.MessageType, Payload := message.Payload.getD [] } }] := by
  apply forwarded_append
  unfold scheduler.handleDeviceToServiceMessage
  simp only [htoken]
  rw [if_neg hq, sendMessage_sent ev w _ _ _ hcfg hurl hsend]
  dsimp only
  split <;> rfl

theorem getServiceConfig_congr (w1 w2 : World) (serviceID : List Char)
    (h : w2.serviceConfigTable = w1.serviceConfigTable) :
    db.GetServiceConfig w2 serviceID = db.GetServiceConfig w1 serviceID := by
  unfold db.GetServiceConfig
  rw [h]

theorem taskResponse_forwards (lib : Lib) (ev : ResponseEvents) (w : World)
    (mqttTopic : List Char) (message : DeviceMessage) (claims : DstsTokenClaims)
    (foundTask : Task)
    (htoken : dstsclient.ValidateDeviceAccessToken ev message.AccessToken = .ok claims)
    (hfound : db.GetTaskByID ev.getTask w message.TaskId claims.Subject = .ok foundTask)
    (hsvc : foundTask.ServiceID = claims.ManagementService)
    (hten : foundTask.TenantID = claims.TenantID)
    (hstatus : strings.ToLower lib message.TaskStatus ∈
      ["complete".toList, "success".toList, "failed".toList, "error".toList])
    (hq : db.GetServiceQueueTopic w claims.ManagementService mqttTopic ≠ [])
    (hcfg : db.GetServiceConfig w claims.ManagementService ≠ none)
    (hurl : ev.queueUrl = none) (hsend : ev.send = none) :
    w.forwarded (scheduler.handleTaskResponseMessage lib ev w mqttTopic message).2 =
      [{ ServiceID := claims.ManagementService,
         QueueTopic := db.GetServiceQueueTopic w claims.ManagementService mqttTopic,
         Event :=
          { Version := 1, ServiceId := claims.ManagementService, DeviceId := claims.Subject,
            TaskId := message.TaskId, ConsignmentId := foundTask.ConsignmentID,
            TenantId := claims.TenantID, TaskStatus := message.TaskStatus,
            MessageId := message.MessageId, MessageType := message.MessageType,
            Payload := message.Payload.getD [] } }] := by
  have tail : ∀ r : Option GoError × World, r.2.serviceQueue = w.serviceQueue →
      r.2.serviceDispatchTable = w.serviceDispatchTable →
      r.2.serviceConfigTable = w.serviceConfigTable →
      ∀ event : DeviceEvent,
      w.forwarded
        (if db.GetServiceQueueTopic r.2 claims.ManagementService mqttTopic = [] then
          (some scheduler.ErrInvalidMessageType, r.2)
        else sqs_provider.SendMessage ev r.2 claims.ManagementService
          (db.GetServiceQueueTopic r.2 claims.ManagementService mqttTopic) event).2 =
        [{ ServiceID := claims.ManagementService,
           QueueTopic := db.GetServiceQueueTopic w claims.ManagementService mqttTopic,
           Event := event }] := by
    intro r h1 h2 h3 event
    apply forwarded_append
    rw [getServiceQueueTopic_congr w r.2 _ _ h2, if_neg hq,
      sendMessage_sent ev r.2 _ _ _ (by rw [getServiceConfig_congr w r.2 _ h3]; exact hcfg)
        hurl hsend]
    simp only [h1]
  unfold scheduler.handleTaskResponseMessage
  simp only [htoken, hfound]
  rw [if_neg (not_not.mpr hsvc), if_neg (not_not.mpr hten)]
  simp only [List.mem_cons, List.mem_singleton, List.not_mem_nil, or_false] at hstatus
  by_cases hc : strings.ToLower lib message.TaskStatus = "complete".toList ∨
      strings.ToLower lib message.TaskStatus = "success".toList
  · simp only [if_pos hc]
    rw [hsvc]
    exact tail (db.MarkTaskComplete ev.updateTask ev.updateConsignment w foundTask)
      (updateTaskStatus_frame _ _ _ _ _ _ _ _).1 (updateTaskStatus_frame _ _ _ _ _ _ _ _).2.1
      (updateTaskStatus_frame _ _ _ _ _ _ _ _).2.2 _
  · have hf : strings.ToLower lib message.TaskStatus = "failed".toList ∨
        strings.ToLower lib message.TaskStatus = "error".toList := by
      rcases hstatus with h | h | h | h
      · exact absurd (Or.inl h) hc
      · exact absurd (Or.inr h) hc
      · exact Or.inl h
      · exact Or.inr h
    simp only [if_neg hc, if_pos hf]
    rw [hsvc]
    exact tail (db.MarkTaskFailed ev.updateTask ev.updateConsignment w foundTask)
      (updateTaskStatus_frame _ _ _ _ _ _ _ _).1 (updateTaskStatus_frame _ _ _ _ _ _ _ _).2.1
      (updateTaskStatus_frame _ _ _ _ _ _ _ _).2.2 _

/-- C20: in both response handlers a message whose token verifies, whose
service has a queue registered for the MQTT topic and whose send succeeds (for
a task response also: the task is found, belongs to the service and the tenant
of the token, and the status is a known one) is forwarded as exactly one
event, addressed to the service of the verified token on the queue topic that
the dispatch table registers for that service and the MQTT topic, and the
event carries the token's management_service, subject and tid as service_id,
device_id and tenant_id; nothing else is ever forwarded.  Hence two messages
that carry the same token, handled under the same dispatch table, produce
events with identical service_id, device_id and tenant_id on the same queue,
whatever their other fields. -/
theorem forwarded_event_carries_token_claims (lib : Lib) (ev1 ev2 : ResponseEvents)
    (dcm1 dcm2 : Option GoError) (w1 w2 : World) (mqttTopic : List Char)
    (m1 m2 : DeviceMessage) (claims : DstsTokenClaims)
    (htoken : dstsclient.ValidateDeviceAccessToken ev1 m1.AccessToken = .ok claims)
    (hparse : ev2.parseToken = ev1.parseToken) (hsame : m2.AccessToken = m1.AccessToken)
    (hreg : w2.serviceDispatchTable = w1.serviceDispatchTable) :
    (∀ q ∈ w1.forwarded (scheduler.handleTaskResponseMessage lib ev1 w1 mqttTopic m1).2,
      CarriesClaims claims w1 mqttTopic q) ∧
    (∀ q ∈ w1.forwarded (scheduler.handleDeviceToServiceMessage ev1 dcm1 w1 mqttTopic m1).2.1,
      CarriesClaims claims w1 mqttTopic q) ∧
    (∀ q1 ∈ w1.forwarded (scheduler.handleTaskResponseMessage lib ev1 w1 mqttTopic m1).2,
      ∀ q2 ∈ w2.forwarded (scheduler.handleTaskResponseMessage lib ev2 w2 mqttTopic m2).2,
        q1.ServiceID = q2.ServiceID ∧ q1.QueueTopic = q2.QueueTopic ∧
        q1.Event.ServiceId = q2.Event.ServiceId ∧ q1.Event.DeviceId = q2.Event.DeviceId ∧
        q1.Event.TenantId = q2.Event.TenantId) ∧
    (∀ q1 ∈ w1.forwarded (scheduler.handleDeviceToServiceMessage ev1 dcm1 w1 mqttTopic m1).2.1,
      ∀ q2 ∈ w2.forwarded (scheduler.handleDeviceToServiceMessage ev2 dcm2 w2 mqttTopic m2).2.1,
        q1.ServiceID = q2.ServiceID ∧ q1.QueueTopic = q2.QueueTopic ∧
        q1.Event.ServiceId = q2.Event.ServiceId ∧ q1.Event.DeviceId = q2.Event.DeviceId ∧
        q1.Event.TenantId = q2.Event.TenantId) ∧
    (db.GetServiceQueueTopic w1 claims.ManagementService mqttTopic ≠ [] →
      db.GetServiceConfig w1 claims.ManagementService ≠ none →
      ev1.queueUrl = none → ev1.send = none →
      w1.forwarded (scheduler.handleDeviceToServiceMessage ev1 dcm1 w1 mqttTopic m1).2.1 =
        [{ ServiceID := claims.ManagementService,
           QueueTopic := db.GetServiceQueueTopic w1 claims.ManagementService mqttTopic,
           Event :=
            { Version := 1, ServiceId := claims.ManagementService, DeviceId := claims.Subject,
              TaskId := m1.TaskId, ConsignmentId := [], TenantId := claims.TenantID,
              TaskStatus := [], MessageId := m1.MessageId, MessageType := m1.MessageType,
              Payload := m1.Payload.getD [] } }]) ∧
    (∀ foundTask : Task,
      db.GetTaskByID ev1.getTask w1 m1.TaskId claims.Subject = .ok foundTask →
      foundTask.ServiceID = claims.ManagementService →
      foundTask.TenantID = claims.TenantID →
      strings.ToLower lib m1.TaskStatus ∈
        ["complete".toList, "success".toList, "failed".toList, "error".toList] →
      db.GetServiceQueueTopic w1 claims.ManagementService mqttTopic ≠ [] →
      db.GetServiceConfig w1 claims.ManagementService ≠ none →
      ev1.queueUrl = none → ev1.send = none →
      w1.forwarded (scheduler.handleTaskResponseMessage lib ev1 w1 mqttTopic m1).2 =
        [{ ServiceID := claims.ManagementService,
           QueueTopic := db.GetServiceQueueTopic w1 claims.ManagementService mqttTopic,
           Event :=
            { Version := 1, ServiceId := claims.ManagementService, DeviceId := claims.Subject,
              TaskId := m1.TaskId, ConsignmentId := foundTask.ConsignmentID,
              TenantId := claims.TenantID, TaskStatus := m1.TaskStatus,
              MessageId := m1.MessageId, MessageType := m1.MessageType,
              Payload := m1.Payload.getD [] } }]) := by
  have htoken2 : dstsclient.ValidateDeviceAccessToken ev2 m2.AccessToken = .ok claims := by
    rw [validate_same_token ev1 ev2 _ _ hparse hsame]; exact htoken
  have a1 := forwarded_taskResponse lib ev1 w1 mqttTopic m1 claims htoken
  have a2 := forwarded_taskResponse lib ev2 w2 mqttTopic m2 claims htoken2
  have b1 := forwarded_deviceMessage ev1 dcm1 w1 mqttTopic m1 claims htoken
  have b2 := forwarded_deviceMessage ev2 dcm2 w2 mqttTopic m2 claims htoken2
  have ht := getServiceQueueTopic_congr w1 w2 claims.ManagementService mqttTopic hreg
  refine ⟨a1, b1, fun q1 h1 q2 h2 => ?_, fun q1 h1 q2 h2 => ?_,
    fun hq hcfg hurl hsend =>
      deviceMessage_forwards ev1 dcm1 w1 mqttTopic m1 claims htoken hq hcfg hurl hsend,
    fun foundTask hfound hsvc hten hstatus hq hcfg hurl hsend =>
      taskResponse_forwards lib ev1 w1 mqttTopic m1 claims foundTask htoken hfound hsvc hten
        hstatus hq hcfg hurl hsend⟩
  · obtain ⟨x1, x2, x3, x4, x5⟩ := a1 q1 h1
    obtain ⟨y1, y2, y3, y4, y5⟩ := a2 q2 h2
    exact ⟨by rw [x1, y1], by rw [x2, y2, ht], by rw [x3, y3], by rw [x4, y4], by rw [x5, y5]⟩
  · obtain ⟨x1, x2, x3, x4, x5⟩ := b1 q1 h1
    obtain ⟨y1, y2, y3, y4, y5⟩ := b2 q2 h2
    exact ⟨by rw [x1, y1], by rw [x2, y2, ht], by rw [x3, y3], by rw [x4, y4], by rw [x5, y5]⟩

/-- Witness for C20: the response `complete` of the sample device is forwarded
to the queue `cem-responses` of service `hpcem` with the device of the token,
and so is a message of the sample device that is not a task response. -/
theorem forwarded_event_carries_token_claims_witness :
    sampleWorldQueued.forwarded
      (scheduler.handleTaskResponseMessage Lib.plain responseSucceeds sampleWorldQueued
        "v1/@cloud/task_responses".toList (sampleResponse "complete".toList)).2 =
      [sampleForwarded] ∧
    sampleWorldQueued.forwarded
      (scheduler.handleDeviceToServiceMessage responseSucceeds none sampleWorldQueued
        "v1/@cloud/task_responses".toList (sampleResponse "complete".toList)).2.1 =
      [{ sampleForwarded with
          Event := { sampleForwarded.Event with ConsignmentId := [], TaskStatus := [] } }] ∧
    CarriesClaims sampleClaims sampleWorldQueued "v1/@cloud/task_responses".toList
      sampleForwarded :=
  ⟨(forwarded_event_carries_token_claims Lib.plain responseSucceeds responseSucceeds none none
      sampleWorldQueued sampleWorldQueued "v1/@cloud/task_responses".toList
      (sampleResponse "complete".toList) (sampleResponse "failed".toList) sampleClaims
      (by decide) rfl rfl rfl).2.2.2.2.2
      ((db.CreateTask sampleAttempt sampleWorld sampleTaskNow.TaskInfo).2.2)
      (by decide) (by decide) (by decide) (by decide) (by decide) (by decide) rfl rfl,
   (forwarded_event_carries_token_claims Lib.plain responseSucceeds responseSucceeds none none
      sampleWorldQueued sampleWorldQueued "v1/@cloud/task_responses".toList
      (sampleResponse "complete".toList) (sampleResponse "failed".toList) sampleClaims
      (by decide) rfl rfl rfl).2.2.2.2.1 (by decide) (by decide) rfl rfl,
   (forwarded_event_carries_token_claims Lib.plain responseSucceeds responseSucceeds none none
      sampleWorldQueued sampleWorldQueued "v1/@cloud/task_responses".toList
      (sampleResponse "complete".toList) (sampleResponse "failed".toList) sampleClaims
      (by decide) rfl rfl rfl).1 sampleForwarded (by decide)⟩

/-! ## `CreateTask` rejects a task without tenant or payload -/

theorem newScheduledTask_cases (loc deviceID : List Char) (request : CreateScheduledTaskRequest) :
    ((scheduler.NewScheduledTask loc deviceID request).error ≠ none ∧
      (db.setUuidFromString deviceID).2 ≠ none) ∨
    ((scheduler.NewScheduledTask loc deviceID request).error = none ∧
      (db.setUuidFromString deviceID).2 = none ∧
      (∃ info, (scheduler.NewScheduledTask loc deviceID request).ScheduleInfo = some info) ∧
      (scheduler.NewScheduledTask loc deviceID request).TaskInfo.TenantID = request.TenantId ∧
      (scheduler.NewScheduledTask loc deviceID request).TaskInfo.DeviceID =
        (db.setUuidFromString deviceID).1) := by
  simp only [scheduler.NewScheduledTask, db.NewTask]
  cases h : (db.setUuidFromString deviceID).2 with
  | some e => exact Or.inl ⟨by simp, by simp⟩
  | none => exact Or.inr ⟨rfl, rfl, ⟨_, rfl⟩, rfl, rfl⟩

theorem schedule_of_error (a : Attempt) (w : World) (s : ScheduledTask) (h : s.error ≠ none) :
    ∃ e : GoError, s.Schedule a w = (.err e, w) := by
  have hv : s.validate.error ≠ none := fun hn => h ((sameIdentity_validate s).1.1 hn)
  cases he : s.validate.error with
  | none => exact absurd he hv
  | some e =>
    refine ⟨e, ?_⟩
    unfold ScheduledTask.Schedule
    simp [he]

theorem schedule_no_panic (a : Attempt) (w : World) (s : ScheduledTask)
    (h : s.error = none → ∃ info, s.ScheduleInfo = some info) (what : List Char) :
    (s.Schedule a w).1 ≠ .panic what := by
  obtain ⟨⟨he, hinfo, _⟩, _⟩ := sameIdentity_validate s
  unfold ScheduledTask.Schedule
  dsimp only
  split
  · simp
  · rename_i hnone
    obtain ⟨info, hi⟩ := h (he hnone)
    split
    · simp
    · split
      · split <;> simp
      · rw [hinfo, hi]
        dsimp only
        split <;> simp

theorem scheduleDevice_of_value (lib : Lib) (a : Attempt) (request : CreateScheduledTaskRequest)
    (d : List Char) (w : World) (parsed : ScheduledTask)
    (h : (scheduler.NewScheduledTask "UTC".toList d request).ParseSchedule lib a.parseNow
      a.atNow request.Schedule = .value parsed) :
    scheduler.scheduleDevice lib a request d w = parsed.Schedule a w := by
  unfold scheduler.scheduleDevice
  rw [h]

theorem scheduleDevice_of_panics (lib : Lib) (a : Attempt) (request : CreateScheduledTaskRequest)
    (d : List Char) (w : World) (h : scheduler.schedulePanics lib request.Schedule) :
    scheduler.scheduleDevice lib a request d w =
      (.panic "slice bounds out of range [:-1]".toList, w) := by
  obtain ⟨what, hw⟩ := (parseSchedule_panics_iff lib a.parseNow a.atNow
    (scheduler.NewScheduledTask "UTC".toList d request) request.Schedule).mpr h
  have := parseSchedule_panic_what _ _ _ _ _ _ hw
  subst this
  unfold scheduler.scheduleDevice
  rw [hw]

theorem scheduleDevice_no_panic (lib : Lib) (a : Attempt) (request : CreateScheduledTaskRequest)
    (d : List Char) (w : World) (hs : ¬ scheduler.schedulePanics lib request.Schedule)
    (what : List Char) :
    (scheduler.scheduleDevice lib a request d w).1 ≠ .panic what := by
  obtain ⟨parsed, hp⟩ := parseSchedule_returns lib a.parseNow a.atNow
    (scheduler.NewScheduledTask "UTC".toList d request) request.Schedule hs
  rw [scheduleDevice_of_value lib a request d w parsed hp]
  apply schedule_no_panic
  intro hnone
  obtain ⟨he, hinfo, _⟩ := sameIdentity_ParseSchedule lib a.parseNow a.atNow
    (scheduler.NewScheduledTask "UTC".toList d request) parsed request.Schedule hp
  rcases newScheduledTask_cases "UTC".toList d request with ⟨h1, _⟩ | ⟨_, _, ⟨info, h2⟩, _⟩
  · exact absurd (he hnone) h1
  · exact ⟨info, by rw [hinfo, h2]⟩

theorem handleDevices_outcomes (lib : Lib) (attempts : Nat → Attempt)
    (request : CreateScheduledTaskRequest) (source : List Char)
    (hs : ¬ scheduler.schedulePanics lib request.Schedule) :
    ∀ (devices : List (List Char)) (index : Nat) (response : CreateScheduledTaskResponse)
      (w : World), response.TaskCount < 4294967296 → response.ErrorCount < 4294967296 →
      (scheduler.handleDevices lib attempts request source index devices response w).1 = .ok
        { response with
          TaskCount := (response.TaskCount + scheduler.successCount
            (scheduler.deviceOutcomes lib attempts request index devices w)) % 4294967296
          ErrorCount := (response.ErrorCount + scheduler.failureCount
            (scheduler.deviceOutcomes lib attempts request index devices w)) % 4294967296
          TasksScheduled := response.TasksScheduled ++
            (if source = common.SchedulerRequestSourceRest then
              scheduler.scheduledEntries devices
                (scheduler.deviceOutcomes lib attempts request index devices w)
            else []) } := by
  intro devices
  induction devices with
  | nil =>
    intro index response w h1 h2
    obtain ⟨v, tc, ec, c, t, ts⟩ := response
    simp only at h1 h2
    simp [scheduler.handleDevices, scheduler.deviceOutcomes, scheduler.successCount,
      scheduler.failureCount, scheduler.scheduledEntries, Nat.mod_eq_of_lt h1,
      Nat.mod_eq_of_lt h2]
  | cons d rest ih =>
    intro index response w h1 h2
    obtain ⟨v, tc, ec, c, t, ts⟩ := response
    simp only at h1 h2
    unfold scheduler.handleDevices scheduler.deviceOutcomes
    by_cases hskip : index ≠ 0 ∧ d = common.BroadcastDeviceID
    · rw [if_pos hskip, if_pos hskip, ih _ _ _ h1 (Nat.mod_lt _ (by norm_num))]
      simp only [scheduler.successCount, scheduler.failureCount, scheduler.scheduledEntries,
        List.countP_cons, Option.isSome_none, Option.isNone_none, Bool.false_eq_true, if_false,
        if_true, Result.ok.injEq, CreateScheduledTaskResponse.mk.injEq, true_and, and_true]
      refine ⟨by omega, by omega⟩
    · rw [if_neg hskip, if_neg hskip]
      dsimp only
      have hnp := scheduleDevice_no_panic lib (attempts index) request d w hs
      cases hr : (scheduler.scheduleDevice lib (attempts index) request d w).1 with
      | panic what => exact absurd hr (hnp what)
      | err e =>
        simp only []
        rw [ih _ _ _ h1 (Nat.mod_lt _ (by norm_num))]
        simp only [scheduler.successCount, scheduler.failureCount, scheduler.scheduledEntries,
          List.countP_cons, Option.isSome_none, Option.isNone_none, Bool.false_eq_true,
          if_false, if_true, Result.ok.injEq, CreateScheduledTaskResponse.mk.injEq, true_and,
          and_true]
        refine ⟨by omega, by omega⟩
      | ok newTask =>
        simp only []
        by_cases hs : source = common.SchedulerRequestSourceRest
        · rw [if_pos hs, ih _ _ _ (Nat.mod_lt _ (by norm_num)) h2]
          simp only [scheduler.successCount, scheduler.failureCount,
            scheduler.scheduledEntries, List.countP_cons, Option.isSome_some,
            Option.isNone_some, Bool.false_eq_true, if_false, if_true, if_pos hs,
            Result.ok.injEq, CreateScheduledTaskResponse.mk.injEq, true_and, and_true,
            List.append_assoc, List.singleton_append]
          refine ⟨by omega, by omega⟩
        · rw [if_neg hs, ih _ _ _ (Nat.mod_lt _ (by norm_num)) h2]
          simp only [scheduler.successCount, scheduler.failureCount,
            scheduler.scheduledEntries, List.countP_cons, Option.isSome_some,
            Option.isNone_some, Bool.false_eq_true, if_false, if_true, if_neg hs,
            Result.ok.injEq, CreateScheduledTaskResponse.mk.injEq, true_and, and_true]
          refine ⟨by omega, by omega⟩

theorem handleDevices_panics (lib : Lib) (attempts : Nat → Attempt)
    (request : CreateScheduledTaskRequest) (source : List Char)
    (hs : scheduler.schedulePanics lib request.Schedule) (d : List Char)
    (rest : List (List Char)) (response : CreateScheduledTaskResponse) (w : World) :
    scheduler.handleDevices lib attempts request source 0 (d :: rest) response w =
      (.panic "slice bounds out of range [:-1]".toList, w) := by
  unfold scheduler.handleDevices
  rw [if_neg (by simp)]
  dsimp only
  rw [scheduleDevice_of_panics lib (attempts 0) request d w hs]

theorem handler_accepts (lib : Lib) (attempts : Nat → Attempt) (w : World)
    (request : CreateScheduledTaskRequest) (source : List Char)
    (resp : CreateScheduledTaskResponse)
    (h : (scheduler.handleSchedulerInputQueueRequest lib attempts w request source).1 =
      .ok resp) :
    ∃ devices : List (List Char), request.DeviceIds = some devices ∧ devices ≠ [] ∧
      (source = common.SchedulerRequestSourceEvent ∨
        source = common.SchedulerRequestSourceRest) ∧
      scheduler.handleSchedulerInputQueueRequest lib attempts w request source =
        scheduler.handleDevices lib attempts (scheduler.checkedRequest request) source 0 devices
          { Version := request.Version, TaskCount := 0, ErrorCount := 0,
            ConsignmentId := request.ConsignmentId,
            TenantId := (scheduler.checkedRequest request).TenantId, TasksScheduled := [] }
          w := by
  unfold scheduler.handleSchedulerInputQueueRequest at h ⊢
  by_cases h1 : ¬ (source = common.SchedulerRequestSourceEvent ∨
      source = common.SchedulerRequestSourceRest)
  · rw [if_pos h1] at h; simp at h
  · rw [if_neg h1] at h ⊢
    by_cases h2 : (!db.IsValidServiceId w request.ServiceId) = true
    · rw [if_pos h2] at h; simp at h
    · rw [if_neg h2] at h ⊢
      by_cases h3 : request.ConsignmentId = []
      · rw [if_pos h3] at h; simp at h
      · rw [if_neg h3] at h ⊢
        cases hd : request.DeviceIds with
        | none => rw [hd] at h; simp at h
        | some devices =>
          cases devices with
          | nil => rw [hd] at h; simp at h
          | cons first others =>
            refine ⟨first :: others, rfl, by simp, not_not.mp h1, ?_⟩
            rw [hd] at h
            simp only [scheduler.checkedRequest, hd] at h ⊢
            by_cases hb : first = common.BroadcastDeviceID
            · simp only [if_pos hb] at h ⊢
              by_cases hl : (first :: others).length ≠ 1
              · rw [if_pos hl] at h; simp at h
              · rw [if_neg hl] at h ⊢
                simp only at h ⊢
                by_cases hp : request.Payload = none
                · rw [if_pos hp] at h; simp at h
                · rw [if_neg hp]
            · simp only [if_neg hb] at h ⊢
              by_cases hu : (!uuid.Parse request.TenantId) = true
              · rw [if_pos hu] at h; simp at h
              · rw [if_neg hu] at h ⊢
                simp only at h ⊢
                by_cases hp : request.Payload = none
                · rw [if_pos hp] at h; simp at h
                · rw [if_neg hp]

theorem deviceOutcomes_length (lib : Lib) (attempts : Nat → Attempt)
    (request : CreateScheduledTaskRequest)
    (hs : ¬ scheduler.schedulePanics lib request.Schedule) :
    ∀ (devices : List (List Char)) (index : Nat) (w : World),
      (scheduler.deviceOutcomes lib attempts request index devices w).length = devices.length
  | [], _, _ => rfl
  | d :: rest, index, w => by
    unfold scheduler.deviceOutcomes
    split
    · simp [deviceOutcomes_length lib attempts request hs rest]
    · split
      · simp [deviceOutcomes_length lib attempts request hs rest]
      · simp [deviceOutcomes_length lib attempts request hs rest]
      · rename_i what hw
        exact absurd hw (scheduleDevice_no_panic lib (attempts index) request d w hs what)

theorem success_add_failure (outs : List (Option ScheduledTask)) :
    scheduler.successCount outs + scheduler.failureCount outs = outs.length := by
  unfold scheduler.successCount scheduler.failureCount
  induction outs with
  | nil => rfl
  | cons o os ih =>
    cases o <;> simp [List.countP_cons] <;> omega

theorem scheduledEntries_length :
    ∀ (devices : List (List Char)) (outs : List (Option ScheduledTask)),
      outs.length = devices.length →
      (scheduler.scheduledEntries devices outs).length = scheduler.successCount outs
  | [], [], _ => rfl
  | [], _ :: _, h => by simp at h
  | _ :: _, [], h => by simp at h
  | d :: ds, some t :: os, h => by
    have := scheduledEntries_length ds os (by simpa using h)
    simp [scheduler.scheduledEntries, scheduler.successCount, List.countP_cons] at this ⊢
    exact this
  | d :: ds, none :: os, h => by
    have := scheduledEntries_length ds os (by simpa using h)
    simp [scheduler.scheduledEntries, scheduler.successCount, List.countP_cons] at this ⊢
    exact this

theorem createScheduledRun_tasks (a : Attempt) (w : World) (run : ScheduledRun) :
    (db.CreateScheduledRun a w run).2.1.tasks = w.tasks := by
  unfold db.CreateScheduledRun
  dsimp only
  split <;> rfl

theorem schedule_tasks (a : Attempt) (w : World) (s : ScheduledTask)
    (hv : s.validate.error = none) :
    (s.Schedule a w).2.tasks = (db.CreateTask a w s.validate.TaskInfo).2.1.tasks := by
  unfold ScheduledTask.Schedule
  simp only [hv]
  split
  · rfl
  · split
    · split <;> rfl
    · split
      · rfl
      · split <;> exact createScheduledRun_tasks _ _ _

theorem schedule_ok (a : Attempt) (w : World) (s s1 : ScheduledTask)
    (h : (s.Schedule a w).1 = .ok s1) :
    (db.CreateTask a w s.validate.TaskInfo).1 = none ∧
    s1.TaskInfo = (db.CreateTask a w s.validate.TaskInfo).2.2 ∧
    (s.Schedule a w).2.tasks = (db.CreateTask a w s.validate.TaskInfo).2.1.tasks := by
  have hv : s.validate.error = none := by
    cases he : s.validate.error with
    | none => rfl
    | some e =>
      obtain ⟨e1, h1⟩ := schedule_of_error a w s.validate (by rw [he]; simp)
      exfalso
      unfold ScheduledTask.Schedule at h
      simp [he] at h
  refine ⟨?_, ?_, schedule_tasks a w s hv⟩
  · unfold ScheduledTask.Schedule at h
    simp only [hv] at h
    split at h
    · simp at h
    · rename_i hc; exact hc
  · unfold ScheduledTask.Schedule at h
    simp only [hv] at h
    split at h
    · simp at h
    · split at h
      · split at h
        · simp at h
        · simp only [Result.ok.injEq] at h
          rw [← h]
      · split at h
        · simp at h
        · split at h
          · simp at h
          · simp only [Result.ok.injEq] at h
            rw [← h]

theorem scheduleDevice_ok_parsed (lib : Lib) (a : Attempt)
    (request : CreateScheduledTaskRequest) (d : List Char) (w : World) (t : ScheduledTask)
    (h : (scheduler.scheduleDevice lib a request d w).1 = .ok t) :
    ∃ parsed, (scheduler.NewScheduledTask "UTC".toList d request).ParseSchedule lib a.parseNow
        a.atNow request.Schedule = .value parsed ∧
      scheduler.scheduleDevice lib a request d w = parsed.Schedule a w := by
  cases hp : (scheduler.NewScheduledTask "UTC".toList d request).ParseSchedule lib a.parseNow
      a.atNow request.Schedule with
  | value parsed => exact ⟨parsed, rfl, scheduleDevice_of_value lib a request d w parsed hp⟩
  | panic p =>
    exfalso
    unfold scheduler.scheduleDevice at h
    rw [hp] at h
    simp at h

theorem scheduleDevice_ok (lib : Lib) (a : Attempt) (request : CreateScheduledTaskRequest)
    (d : List Char) (w : World) (t : ScheduledTask)
    (h : (scheduler.scheduleDevice lib a request d w).1 = .ok t) :
    t.TaskInfo.Status = db.taskStatusQueued ∧ t.TaskInfo.TaskID = a.taskID ∧
    t.TaskInfo.TenantID = request.TenantId ∧
    t.TaskInfo.DeviceID = (db.setUuidFromString d).1 ∧
    t.TaskInfo ∈ (scheduler.scheduleDevice lib a request d w).2.tasks := by
  obtain ⟨parsed, hp, hsd⟩ := scheduleDevice_ok_parsed lib a request d w t h
  rw [hsd] at h ⊢
  obtain ⟨hc, ht, htasks⟩ := schedule_ok _ _ _ _ h
  obtain ⟨e1, e2, _⟩ := createTask_success _ _ _ hc
  obtain ⟨he, _, _, _, hdev, hten, _⟩ := sameIdentity_ParseSchedule lib a.parseNow a.atNow
    (scheduler.NewScheduledTask "UTC".toList d request) parsed request.Schedule hp
  have hv := (sameIdentity_validate parsed).2
  have hnew : (scheduler.NewScheduledTask "UTC".toList d request).TaskInfo.TenantID =
      request.TenantId ∧
      (scheduler.NewScheduledTask "UTC".toList d request).TaskInfo.DeviceID =
        (db.setUuidFromString d).1 := by
    simp only [scheduler.NewScheduledTask, db.NewTask]
    split <;> exact ⟨rfl, rfl⟩
  refine ⟨by rw [ht, e1], by rw [ht, e1], ?_, ?_, ?_⟩
  · rw [ht, e1]; simp only; rw [hv, hten, hnew.1]
  · rw [ht, e1]; simp only; rw [hv, hdev, hnew.2]
  · rw [htasks, e2, ht]; exact mem_upsert _ _ _

theorem scheduleDevice_bad (lib : Lib) (a : Attempt) (request : CreateScheduledTaskRequest)
    (d : List Char) (w : World) (hs : ¬ scheduler.schedulePanics lib request.Schedule)
    (h1 : d ≠ common.BroadcastDeviceID) (h2 : gocql.ParseUUID d = none) :
    ∃ e : GoError, scheduler.scheduleDevice lib a request d w = (.err e, w) := by
  obtain ⟨parsed, hp⟩ := parseSchedule_returns lib a.parseNow a.atNow
    (scheduler.NewScheduledTask "UTC".toList d request) request.Schedule hs
  rw [scheduleDevice_of_value lib a request d w parsed hp]
  apply schedule_of_error
  intro hnone
  obtain ⟨he, _⟩ := sameIdentity_ParseSchedule lib a.parseNow a.atNow
    (scheduler.NewScheduledTask "UTC".toList d request) parsed request.Schedule hp
  rcases newScheduledTask_cases "UTC".toList d request with ⟨h, _⟩ | ⟨_, h, _⟩
  · exact h (he hnone)
  · simp [db.setUuidFromString, h1, h2] at h

theorem checkedRequest_schedule (request : CreateScheduledTaskRequest) :
    (scheduler.checkedRequest request).Schedule = request.Schedule := by
  unfold scheduler.checkedRequest
  split
  · split <;> rfl
  · rfl

theorem handler_schedule_returns (lib : Lib) (attempts : Nat → Attempt) (w : World)
    (request : CreateScheduledTaskRequest) (source : List Char)
    (resp : CreateScheduledTaskResponse)
    (h : (scheduler.handleSchedulerInputQueueRequest lib attempts w request source).1 =
      .ok resp) :
    ¬ scheduler.schedulePanics lib (scheduler.checkedRequest request).Schedule := by
  intro hp
  obtain ⟨devices, _, hne, _, heq⟩ := handler_accepts lib attempts w request source resp h
  cases devices with
  | nil => exact hne rfl
  | cons d rest =>
    rw [heq, handleDevices_panics lib attempts _ source hp d rest] at h
    simp at h

/-! ## The response of the request handler -/

theorem deviceOutcomes_bad (lib : Lib) (attempts : Nat → Attempt)
    (request : CreateScheduledTaskRequest)
    (hs : ¬ scheduler.schedulePanics lib request.Schedule) :
    ∀ (devices : List (List Char)) (index : Nat) (w : World) (i : Nat) (d : List Char),
      devices[i]? = some d → scheduler.badDevice (index + i) d →
      (scheduler.deviceOutcomes lib attempts request index devices w)[i]? = some none
  | [], _, _, _, _, h, _ => by simp at h
  | x :: rest, index, w, 0, d, h, hb => by
    simp only [List.getElem?_cons_zero, Option.some.injEq] at h
    subst h
    simp only [Nat.add_zero] at hb
    unfold scheduler.deviceOutcomes
    by_cases hskip : index ≠ 0 ∧ x = common.BroadcastDeviceID
    · rw [if_pos hskip]; simp
    · rw [if_neg hskip]
      rcases hb with hb | ⟨h1, h2⟩
      · exact absurd hb hskip
      · obtain ⟨e, he⟩ := scheduleDevice_bad lib (attempts index) request x w hs h1 h2
        rw [he]
        simp
  | x :: rest, index, w, i + 1, d, h, hb => by
    simp only [List.getElem?_cons_succ] at h
    have hb2 : scheduler.badDevice (index + 1 + i) d := by
      have e : index + 1 + i = index + (i + 1) := by omega
      rw [e]; exact hb
    unfold scheduler.deviceOutcomes
    split
    · simp only [List.getElem?_cons_succ]
      exact deviceOutcomes_bad lib attempts request hs rest (index + 1) w i d h hb2
    · split
      · simp only [List.getElem?_cons_succ]
        exact deviceOutcomes_bad lib attempts request hs rest (index + 1) _ i d h hb2
      · simp only [List.getElem?_cons_succ]
        exact deviceOutcomes_bad lib attempts request hs rest (index + 1) _ i d h hb2
      · rename_i what hw
        exact absurd hw (scheduleDevice_no_panic lib (attempts index) request x w hs what)

theorem handleDevices_bad_step (lib : Lib) (attempts : Nat → Attempt)
    (request : CreateScheduledTaskRequest) (source : List Char)
    (hs : ¬ scheduler.schedulePanics lib request.Schedule) (index : Nat) (d : List Char)
    (rest : List (List Char)) (response : CreateScheduledTaskResponse) (w : World)
    (hb : scheduler.badDevice index d) :
    scheduler.handleDevices lib attempts request source index (d :: rest) response w =
      scheduler.handleDevices lib attempts request source (index + 1) rest
        { response with ErrorCount := (response.ErrorCount + 1) % 4294967296 } w := by
  rw [scheduler.handleDevices]
  by_cases hskip : index ≠ 0 ∧ d = common.BroadcastDeviceID
  · rw [if_pos hskip]
  · rw [if_neg hskip]
    rcases hb with hb | ⟨h1, h2⟩
    · exact absurd hb hskip
    · obtain ⟨e, he⟩ := scheduleDevice_bad lib (attempts index) request d w hs h1 h2
      simp only [he]

/-- C24: for every accepted request the response lists, when the source is
`rest`, one entry `{task_id, device_id, status}` for each device that was
scheduled, in the order of the request, so that the length of `tasks_scheduled`
is the number of scheduled devices and equals `task_count` (a `uint32`) for
every list of fewer than 2^32 devices; when the source is `event` the list is
empty whatever `task_count` is. -/
theorem response_lists_scheduled_tasks (lib : Lib) (attempts : Nat → Attempt) (w : World)
    (request : CreateScheduledTaskRequest) (source : List Char)
    (resp : CreateScheduledTaskResponse) (devices : List (List Char))
    (hacc : (scheduler.handleSchedulerInputQueueRequest lib attempts w request source).1 =
      .ok resp)
    (hdev : request.DeviceIds = some devices) :
    resp.TaskCount = scheduler.successCount (scheduler.deviceOutcomes lib attempts
      (scheduler.checkedRequest request) 0 devices w) % 4294967296 ∧
    (source = common.SchedulerRequestSourceRest →
      resp.TasksScheduled = scheduler.scheduledEntries devices (scheduler.deviceOutcomes lib
        attempts (scheduler.checkedRequest request) 0 devices w) ∧
      resp.TasksScheduled.length = scheduler.successCount (scheduler.deviceOutcomes lib
        attempts (scheduler.checkedRequest request) 0 devices w) ∧
      (devices.length < 4294967296 → resp.TasksScheduled.length = resp.TaskCount)) ∧
    (source = common.SchedulerRequestSourceEvent → resp.TasksScheduled = []) := by
  have hsched := handler_schedule_returns lib attempts w request source resp hacc
  obtain ⟨devs, hd, _, _, heq⟩ := handler_accepts lib attempts w request source resp hacc
  rw [hdev] at hd
  simp only [Option.some.injEq] at hd
  subst hd
  rw [heq, handleDevices_outcomes lib attempts _ source hsched devices 0 _ w (by norm_num)
    (by norm_num)] at hacc
  simp only [Result.ok.injEq] at hacc
  have hlen := deviceOutcomes_length lib attempts (scheduler.checkedRequest request) hsched
    devices 0 w
  have hsum := success_add_failure (scheduler.deviceOutcomes lib attempts
    (scheduler.checkedRequest request) 0 devices w)
  rw [← hacc]
  simp only [Nat.zero_add, List.nil_append]
  refine ⟨trivial, fun hs => ?_, fun hs => ?_⟩
  · rw [if_pos hs]
    refine ⟨rfl, scheduledEntries_length _ _ hlen, fun hb => ?_⟩
    rw [scheduledEntries_length _ _ hlen]
    exact (Nat.mod_eq_of_lt (by omega)).symm
  · rw [if_neg (by rw [hs]; decide)]

/-- Witness for C24: the sample request from the REST endpoint yields one entry
for its one device. -/
theorem response_lists_scheduled_tasks_witness :
    ∃ resp : CreateScheduledTaskResponse,
      (scheduler.handleSchedulerInputQueueRequest Lib.plain (fun _ => sampleAttempt) sampleWorld
        sampleRequest common.SchedulerRequestSourceRest).1 = .ok resp ∧
      resp.TasksScheduled.length = resp.TaskCount ∧ resp.TaskCount = 1 :=
  ⟨_, rfl,
   ((response_lists_scheduled_tasks Lib.plain (fun _ => sampleAttempt) sampleWorld sampleRequest
      common.SchedulerRequestSourceRest _ [sampleDevice] (by decide) (by decide)).2.1
        rfl).2.2 (by decide),
   by decide⟩

theorem createTask_tasks_mem (a : Attempt) (w : World) (t : Task) :
    ∀ x ∈ (db.CreateTask a w t).2.1.tasks,
      x ∈ w.tasks ∨ (x.TenantID = t.TenantID ∧ x.DeviceID = t.DeviceID) := by
  intro x hx
  unfold db.CreateTask at hx
  split at hx
  · exact Or.inl hx
  · split at hx
    · exact Or.inl hx
    · dsimp only at hx
      split at hx
      · exact Or.inl hx
      · unfold db.CreateConsignment at hx
        have key : x ∈ db.upsert Task.sameKey w.tasks
            { t with TaskID := a.taskID, CreateTime := a.createTime,
                     Status := db.taskStatusQueued, RetryCount := 0 } := by
          split at hx
          · exact hx
          · split at hx
            · exact hx
            · split at hx
              · exact hx
              · exact hx
        unfold db.upsert at key
        rcases List.mem_append.mp key with h | h
        · exact Or.inl (List.mem_of_mem_filter h)
        · simp only [List.mem_singleton] at h
          rw [h]
          exact Or.inr ⟨rfl, rfl⟩

theorem schedule_validate_error (a : Attempt) (w : World) (s : ScheduledTask) (e : GoError)
    (he : s.validate.error = some e) : s.Schedule a w = (.err e, w) := by
  unfold ScheduledTask.Schedule
  simp [he]

theorem scheduleDevice_tasks_mem (lib : Lib) (a : Attempt)
    (request : CreateScheduledTaskRequest) (d : List Char) (w : World) :
    ∀ x ∈ (scheduler.scheduleDevice lib a request d w).2.tasks,
      x ∈ w.tasks ∨ (x.TenantID = request.TenantId ∧ x.DeviceID = (db.setUuidFromString d).1) := by
  intro x hx
  cases hp : (scheduler.NewScheduledTask "UTC".toList d request).ParseSchedule lib a.parseNow
      a.atNow request.Schedule with
  | panic what =>
    unfold scheduler.scheduleDevice at hx
    rw [hp] at hx
    exact Or.inl hx
  | value parsed =>
    rw [scheduleDevice_of_value lib a request d w parsed hp] at hx
    obtain ⟨_, _, _, _, hdev, hten, _⟩ := sameIdentity_ParseSchedule lib a.parseNow a.atNow
      (scheduler.NewScheduledTask "UTC".toList d request) parsed request.Schedule hp
    have hv := (sameIdentity_validate parsed).2
    have hnew : (scheduler.NewScheduledTask "UTC".toList d request).TaskInfo.TenantID =
        request.TenantId ∧
        (scheduler.NewScheduledTask "UTC".toList d request).TaskInfo.DeviceID =
          (db.setUuidFromString d).1 := by
      simp only [scheduler.NewScheduledTask, db.NewTask]
      split <;> exact ⟨rfl, rfl⟩
    cases he : parsed.validate.error with
    | some e =>
      rw [schedule_validate_error a w _ e he] at hx
      exact Or.inl hx
    | none =>
      rw [schedule_tasks a w _ he] at hx
      rcases createTask_tasks_mem a w _ x hx with h | ⟨h1, h2⟩
      · exact Or.inl h
      · exact Or.inr ⟨by rw [h1, hv, hten, hnew.1], by rw [h2, hv, hdev, hnew.2]⟩

theorem handleDevices_single_world (lib : Lib) (attempts : Nat → Attempt)
    (request : CreateScheduledTaskRequest) (source : List Char) (d : List Char)
    (response : CreateScheduledTaskResponse) (w : World) :
    (scheduler.handleDevices lib attempts request source 0 [d] response w).2 =
      (scheduler.scheduleDevice lib (attempts 0) request d w).2 := by
  rw [scheduler.handleDevices]
  rw [if_neg (by simp)]
  dsimp only
  split <;> simp [scheduler.handleDevices]

/-- C29 (failing inputs): for the schedules `every 5` and `every 5 midday` on the
sample task the validation of `Schedule` records no error, `CreateTask` is
reached and the task is persisted with the unset unit 0, together with a
scheduled run. -/
theorem schedule_persists_unset_unit :
    (sampleTask.ParseSchedule Lib.plain sampleTime sampleTime "every 5".toList).Returns
      (fun parsed =>
        parsed.validate.error = none ∧
        (parsed.Schedule sampleAttempt sampleWorld).2.tasks.map
          (fun t => (t.Unit, t.Interval)) = [(0, 5)] ∧
        (parsed.Schedule sampleAttempt sampleWorld).2.scheduledRuns.length = 1) ∧
    (sampleTask.ParseSchedule Lib.plain sampleTime sampleTime "every 5 midday".toList).Returns
      (fun parsed =>
        parsed.validate.error = none ∧
        (parsed.Schedule sampleAttempt sampleWorld).2.tasks.map
          (fun t => (t.Unit, t.Interval, t.RunAt)) = [(0, 5, [12 * time.Hour])]) ∧
    (0 : SchedulingUnit) ∉ [common.Once, common.Milliseconds, common.Seconds, common.Minutes,
      common.Hours, common.Days, common.Weeks, common.Months, common.Duration,
      common.Crontab] := by
  decide

/-! ## The dispatch table -/

/-- C28 (failing input): with the one registered service `a`, which maps the
broker topic `b::c` to the queue topic `q1`, the lookup for service `a::b` and
topic `c` returns `q1`, although no service `a::b` is registered: the two pairs
share the key `a::b::c`. -/
theorem dispatch_key_collision :
    (db.initServiceDispatchLookupTable
      (.ok [{ ServiceID := "a".toList, Name := [], OwnerAwsAccount := [],
              Topics := [("b::c".toList, "q1".toList)] }]) World.empty).1 = none ∧
    db.GetServiceQueueTopic
      (db.initServiceDispatchLookupTable
        (.ok [{ ServiceID := "a".toList, Name := [], OwnerAwsAccount := [],
                Topics := [("b::c".toList, "q1".toList)] }]) World.empty).2
      "a::b".toList "c".toList = "q1".toList ∧
    db.IsValidServiceId
      (db.initServiceDispatchLookupTable
        (.ok [{ ServiceID := "a".toList, Name := [], OwnerAwsAccount := [],
                Topics := [("b::c".toList, "q1".toList)] }]) World.empty).2
      "a::b".toList = false ∧
    db.dispatchKey "a".toList "b::c".toList = db.dispatchKey "a::b".toList "c".toList := by
  decide

/-! ## The REST endpoint -/

/-- C30 (failing inputs): when the challenge RPC, or the authenticate RPC,
answers with a non-OK header status and no transport error, `getAppToken`
returns nil and leaves the stored token as it was; the first attempt of
`GetAccessToken` then counts as a success, and at process start
`GetAccessToken` returns the empty token with a nil error. -/
theorem getAccessToken_returns_token_never_issued :
    dstsclient.getAppToken challengeRefused AppTokenState.initial =
      (none, AppTokenState.initial) ∧
    dstsclient.getAppToken authenticationRefused AppTokenState.initial =
      (none, AppTokenState.initial) ∧
    dstsclient.GetAccessToken sampleTime (fun _ => none) (fun _ => challengeRefused)
      AppTokenState.initial = (([], none), AppTokenState.initial) ∧
    dstsclient.GetAccessToken sampleTime (fun _ => none) (fun _ => authenticationRefused)
      AppTokenState.initial = (([], none), AppTokenState.initial) := by
  decide

/-! ## Device tokens -/

theorem getSigningKey_lookup (J : JwtLib) (answer : Except GoError (Nat × List JSONWebKey))
    (table : KeyTable) (kid : List Char) (key : RsaPublicKey)
    (h : (dstsclient.getSigningKey J answer table (some kid)).1 = .ok key) :
    (dstsclient.getSigningKey J answer table (some kid)).2.lookup kid = some key := by
  unfold dstsclient.getSigningKey at h ⊢
  dsimp only at h ⊢
  split
  · rename_i pk hpk
    simp only [hpk, Except.ok.injEq] at h
    rw [← h]
    exact hpk
  · rename_i hnone
    simp only [hnone] at h
    split
    · rename_i err herr
      simp [herr] at h
    · rename_i herr
      simp only [herr] at h
      split
      · rename_i pk hpk
        simp only [hpk, Except.ok.injEq] at h
        rw [← h]
        exact hpk
      · rename_i hpk
        simp [hpk] at h

theorem validate_ok_acceptable (J : JwtLib) (answer : Except GoError (Nat × List JSONWebKey))
    (table : KeyTable) (ev : ResponseEvents)
    (hparse : ev.parseToken = fun t => (jwt.ParseWithClaims J answer table t).1)
    (tokenString : List Char) (claims : DstsTokenClaims)
    (h : dstsclient.ValidateDeviceAccessToken ev tokenString = .ok claims) :
    TokenAcceptable J answer table tokenString claims := by
  unfold dstsclient.ValidateDeviceAccessToken dstsclient.parseAndValidateCommonClaims at h
  rw [hparse] at h
  unfold jwt.ParseWithClaims at h
  dsimp only at h
  cases hp : J.parseUnverified tokenString with
  | error e => simp [hp] at h
  | ok parts =>
    simp only [hp] at h
    cases hk : (dstsclient.getSigningKey J answer table parts.kid).1 with
    | error e => simp [hk] at h
    | ok key =>
      simp only [hk] at h
      by_cases hv : J.claimsValid tokenString = true ∧ J.verify parts.alg key tokenString = true
      · simp only [if_pos hv, Bool.not_true, Bool.false_eq_true, if_false] at h
        by_cases hi : strings.HasPrefix parts.claims.Issuer dstsclient.dstsIssuerName = true
        · simp only [hi, Bool.not_true, Bool.false_eq_true, if_false] at h
          by_cases ht : parts.claims.TokenType ≠ dstsclient.tokenTypeDevice
          · simp [if_pos ht] at h
          · simp only [if_neg ht, Except.ok.injEq] at h
            cases hkid : parts.kid with
            | none =>
              rw [hkid] at hk
              simp [dstsclient.getSigningKey] at hk
            | some kid =>
              rw [hkid] at hk
              refine ⟨parts, kid, key, hp, h, hkid, hk, getSigningKey_lookup J answer table kid
                key hk, hv.2, hv.1, ?_, ?_⟩
              · rw [← h]; exact hi
              · rw [← h]; exact not_not.mp ht
        · simp [hi] at h
      · simp [if_neg hv] at h

/-- C21: `ValidateDeviceAccessToken` returns claims only for a token that decodes,
whose signature verifies under the key stored for the `kid` of its header,
whose issuer begins with `HP Device Token Service` and whose `typ` is `device`;
for every task-response message whose token is not of this kind,
`handleTaskResponseMessage` returns an error and the store and the queues are
as before, whatever the store holds: the task row is untouched and no service
event is emitted. -/
theorem device_token_required (lib : Lib) (J : JwtLib)
    (answer : Except GoError (Nat × List JSONWebKey)) (table : KeyTable) (ev : ResponseEvents)
    (w : World) (mqttTopic : List Char) (message : DeviceMessage)
    (hparse : ev.parseToken = fun t => (jwt.ParseWithClaims J answer table t).1) :
    (∀ claims : DstsTokenClaims,
      dstsclient.ValidateDeviceAccessToken ev message.AccessToken = .ok claims →
      TokenAcceptable J answer table message.AccessToken claims) ∧
    ((∀ claims : DstsTokenClaims,
        ¬ TokenAcceptable J answer table message.AccessToken claims) →
      ∃ e : GoError,
        dstsclient.ValidateDeviceAccessToken ev message.AccessToken = .error e ∧
        scheduler.handleTaskResponseMessage lib ev w mqttTopic message = (some e, w) ∧
        (scheduler.handleTaskResponseMessage lib ev w mqttTopic message).2.tasks = w.tasks ∧
        (scheduler.handleTaskResponseMessage lib ev w mqttTopic message).2.serviceQueue =
          w.serviceQueue) := by
  refine ⟨fun claims h => validate_ok_acceptable J answer table ev hparse _ claims h,
    fun hno => ?_⟩
  cases hv : dstsclient.ValidateDeviceAccessToken ev message.AccessToken with
  | ok claims =>
    exact absurd (validate_ok_acceptable J answer table ev hparse _ claims hv) (hno claims)
  | error e =>
    have key : scheduler.handleTaskResponseMessage lib ev w mqttTopic message = (some e, w) := by
      unfold scheduler.handleTaskResponseMessage
      simp only [hv]
    exact ⟨e, rfl, key, by rw [key], by rw [key]⟩

/-- Witness for C21: the response that carries the token `forged`, whose
signature does not verify under the key `k1`, is rejected and the store of the
queued sample task is as before. -/
theorem device_token_required_witness :
    ∃ e : GoError,
      scheduler.handleTaskResponseMessage Lib.plain
        (responseWithParser
          (fun t => (jwt.ParseWithClaims JwtLib.sample (.ok (0, [])) sampleKeyTable t).1))
        sampleWorldQueued "v1/@cloud/task_responses".toList
        { sampleResponse "complete".toList with AccessToken := "forged".toList } =
          (some e, sampleWorldQueued) :=
  ((device_token_required Lib.plain JwtLib.sample (.ok (0, [])) sampleKeyTable
      (responseWithParser
        (fun t => (jwt.ParseWithClaims JwtLib.sample (.ok (0, [])) sampleKeyTable t).1))
      sampleWorldQueued "v1/@cloud/task_responses".toList
      { sampleResponse "complete".toList with AccessToken := "forged".toList } rfl).2
    (by
      rintro claims ⟨parts, kid, key, _, _, _, _, _, hver, _⟩
      have hf : ("forged".toList = "signed".toList) = False := by decide
      simp [JwtLib.sample, hf] at hver)).imp (fun _ h => h.2.1)

/-! ## The run partition (`db/create_scheduled_run.go`) -/

set_option maxRecDepth 100000 in
theorem yearOfEra_endpoints :
    ∀ q < 400, yearOfEra (yearStart q) = q ∧ yearOfEra (yearEnd q) = q := by
  decide

theorem yearOfEra_mono : Monotone yearOfEra := by
  have hg : Monotone (fun a : Nat => a - a / 1460 + a / 36524 - a / 146096) :=
    monotone_nat_of_le_succ (fun a => by show _ ≤ _; omega)
  intro a b hab
  exact Nat.div_le_div_right (hg hab)

theorem yearOfEra_range (a : Nat) (ha : a ≤ 146096) :
    yearOfEra a ≤ 399 ∧ yearStart (yearOfEra a) ≤ a ∧ a ≤ yearEnd (yearOfEra a) := by
  have hq : yearOfEra a ≤ 399 := by unfold yearOfEra; omega
  refine ⟨hq, ?_, ?_⟩
  · by_contra hlt
    have hlt : a < yearStart (yearOfEra a) := not_le.mp hlt
    have hpos : 0 < yearOfEra a := by
      rcases Nat.eq_zero_or_pos (yearOfEra a) with h | h
      · rw [h] at hlt; simp [yearStart] at hlt
      · exact h
    have hend : yearEnd (yearOfEra a - 1) = yearStart (yearOfEra a) - 1 := by
      have h1 : yearOfEra a - 1 ≠ 399 := by omega
      have h2 : yearOfEra a - 1 + 1 = yearOfEra a := by omega
      simp [yearEnd, h1, h2]
    have hle : a ≤ yearEnd (yearOfEra a - 1) := by omega
    have h3 := yearOfEra_mono hle
    have h4 := (yearOfEra_endpoints (yearOfEra a - 1) (by omega)).2
    omega
  · by_cases h399 : yearOfEra a = 399
    · simp [yearEnd, h399]; exact ha
    · by_contra hgt
      have hgt : yearEnd (yearOfEra a) < a := not_le.mp hgt
      have hpos : 0 < yearStart (yearOfEra a + 1) := by unfold yearStart; omega
      have hend : yearEnd (yearOfEra a) = yearStart (yearOfEra a + 1) - 1 := by
        simp [yearEnd, h399]
      have hle : yearStart (yearOfEra a + 1) ≤ a := by omega
      have h3 := yearOfEra_mono hle
      have h4 := (yearOfEra_endpoints (yearOfEra a + 1) (by omega)).1
      omega

set_option maxRecDepth 100000 in
theorem monthTable_all : ∀ n : Nat, n < 366 → monthTableCheck (n : Int) = true := by
  decide

theorem daysInMonth_leap (y m : Int) :
    daysInMonth y m = daysInMonth 1 m + (if m = 2 ∧ isLeapYear y = true then 1 else 0) := by
  unfold daysInMonth
  have h1 : isLeapYear 1 = false := by decide
  rw [h1]
  split_ifs <;> simp_all

theorem daysBeforeMonth_leap (y m : Int) :
    daysBeforeMonth y m =
      daysBeforeMonth 1 m + (if 2 < m ∧ isLeapYear y = true then 1 else 0) := by
  unfold daysBeforeMonth
  have h1 : isLeapYear 1 = false := by decide
  rw [h1]
  simp

theorem civil_arith (e q doy : Int) (hq0 : 0 ≤ q) (hq1 : q ≤ 399) (hd0 : 0 ≤ doy)
    (hd1 : doy ≤ 364 + (if (q + 1) % 4 = 0 ∧ ((q + 1) % 100 ≠ 0 ∨ (q + 1) % 400 = 0)
      then 1 else 0)) :
    let mp := (5 * doy + 2) / 153
    let d := doy - (153 * mp + 2) / 5 + 1
    let m := if mp < 10 then mp + 3 else mp - 9
    let y := q + e * 400 + (if m ≤ 2 then 1 else 0)
    1 ≤ m ∧ m ≤ 12 ∧ 1 ≤ d ∧ d ≤ daysInMonth y m ∧
      dayNumber y m d = e * 146097 + (doy + (365 * q + q / 4 - q / 100)) - 719468 := by
  intro mp d m y
  have hd365 : doy ≤ 365 := by split_ifs at hd1 <;> omega
  obtain ⟨n, rfl⟩ := Int.eq_ofNat_of_zero_le hd0
  have ht := monthTable_all n (by omega)
  simp only [monthTableCheck, decide_eq_true_eq] at ht
  obtain ⟨t1, t2, t3, t4, t5, t6⟩ := ht
  change 1 ≤ m at t1
  change m ≤ 12 at t2
  change 1 ≤ d at t3
  change d ≤ daysInMonth 1 m + _ at t4
  change _ → m = 2 at t5
  change daysBeforeMonth 1 m + (d - 1) = _ + (if m ≤ 2 then -306 else 59) at t6
  refine ⟨t1, t2, t3, ?_, ?_⟩
  · rw [daysInMonth_leap]
    by_cases h365 : (n : Int) = 365
    · have hm := t5 h365
      have hy : y = q + e * 400 + 1 := by show q + e * 400 + (if m ≤ 2 then 1 else 0) = _; simp [hm]
      have hl : isLeapYear y = true := by
        rw [hy]; simp only [isLeapYear, decide_eq_true_eq]
        split_ifs at hd1 with hc
        · omega
        · omega
      simp only [h365, if_true] at t4
      simp [hm, hl]
      rw [hm] at t4
      exact t4
    · simp only [h365, if_false, add_zero] at t4
      have : (0 : Int) ≤ (if m = 2 ∧ isLeapYear y = true then 1 else 0) := by split_ifs <;> simp
      omega
  · unfold dayNumber
    rw [daysBeforeMonth_leap]
    have hy : y = q + e * 400 + (if m ≤ 2 then 1 else 0) := rfl
    clear_value m d y
    unfold daysBeforeYear leapYearsBefore
    by_cases hm : m ≤ 2
    · have h2 : ¬ (2 < m) := by omega
      simp only [hm, if_true] at hy t6
      simp only [h2, false_and, if_false]
      subst hy
      omega
    · have h2 : 2 < m := by omega
      simp only [hm, if_false, add_zero] at hy t6
      simp only [h2, true_and, isLeapYear, decide_eq_true_eq]
      subst hy
      split_ifs <;> omega

theorem dayOfYear_le (q a : Nat) (h1 : a ≤ yearEnd q) :
    (a : Int) - (365 * (q : Int) + (q : Int) / 4 - (q : Int) / 100) ≤ 364 +
      (if ((q : Int) + 1) % 4 = 0 ∧ (((q : Int) + 1) % 100 ≠ 0 ∨ ((q : Int) + 1) % 400 = 0)
        then 1 else 0) := by
  unfold yearEnd yearStart at h1
  split_ifs at h1 ⊢ <;> omega

theorem civilFromDays_calendar (z : Int) :
    isCalendarDate (civilFromDays z).1 (civilFromDays z).2.1 (civilFromDays z).2.2 ∧
      dayNumber (civilFromDays z).1 (civilFromDays z).2.1 (civilFromDays z).2.2 = z := by
  have hdoe0 : 0 ≤ z + 719468 - (z + 719468) / 146097 * 146097 := by omega
  have hdoe1 : z + 719468 - (z + 719468) / 146097 * 146097 ≤ 146096 := by omega
  obtain ⟨a, ha⟩ := Int.eq_ofNat_of_zero_le hdoe0
  have ha1 : a ≤ 146096 := by omega
  obtain ⟨hq, hs, he⟩ := yearOfEra_range a ha1
  have hyoe : ((a : Int) - (a : Int) / 1460 + (a : Int) / 36524 - (a : Int) / 146096) / 365 =
      ((yearOfEra a : Nat) : Int) := by
    unfold yearOfEra; omega
  have hsi : ((yearStart (yearOfEra a) : Nat) : Int) =
      365 * (yearOfEra a : Int) + (yearOfEra a : Int) / 4 - (yearOfEra a : Int) / 100 := by
    unfold yearStart; omega
  have hd1 := dayOfYear_le (yearOfEra a) a he
  have hmain := civil_arith ((z + 719468) / 146097) (yearOfEra a : Int)
    ((a : Int) - (365 * (yearOfEra a : Int) + (yearOfEra a : Int) / 4 -
      (yearOfEra a : Int) / 100)) (by omega) (by omega) (by omega) hd1
  have hz : (z + 719468) / 146097 * 146097 + ((a : Int) - (365 * (yearOfEra a : Int) +
      (yearOfEra a : Int) / 4 - (yearOfEra a : Int) / 100) + (365 * (yearOfEra a : Int) +
      (yearOfEra a : Int) / 4 - (yearOfEra a : Int) / 100)) - 719468 = z := by omega
  simp only [hz] at hmain
  simp only [civilFromDays, isCalendarDate, ha, hyoe]
  exact ⟨⟨hmain.1, hmain.2.1, hmain.2.2.1, hmain.2.2.2.1⟩, hmain.2.2.2.2⟩

theorem monthAbbrev_name (m : Int) (h1 : 1 ≤ m) (h2 : m ≤ 12) : monthAbbrev m = monthName m := by
  interval_cases m <;> rfl

theorem formatDate_dateText (t : Time) :
    t.formatDate = dateText (civilFromDays ((t.sec + t.offset) / 86400)).1
      (civilFromDays ((t.sec + t.offset) / 86400)).2.1
      (civilFromDays ((t.sec + t.offset) / 86400)).2.2 := by
  have h := (civilFromDays_calendar ((t.sec + t.offset) / 86400)).1
  unfold Time.formatDate dateText
  simp only [monthAbbrev_name _ h.1 h.2.1]

/-- C22 (counterexample): an instant of 2026-11-01 UTC carried with a location
two hours east of UTC gets the partition `2026-Nov-02`, while the UTC calendar
date of the same instant gives `2026-Nov-01`. -/
theorem runPartition_not_utc_date :
    sampleEastTime.UTC.sec = sampleEastTime.sec ∧
      db.GetRunPartition sampleEastTime = "2026-Nov-02".toList ∧
      db.GetRunPartition sampleEastTime.UTC = "2026-Nov-01".toList ∧
      db.GetRunPartition sampleEastTime ≠ db.GetRunPartition sampleEastTime.UTC := by
  decide

/-- C22 (amended): `GetRunPartition(t)` is the text `YYYY-MMM-DD` of the
calendar date of `t` in the location the value carries: the date is a date of
the calendar whose day number is the number of whole days of the seconds of
`t` shifted by the offset of that location.  `CreateScheduledRun` stores the
run under the partition of its `next_run`, and a pass of the daemon pages
through the partition of its clock reading. -/
theorem runPartition_is_carried_date (t : Time) (a : Attempt) (w : World) (s : ScheduledRun)
    (ev : TickEvents) :
    (∃ y m d : Int, isCalendarDate y m d ∧ dayNumber y m d = (t.sec + t.offset) / 86400 ∧
      db.GetRunPartition t = dateText y m d) ∧
    (db.CreateScheduledRun a w s).2.2 =
      { s with RunPartition := db.GetRunPartition s.NextRun } ∧
    (a.insertRun = none →
      { s with RunPartition := db.GetRunPartition s.NextRun } ∈
        (db.CreateScheduledRun a w s).2.1.scheduledRuns) ∧
    scheduler.daemonTick { ev with cancelledAtStart := false } w =
      scheduler.daemonPages { ev with cancelledAtStart := false } (db.GetRunPartition ev.now)
        ((db.partitionRows w (db.GetRunPartition ev.now)).length + 1) 0 0 0 w := by
  refine ⟨⟨_, _, _, (civilFromDays_calendar _).1, (civilFromDays_calendar _).2,
    formatDate_dateText t⟩, ?_, fun h => ?_, ?_⟩
  · unfold db.CreateScheduledRun
    cases a.insertRun <;> rfl
  · unfold db.CreateScheduledRun
    simp only [h]
    exact mem_upsert _ _ _
  · simp [scheduler.daemonTick]

/-! ## The daemon enqueues due runs only -/

theorem createTask_runs (a : Attempt) (w : World) (t : Task) :
    (db.CreateTask a w t).2.1.scheduledRuns = w.scheduledRuns := by
  unfold db.CreateTask
  split
  · rfl
  · split
    · rfl
    · dsimp only
      split
      · rfl
      · unfold db.CreateConsignment
        split
        · rfl
        · split
          · rfl
          · split <;> rfl

theorem createScheduledRun_runs_mem (a : Attempt) (w : World) (run : ScheduledRun) :
    ∀ r ∈ (db.CreateScheduledRun a w run).2.1.scheduledRuns,
      r ∈ w.scheduledRuns ∨ r.NextRun = run.NextRun := by
  intro r hr
  unfold db.CreateScheduledRun at hr
  dsimp only at hr
  split at hr
  · exact Or.inl hr
  · unfold db.upsert at hr
    rcases List.mem_append.mp hr with h | h
    · exact Or.inl (List.mem_of_mem_filter h)
    · simp only [List.mem_singleton] at h
      rw [h]
      exact Or.inr rfl

theorem schedule_runs_mem (a : Attempt) (w : World) (s : ScheduledTask) :
    ∀ r ∈ (s.Schedule a w).2.scheduledRuns, r ∈ w.scheduledRuns ∨ r.NextRun = a.nextRun := by
  intro r hr
  unfold ScheduledTask.Schedule at hr
  dsimp only at hr
  split at hr
  · exact Or.inl hr
  · split at hr
    · rw [createTask_runs] at hr
      exact Or.inl hr
    · split at hr
      · split at hr
        · rw [createTask_runs] at hr
          exact Or.inl hr
        · simp only at hr
          rw [createTask_runs] at hr
          exact Or.inl hr
      · split at hr
        · rw [createTask_runs] at hr
          exact Or.inl hr
        · have key := createScheduledRun_runs_mem a (db.CreateTask a w s.validate.TaskInfo).2.1
          split at hr
          · rcases key _ r hr with h | h
            · rw [createTask_runs] at h
              exact Or.inl h
            · exact Or.inr h
          · rcases key _ r hr with h | h
            · rw [createTask_runs] at h
              exact Or.inl h
            · exact Or.inr h

theorem scheduleDevice_runs_mem (lib : Lib) (a : Attempt) (request : CreateScheduledTaskRequest)
    (d : List Char) (w : World) :
    ∀ r ∈ (scheduler.scheduleDevice lib a request d w).2.scheduledRuns,
      r ∈ w.scheduledRuns ∨ r.NextRun = a.nextRun := by
  intro r hr
  unfold scheduler.scheduleDevice at hr
  split at hr
  · exact Or.inl hr
  · exact schedule_runs_mem a w _ r hr

theorem handleDevices_runs_mem (lib : Lib) (attempts : Nat → Attempt)
    (request : CreateScheduledTaskRequest) (source : List Char) :
    ∀ (devices : List (List Char)) (index : Nat) (response : CreateScheduledTaskResponse)
      (w : World),
      ∀ r ∈ (scheduler.handleDevices lib attempts request source index devices response
          w).2.scheduledRuns,
        r ∈ w.scheduledRuns ∨ ∃ i, r.NextRun = (attempts i).nextRun
  | [], _, _, _ => by
    intro r hr
    exact Or.inl hr
  | d :: rest, index, response, w => by
    intro r hr
    rw [scheduler.handleDevices] at hr
    split at hr
    · exact handleDevices_runs_mem lib attempts request source rest _ _ _ r hr
    · dsimp only at hr
      have key := scheduleDevice_runs_mem lib (attempts index) request d w
      split at hr
      · rcases key r hr with h | h
        · exact Or.inl h
        · exact Or.inr ⟨index, h⟩
      · rcases handleDevices_runs_mem lib attempts request source rest _ _ _ r hr with h | h
        · rcases key r h with h | h
          · exact Or.inl h
          · exact Or.inr ⟨index, h⟩
        · exact Or.inr h
      · rcases handleDevices_runs_mem lib attempts request source rest _ _ _ r hr with h | h
        · rcases key r h with h | h
          · exact Or.inl h
          · exact Or.inr ⟨index, h⟩
        · exact Or.inr h

theorem handler_runs_mem (lib : Lib) (attempts : Nat → Attempt) (w : World)
    (request : CreateScheduledTaskRequest) (source : List Char) :
    ∀ r ∈ (scheduler.handleSchedulerInputQueueRequest lib attempts w request
        source).2.scheduledRuns,
      r ∈ w.scheduledRuns ∨ ∃ i, r.NextRun = (attempts i).nextRun := by
  intro r hr
  unfold scheduler.handleSchedulerInputQueueRequest at hr
  split at hr
  · exact Or.inl hr
  · split at hr
    · exact Or.inl hr
    · split at hr
      · exact Or.inl hr
      · split at hr
        · exact Or.inl hr
        · exact Or.inl hr
        · dsimp only at hr
          split at hr
          · exact Or.inl hr
          · split at hr
            · exact Or.inl hr
            · exact handleDevices_runs_mem lib attempts _ source _ _ _ _ r hr

theorem setTaskStatus_runs (o : Option GoError) (w : World) (taskID deviceID : List Char)
    (status : TaskStatus) :
    (db.setTaskStatus o w taskID deviceID status).2.scheduledRuns = w.scheduledRuns := by
  unfold db.setTaskStatus
  cases gocql.ParseUUID deviceID <;> cases gocql.ParseUUID taskID <;> cases o <;> rfl

theorem updateTaskStatus_runs (o1 o2 : Option GoError) (w : World)
    (taskID deviceID tenantID consignmentID : List Char) (status : TaskStatus) :
    (db.UpdateTaskStatus o1 o2 w taskID deviceID tenantID consignmentID status).2.scheduledRuns =
      w.scheduledRuns := by
  unfold db.UpdateTaskStatus db.setTaskStatus db.UpdateConsignmentTaskStatus
  cases gocql.ParseUUID deviceID <;> cases gocql.ParseUUID taskID <;> cases o1 <;>
    cases o2 <;> simp

theorem workerStep_runs (ev : WorkerEvents) (w : World) :
    (sqs_provider.processSchedulerDispatchRequest ev w).scheduledRuns = w.scheduledRuns := by
  unfold sqs_provider.processSchedulerDispatchRequest
  split
  · rfl
  · split
    · rfl
    · split
      · split <;> rfl
      · split
        · rfl
        · dsimp only
          have key : ∀ (w1 : World) (m : ServiceMessage),
              (db.MarkTaskDispatched ev.update w1 m).2.scheduledRuns = w1.scheduledRuns := by
            intro w1 m
            unfold db.MarkTaskDispatched
            split
            · rfl
            · exact setTaskStatus_runs _ _ _ _ _
          split
          · rw [key]
          · split
            · rw [key]
            · simp only
              rw [key]

theorem sendMessage_runs (ev : ResponseEvents) (w : World) (serviceID queueTopic : List Char)
    (event : DeviceEvent) :
    (sqs_provider.SendMessage ev w serviceID queueTopic event).2.scheduledRuns =
      w.scheduledRuns := by
  unfold sqs_provider.SendMessage
  split
  · rfl
  · split
    · rfl
    · split <;> rfl

theorem taskResponse_runs (lib : Lib) (ev : ResponseEvents) (w : World) (mqttTopic : List Char)
    (message : DeviceMessage) :
    (scheduler.handleTaskResponseMessage lib ev w mqttTopic message).2.scheduledRuns =
      w.scheduledRuns := by
  unfold scheduler.handleTaskResponseMessage
  split
  · rfl
  · split
    · rfl
    · split
      · rfl
      · split
        · rfl
        · dsimp only
          split
          · rfl
          · rename_i r hr
            have hwr : r.2.scheduledRuns = w.scheduledRuns := by
              split at hr
              · simp only [Option.some.injEq] at hr
                rw [← hr]
                exact updateTaskStatus_runs _ _ _ _ _ _ _ _
              · split at hr
                · simp only [Option.some.injEq] at hr
                  rw [← hr]
                  exact updateTaskStatus_runs _ _ _ _ _ _ _ _
                · simp at hr
            split
            · exact hwr
            · rw [sendMessage_runs]
              exact hwr

theorem deviceMessage_runs (ev : ResponseEvents) (dcm : Option GoError) (w : World)
    (mqttTopic : List Char) (message : DeviceMessage) :
    (scheduler.handleDeviceToServiceMessage ev dcm w mqttTopic message).2.1.scheduledRuns =
      w.scheduledRuns := by
  unfold scheduler.handleDeviceToServiceMessage
  split
  · rfl
  · dsimp only
    split
    · rfl
    · split
      · exact sendMessage_runs _ _ _ _ _
      · split
        · exact sendMessage_runs _ _ _ _ _
        · exact sendMessage_runs _ _ _ _ _

theorem daemonPages_runs (ev : TickEvents) (p : List Char) :
    ∀ (fuel page start index : Nat) (w : World),
      (scheduler.daemonPages ev p fuel page start index w).2.scheduledRuns = w.scheduledRuns
  | 0, _, _, _, _ => rfl
  | fuel + 1, page, start, index, w => by
    rw [scheduler.daemonPages]
    split
    · rfl
    · dsimp only
      split
      · exact daemonItems_runs ev _ _ _
      · split
        · exact daemonItems_runs ev _ _ _
        · rw [daemonPages_runs ev p fuel]
          exact daemonItems_runs ev _ _ _

theorem daemonTick_runs (ev : TickEvents) (w : World) :
    (scheduler.daemonTick ev w).2.scheduledRuns = w.scheduledRuns := by
  unfold scheduler.daemonTick
  split
  · rfl
  · exact daemonPages_runs ev _ _ _ _ _ _

theorem operation_runs_mem (lib : Lib) (op : Operation) (w : World) (now : Time)
    (hclock : op.clockNotAfter now) :
    ∀ r ∈ (op.run lib w).scheduledRuns, r ∈ w.scheduledRuns ∨ r.NextRun.notAfter now := by
  intro r hr
  cases op with
  | request attempts req source =>
    rcases handler_runs_mem lib attempts w req source r hr with h | ⟨i, h⟩
    · exact Or.inl h
    · exact Or.inr (by rw [h]; exact hclock i)
  | dispatch ev =>
    simp only [Operation.run, workerStep_runs] at hr
    exact Or.inl hr
  | taskResponse ev mqttTopic message =>
    simp only [Operation.run, taskResponse_runs] at hr
    exact Or.inl hr
  | deviceMessage ev dcm mqttTopic message =>
    simp only [Operation.run, deviceMessage_runs] at hr
    exact Or.inl hr
  | tick ev =>
    simp only [Operation.run, daemonTick_runs] at hr
    exact Or.inl hr

theorem history_runs_stamped (lib : Lib) (now : Time) :
    ∀ (ops : List Operation) (w : World), (∀ op ∈ ops, op.clockNotAfter now) →
      (∀ r ∈ w.scheduledRuns, r.NextRun.notAfter now) →
      ∀ r ∈ (World.after lib ops w).scheduledRuns, r.NextRun.notAfter now
  | [], _, _, hw => hw
  | op :: ops, w, hclock, hw => by
    have hstep : ∀ r ∈ (op.run lib w).scheduledRuns, r.NextRun.notAfter now := by
      intro r hr
      rcases operation_runs_mem lib op w now (hclock op (List.mem_cons_self _ _)) r hr with h | h
      · exact hw r h
      · exact h
    exact history_runs_stamped lib now ops (op.run lib w)
      (fun o ho => hclock o (List.mem_cons_of_mem _ ho)) hstep

theorem mem_partitionRows (w : World) (p : List Char) (r : ScheduledRun)
    (h : r ∈ db.partitionRows w p) : r ∈ w.scheduledRuns ∧ r.RunPartition = p := by
  unfold db.partitionRows at h
  have h1 := (List.perm_insertionSort ScheduledRun.before _).mem_iff.mp h
  have h2 := List.mem_filter.mp h1
  exact ⟨h2.1, by simpa using h2.2⟩

theorem daemonItems_sent (ev : TickEvents) :
    ∀ (items : List ScheduledRun) (index : Nat) (w : World),
      ∃ sent : List (ScheduledRun × Task),
        (scheduler.daemonItems ev items index w).2.2 =
          { w with dispatchQueue := w.dispatchQueue ++
              sent.map (fun p => db.MarshalServiceMessage p.2) } ∧
        ∀ p ∈ sent, p.1 ∈ items ∧
          ∃ i, db.GetTaskByID (ev.getTask i) w p.1.TaskID.String p.1.DeviceID.String = .ok p.2
  | [], _, w => ⟨[], by simp [scheduler.daemonItems], by simp⟩
  | item :: rest, index, w => by
    rw [scheduler.daemonItems]
    split
    · exact ⟨[], by simp, by simp⟩
    · split
      · obtain ⟨sent, h1, h2⟩ := daemonItems_sent ev rest (index + 1) w
        exact ⟨sent, h1, fun p hp => ⟨List.mem_cons_of_mem _ (h2 p hp).1, (h2 p hp).2⟩⟩
      · rename_i task htask
        split
        · obtain ⟨sent, h1, h2⟩ := daemonItems_sent ev rest (index + 1) w
          exact ⟨sent, h1, fun p hp => ⟨List.mem_cons_of_mem _ (h2 p hp).1, (h2 p hp).2⟩⟩
        · obtain ⟨sent, h1, h2⟩ := daemonItems_sent ev rest (index + 1)
            { w with dispatchQueue := w.dispatchQueue ++ [db.MarshalServiceMessage task] }
          refine ⟨(item, task) :: sent, ?_, ?_⟩
          · rw [h1]
            simp
          · intro p hp
            rcases List.mem_cons.mp hp with h | h
            · subst h
              exact ⟨List.mem_cons_self _ _, index, htask⟩
            · exact ⟨List.mem_cons_of_mem _ (h2 p h).1, (h2 p h).2⟩

theorem daemonPages_sent (ev : TickEvents) (part : List Char) :
    ∀ (fuel page start index : Nat) (w : World),
      ∃ sent : List (ScheduledRun × Task),
        (scheduler.daemonPages ev part fuel page start index w).2 =
          { w with dispatchQueue := w.dispatchQueue ++
              sent.map (fun p => db.MarshalServiceMessage p.2) } ∧
        ∀ p ∈ sent, p.1 ∈ db.partitionRows w part ∧
          ∃ i, db.GetTaskByID (ev.getTask i) w p.1.TaskID.String p.1.DeviceID.String = .ok p.2
  | 0, _, _, _, w => ⟨[], by simp [scheduler.daemonPages], by simp⟩
  | fuel + 1, page, start, index, w => by
    rw [scheduler.daemonPages]
    cases hq : db.GetScheduledRuns (ev.query page) w part start with
    | error e => exact ⟨[], by simp, by simp⟩
    | ok found =>
      have hfound : ∀ r ∈ found.1, r ∈ db.partitionRows w part := by
        intro r hr
        unfold db.GetScheduledRuns at hq
        split at hq
        · simp at hq
        · split at hq
          · simp at hq
          · simp only [Except.ok.injEq] at hq
            rw [← hq] at hr
            exact List.mem_of_mem_drop (List.mem_of_mem_take hr)
      obtain ⟨sent1, h1, h2⟩ := daemonItems_sent ev found.1 index w
      have first : ∀ p ∈ sent1, p.1 ∈ db.partitionRows w part ∧
          ∃ i, db.GetTaskByID (ev.getTask i) w p.1.TaskID.String p.1.DeviceID.String =
            .ok p.2 := fun p hp => ⟨hfound _ (h2 p hp).1, (h2 p hp).2⟩
      dsimp only
      split
      · exact ⟨sent1, h1, first⟩
      · split
        · exact ⟨sent1, h1, first⟩
        · obtain ⟨sent2, h3, h4⟩ := daemonPages_sent ev part fuel (page + 1) found.2
            (scheduler.daemonItems ev found.1 index w).2.1
            (scheduler.daemonItems ev found.1 index w).2.2
          refine ⟨sent1 ++ sent2, ?_, ?_⟩
          · rw [h3, h1]
            simp
          · intro p hp
            rcases List.mem_append.mp hp with h | h
            · exact first p h
            · have := h4 p h
              rw [h1] at this
              exact this

theorem daemonTick_sent (ev : TickEvents) (w : World) :
    ∃ sent : List (ScheduledRun × Task),
      (scheduler.daemonTick ev w).2 =
        { w with dispatchQueue := w.dispatchQueue ++
            sent.map (fun p => db.MarshalServiceMessage p.2) } ∧
      ∀ p ∈ sent, p.1 ∈ db.partitionRows w (db.GetRunPartition ev.now) ∧
        ∃ i, db.GetTaskByID (ev.getTask i) w p.1.TaskID.String p.1.DeviceID.String = .ok p.2 := by
  unfold scheduler.daemonTick
  split
  · exact ⟨[], by simp, by simp⟩
  · exact daemonPages_sent ev _ _ _ _ _ _

theorem daemonItems_allSucceed (ev : TickEvents) (hs : ev.allSucceed) :
    ∀ (items : List ScheduledRun) (index : Nat) (w : World),
      (scheduler.daemonItems ev items index w).1 = false ∧
      (scheduler.daemonItems ev items index w).2.2 =
        { w with dispatchQueue := w.dispatchQueue ++ items.filterMap (scheduler.runMessage w) }
  | [], _, w => by simp [scheduler.daemonItems]
  | item :: rest, index, w => by
    obtain ⟨_, hc, _, hg, hsend⟩ := hs
    rw [scheduler.daemonItems]
    simp only [hc index, Bool.false_eq_true, if_false, hg index, hsend index]
    cases ht : db.GetTaskByID none w item.TaskID.String item.DeviceID.String with
    | error e =>
      obtain ⟨h1, h2⟩ := daemonItems_allSucceed ev ⟨‹_›, hc, ‹_›, hg, hsend⟩ rest (index + 1) w
      refine ⟨h1, ?_⟩
      rw [h2]
      simp [List.filterMap_cons, scheduler.runMessage, ht]
    | ok task =>
      obtain ⟨h1, h2⟩ := daemonItems_allSucceed ev ⟨‹_›, hc, ‹_›, hg, hsend⟩ rest (index + 1)
        { w with dispatchQueue := w.dispatchQueue ++ [db.MarshalServiceMessage task] }
      refine ⟨h1, ?_⟩
      rw [h2]
      have hrm : scheduler.runMessage
          { w with dispatchQueue := w.dispatchQueue ++ [db.MarshalServiceMessage task] } =
          scheduler.runMessage w := rfl
      simp [List.filterMap_cons, scheduler.runMessage, ht, hrm]

theorem getRunPartition_ne_nil (t : Time) : db.GetRunPartition t ≠ [] := by
  unfold db.GetRunPartition Time.formatDate
  simp

theorem daemonPages_allSucceed (ev : TickEvents) (hs : ev.allSucceed) (part : List Char)
    (hpart : part ≠ []) :
    ∀ (fuel page start index : Nat) (w : World),
      (db.partitionRows w part).length < start + fuel →
      (scheduler.daemonPages ev part fuel page start index w).2 =
        { w with dispatchQueue := w.dispatchQueue ++
            ((db.partitionRows w part).drop start).filterMap (scheduler.runMessage w) }
  | 0, _, start, _, w, h => by
    rw [scheduler.daemonPages]
    have : (db.partitionRows w part).drop start = [] := List.drop_eq_nil_of_le (by omega)
    simp [this]
  | fuel + 1, page, start, index, w, h => by
    have hq : db.GetScheduledRuns (ev.query page) w part start =
        .ok (((db.partitionRows w part).drop start).take db.itemsPerPage,
          if start + db.itemsPerPage < (db.partitionRows w part).length then
            start + db.itemsPerPage else 0) := by
      unfold db.GetScheduledRuns
      rw [if_neg hpart, hs.2.2.1 page]
    rw [scheduler.daemonPages, hq]
    obtain ⟨h1, h2⟩ := daemonItems_allSucceed ev hs
      (((db.partitionRows w part).drop start).take db.itemsPerPage) index w
    simp only [h1, Bool.false_eq_true, if_false]
    by_cases hmore : start + db.itemsPerPage < (db.partitionRows w part).length
    · have hne : start + db.itemsPerPage ≠ 0 := by unfold db.itemsPerPage; omega
      simp only [if_pos hmore, if_neg hne]
      have hrows : db.partitionRows (scheduler.daemonItems ev
          (((db.partitionRows w part).drop start).take db.itemsPerPage) index w).2.2 part =
          db.partitionRows w part := by
        rw [h2]
        rfl
      rw [daemonPages_allSucceed ev hs part hpart fuel _ _ _ _
        (by rw [hrows]; unfold db.itemsPerPage; omega), hrows, h2]
      have hrm : ∀ q : List Packet, scheduler.runMessage { w with dispatchQueue := q } =
          scheduler.runMessage w := fun _ => rfl
      simp only [hrm, List.append_assoc, ← List.filterMap_append]
      rw [← List.drop_drop, List.take_append_drop]
    · simp only [if_neg hmore, if_true]
      rw [h2, List.take_of_length_le (by rw [List.length_drop]; omega)]

theorem handler_of_valid (lib : Lib) (attempts : Nat → Attempt) (w : World)
    (request : CreateScheduledTaskRequest) (source : List Char) (first : List Char)
    (others : List (List Char))
    (hsrc : source = common.SchedulerRequestSourceEvent ∨
      source = common.SchedulerRequestSourceRest)
    (hsvc : db.IsValidServiceId w request.ServiceId = true)
    (hcons : request.ConsignmentId ≠ [])
    (hdev : request.DeviceIds = some (first :: others))
    (hten : (first = common.BroadcastDeviceID ∧ others = []) ∨
      (first ≠ common.BroadcastDeviceID ∧ uuid.Parse request.TenantId = true))
    (hpay : request.Payload ≠ none) :
    scheduler.handleSchedulerInputQueueRequest lib attempts w request source =
      scheduler.handleDevices lib attempts (scheduler.checkedRequest request) source 0
        (first :: others)
        { Version := request.Version, TaskCount := 0, ErrorCount := 0,
          ConsignmentId := request.ConsignmentId,
          TenantId := (scheduler.checkedRequest request).TenantId, TasksScheduled := [] } w := by
  unfold scheduler.handleSchedulerInputQueueRequest
  rw [if_neg (not_not.mpr hsrc)]
  simp only [hsvc, Bool.not_true, Bool.false_eq_true, if_false, if_neg hcons, hdev,
    scheduler.checkedRequest]
  rcases hten with ⟨h1, h2⟩ | ⟨h1, h2⟩
  · subst h2
    simp only [if_pos h1, List.length_singleton, ne_eq, not_true_eq_false, if_false, if_neg hpay]
  · simp only [if_neg h1, h2, Bool.not_true, Bool.false_eq_true, if_false, if_neg hpay]

theorem scheduleDevice_of_parse_error (lib : Lib) (a : Attempt)
    (request : CreateScheduledTaskRequest) (d : List Char) (w : World)
    (h : ((scheduler.NewScheduledTask "UTC".toList d request).ParseSchedule lib a.parseNow
      a.atNow request.Schedule).Returns (fun parsed => parsed.error ≠ none)) :
    ∃ e : GoError, scheduler.scheduleDevice lib a request d w = (.err e, w) := by
  obtain ⟨parsed, hp, he⟩ := (Outcome.returns_iff _ _).mp h
  rw [scheduleDevice_of_value lib a request d w parsed hp]
  exact schedule_of_error a w parsed he

theorem handleDevices_all_fail (lib : Lib) (attempts : Nat → Attempt)
    (request : CreateScheduledTaskRequest) (source : List Char) :
    ∀ (devices : List (List Char)) (index : Nat) (response : CreateScheduledTaskResponse)
      (w : World), response.ErrorCount < 4294967296 →
      (∀ (i : Nat) (d : List Char), devices[i]? = some d →
        (index + i ≠ 0 ∧ d = common.BroadcastDeviceID) ∨
        ((scheduler.NewScheduledTask "UTC".toList d request).ParseSchedule lib
          (attempts (index + i)).parseNow (attempts (index + i)).atNow
          request.Schedule).Returns (fun parsed => parsed.error ≠ none)) →
      scheduler.handleDevices lib attempts request source index devices response w =
        (.ok { response with
          ErrorCount := (response.ErrorCount + devices.length) % 4294967296 }, w)
  | [], index, response, w, hlt, _ => by
    rw [scheduler.handleDevices]
    simp [Nat.mod_eq_of_lt hlt]
  | d :: rest, index, response, w, hlt, h => by
    have ih := handleDevices_all_fail lib attempts request source rest (index + 1)
      { response with ErrorCount := (response.ErrorCount + 1) % 4294967296 } w
      (Nat.mod_lt _ (by norm_num))
      (fun i x hx => by
        have := h (i + 1) x (by simpa using hx)
        have e : index + (i + 1) = index + 1 + i := by omega
        rw [e] at this
        exact this)
    have hcount : ((response.ErrorCount + 1) % 4294967296 + rest.length) % 4294967296 =
        (response.ErrorCount + (d :: rest).length) % 4294967296 := by
      simp only [List.length_cons]
      omega
    rw [scheduler.handleDevices]
    by_cases hskip : index ≠ 0 ∧ d = common.BroadcastDeviceID
    · rw [if_pos hskip, ih]
      simp only [hcount]
    · rw [if_neg hskip]
      obtain ⟨e, he⟩ := scheduleDevice_of_parse_error lib (attempts index) request d w
        ((h 0 d (by simp)).resolve_left hskip)
      simp only [he]
      rw [ih]
      simp only [hcount]

theorem unmarshal_devices (sent : CreateScheduledTaskRequest) (first : List Char)
    (others : List (List Char)) (h : sent.DeviceIds = some (first :: others)) :
    proto.Unmarshal sent = sent := by
  obtain ⟨v, s, d, c, t, p, sc, mt, mi⟩ := sent
  simp only at h
  subst h
  rfl

theorem parse_error_of_bad_device (lib : Lib) (a : Attempt)
    (request : CreateScheduledTaskRequest) (d : List Char)
    (hs : ¬ scheduler.schedulePanics lib request.Schedule)
    (h1 : d ≠ common.BroadcastDeviceID) (h2 : gocql.ParseUUID d = none) :
    ((scheduler.NewScheduledTask "UTC".toList d request).ParseSchedule lib a.parseNow a.atNow
      request.Schedule).Returns (fun parsed => parsed.error ≠ none) := by
  obtain ⟨parsed, hp⟩ := parseSchedule_returns lib a.parseNow a.atNow
    (scheduler.NewScheduledTask "UTC".toList d request) request.Schedule hs
  rw [hp]
  show parsed.error ≠ none
  intro hnone
  obtain ⟨he, _⟩ := sameIdentity_ParseSchedule lib a.parseNow a.atNow
    (scheduler.NewScheduledTask "UTC".toList d request) parsed request.Schedule hp
  rcases newScheduledTask_cases "UTC".toList d request with ⟨h, _⟩ | ⟨_, h, _⟩
  · exact h (he hnone)
  · simp [db.setUuidFromString, h1, h2] at h

theorem createTaskHandler_created (lib : Lib) (attempts : Nat → Attempt) (w : World)
    (sent : CreateScheduledTaskRequest) (first : List Char) (others : List (List Char))
    (hdev : sent.DeviceIds = some (first :: others)) (hpay : sent.Payload ≠ none)
    (response : CreateScheduledTaskResponse)
    (hout : (scheduler.handleSchedulerInputQueueRequest lib attempts w sent
      common.SchedulerRequestSourceRest).1 = .ok response) :
    rest.CreateTaskHandler lib attempts w (restPost sent) =
      (.ok { status := 201, payload := .created response },
        (scheduler.handleSchedulerInputQueueRequest lib attempts w sent
          common.SchedulerRequestSourceRest).2) := by
  unfold rest.CreateTaskHandler restPost
  simp only [ne_eq, not_true_eq_false, if_false, unmarshal_devices sent first others hdev,
    if_neg hpay, hout]

end Krypton
